import Mathlib

/-!
# CudaTracerLib: the spatial multimap (`SpatialGridList.h`)

A shallow embedding of `SpatialGridList_Linked` and `SpatialGridList_Flat`
(`src/Engine/SpatialStructures/Grid/SpatialGridList.h`) and theorems about them.

Conventions of the embedding.

* `unsigned int` values are natural numbers; the atomic cursor increment wraps at `2^32`
  exactly as `atomicInc(&cursor, (unsigned int)-1)` does.
* A device buffer is a total map from indices to elements: the buffer's declared size is kept in
  the state (`numData`, `m_gridSize`) and in-range hypotheses are stated where a claim has them.
* The hash grid (`BaseType::hashMap`, declared in `SpatialGrid.h`) is a parameter `H` of every
  operation: the function `Hash` from cells to bucket indices.
* A callback enumeration (`ForAllCellEntries`) is the list of argument pairs handed to the
  callback, in call order.
* A store phase is the list of its `Store` calls in the order of their indivisible cursor
  increments.
* `thrust::sort` is not unfolded: `PrepareForUse` takes the sorted staging list as an argument,
  and the theorems hold for every argument that is a rearrangement of the staging list ordered by
  cell hash. The launch of `buildGrid` takes the order in which its threads run, each thread as
  one step, and the theorems hold for every order; the product `N_PER_THREAD * tid` wraps at
  `2^32` as the `unsigned int` product of the kernel does. The additions to the destination
  cursor are written without a modulus: they are exact while the cursor stays below `2^32`,
  which is so in every launch considered.
* A function that throws returns the state it leaves behind together with the error
  (`PrepareForUse_host`, the branch of `PrepareForUse` compiled without `__CUDACC__`).
* `ForAllCells` of the hash grid (declared in `SpatialGrid.h`) is the list of the cells of the
  inclusive box; `ForAll` is the list of the triples handed to its callback, in call order.
* A concurrent store phase is a list of workers, each with its own list of `Store` calls. A call
  is four steps (cursor increment with the capacity test, exchange of the bucket head, write of
  the value, write of the link); an interleaving is the list of the worker numbers in the order
  in which the workers take their steps.
-/

namespace CudaTracerLib

/-! ## Basic types -/

/-- The all-bits-set index `0xffffffff`. -/
def SENTINEL : Nat := 0xffffffff

/-- The constant `UINT_MAX` of a 32-bit `unsigned int`. -/
def UINT_MAX : Nat := 0xffffffff

/-- Integer cell coordinate `Vec3u`. -/
structure Vec3u where
  x : Nat
  y : Nat
  z : Nat
deriving DecidableEq, Repr

/-- Pair of unsigned integers `Vec2u`; in the staging list `x` is the origin index and `y` the
cell hash. -/
structure Vec2u where
  x : Nat
  y : Nat
deriving DecidableEq, Repr

/-- CUDA `atomicInc(addr, val)`: the new content of the word whose old content is `old`
(`(old >= val) ? 0 : old + 1`); the call returns `old`. -/
def atomicInc (old val : Nat) : Nat :=
  if old ≥ val then 0 else old + 1

/-- Point update of a buffer: `buf[i] = v`. -/
def bufSet {α : Type} (buf : Nat → α) (i : Nat) (v : α) : Nat → α :=
  fun j => if j = i then v else buf j

/-- Modelled from the spec: `HashGrid_Reg::Hash` of `SpatialGrid.h` (not among the sources), the
row-major linearisation of a cell over a grid of dimensions `dim`. It is used for the concrete
scenarios only; the general theorems take the hash as a parameter. -/
def HashGrid_Reg.Hash (dim : Vec3u) (p : Vec3u) : Nat :=
  p.z * dim.x * dim.y + p.y * dim.x + p.x

/-! ## Linked multimap -/

/-- Pool entry of `SpatialGridList_Linked`. -/
structure linkedEntry (T : Type) where
  nextIdx : Nat
  value : T

/-- State of `SpatialGridList_Linked<T>`. -/
structure SpatialGridList_Linked (T : Type) where
  numData : Nat
  m_gridSize : Vec3u
  deviceDataIdx : Nat
  m_dataBuffer : Nat → linkedEntry T
  m_mapBuffer : Nat → Nat

namespace SpatialGridList_Linked

variable {T : Type}

/-- `ResetBuffer`: cursor to zero, every byte of the map buffer to `0xff`. -/
def ResetBuffer (s : SpatialGridList_Linked T) : SpatialGridList_Linked T :=
  { s with deviceDataIdx := 0, m_mapBuffer := fun _ => 0xffffffff }

/-- `getNumEntries`. -/
def getNumEntries (s : SpatialGridList_Linked T) : Nat := s.numData

/-- `getNumStoredEntries`. -/
def getNumStoredEntries (s : SpatialGridList_Linked T) : Nat := s.deviceDataIdx

/-- `isFull`. -/
def isFull (s : SpatialGridList_Linked T) : Bool := decide (s.deviceDataIdx ≥ s.numData)

/-- `Store(p, v, data_idx)`: link a pre-reserved slot. -/
def StoreAt (H : Vec3u → Nat) (s : SpatialGridList_Linked T) (p : Vec3u) (v : T)
    (data_idx : Nat) : SpatialGridList_Linked T :=
  let map_idx := H p
  let old_idx := s.m_mapBuffer map_idx
  { s with
    m_mapBuffer := bufSet s.m_mapBuffer map_idx data_idx
    m_dataBuffer := bufSet s.m_dataBuffer data_idx ⟨old_idx, v⟩ }

/-- `Store(p, v)`: the new state and the returned index. -/
def Store (H : Vec3u → Nat) (s : SpatialGridList_Linked T) (p : Vec3u) (v : T) :
    SpatialGridList_Linked T × Nat :=
  let data_idx := s.deviceDataIdx
  let s1 : SpatialGridList_Linked T :=
    { s with deviceDataIdx := atomicInc s.deviceDataIdx 0xffffffff }
  if data_idx ≥ s.numData then (s1, 0xffffffff)
  else
    let map_idx := H p
    let old_idx := s1.m_mapBuffer map_idx
    ({ s1 with
        m_mapBuffer := bufSet s1.m_mapBuffer map_idx data_idx
        m_dataBuffer := bufSet s1.m_dataBuffer data_idx ⟨old_idx, v⟩ }, data_idx)

/-- `AllocStorage(n)`: the new state and the returned start index (`atomicAdd`). -/
def AllocStorage (s : SpatialGridList_Linked T) (n : Nat) : SpatialGridList_Linked T × Nat :=
  ({ s with deviceDataIdx := (s.deviceDataIdx + n) % 2 ^ 32 }, s.deviceDataIdx)

/-- The loop of `ForAllCellEntries`: `while (i < lo && N++ < MAX) { clb(i, data[i].value);
i = data[i].nextIdx; }`, with the first argument the number `MAX - N` of visits still allowed. -/
def walk (s : SpatialGridList_Linked T) (lo : Nat) : Nat → Nat → List (Nat × T)
  | 0, _ => []
  | m + 1, i =>
    if i < lo then (i, (s.m_dataBuffer i).value) :: walk s lo m (s.m_dataBuffer i).nextIdx
    else []

/-- `ForAllCellEntries(p, clb, MAX_ENTRIES_PER_CELL)`: the calls made to `clb`. -/
def ForAllCellEntries (H : Vec3u → Nat) (s : SpatialGridList_Linked T) (p : Vec3u)
    (MAX_ENTRIES_PER_CELL : Nat) : List (Nat × T) :=
  walk s (min s.deviceDataIdx s.numData) MAX_ENTRIES_PER_CELL (s.m_mapBuffer (H p))

/-- A pass of the linked structure: the `Store` calls of the list in order, from state `s`; the
final state and the returned indices in call order. -/
def storeAll (H : Vec3u → Nat) :
    SpatialGridList_Linked T → List (Vec3u × T) → SpatialGridList_Linked T × List Nat
  | s, [] => (s, [])
  | s, (p, v) :: rest =>
    let r := Store H s p v
    let q := storeAll H r.1 rest
    (q.1, r.2 :: q.2)

/-- First loop of `RemoveIf`: `while (map[map_idx] != 0xffffffff && predicate(data[map[map_idx]]))
map[map_idx] = data[map[map_idx]].nextIdx;`. The first argument bounds the number of iterations;
`none` stands for a read outside the pool or for the bound being exhausted. -/
def removeHead (predicate : linkedEntry T → Bool) (map_idx : Nat) :
    Nat → SpatialGridList_Linked T → Option (SpatialGridList_Linked T)
  | 0, _ => none
  | fuel + 1, s =>
    let head := s.m_mapBuffer map_idx
    if head = 0xffffffff then some s
    else if head ≥ s.numData then none
    else if predicate (s.m_dataBuffer head) then
      removeHead predicate map_idx fuel
        { s with m_mapBuffer := bufSet s.m_mapBuffer map_idx (s.m_dataBuffer head).nextIdx }
    else some s

/-- Second loop of `RemoveIf`: `while (list_idx != 0xffffffff) { next = data[list_idx].nextIdx;
if (predicate(data[next])) data[list_idx].nextIdx = data[next].nextIdx;
list_idx = data[list_idx].nextIdx; }`. The first argument bounds the number of iterations; `none`
stands for a read outside the pool (`data[next]` with `next` not below `numData`, the sentinel
included) or for the bound being exhausted. -/
def removeTail (predicate : linkedEntry T → Bool) :
    Nat → SpatialGridList_Linked T → Nat → Option (SpatialGridList_Linked T)
  | 0, _, _ => none
  | fuel + 1, s, list_idx =>
    if list_idx = 0xffffffff then some s
    else if list_idx ≥ s.numData then none
    else
      let next_list_idx := (s.m_dataBuffer list_idx).nextIdx
      if next_list_idx ≥ s.numData then none
      else
        let s1 : SpatialGridList_Linked T :=
          if predicate (s.m_dataBuffer next_list_idx) then
            { s with m_dataBuffer := (bufSet s.m_dataBuffer list_idx
                ⟨(s.m_dataBuffer next_list_idx).nextIdx, (s.m_dataBuffer list_idx).value⟩) }
          else s
        removeTail predicate fuel s1 (s1.m_dataBuffer list_idx).nextIdx

/-- `RemoveIf(p, predicate)`. The source initialises `list_idx` with the head entry
(`auto list_idx = m_dataBuffer[m_mapBuffer[map_idx]]`) and then uses it as an index; the embedding
starts the second loop at the head's index `m_mapBuffer[map_idx]`. Each loop runs at most
`numData + 1` iterations on a chain without repetition. -/
def RemoveIf (H : Vec3u → Nat) (s : SpatialGridList_Linked T) (p : Vec3u)
    (predicate : linkedEntry T → Bool) : Option (SpatialGridList_Linked T) :=
  let map_idx := H p
  if map_idx ≥ s.numData then some s
  else
    match removeHead predicate map_idx (s.numData + 1) s with
    | none => none
    | some s1 =>
      if s1.m_mapBuffer map_idx = 0xffffffff then some s1
      else removeTail predicate (s1.numData + 1) s1 (s1.m_mapBuffer map_idx)

end SpatialGridList_Linked

/-! ## Flat multimap -/

/-- Modelled from the spec: the payload type `T` of the flat strategy, whose declaration is not
among the sources: "a payload value plus one embedded boolean marker, last-in-cell", with the
methods `setFlag` and `getFlag` that `buildGrid` and `ForAllCellEntries` call. -/
structure flatEntry (V : Type) where
  value : V
  flag : Bool
deriving DecidableEq, Repr

/-- `T::setFlag()`. -/
def flatEntry.setFlag {V : Type} (e : flatEntry V) : flatEntry V := { e with flag := true }

/-- `T::getFlag()`. -/
def flatEntry.getFlag {V : Type} (e : flatEntry V) : Bool := e.flag

/-- `cudaMemset(devPtr, value, count)` on a buffer of 32-bit words: the first `count` BYTES are
set to the byte `(unsigned char)value`. A word lying wholly inside the byte range becomes four
copies of the byte; the word cut by the end of the range keeps its high bytes (little-endian
device); later words are untouched. -/
def cudaMemset (devPtr : Nat → Nat) (value count : Nat) : Nat → Nat :=
  fun i =>
    if 4 * i + 4 ≤ count then (value % 256) * 0x01010101
    else if 4 * i < count then
      (devPtr i / 256 ^ (count - 4 * i)) * 256 ^ (count - 4 * i)
        + ((value % 256) * 0x01010101) % 256 ^ (count - 4 * i)
    else devPtr i

/-- The memory the kernel `buildGrid` writes: destination buffer, bucket offsets and the
destination cursor `*g_DestCounter`. -/
structure BuildState (V : Type) where
  deviceDataDest : Nat → flatEntry V
  deviceGrid : Nat → Nat
  g_DestCounter : Nat

namespace __interal_spatialMap__

variable {V : Type}

/-- The skip loop of `buildGrid`: `while (idx < N && deviceList[idx].y == prev_idx &&
idx - startIdx < N_PER_THREAD) idx++;`. The loop runs at most `N_PER_THREAD` times, the value
given to the first argument. -/
def skipPrev (deviceList : Nat → Vec2u) (N startIdx prev_idx N_PER_THREAD : Nat) :
    Nat → Nat → Nat
  | 0, idx => idx
  | fuel + 1, idx =>
    if idx < N ∧ (deviceList idx).y = prev_idx ∧ idx - startIdx < N_PER_THREAD then
      skipPrev deviceList N startIdx prev_idx N_PER_THREAD fuel (idx + 1)
    else idx

/-- The counting loop of `buildGrid`: `while (idxPast < N && deviceList[idxPast].y == cell_idx)
idxPast++;`. The loop runs at most `N - idxPast` times, the value given to the first argument. -/
def countRun (deviceList : Nat → Vec2u) (N cell_idx : Nat) : Nat → Nat → Nat
  | 0, idxPast => idxPast
  | fuel + 1, idxPast =>
    if idxPast < N ∧ (deviceList idxPast).y = cell_idx then
      countRun deviceList N cell_idx fuel (idxPast + 1)
    else idxPast

/-- The copy loop of `buildGrid`: `for (; idx < idxPast; idx++) deviceDataDest[tarBufferLoc++] =
deviceDataSource[deviceList[idx].x];`, the first argument being `idxPast - idx`. -/
def copyRun (deviceDataSource : Nat → flatEntry V) (deviceList : Nat → Vec2u) :
    Nat → Nat → Nat → (Nat → flatEntry V) → (Nat → flatEntry V)
  | 0, _, _, dest => dest
  | n + 1, idx, tarBufferLoc, dest =>
    copyRun deviceDataSource deviceList n (idx + 1) (tarBufferLoc + 1)
      (bufSet dest tarBufferLoc (deviceDataSource (deviceList idx).x))

/-- One iteration of the outer loop of `buildGrid` at a position `idx < N`: count the run, reserve
its block with `atomicAdd(g_DestCounter, idxPast - idx)`, record the offset, copy, mark the last
copied element. Returns the position after the run and the new memory. The 32-bit addition of
`atomicAdd` and the increments of `tarBufferLoc` are written without a modulus: they are exact
as long as the reserved block ends below `2^32`, which is so wherever the kernel is used below
(a launch none of whose window starts wraps keeps the destination cursor at most `N`). -/
def processRun (deviceDataSource : Nat → flatEntry V) (N : Nat) (deviceList : Nat → Vec2u)
    (idx : Nat) (st : BuildState V) : Nat × BuildState V :=
  let cell_idx := (deviceList idx).y
  let idxPast := countRun deviceList N cell_idx (N - (idx + 1)) (idx + 1)
  let tarBufferLoc := st.g_DestCounter
  let dest :=
    copyRun deviceDataSource deviceList (idxPast - idx) idx tarBufferLoc st.deviceDataDest
  let tarEnd := tarBufferLoc + (idxPast - idx)
  (idxPast,
    { deviceDataDest := bufSet dest (tarEnd - 1) (dest (tarEnd - 1)).setFlag
      deviceGrid := bufSet st.deviceGrid cell_idx tarBufferLoc
      g_DestCounter := st.g_DestCounter + (idxPast - idx) })

/-- The outer loop of `buildGrid`: `while (idx < N && idx - startIdx < N_PER_THREAD) { ... }`.
Every iteration advances `idx`, so the loop runs at most `N_PER_THREAD` times, the value given to
the first argument. -/
def copyLoop (deviceDataSource : Nat → flatEntry V) (N : Nat) (deviceList : Nat → Vec2u)
    (startIdx N_PER_THREAD : Nat) : Nat → Nat → BuildState V → BuildState V
  | 0, _, st => st
  | fuel + 1, idx, st =>
    if idx < N ∧ idx - startIdx < N_PER_THREAD then
      let r := processRun deviceDataSource N deviceList idx st
      copyLoop deviceDataSource N deviceList startIdx N_PER_THREAD fuel r.1 r.2
    else st

/-- The kernel `buildGrid<T, N_PER_THREAD, N_MAX_PER_CELL>` as run by the thread whose linear
index `blockIdx.x * blockDim.y * blockDim.x + threadIdx.y * blockDim.x + threadIdx.x` is `tid`.
The window start `unsigned int startIdx = N_PER_THREAD * tid` is a 32-bit product: it wraps at
`2^32`. -/
def buildGrid (N_PER_THREAD : Nat) (deviceDataSource : Nat → flatEntry V) (N : Nat)
    (deviceList : Nat → Vec2u) (tid : Nat) (st : BuildState V) : BuildState V :=
  let startIdx := (N_PER_THREAD * tid) % 2 ^ 32
  let idx :=
    if startIdx > 0 ∧ startIdx < N then
      skipPrev deviceList N startIdx (deviceList (startIdx - 1)).y N_PER_THREAD N_PER_THREAD
        startIdx
    else startIdx
  copyLoop deviceDataSource N deviceList startIdx N_PER_THREAD N_PER_THREAD idx st

end __interal_spatialMap__

/-- State of `SpatialGridList_Flat<T>`. -/
structure SpatialGridList_Flat (V : Type) where
  m_gridSize : Vec3u
  numData : Nat
  idxData : Nat
  deviceIdxCounter : Nat
  m_buffer1 : Nat → flatEntry V
  m_buffer2 : Nat → flatEntry V
  m_gridBuffer : Nat → Nat
  m_listBuffer : Nat → Vec2u

namespace SpatialGridList_Flat

variable {V : Type}

/-- `ResetBuffer`. -/
def ResetBuffer (s : SpatialGridList_Flat V) : SpatialGridList_Flat V :=
  { s with idxData := 0 }

/-- `getNumEntries`. -/
def getNumEntries (s : SpatialGridList_Flat V) : Nat := s.numData

/-- `getNumStoredEntries`. -/
def getNumStoredEntries (s : SpatialGridList_Flat V) : Nat := s.idxData

/-- `isFull`. -/
def isFull (s : SpatialGridList_Flat V) : Bool := decide (s.idxData ≥ s.numData)

/-- `Store(p, v)`: the new state and the returned index. -/
def Store (H : Vec3u → Nat) (s : SpatialGridList_Flat V) (p : Vec3u) (v : flatEntry V) :
    SpatialGridList_Flat V × Nat :=
  let data_idx := s.idxData
  let s1 : SpatialGridList_Flat V := { s with idxData := atomicInc s.idxData 0xffffffff }
  if data_idx ≥ s.numData then (s1, 0xffffffff)
  else
    let map_idx := H p
    ({ s1 with
        m_buffer1 := bufSet s1.m_buffer1 data_idx v
        m_listBuffer := bufSet s1.m_listBuffer data_idx ⟨data_idx, map_idx⟩ }, data_idx)

/-- A pass of the flat structure: the `Store` calls of the list in order, from state `s`; the
final state and the returned indices in call order. -/
def storeAll (H : Vec3u → Nat) :
    SpatialGridList_Flat V → List (Vec3u × flatEntry V) → SpatialGridList_Flat V × List Nat
  | s, [] => (s, [])
  | s, (p, v) :: rest =>
    let r := Store H s p v
    let q := storeAll H r.1 rest
    (q.1, r.2 :: q.2)

/-- Number of threads launched by `PrepareForUse` for `idxData` staged entries:
`idxData / (32 * 6 * N_THREAD) + 1` blocks of `dim3(32, 6)` threads, `N_THREAD = 10`. -/
def numThreads (idxData : Nat) : Nat := (idxData / (32 * 6 * 10) + 1) * (32 * 6)

/-- The live part of the staging list before the sort, as a list. -/
def stagingList (s : SpatialGridList_Flat V) : List Vec2u :=
  (List.range (min s.idxData s.numData)).map s.m_listBuffer

/-- `PrepareForUse` (the `__CUDACC__` branch). `sorted` is what `thrust::sort` leaves in the live
part of the staging list; `sched` is the order in which the threads of the `buildGrid` launch
run, each thread taken as one step. -/
def PrepareForUse (s : SpatialGridList_Flat V) (sorted : List Vec2u) (sched : List Nat) :
    SpatialGridList_Flat V :=
  let idxData := min s.idxData s.numData
  let GP := s.m_gridSize.x * s.m_gridSize.y * s.m_gridSize.z
  let listBuffer : Nat → Vec2u := fun i => if i < idxData then sorted.getD i (s.m_listBuffer i)
    else s.m_listBuffer i
  let gridBuffer := cudaMemset s.m_gridBuffer 0xffffffff GP
  let st := sched.foldl
    (fun st tid => __interal_spatialMap__.buildGrid 10 s.m_buffer1 idxData listBuffer tid st)
    { deviceDataDest := s.m_buffer2, deviceGrid := gridBuffer, g_DestCounter := 0 }
  { s with
    idxData := idxData
    deviceIdxCounter := st.g_DestCounter
    m_listBuffer := listBuffer
    m_gridBuffer := st.deviceGrid
    m_buffer1 := st.deviceDataDest
    m_buffer2 := s.m_buffer1 }

/-- The loop of `ForAllCellEntries`: `while (map_idx < idxData && i++ < MAX) { val =
m_buffer1[map_idx]; clb(map_idx, val); map_idx = val.getFlag() ? UINT_MAX : map_idx + 1; }`, with
the first argument the number `MAX - i` of visits still allowed. -/
def scan (s : SpatialGridList_Flat V) : Nat → Nat → List (Nat × flatEntry V)
  | 0, _ => []
  | m + 1, map_idx =>
    if map_idx < s.idxData then
      (map_idx, s.m_buffer1 map_idx) ::
        scan s m (if (s.m_buffer1 map_idx).getFlag then UINT_MAX else map_idx + 1)
    else []

/-- `ForAllCellEntries(p, clb, MAX_ENTRIES_PER_CELL)`: the calls made to `clb`. -/
def ForAllCellEntries (H : Vec3u → Nat) (s : SpatialGridList_Flat V) (p : Vec3u)
    (MAX_ENTRIES_PER_CELL : Nat) : List (Nat × flatEntry V) :=
  scan s MAX_ENTRIES_PER_CELL (s.m_gridBuffer (H p))

end SpatialGridList_Flat

/-! ## Specification-level notions used by the theorems -/

/-- The indices `Store` returns for `n` calls issued from cursor value `c0` against capacity `C`,
as long as the cursor does not wrap. -/
def storeResults (C c0 n : Nat) : List Nat :=
  (List.range' c0 n).map (fun j => if C ≤ j then 0xffffffff else j)

/-- The capacity bound on the indices `r` returned by `N` calls of `Store` against capacity `C`:
there are `N` results, `min N C` of them are not the sentinel, those are below `C` and pairwise
distinct, and the sentinel is returned `N - min N C` times. -/
def CapacityBound (C N : Nat) (r : List Nat) : Prop :=
  r.length = N ∧
  (r.filter (fun i => decide (i ≠ SENTINEL))).length = min N C ∧
  (∀ i ∈ r, i ≠ SENTINEL → i < C) ∧
  (r.filter (fun i => decide (i ≠ SENTINEL))).Nodup ∧
  r.count SENTINEL = N - min N C

/-- The hash of the 2 x 2 x 2 grid of the concrete scenarios. -/
def hash222 : Vec3u → Nat := HashGrid_Reg.Hash ⟨2, 2, 2⟩

/-- A linked structure of capacity 4 over a 2 x 2 x 2 grid, in a stale state (cursor 7, every
bucket head 5). -/
def linked4 : SpatialGridList_Linked Nat :=
  { numData := 4, m_gridSize := ⟨2, 2, 2⟩, deviceDataIdx := 7,
    m_dataBuffer := fun _ => ⟨0xffffffff, 0⟩, m_mapBuffer := fun _ => 5 }

/-- A flat structure of capacity 4 over a 2 x 2 x 2 grid, in a stale state. -/
def flat4 : SpatialGridList_Flat Nat :=
  { m_gridSize := ⟨2, 2, 2⟩, numData := 4, idxData := 7, deviceIdxCounter := 0,
    m_buffer1 := fun _ => ⟨0, true⟩, m_buffer2 := fun _ => ⟨0, true⟩,
    m_gridBuffer := fun _ => 0, m_listBuffer := fun _ => ⟨0, 0⟩ }

/-- Ten `Store` calls to assorted cells of the 2 x 2 x 2 grid (linked payloads). -/
def tenCalls : List (Vec3u × Nat) :=
  [(⟨0, 0, 0⟩, 1), (⟨1, 0, 0⟩, 2), (⟨0, 1, 0⟩, 3), (⟨1, 1, 1⟩, 4), (⟨0, 0, 0⟩, 5),
   (⟨0, 0, 1⟩, 6), (⟨1, 0, 1⟩, 7), (⟨0, 0, 0⟩, 8), (⟨1, 1, 0⟩, 9), (⟨0, 1, 1⟩, 10)]

/-- The same ten calls with flat payloads, marker clear. -/
def tenCallsFlat : List (Vec3u × flatEntry Nat) :=
  tenCalls.map (fun c => (c.1, ⟨c.2, false⟩))

/-- The entries successfully stored into bucket `b` by the calls `calls` whose returned indices are
`results`: the pairs (returned index, value) of the calls that did not return the sentinel and
whose cell hashes to `b`, the most recent call first. -/
def storedIn {T : Type} (H : Vec3u → Nat) (b : Nat) (calls : List (Vec3u × T))
    (results : List Nat) : List (Nat × T) :=
  (((calls.zip results).filter (fun cr => decide (cr.2 ≠ SENTINEL ∧ H cr.1.1 = b))).map
    (fun cr => (cr.2, cr.1.2))).reverse

/-- The values successfully stored into bucket `b`, in call order. -/
def storedValues {T : Type} (H : Vec3u → Nat) (b : Nat) (calls : List (Vec3u × T))
    (results : List Nat) : List T :=
  ((calls.zip results).filter (fun cr => decide (cr.2 ≠ SENTINEL ∧ H cr.1.1 = b))).map
    (fun cr => cr.1.2)

/-- The pool `data` holds, starting at index `i`, exactly the chain `l` of (index, value) pairs,
ended by the sentinel. -/
def IsChain {T : Type} (data : Nat → linkedEntry T) : Nat → List (Nat × T) → Prop
  | i, [] => i = 0xffffffff
  | i, e :: l => i = e.1 ∧ (data i).value = e.2 ∧ IsChain data (data i).nextIdx l

/-- A pass of `2^32` calls of `Store`, all to cell (0,0,0) with value 7. -/
def wrapCalls : List (Vec3u × Nat) := List.replicate 4294967296 (⟨0, 0, 0⟩, 7)

/-- The concrete scenario of the specification: 10 and 20 into cell (0,0,0), 30 into cell
(1,0,0) (linked payloads). -/
def scenarioCalls : List (Vec3u × Nat) :=
  [(⟨0, 0, 0⟩, 10), (⟨0, 0, 0⟩, 20), (⟨1, 0, 0⟩, 30)]

/-- Number of buckets of a grid: `m_gridSize.x * m_gridSize.y * m_gridSize.z`. -/
def gridCells (g : Vec3u) : Nat := g.x * g.y * g.z

namespace __interal_spatialMap__

variable {V : Type}

/-- The position `idxPast` the counting loop of `buildGrid` reaches for the run that begins at
`idx`. -/
def runEnd (deviceList : Nat → Vec2u) (N idx : Nat) : Nat :=
  countRun deviceList N (deviceList idx).y (N - (idx + 1)) (idx + 1)

/-- Position `i` of the sorted staging list begins a maximal run of equal cell hash. -/
def IsRunStart (deviceList : Nat → Vec2u) (N i : Nat) : Prop :=
  i < N ∧ (i = 0 ∨ (deviceList (i - 1)).y ≠ (deviceList i).y)

instance (deviceList : Nat → Vec2u) (N i : Nat) : Decidable (IsRunStart deviceList N i) := by
  unfold IsRunStart
  infer_instance

/-- The run starts `i` with `lo ≤ i < hi`, in increasing order. -/
def runStartsIn (deviceList : Nat → Vec2u) (N lo hi : Nat) : List Nat :=
  (List.range' lo (hi - lo)).filter (fun i => decide (IsRunStart deviceList N i))

/-- The outer-loop body of `buildGrid` applied at the positions of `order`, in that order. -/
def applyRuns (deviceDataSource : Nat → flatEntry V) (N : Nat) (deviceList : Nat → Vec2u)
    (order : List Nat) (st : BuildState V) : BuildState V :=
  order.foldl (fun st i => (processRun deviceDataSource N deviceList i st).2) st

/-- Length of the run that begins at `r`. -/
def runLen (deviceList : Nat → Vec2u) (N r : Nat) : Nat := runEnd deviceList N r - r

/-- The destination offset of the block of `r` when the elements of `order` reserve blocks of
lengths `len` in that order from cursor value `c0`. -/
def offsetOf (len : Nat → Nat) : List Nat → Nat → Nat → Nat
  | [], _, c0 => c0
  | h :: rest, r, c0 => if h = r then c0 else offsetOf len rest r (c0 + len h)

/-- The element `d` of the block written for the run starting at `r`: the staged payload of
position `r + d` of the sorted list, with the marker set on the last element of the block. -/
def runPayload (deviceDataSource : Nat → flatEntry V) (deviceList : Nat → Vec2u) (N r d : Nat) :
    flatEntry V :=
  if d + 1 = runLen deviceList N r then (deviceDataSource (deviceList (r + d)).x).setFlag
  else deviceDataSource (deviceList (r + d)).x

end __interal_spatialMap__

namespace __interal_spatialMap__

/-- The first `N` positions of the staging list are ordered by cell hash. -/
def SortedY (deviceList : Nat → Vec2u) (N : Nat) : Prop :=
  ∀ i j, i ≤ j → j < N → (deviceList i).y ≤ (deviceList j).y

end __interal_spatialMap__

namespace SpatialGridList_Flat

/-- The cell hashes held by the live part of the staging list. -/
def stagedHashes {V : Type} (s : SpatialGridList_Flat V) : List Nat :=
  s.stagingList.map (fun e => e.y)

/-- The number of staged entries whose cell hash is `b`. -/
def bucketCount {V : Type} (s : SpatialGridList_Flat V) (b : Nat) : Nat :=
  (stagedHashes s).count b

end SpatialGridList_Flat

namespace SpatialGridList_Flat

/-- Invariant of a store phase: up to a high-water mark `hw` not below the cursor, every slot
of the staging area inside the capacity was written by a `Store` of this pass, so its staging
pair carries its own index and its payload satisfies `P`. -/
def StorePhase {V : Type} (P : flatEntry V → Prop) (s : SpatialGridList_Flat V) : Prop :=
  ∃ hw, s.idxData ≤ hw ∧
    ∀ i, i < hw → i < s.numData → (s.m_listBuffer i).x = i ∧ P (s.m_buffer1 i)

/-- The live part of the staging area as (cell hash, payload) pairs, in slot order. -/
def stagedPairs {V : Type} (s : SpatialGridList_Flat V) : List (Nat × flatEntry V) :=
  (List.range (min s.idxData s.numData)).map (fun i => ((s.m_listBuffer i).y, s.m_buffer1 i))

end SpatialGridList_Flat

/-- The concrete scenario with flat payloads, marker clear. -/
def scenarioCallsFlat : List (Vec3u × flatEntry Nat) :=
  [(⟨0, 0, 0⟩, ⟨10, false⟩), (⟨0, 0, 0⟩, ⟨20, false⟩), (⟨1, 0, 0⟩, ⟨30, false⟩)]

/-- The flat structure after `ResetBuffer` and the stores of the scenario. -/
def flatStored : SpatialGridList_Flat Nat :=
  (SpatialGridList_Flat.storeAll hash222 flat4.ResetBuffer scenarioCallsFlat).1

/-- One outcome of the sort of the scenario's staging list: the two entries of cell (0,0,0) in
the order opposite to their insertion. -/
def scenarioSorted : List Vec2u := [⟨1, 0⟩, ⟨0, 0⟩, ⟨2, 1⟩]

/-- One schedule of the 192 threads of the scenario's launch: last thread first. -/
def scenarioSched : List Nat := (List.range 192).reverse

/-- The flat structure of the scenario after `PrepareForUse`. -/
def flatBuilt : SpatialGridList_Flat Nat :=
  flatStored.PrepareForUse scenarioSorted scenarioSched

/-- A pass of `2^32` calls of the flat `Store`, all to cell (0,0,0) with value 7, marker clear. -/
def wrapCallsFlat : List (Vec3u × flatEntry Nat) :=
  List.replicate 4294967296 (⟨0, 0, 0⟩, ⟨7, false⟩)

/-- A freshly constructed flat structure of capacity 4 over a 2 x 2 x 2 grid whose bucket offsets
are all the sentinel. -/
def flatFresh : SpatialGridList_Flat Nat :=
  { m_gridSize := ⟨2, 2, 2⟩, numData := 4, idxData := 0, deviceIdxCounter := 0,
    m_buffer1 := fun _ => ⟨0, false⟩, m_buffer2 := fun _ => ⟨0, false⟩,
    m_gridBuffer := fun _ => 0xffffffff, m_listBuffer := fun _ => ⟨0, 0⟩ }

/-- First pass of the two-pass scenario: value 5 into cell (0,1,0) (bucket 2), then
`PrepareForUse`. -/
def flatPass1 : SpatialGridList_Flat Nat :=
  (SpatialGridList_Flat.storeAll hash222 flatFresh.ResetBuffer
    [(⟨0, 1, 0⟩, ⟨5, false⟩)]).1.PrepareForUse [⟨0, 2⟩] (List.range 192)

/-- Second pass, store phase: `ResetBuffer`, then value 6 into cell (0,0,0) (bucket 0). -/
def flatPass2Stored : SpatialGridList_Flat Nat :=
  (SpatialGridList_Flat.storeAll hash222 flatPass1.ResetBuffer [(⟨0, 0, 0⟩, ⟨6, false⟩)]).1

/-- Second pass after `PrepareForUse`. -/
def flatPass2 : SpatialGridList_Flat Nat :=
  flatPass2Stored.PrepareForUse [⟨0, 0⟩] (List.range 192)

/-- Four stores into cell (0,0,0): the values 1, 2, 3, 4. -/
def removeCalls : List (Vec3u × Nat) :=
  [(⟨0, 0, 0⟩, 1), (⟨0, 0, 0⟩, 2), (⟨0, 0, 0⟩, 3), (⟨0, 0, 0⟩, 4)]

/-- The linked structure of capacity 4 after `ResetBuffer` and the four stores. -/
def linkedFour : SpatialGridList_Linked Nat :=
  (SpatialGridList_Linked.storeAll hash222 linked4.ResetBuffer removeCalls).1

/-- The predicate "the value is at most 3". -/
def valueAtMost3 (e : linkedEntry Nat) : Bool := decide (e.value ≤ 3)

/-- The linked structure after `ResetBuffer` and the stores of the scenario. -/
def linkedScenario : SpatialGridList_Linked Nat :=
  (SpatialGridList_Linked.storeAll hash222 linked4.ResetBuffer scenarioCalls).1

/-- A pass of `2^32 - 1` calls of `Store`, all to cell (0,0,0) with value 7. -/
def almostWrapCalls : List (Vec3u × Nat) := List.replicate 4294967295 (⟨0, 0, 0⟩, 7)

/-- The linked structure of capacity 4 after `ResetBuffer` and two stores to cell (0,0,0). -/
def linkedFresh2 : SpatialGridList_Linked Nat :=
  (SpatialGridList_Linked.storeAll hash222 linked4.ResetBuffer
    [(⟨0, 0, 0⟩, 10), (⟨0, 0, 0⟩, 20)]).1

/-- `SpatialGridList_Flat::PrepareForUse` in a build without `__CUDACC__`: the statement
`idxData = min(idxData, numData)` runs, then
`throw std::runtime_error("Use this from a cuda file please!")` leaves the function, so the sort,
the reset, the build and the final `swapk(m_buffer1, m_buffer2)` are not reached. The result is
the state left behind together with the outcome of the call. -/
def SpatialGridList_Flat.PrepareForUse_host {V : Type} (s : SpatialGridList_Flat V) :
    SpatialGridList_Flat V × Except String Unit :=
  let s1 := { s with idxData := min s.idxData s.numData }
  (s1, Except.error "Use this from a cuda file please!")

/-- The flat structure of capacity 4 after `ResetBuffer` and the ten stores `tenCallsFlat`. -/
def flatTen : SpatialGridList_Flat Nat :=
  (SpatialGridList_Flat.storeAll hash222 flat4.ResetBuffer tenCallsFlat).1

/-! ## Box traversal -/

/-- Modelled from the spec: `ForAllCells(min, max, clb)` of the hash grid base class (declared
in `SpatialGrid.h`) calls `clb` once for every cell of the inclusive integer box
`[min, max]`; the result is the list of the cells handed to `clb`, `x` outermost. -/
def ForAllCells (min max : Vec3u) : List Vec3u :=
  (List.range' min.x (max.x + 1 - min.x)).flatMap (fun ax =>
    (List.range' min.y (max.y + 1 - min.y)).flatMap (fun ay =>
      (List.range' min.z (max.z + 1 - min.z)).map (fun az => (⟨ax, ay, az⟩ : Vec3u))))

/-- The cell `cell` lies in the inclusive box `[cmin, cmax]`, componentwise. -/
def InBox (cmin cmax cell : Vec3u) : Prop :=
  (cmin.x ≤ cell.x ∧ cell.x ≤ cmax.x) ∧ (cmin.y ≤ cell.y ∧ cell.y ≤ cmax.y) ∧
    (cmin.z ≤ cell.z ∧ cell.z ≤ cmax.z)

/-- `SpatialGridListBase::ForAll<MAX_ENTRIES_PER_CELL>(min, max, clb)`: for every cell handed
out by `ForAllCells(min, max, .)`, the per-cell enumerator of the strategy
(`((HASHER*)this)->ForAllCellEntries(cell_idx, lam1, MAX_ENTRIES_PER_CELL)`) runs with a callback
that forwards `(cell_idx, e_idx, val)` to `clb`. The result is the list of the triples handed to
`clb`, in call order. -/
def SpatialGridListBase.ForAll {E : Type} (ForAllCellEntries : Vec3u → Nat → List (Nat × E))
    (MAX_ENTRIES_PER_CELL : Nat) (min max : Vec3u) : List (Vec3u × Nat × E) :=
  (ForAllCells min max).flatMap (fun cell_idx =>
    (ForAllCellEntries cell_idx MAX_ENTRIES_PER_CELL).map (fun e => (cell_idx, e.1, e.2)))

/-- `ForAll(min, max, clb)` of the linked strategy. -/
def SpatialGridList_Linked.ForAll {T : Type} (H : Vec3u → Nat) (s : SpatialGridList_Linked T)
    (MAX_ENTRIES_PER_CELL : Nat) (min max : Vec3u) : List (Vec3u × Nat × T) :=
  SpatialGridListBase.ForAll (fun cell m => SpatialGridList_Linked.ForAllCellEntries H s cell m)
    MAX_ENTRIES_PER_CELL min max

/-- `ForAll(min, max, clb)` of the flat strategy. -/
def SpatialGridList_Flat.ForAll {V : Type} (H : Vec3u → Nat) (s : SpatialGridList_Flat V)
    (MAX_ENTRIES_PER_CELL : Nat) (min max : Vec3u) : List (Vec3u × Nat × flatEntry V) :=
  SpatialGridListBase.ForAll (fun cell m => SpatialGridList_Flat.ForAllCellEntries H s cell m)
    MAX_ENTRIES_PER_CELL min max

/-- The sorted staging list of the scenario as a device buffer: two entries of cell hash 0, then
one of cell hash 1. -/
def scenarioList : Nat → Vec2u := fun i => scenarioSorted.getD i ⟨0, 0⟩

/-- A build memory with destination cursor 0. -/
def buildStart : BuildState Nat :=
  { deviceDataDest := fun _ => ⟨0, false⟩, deviceGrid := fun _ => 0xffffffff, g_DestCounter := 0 }

/-- Two `Store` calls to cell (0,0,0) whose payloads carry a set last-in-cell marker. -/
def markedCallsFlat : List (Vec3u × flatEntry Nat) :=
  [(⟨0, 0, 0⟩, ⟨10, true⟩), (⟨0, 0, 0⟩, ⟨20, true⟩)]

/-- The flat structure of capacity 4 after `ResetBuffer` and the calls `markedCallsFlat`. -/
def flatMarkedStored : SpatialGridList_Flat Nat :=
  (SpatialGridList_Flat.storeAll hash222 flat4.ResetBuffer markedCallsFlat).1

/-- The staging list of `flatMarkedStored`, which is sorted by cell hash as it stands. -/
def markedSorted : List Vec2u := [⟨0, 0⟩, ⟨1, 0⟩]

/-- The structure `flatMarkedStored` after `PrepareForUse`. -/
def flatMarkedBuilt : SpatialGridList_Flat Nat :=
  flatMarkedStored.PrepareForUse markedSorted scenarioSched

/-- The index reached from `i` after following `k` forward links (`i = m_dataBuffer[i].nextIdx`,
`k` times). -/
def SpatialGridList_Linked.follow {T : Type} (s : SpatialGridList_Linked T) : Nat → Nat → Nat
  | 0, i => i
  | k + 1, i => SpatialGridList_Linked.follow s k (s.m_dataBuffer i).nextIdx

/-- The chain invariant of the linked structure: every bucket head is the sentinel or an index
below `min(cursor, capacity)`, and every pool entry with index `i` below `min(cursor, capacity)`
has a forward link that is the sentinel or strictly smaller than `i`. -/
def SpatialGridList_Linked.ChainInvariant {T : Type} (s : SpatialGridList_Linked T) : Prop :=
  (∀ b : Nat, s.m_mapBuffer b = 0xffffffff ∨ s.m_mapBuffer b < min s.deviceDataIdx s.numData) ∧
    (∀ i : Nat, i < min s.deviceDataIdx s.numData →
      (s.m_dataBuffer i).nextIdx = 0xffffffff ∨ (s.m_dataBuffer i).nextIdx < i)

/-! ## Concurrent store phase of the linked structure -/

/-- The program point of a worker inside a call `Store(p, v)` of the linked structure: before the
call (`idle`), after `data_idx = atomicInc(&deviceDataIdx, (unsigned int)-1)` with
`data_idx < numData` (`reserved`), after `old_idx = atomicExch(&m_mapBuffer[map_idx], data_idx)`
(`exchanged`), and after `m_dataBuffer[data_idx].value = v` (`valueWritten`). -/
inductive StorePc where
  | idle : StorePc
  | reserved (data_idx : Nat) : StorePc
  | exchanged (data_idx old_idx : Nat) : StorePc
  | valueWritten (data_idx old_idx : Nat) : StorePc
deriving DecidableEq, Repr

/-- A worker of the store phase: the calls `Store(p, v)` it still has to complete (the first one
being the call in progress when the worker is not `idle`), its program point, and the calls that
have returned, each with its return value, oldest first. -/
structure Worker (T : Type) where
  pending : List (Vec3u × T)
  pc : StorePc
  returned : List ((Vec3u × T) × Nat)

/-- One step of a worker on the shared structure, following the body of `Store(p, v)`: the
indivisible cursor increment (with the capacity test on the local `data_idx`, after which a
dropped call returns `0xffffffff`), the indivisible exchange of the bucket head, the plain write
of the value, and the plain write of the link, after which the call returns `data_idx`. A worker
without pending calls does nothing. -/
def Worker.step {T : Type} (H : Vec3u → Nat) (s : SpatialGridList_Linked T) (w : Worker T) :
    SpatialGridList_Linked T × Worker T :=
  match w.pending with
  | [] => (s, w)
  | (p, v) :: rest =>
    match w.pc with
    | StorePc.idle =>
      let data_idx := s.deviceDataIdx
      let s1 : SpatialGridList_Linked T :=
        { s with deviceDataIdx := atomicInc s.deviceDataIdx 0xffffffff }
      if data_idx ≥ s.numData then
        (s1, { pending := rest, pc := StorePc.idle,
               returned := w.returned ++ [((p, v), 0xffffffff)] })
      else (s1, { w with pc := StorePc.reserved data_idx })
    | StorePc.reserved data_idx =>
      let map_idx := H p
      let old_idx := s.m_mapBuffer map_idx
      ({ s with m_mapBuffer := bufSet s.m_mapBuffer map_idx data_idx },
        { w with pc := StorePc.exchanged data_idx old_idx })
    | StorePc.exchanged data_idx old_idx =>
      ({ s with m_dataBuffer :=
            bufSet s.m_dataBuffer data_idx ⟨(s.m_dataBuffer data_idx).nextIdx, v⟩ },
        { w with pc := StorePc.valueWritten data_idx old_idx })
    | StorePc.valueWritten data_idx old_idx =>
      ({ s with m_dataBuffer :=
            bufSet s.m_dataBuffer data_idx ⟨old_idx, (s.m_dataBuffer data_idx).value⟩ },
        { pending := rest, pc := StorePc.idle, returned := w.returned ++ [((p, v), data_idx)] })

/-- The shared linked structure together with the workers that store into it. -/
structure Concurrent (T : Type) where
  mem : SpatialGridList_Linked T
  workers : List (Worker T)

/-- The worker number `w` takes one step; a number that names no worker changes nothing. -/
def Concurrent.step {T : Type} (H : Vec3u → Nat) (c : Concurrent T) (w : Nat) : Concurrent T :=
  match c.workers[w]? with
  | none => c
  | some wk =>
    { mem := (Worker.step H c.mem wk).1, workers := c.workers.set w (Worker.step H c.mem wk).2 }

/-- An interleaving: the workers step in the order given by the schedule. -/
def Concurrent.run {T : Type} (H : Vec3u → Nat) (c : Concurrent T) (sched : List Nat) :
    Concurrent T :=
  sched.foldl (Concurrent.step H) c

/-- The start of a store phase: the structure after `ResetBuffer`, and one idle worker for every
list of calls. -/
def Concurrent.start {T : Type} (s : SpatialGridList_Linked T)
    (calls : List (List (Vec3u × T))) : Concurrent T :=
  { mem := s.ResetBuffer,
    workers := calls.map (fun cs => { pending := cs, pc := StorePc.idle, returned := [] }) }

/-- All calls have returned: no worker has a pending call. -/
def Concurrent.allReturned {T : Type} (c : Concurrent T) : Prop :=
  ∀ w ∈ c.workers, w.pending = []

/-- The calls that returned an index, not the sentinel, over all workers: the successfully
stored entries, each with its cell, its value and its index. -/
def Concurrent.stored {T : Type} (c : Concurrent T) : List ((Vec3u × T) × Nat) :=
  (c.workers.flatMap (fun w => w.returned)).filter (fun r => decide (r.2 ≠ SENTINEL))

/-- Number of calls of a worker whose cursor increment has not happened yet. -/
def Worker.unstarted {T : Type} (w : Worker T) : Nat :=
  match w.pc with
  | StorePc.idle => w.pending.length
  | _ => w.pending.length - 1

/-- The pool index reserved by the call in progress, if any. -/
def Worker.inflight {T : Type} (w : Worker T) : List Nat :=
  match w.pc with
  | StorePc.idle => []
  | StorePc.reserved i => [i]
  | StorePc.exchanged i _ => [i]
  | StorePc.valueWritten i _ => [i]

/-- The pool indices a worker has obtained: the one of the call in progress and those returned. -/
def Worker.owned {T : Type} (w : Worker T) : List Nat :=
  w.inflight ++ (w.returned.filter (fun r => decide (r.2 ≠ SENTINEL))).map (fun r => r.2)

/-- The pool entry that the call in progress will have written when it returns, once its
exchange has happened: index, link and value. -/
def Worker.pend {T : Type} (w : Worker T) : Option (Nat × linkedEntry T) :=
  match w.pending, w.pc with
  | (_, v) :: _, StorePc.exchanged i old => some (i, ⟨old, v⟩)
  | (_, v) :: _, StorePc.valueWritten i old => some (i, ⟨old, v⟩)
  | _, _ => none

/-- The entries a worker has linked into a bucket: bucket, index and value of the call in
progress once its exchange has happened, and of the calls that returned an index. -/
def Worker.chained {T : Type} (H : Vec3u → Nat) (w : Worker T) : List (Nat × Nat × T) :=
  (match w.pending, w.pc with
    | (p, v) :: _, StorePc.exchanged i _ => [(H p, i, v)]
    | (p, v) :: _, StorePc.valueWritten i _ => [(H p, i, v)]
    | _, _ => [])
  ++ (w.returned.filter (fun r => decide (r.2 ≠ SENTINEL))).map (fun r => (H r.1.1, r.2, r.1.2))

/-- The pool with the pending entries of the calls in progress written on top. -/
def virtualPool {T : Type} (data : Nat → linkedEntry T) :
    List (Option (Nat × linkedEntry T)) → Nat → linkedEntry T
  | [] => data
  | none :: P => virtualPool data P
  | some (i, e) :: P => bufSet (virtualPool data P) i e

/-- The program point of a worker is consistent with the shared memory: a call is in progress
only if one is pending, and after the write of the value the pool entry holds it. -/
def Worker.wf {T : Type} (data : Nat → linkedEntry T) (w : Worker T) : Prop :=
  match w.pc, w.pending with
  | StorePc.idle, _ => True
  | StorePc.reserved _, _ :: _ => True
  | StorePc.exchanged _ _, _ :: _ => True
  | StorePc.valueWritten i _, (_, v) :: _ => (data i).value = v
  | _, [] => False

/-- The invariant of the concurrent store phase started with the calls `calls`; `E b` is the
chain of bucket `b`. -/
structure StoreInvariant {T : Type} (H : Vec3u → Nat) (calls : List (List (Vec3u × T)))
    (c : Concurrent T) (E : Nat → List (Nat × T)) : Prop where
  cursor : c.mem.deviceDataIdx + (c.workers.map Worker.unstarted).sum ≤ 0xffffffff
  wf : ∀ w ∈ c.workers, w.wf c.mem.m_dataBuffer
  nodup : (c.workers.flatMap Worker.owned).Nodup
  bound : ∀ i ∈ c.workers.flatMap Worker.owned, i < c.mem.deviceDataIdx ∧ i < c.mem.numData
  chain : ∀ b, IsChain (virtualPool c.mem.m_dataBuffer (c.workers.map Worker.pend))
    (c.mem.m_mapBuffer b) (E b)
  entries : ∀ b, (E b).Perm
    (((c.workers.flatMap (Worker.chained H)).filter (fun t => decide (t.1 = b))).map
      (fun t => t.2))
  history : c.workers.map (fun w => w.returned.map (fun r => r.1) ++ w.pending) = calls

/-- A pass of `2^32 + 1` calls of `Store`, all to cell (0,0,0) with value 7. -/
def cycleCalls : List (Vec3u × Nat) := List.replicate 4294967297 (⟨0, 0, 0⟩, 7)

/-- The linked structure of capacity 4 after `ResetBuffer` and four stores to cell (0,0,0): it
is full, with cursor 4. -/
def linkedFilled : SpatialGridList_Linked Nat :=
  (SpatialGridList_Linked.storeAll hash222 linked4.ResetBuffer
    (List.replicate 4 (⟨0, 0, 0⟩, 7))).1

/-- Two workers for the scenario: the first stores 10 and 20 into cell (0,0,0), the second stores
30 into cell (1,0,0). -/
def twoWorkers : List (List (Vec3u × Nat)) :=
  [[(⟨0, 0, 0⟩, 10), (⟨0, 0, 0⟩, 20)], [(⟨1, 0, 0⟩, 30)]]

/-- An interleaving of the two workers of `twoWorkers`: the second worker reserves its index
between the reservation and the exchange of the first call of the first worker. -/
def twoWorkersSched : List Nat := [0, 1, 0, 1, 0, 1, 0, 1, 0, 0, 0, 0]

/-- The number of steps a worker still has to take: four for a call that has not started, fewer
for the call in progress. -/
def Worker.work {T : Type} (w : Worker T) : Nat :=
  match w.pc with
  | StorePc.idle => 4 * w.pending.length
  | StorePc.reserved _ => 4 * w.pending.length - 1
  | StorePc.exchanged _ _ => 4 * w.pending.length - 2
  | StorePc.valueWritten _ _ => 4 * w.pending.length - 3

/-- The index to which the scan of the flat `ForAllCellEntries` moves from `map_idx`:
`val.getFlag() ? UINT_MAX : map_idx + 1`, with `val = m_buffer1[map_idx]`. -/
def SpatialGridList_Flat.next {V : Type} (s : SpatialGridList_Flat V) (map_idx : Nat) : Nat :=
  if (s.m_buffer1 map_idx).getFlag then UINT_MAX else map_idx + 1

/-- The index reached by the scan of the flat `ForAllCellEntries` from `map_idx` after `k`
moves. -/
def SpatialGridList_Flat.follow {V : Type} (s : SpatialGridList_Flat V) : Nat → Nat → Nat
  | 0, map_idx => map_idx
  | k + 1, map_idx => SpatialGridList_Flat.follow s k (s.next map_idx)

/-- `operator()(idx)` of the flat structure: `return m_buffer1[idx];`. -/
def SpatialGridList_Flat.operator_call {V : Type} (s : SpatialGridList_Flat V) (idx : Nat) :
    flatEntry V :=
  s.m_buffer1 idx

/-- The linked structure of capacity 4 over the 2 x 2 x 2 grid after `ResetBuffer` and one store
of the value 5 to cell (1,1,1), whose bucket index is 7. -/
def linkedHigh : SpatialGridList_Linked Nat :=
  (SpatialGridList_Linked.storeAll hash222 linked4.ResetBuffer [(⟨1, 1, 1⟩, 5)]).1

/-- The predicate that every entry satisfies. -/
def anyEntry (_ : linkedEntry Nat) : Bool := true

/-- The structure `flatBuilt` at the start of the next pass: after `ResetBuffer` and one store of
the value 99 to cell (0,0,0). -/
def flatNextPass : SpatialGridList_Flat Nat :=
  (SpatialGridList_Flat.Store hash222 flatBuilt.ResetBuffer ⟨0, 0, 0⟩ ⟨99, false⟩).1

/-- A freshly constructed flat structure of capacity `2^32 - 1` over a 2 x 2 x 2 grid. -/
def flatHuge : SpatialGridList_Flat Nat :=
  { m_gridSize := ⟨2, 2, 2⟩, numData := 4294967295, idxData := 0, deviceIdxCounter := 0,
    m_buffer1 := fun _ => ⟨0, false⟩, m_buffer2 := fun _ => ⟨0, false⟩,
    m_gridBuffer := fun _ => 0xffffffff, m_listBuffer := fun _ => ⟨0, 0⟩ }

/-- A pass of `4294967040` calls of the flat `Store`, marker clear, in the order of the cell
hashes: 1660 calls to cell (0,0,0) (bucket 0), 4 calls to cell (1,0,0) (bucket 1) and
`4294965376` calls to cell (0,1,0) (bucket 2). -/
def windowWrapCalls : List (Vec3u × flatEntry Nat) :=
  List.replicate 1660 (⟨0, 0, 0⟩, ⟨7, false⟩) ++ (List.replicate 4 (⟨1, 0, 0⟩, ⟨7, false⟩)
    ++ List.replicate 4294965376 (⟨0, 1, 0⟩, ⟨7, false⟩))

/-- A sorted staging list of `4294967040` entries: a run of 1660 entries of cell hash 0, a run of
4 entries of cell hash 1 and a run of cell hash 2. -/
def windowWrapList : Nat → Vec2u :=
  fun i => ⟨i, if i < 1660 then 0 else if i < 1664 then 1 else 2⟩

/-! # Theorems -/

/-! ## Point updates of a buffer -/

theorem bufSet_same {α : Type} (d : Nat → α) (i : Nat) (a : α) : bufSet d i a i = a := by
  unfold bufSet
  rw [if_pos rfl]

theorem bufSet_other {α : Type} (d : Nat → α) (i j : Nat) (a : α) (h : j ≠ i) :
    bufSet d i a j = d j := by
  unfold bufSet
  rw [if_neg h]

/-! ## Cursor and returned indices -/

theorem atomicInc_lt {c : Nat} (h : c < 0xffffffff) : atomicInc c 0xffffffff = c + 1 := by
  unfold atomicInc
  rw [if_neg (by omega)]

theorem atomicInc_mod {c : Nat} (h : c < 2 ^ 32) : atomicInc c 0xffffffff = (c + 1) % 2 ^ 32 := by
  unfold atomicInc
  split <;> omega

theorem storeResults_zero (C n : Nat) :
    storeResults C 0 n = List.range (min n C) ++ List.replicate (n - min n C) 0xffffffff := by
  induction n with
  | zero => simp [storeResults]
  | succ n ih =>
    unfold storeResults at ih ⊢
    rw [List.range'_concat, List.map_append, ih]
    by_cases h : C ≤ n
    · have h1 : min (n + 1) C = C := by omega
      have h2 : min n C = C := by omega
      simp only [h1, h2, Nat.one_mul, Nat.zero_add, List.map_cons, List.map_nil, if_pos h,
        List.append_assoc]
      rw [show n + 1 - C = (n - C) + 1 by omega, List.replicate_succ']
    · have h1 : min (n + 1) C = n + 1 := by omega
      have h2 : min n C = n := by omega
      simp [h1, h2, if_neg h, List.range_succ]

theorem capacityBound_storeResults (C n : Nat) (hn : n < 2 ^ 32) :
    CapacityBound C n (storeResults C 0 n) := by
  rw [storeResults_zero]
  have hlt : ∀ i ∈ List.range (min n C), i ≠ SENTINEL := by
    intro i hi
    rw [List.mem_range] at hi
    unfold SENTINEL
    omega
  have hf1 : (List.range (min n C)).filter (fun i => decide (i ≠ SENTINEL))
      = List.range (min n C) := by
    rw [List.filter_eq_self]
    intro i hi
    simpa using hlt i hi
  have hf2 : (List.replicate (n - min n C) 0xffffffff).filter (fun i => decide (i ≠ SENTINEL))
      = [] := by
    rw [List.filter_eq_nil_iff]
    intro i hi
    rw [List.mem_replicate] at hi
    simp [hi.2, SENTINEL]
  refine ⟨?_, ?_, ?_, ?_, ?_⟩
  · simp
  · rw [List.filter_append, hf1, hf2]
    simp
  · intro i hi hne
    rw [List.mem_append] at hi
    rcases hi with hi | hi
    · rw [List.mem_range] at hi; omega
    · rw [List.mem_replicate] at hi; exact absurd hi.2 hne
  · rw [List.filter_append, hf1, hf2, List.append_nil]; exact List.nodup_range _
  · rw [List.count_append]
    have : List.count SENTINEL (List.range (min n C)) = 0 := by
      rw [List.count_eq_zero]
      intro hmem
      exact hlt _ hmem rfl
    rw [this]
    simp [SENTINEL]

namespace SpatialGridList_Linked

variable {T : Type}

@[simp]
theorem Store_numData (H : Vec3u → Nat) (s : SpatialGridList_Linked T) (p : Vec3u)
    (v : T) : (Store H s p v).1.numData = s.numData := by
  unfold Store; dsimp only; split <;> rfl

@[simp]
theorem Store_deviceDataIdx (H : Vec3u → Nat) (s : SpatialGridList_Linked T) (p : Vec3u)
    (v : T) : (Store H s p v).1.deviceDataIdx = atomicInc s.deviceDataIdx 0xffffffff := by
  unfold Store; dsimp only; split <;> rfl

theorem Store_snd (H : Vec3u → Nat) (s : SpatialGridList_Linked T) (p : Vec3u) (v : T) :
    (Store H s p v).2 = if s.numData ≤ s.deviceDataIdx then 0xffffffff else s.deviceDataIdx := by
  unfold Store; dsimp only; split <;> rfl

@[simp]
theorem storeAll_numData (H : Vec3u → Nat) (calls : List (Vec3u × T))
    (s : SpatialGridList_Linked T) : (storeAll H s calls).1.numData = s.numData := by
  induction calls generalizing s with
  | nil => rfl
  | cons a rest ih => obtain ⟨p, v⟩ := a; simp [storeAll, ih]

theorem storeAll_snd (H : Vec3u → Nat) (calls : List (Vec3u × T)) (s : SpatialGridList_Linked T)
    (h : s.deviceDataIdx + calls.length ≤ 0xffffffff) :
    (storeAll H s calls).2 = storeResults s.numData s.deviceDataIdx calls.length := by
  induction calls generalizing s with
  | nil => rfl
  | cons a rest ih =>
    obtain ⟨p, v⟩ := a
    simp only [List.length_cons] at h
    have hc : s.deviceDataIdx < 0xffffffff := by omega
    simp only [storeAll, List.length_cons, storeResults, List.range'_succ, List.map_cons]
    rw [ih (Store H s p v).1 (by rw [Store_deviceDataIdx, atomicInc_lt hc]; omega)]
    rw [Store_snd, Store_numData, Store_deviceDataIdx, atomicInc_lt hc]
    rfl

theorem storeAll_deviceDataIdx (H : Vec3u → Nat) (calls : List (Vec3u × T))
    (s : SpatialGridList_Linked T) (h : s.deviceDataIdx < 2 ^ 32) :
    (storeAll H s calls).1.deviceDataIdx = (s.deviceDataIdx + calls.length) % 2 ^ 32 := by
  induction calls generalizing s with
  | nil =>
    simp only [storeAll, List.length_nil, Nat.add_zero]
    exact (Nat.mod_eq_of_lt h).symm
  | cons a rest ih =>
    obtain ⟨p, v⟩ := a
    simp only [storeAll, List.length_cons]
    rw [ih (Store H s p v).1
      (by rw [Store_deviceDataIdx, atomicInc_mod h]; exact Nat.mod_lt _ (by norm_num))]
    rw [Store_deviceDataIdx, atomicInc_mod h]
    omega

end SpatialGridList_Linked

namespace SpatialGridList_Flat

variable {V : Type}

@[simp]
theorem Store_numData_flat (H : Vec3u → Nat) (s : SpatialGridList_Flat V) (p : Vec3u)
    (v : flatEntry V) : (Store H s p v).1.numData = s.numData := by
  unfold Store; dsimp only; split <;> rfl

@[simp]
theorem Store_idxData (H : Vec3u → Nat) (s : SpatialGridList_Flat V) (p : Vec3u)
    (v : flatEntry V) : (Store H s p v).1.idxData = atomicInc s.idxData 0xffffffff := by
  unfold Store; dsimp only; split <;> rfl

theorem Store_snd_flat (H : Vec3u → Nat) (s : SpatialGridList_Flat V) (p : Vec3u) (v : flatEntry V) :
    (Store H s p v).2 = if s.numData ≤ s.idxData then 0xffffffff else s.idxData := by
  unfold Store; dsimp only; split <;> rfl

@[simp]
theorem storeAll_numData_flat (H : Vec3u → Nat) (calls : List (Vec3u × flatEntry V))
    (s : SpatialGridList_Flat V) : (storeAll H s calls).1.numData = s.numData := by
  induction calls generalizing s with
  | nil => rfl
  | cons a rest ih => obtain ⟨p, v⟩ := a; simp [storeAll, ih]

theorem storeAll_snd_flat (H : Vec3u → Nat) (calls : List (Vec3u × flatEntry V))
    (s : SpatialGridList_Flat V) (h : s.idxData + calls.length ≤ 0xffffffff) :
    (storeAll H s calls).2 = storeResults s.numData s.idxData calls.length := by
  induction calls generalizing s with
  | nil => rfl
  | cons a rest ih =>
    obtain ⟨p, v⟩ := a
    simp only [List.length_cons] at h
    have hc : s.idxData < 0xffffffff := by omega
    simp only [storeAll, List.length_cons, storeResults, List.range'_succ, List.map_cons]
    rw [ih (Store H s p v).1 (by rw [Store_idxData, atomicInc_lt hc]; omega)]
    rw [Store_snd_flat, Store_numData_flat, Store_idxData, atomicInc_lt hc]
    rfl

theorem storeAll_idxData (H : Vec3u → Nat) (calls : List (Vec3u × flatEntry V))
    (s : SpatialGridList_Flat V) (h : s.idxData < 2 ^ 32) :
    (storeAll H s calls).1.idxData = (s.idxData + calls.length) % 2 ^ 32 := by
  induction calls generalizing s with
  | nil =>
    simp only [storeAll, List.length_nil, Nat.add_zero]
    exact (Nat.mod_eq_of_lt h).symm
  | cons a rest ih =>
    obtain ⟨p, v⟩ := a
    simp only [storeAll, List.length_cons]
    rw [ih (Store H s p v).1
      (by rw [Store_idxData, atomicInc_mod h]; exact Nat.mod_lt _ (by norm_num))]
    rw [Store_idxData, atomicInc_mod h]
    omega

end SpatialGridList_Flat

/-! ## C1: capacity bound on the results of `Store` -/

/-- C1. For every capacity and every list of fewer than `2^32` calls of `Store` issued after
`ResetBuffer` (the list order being the order of the indivisible cursor increments), the returned
indices satisfy the capacity bound: exactly `min N C` are not the sentinel, those are below the
capacity and pairwise distinct, and the other `N - min N C` calls return `0xffffffff`; for the
linked strategy and for the flat strategy. -/
theorem store_capacity_bound {T V : Type} (H : Vec3u → Nat) (sl : SpatialGridList_Linked T)
    (sf : SpatialGridList_Flat V) (callsL : List (Vec3u × T))
    (callsF : List (Vec3u × flatEntry V)) (hL : callsL.length < 2 ^ 32)
    (hF : callsF.length < 2 ^ 32) :
    CapacityBound sl.numData callsL.length
        (SpatialGridList_Linked.storeAll H sl.ResetBuffer callsL).2 ∧
      CapacityBound sf.numData callsF.length
        (SpatialGridList_Flat.storeAll H sf.ResetBuffer callsF).2 := by
  constructor
  · rw [SpatialGridList_Linked.storeAll_snd H callsL sl.ResetBuffer
      (by simp only [SpatialGridList_Linked.ResetBuffer]; omega)]
    exact capacityBound_storeResults _ _ hL
  · rw [SpatialGridList_Flat.storeAll_snd_flat H callsF sf.ResetBuffer
      (by simp only [SpatialGridList_Flat.ResetBuffer]; omega)]
    exact capacityBound_storeResults _ _ hF

/-- Witness of C1: capacity 4 and ten stores give 4 successes and 6 sentinels, in both
strategies. -/
theorem store_capacity_bound_witness :
    (tenCalls.length < 2 ^ 32 ∧ tenCallsFlat.length < 2 ^ 32) ∧
      CapacityBound 4 10 (SpatialGridList_Linked.storeAll hash222 linked4.ResetBuffer tenCalls).2 ∧
      CapacityBound 4 10
        (SpatialGridList_Flat.storeAll hash222 flat4.ResetBuffer tenCallsFlat).2 :=
  ⟨⟨by decide, by decide⟩,
    store_capacity_bound hash222 linked4 flat4 tenCalls tenCallsFlat (by decide) (by decide)⟩

/-! ## C2: the stored-entry count -/

@[simp]
theorem SpatialGridList_Flat.PrepareForUse_idxData {V : Type} (s : SpatialGridList_Flat V)
    (sorted : List Vec2u) (sched : List Nat) :
    (s.PrepareForUse sorted sched).idxData = min s.idxData s.numData := rfl

@[simp]
theorem SpatialGridList_Flat.PrepareForUse_numData {V : Type} (s : SpatialGridList_Flat V)
    (sorted : List Vec2u) (sched : List Nat) :
    (s.PrepareForUse sorted sched).numData = s.numData := rfl

theorem SpatialGridList_Flat.PrepareForUse_getNumStoredEntries {V : Type}
    (s : SpatialGridList_Flat V) (sorted : List Vec2u) (sched : List Nat) :
    (s.PrepareForUse sorted sched).getNumStoredEntries = min s.idxData s.numData := rfl

theorem linked_cursor_after {T : Type} (H : Vec3u → Nat) (s : SpatialGridList_Linked T)
    (calls : List (Vec3u × T)) (hN : calls.length < 2 ^ 32) :
    (SpatialGridList_Linked.storeAll H s.ResetBuffer calls).1.deviceDataIdx = calls.length := by
  rw [SpatialGridList_Linked.storeAll_deviceDataIdx H calls s.ResetBuffer
    (by simp [SpatialGridList_Linked.ResetBuffer])]
  simp only [SpatialGridList_Linked.ResetBuffer, Nat.zero_add]
  exact Nat.mod_eq_of_lt hN

theorem flat_cursor_after {V : Type} (H : Vec3u → Nat) (s : SpatialGridList_Flat V)
    (calls : List (Vec3u × flatEntry V)) (hN : calls.length < 2 ^ 32) :
    (SpatialGridList_Flat.storeAll H s.ResetBuffer calls).1.idxData = calls.length := by
  rw [SpatialGridList_Flat.storeAll_idxData H calls s.ResetBuffer
    (by simp [SpatialGridList_Flat.ResetBuffer])]
  simp only [SpatialGridList_Flat.ResetBuffer, Nat.zero_add]
  exact Nat.mod_eq_of_lt hN

/-- The flat state after the pass `wrapCallsFlat` of `2^32` calls has cursor 0. -/
theorem flat_wrap_cursor :
    (SpatialGridList_Flat.storeAll hash222 flat4.ResetBuffer wrapCallsFlat).1.idxData = 0 := by
  have hlen : wrapCallsFlat.length = 4294967296 := List.length_replicate _ _
  rw [SpatialGridList_Flat.storeAll_idxData _ _ _ (by decide), hlen]
  rfl

/-- C2, counterexample. Linked strategy, capacity 4, ten stores after `ResetBuffer`:
`getNumStoredEntries()` is 10, not `min 10 4 = 4`. Flat strategy, capacity 4, `2^32` stores after
`ResetBuffer` and then `PrepareForUse`: `getNumStoredEntries()` is 0, not `min (2^32) 4 = 4`. -/
theorem stored_count_not_clamped :
    (SpatialGridList_Linked.storeAll hash222 linked4.ResetBuffer tenCalls).1.getNumStoredEntries
        ≠ min tenCalls.length linked4.numData ∧
      ((SpatialGridList_Flat.storeAll hash222 flat4.ResetBuffer wrapCallsFlat).1.PrepareForUse []
          (List.range 192)).getNumStoredEntries
        ≠ min wrapCallsFlat.length flat4.numData := by
  constructor
  · decide
  · have hlen : wrapCallsFlat.length = 4294967296 := List.length_replicate _ _
    have h0 : ((SpatialGridList_Flat.storeAll hash222 flat4.ResetBuffer
        wrapCallsFlat).1.PrepareForUse [] (List.range 192)).getNumStoredEntries = 0 := by
      rw [SpatialGridList_Flat.PrepareForUse_getNumStoredEntries, flat_wrap_cursor,
        Nat.zero_min]
    rw [h0, hlen]
    decide

/-- C2, amended. For every capacity `C` and every `N < 2^32`, after `ResetBuffer` followed by `N`
calls of `Store`, `getNumStoredEntries()` equals `min N C` for the flat strategy after
`PrepareForUse`; for the linked strategy, and for the flat strategy directly after the stores, it
equals `min N C` whenever `N ≤ C`. -/
theorem stored_count_clamped {T V : Type} (H : Vec3u → Nat) (sl : SpatialGridList_Linked T)
    (sf : SpatialGridList_Flat V) (callsL : List (Vec3u × T))
    (callsF : List (Vec3u × flatEntry V)) (sorted : List Vec2u) (sched : List Nat)
    (hL : callsL.length < 2 ^ 32) (hF : callsF.length < 2 ^ 32) :
    (callsL.length ≤ sl.numData →
        (SpatialGridList_Linked.storeAll H sl.ResetBuffer callsL).1.getNumStoredEntries
          = min callsL.length sl.numData) ∧
      (callsF.length ≤ sf.numData →
        (SpatialGridList_Flat.storeAll H sf.ResetBuffer callsF).1.getNumStoredEntries
          = min callsF.length sf.numData) ∧
      ((SpatialGridList_Flat.storeAll H sf.ResetBuffer callsF).1.PrepareForUse sorted
        sched).getNumStoredEntries = min callsF.length sf.numData := by
  have h1 := linked_cursor_after H sl callsL hL
  have h2 := flat_cursor_after H sf callsF hF
  refine ⟨?_, ?_, ?_⟩
  · intro h
    show (SpatialGridList_Linked.storeAll H sl.ResetBuffer callsL).1.deviceDataIdx = _
    rw [h1]
    omega
  · intro h
    show (SpatialGridList_Flat.storeAll H sf.ResetBuffer callsF).1.idxData = _
    rw [h2]
    omega
  · show min (SpatialGridList_Flat.storeAll H sf.ResetBuffer callsF).1.idxData
      (SpatialGridList_Flat.storeAll H sf.ResetBuffer callsF).1.numData = _
    rw [h2, SpatialGridList_Flat.storeAll_numData_flat]
    rfl

set_option maxRecDepth 100000 in
/-- Witness of the amended C2: capacity 4; the three stores of the scenario give the count 3 in
the linked structure and in the flat one before and after `PrepareForUse`, and ten stores give the
count 4 in the flat structure after `PrepareForUse`. -/
theorem stored_count_clamped_witness :
    (scenarioCalls.length < 2 ^ 32 ∧ scenarioCallsFlat.length < 2 ^ 32 ∧
        tenCallsFlat.length < 2 ^ 32) ∧
      (SpatialGridList_Linked.storeAll hash222 linked4.ResetBuffer
        scenarioCalls).1.getNumStoredEntries = 3 ∧
      (SpatialGridList_Flat.storeAll hash222 flat4.ResetBuffer
        scenarioCallsFlat).1.getNumStoredEntries = 3 ∧
      ((SpatialGridList_Flat.storeAll hash222 flat4.ResetBuffer
        scenarioCallsFlat).1.PrepareForUse scenarioSorted scenarioSched).getNumStoredEntries
        = 3 ∧
      ((SpatialGridList_Flat.storeAll hash222 flat4.ResetBuffer
        tenCallsFlat).1.PrepareForUse [] []).getNumStoredEntries = 4 :=
  ⟨⟨by decide, by decide, by decide⟩,
    (stored_count_clamped hash222 linked4 flat4 scenarioCalls scenarioCallsFlat scenarioSorted
      scenarioSched (by decide) (by decide)).1 (by decide),
    (stored_count_clamped hash222 linked4 flat4 scenarioCalls scenarioCallsFlat scenarioSorted
      scenarioSched (by decide) (by decide)).2.1 (by decide),
    (stored_count_clamped hash222 linked4 flat4 scenarioCalls scenarioCallsFlat scenarioSorted
      scenarioSched (by decide) (by decide)).2.2,
    (stored_count_clamped hash222 linked4 flat4 tenCalls tenCallsFlat [] [] (by decide)
      (by decide)).2.2⟩

/-! ## Linked chains -/

theorem storedIn_cons {T : Type} (H : Vec3u → Nat) (b : Nat) (a : Vec3u × T)
    (calls : List (Vec3u × T)) (r : Nat) (rs : List Nat) :
    storedIn H b (a :: calls) (r :: rs)
      = storedIn H b calls rs ++ (if r ≠ SENTINEL ∧ H a.1 = b then [(r, a.2)] else []) := by
  unfold storedIn
  simp only [List.zip_cons_cons, List.filter_cons]
  by_cases h : r ≠ SENTINEL ∧ H a.1 = b
  · simp [h]
  · simp [h]

theorem storedIn_nil {T : Type} (H : Vec3u → Nat) (b : Nat) (rs : List Nat) :
    storedIn H b ([] : List (Vec3u × T)) rs = [] := by
  simp [storedIn]

theorem storedValues_eq {T : Type} (H : Vec3u → Nat) (b : Nat) (calls : List (Vec3u × T))
    (results : List Nat) :
    storedValues H b calls results = ((storedIn H b calls results).map Prod.snd).reverse := by
  simp [storedValues, storedIn, List.map_reverse]

theorem storedIn_length_le {T : Type} (H : Vec3u → Nat) (b : Nat) (calls : List (Vec3u × T))
    (results : List Nat) : (storedIn H b calls results).length ≤ calls.length := by
  unfold storedIn
  rw [List.length_reverse, List.length_map]
  refine le_trans (List.length_filter_le _ _) ?_
  rw [List.length_zip]
  exact Nat.min_le_left _ _

theorem IsChain.frame {T : Type} {data : Nat → linkedEntry T} {k : Nat} (x : linkedEntry T) :
    ∀ {l : List (Nat × T)} {i : Nat}, IsChain data i l → (∀ e ∈ l, e.1 ≠ k) →
      IsChain (bufSet data k x) i l := by
  intro l
  induction l with
  | nil => intro i h _; exact h
  | cons e l ih =>
    intro i h hk
    obtain ⟨h1, h2, h3⟩ := h
    have hik : i ≠ k := by
      rw [h1]; exact hk e (List.mem_cons_self _ _)
    have hd : bufSet data k x i = data i := by simp [bufSet, hik]
    refine ⟨h1, ?_, ?_⟩
    · rw [hd]; exact h2
    · rw [hd]; exact ih h3 (fun e' he' => hk e' (List.mem_cons_of_mem _ he'))

namespace SpatialGridList_Linked

variable {T : Type}

theorem walk_lo_zero (s : SpatialGridList_Linked T) (m i : Nat) : walk s 0 m i = [] := by
  cases m <;> simp [walk]

theorem walk_of_chain (s : SpatialGridList_Linked T) (lo : Nat) (hlo : lo ≤ 0xffffffff) :
    ∀ (m : Nat) (i : Nat) (l : List (Nat × T)), IsChain s.m_dataBuffer i l →
      (∀ e ∈ l, e.1 < lo) → walk s lo m i = l.take m := by
  intro m
  induction m with
  | zero => intro i l _ _; simp [walk]
  | succ m ih =>
    intro i l hc hb
    cases l with
    | nil =>
      have hi : i = 0xffffffff := hc
      simp only [walk, List.take_nil]
      rw [if_neg (by omega)]
    | cons e l =>
      obtain ⟨h1, h2, h3⟩ := hc
      have hlt : i < lo := by rw [h1]; exact hb e (List.mem_cons_self _ _)
      simp only [walk, List.take_succ_cons]
      rw [if_pos hlt, ih _ l h3 (fun e' he' => hb e' (List.mem_cons_of_mem _ he'))]
      rw [h2, h1]

/-- The chain invariant is kept by a pass of `Store` calls that does not wrap the cursor: if in
state `s` every bucket `b` holds the chain `E b`, with indices below `min cursor capacity`, then
after the calls bucket `b` holds the newly stored entries of `b` followed by `E b`. -/
theorem storeAll_chain (H : Vec3u → Nat) :
    ∀ (calls : List (Vec3u × T)) (s : SpatialGridList_Linked T) (E : Nat → List (Nat × T)),
      s.deviceDataIdx + calls.length ≤ 0xffffffff →
      (∀ b, IsChain s.m_dataBuffer (s.m_mapBuffer b) (E b)) →
      (∀ b, ∀ e ∈ E b, e.1 < min s.deviceDataIdx s.numData) →
      (storeAll H s calls).1.deviceDataIdx = s.deviceDataIdx + calls.length ∧
      (∀ b, IsChain (storeAll H s calls).1.m_dataBuffer ((storeAll H s calls).1.m_mapBuffer b)
        (storedIn H b calls (storeAll H s calls).2 ++ E b)) ∧
      (∀ b, ∀ e ∈ storedIn H b calls (storeAll H s calls).2 ++ E b,
        e.1 < min (storeAll H s calls).1.deviceDataIdx s.numData) := by
  intro calls
  induction calls with
  | nil =>
    intro s E _ hc hb
    simp only [storeAll, storedIn_nil, List.nil_append, List.length_nil, Nat.add_zero]
    exact ⟨trivial, hc, hb⟩
  | cons a rest ih =>
    intro s E hlen hc hb
    obtain ⟨p, v⟩ := a
    simp only [List.length_cons] at hlen
    have hcur : s.deviceDataIdx < 0xffffffff := by omega
    -- the state and result of the first call
    have hidx : (Store H s p v).1.deviceDataIdx = s.deviceDataIdx + 1 := by
      rw [Store_deviceDataIdx, atomicInc_lt hcur]
    let E1 : Nat → List (Nat × T) := fun b =>
      (if (Store H s p v).2 ≠ SENTINEL ∧ H p = b then [((Store H s p v).2, v)] else []) ++ E b
    have hstep : (∀ b, IsChain (Store H s p v).1.m_dataBuffer ((Store H s p v).1.m_mapBuffer b)
          (E1 b)) ∧
        (∀ b, ∀ e ∈ E1 b, e.1 < min (Store H s p v).1.deviceDataIdx (Store H s p v).1.numData) := by
      rw [hidx, Store_numData]
      by_cases hfull : s.numData ≤ s.deviceDataIdx
      · have hS : Store H s p v
            = ({ s with deviceDataIdx := atomicInc s.deviceDataIdx 0xffffffff }, 0xffffffff) := by
          unfold Store; dsimp only; rw [if_pos hfull]
        have hE1 : E1 = E := by
          funext b
          simp only [E1, hS]
          simp [SENTINEL]
        rw [hE1, hS]
        refine ⟨hc, ?_⟩
        intro b e he
        have := hb b e he
        omega
      · have hS : Store H s p v
            = ({ s with
                  deviceDataIdx := atomicInc s.deviceDataIdx 0xffffffff
                  m_mapBuffer := bufSet s.m_mapBuffer (H p) s.deviceDataIdx
                  m_dataBuffer := bufSet s.m_dataBuffer s.deviceDataIdx
                    ⟨s.m_mapBuffer (H p), v⟩ }, s.deviceDataIdx) := by
          unfold Store; dsimp only; rw [if_neg hfull]
        have hne : s.deviceDataIdx ≠ SENTINEL := by unfold SENTINEL; omega
        have hfr : ∀ b, IsChain (bufSet s.m_dataBuffer s.deviceDataIdx
            ⟨s.m_mapBuffer (H p), v⟩) (s.m_mapBuffer b) (E b) := by
          intro b
          refine IsChain.frame _ (hc b) ?_
          intro e he
          have := hb b e he
          omega
        constructor
        · intro b
          simp only [E1, hS]
          by_cases hb' : H p = b
          · subst hb'
            simp only [hne, ne_eq, not_false_eq_true, and_self, if_true, List.singleton_append]
            refine ⟨by simp [bufSet], by simp [bufSet], ?_⟩
            have : (bufSet s.m_dataBuffer s.deviceDataIdx ⟨s.m_mapBuffer (H p), v⟩
                (bufSet s.m_mapBuffer (H p) s.deviceDataIdx (H p))).nextIdx
                = s.m_mapBuffer (H p) := by simp [bufSet]
            rw [this]
            exact hfr (H p)
          · have hbp : b ≠ H p := fun h => hb' h.symm
            simp only [hb', and_false, if_false, List.nil_append]
            have : bufSet s.m_mapBuffer (H p) s.deviceDataIdx b = s.m_mapBuffer b := by
              simp [bufSet, hbp]
            rw [this]
            exact hfr b
        · intro b e he
          simp only [E1, hS, List.mem_append] at he
          rcases he with he | he
          · split at he
            · rw [List.mem_singleton] at he
              rw [he]
              show s.deviceDataIdx < min (s.deviceDataIdx + 1) s.numData
              omega
            · exact absurd he (List.not_mem_nil _)
          · have := hb b e he
            omega
    obtain ⟨ih1, ih2, ih3⟩ := ih (Store H s p v).1 E1 (by rw [hidx]; omega) hstep.1 hstep.2
    have hunf : storeAll H s ((p, v) :: rest)
        = ((storeAll H (Store H s p v).1 rest).1,
            (Store H s p v).2 :: (storeAll H (Store H s p v).1 rest).2) := rfl
    have hcat : ∀ b, storedIn H b ((p, v) :: rest)
          ((Store H s p v).2 :: (storeAll H (Store H s p v).1 rest).2) ++ E b
        = storedIn H b rest (storeAll H (Store H s p v).1 rest).2 ++ E1 b := by
      intro b
      rw [storedIn_cons, List.append_assoc]
    rw [hunf]
    dsimp only
    refine ⟨?_, ?_, ?_⟩
    · rw [ih1, hidx, List.length_cons]; omega
    · intro b
      rw [hcat b]
      exact ih2 b
    · intro b e he
      rw [hcat b] at he
      have := ih3 b e he
      rwa [Store_numData] at this

/-- After `ResetBuffer` and fewer than `2^32` calls of `Store`, the enumeration of a cell with the
default cap is the list of entries stored in its bucket, newest first. -/
theorem ForAllCellEntries_storeAll (H : Vec3u → Nat) (s : SpatialGridList_Linked T)
    (calls : List (Vec3u × T)) (hN : calls.length < 2 ^ 32) (c : Vec3u) :
    ForAllCellEntries H (storeAll H s.ResetBuffer calls).1 c UINT_MAX
      = storedIn H (H c) calls (storeAll H s.ResetBuffer calls).2 := by
  obtain ⟨h1, h2, h3⟩ := storeAll_chain H calls s.ResetBuffer (fun _ => [])
    (by simp only [ResetBuffer]; omega) (fun b => rfl) (fun b e he => absurd he (List.not_mem_nil _))
  simp only [List.append_nil] at h2 h3
  have hcur : (storeAll H s.ResetBuffer calls).1.deviceDataIdx = calls.length := by
    rw [h1]; simp [ResetBuffer]
  unfold ForAllCellEntries
  rw [walk_of_chain _ _ (by rw [hcur]; omega) UINT_MAX _ _ (h2 (H c))]
  · apply List.take_of_length_le
    have := storedIn_length_le H (H c) calls (storeAll H s.ResetBuffer calls).2
    unfold UINT_MAX
    omega
  · intro e he
    have := h3 (H c) e he
    rw [storeAll_numData]
    exact this

end SpatialGridList_Linked

/-- The state after the pass `wrapCalls` of `2^32` calls has cursor 0. -/
theorem linked_wrap_cursor :
    (SpatialGridList_Linked.storeAll hash222 linked4.ResetBuffer wrapCalls).1.deviceDataIdx = 0 := by
  have hlen : wrapCalls.length = 4294967296 := List.length_replicate _ _
  rw [SpatialGridList_Linked.storeAll_deviceDataIdx _ _ _ (by decide), hlen]
  rfl

/-- The first call of the pass `wrapCalls` stores its value: the bucket of cell (0,0,0) has a
successfully stored entry. -/
theorem linked_wrap_stored :
    storedIn hash222 (hash222 ⟨0, 0, 0⟩) wrapCalls
      (SpatialGridList_Linked.storeAll hash222 linked4.ResetBuffer wrapCalls).2 ≠ [] := by
  have hw : wrapCalls = (⟨0, 0, 0⟩, 7) :: List.replicate 4294967295 (⟨0, 0, 0⟩, 7) := by
    exact List.replicate_succ _ 4294967295
  rw [hw]
  have hunf : ∀ (s : SpatialGridList_Linked Nat) (rest : List (Vec3u × Nat)),
      (SpatialGridList_Linked.storeAll hash222 s ((⟨0, 0, 0⟩, 7) :: rest)).2
        = (SpatialGridList_Linked.Store hash222 s ⟨0, 0, 0⟩ 7).2 ::
          (SpatialGridList_Linked.storeAll hash222
            (SpatialGridList_Linked.Store hash222 s ⟨0, 0, 0⟩ 7).1 rest).2 := fun _ _ => rfl
  rw [hunf, storedIn_cons, if_pos (by decide)]
  exact List.append_ne_nil_of_right_ne_nil _ (List.cons_ne_nil _ _)

/-! ## C3: linked LIFO order -/

/-- C3, counterexample. Capacity 4, `2^32` calls of `Store` to cell (0,0,0) after `ResetBuffer`:
the first calls store their values, the cursor wraps to 0, and `ForAllCellEntries` reports
nothing, not the stored entries in reverse insertion order. -/
theorem linked_lifo_fails_after_wrap :
    SpatialGridList_Linked.ForAllCellEntries hash222
        (SpatialGridList_Linked.storeAll hash222 linked4.ResetBuffer wrapCalls).1 ⟨0, 0, 0⟩ UINT_MAX
      ≠ storedIn hash222 (hash222 ⟨0, 0, 0⟩) wrapCalls
        (SpatialGridList_Linked.storeAll hash222 linked4.ResetBuffer wrapCalls).2 := by
  have h : SpatialGridList_Linked.ForAllCellEntries hash222
      (SpatialGridList_Linked.storeAll hash222 linked4.ResetBuffer wrapCalls).1 ⟨0, 0, 0⟩ UINT_MAX
      = [] := by
    unfold SpatialGridList_Linked.ForAllCellEntries
    rw [linked_wrap_cursor, Nat.zero_min]
    exact SpatialGridList_Linked.walk_lo_zero _ _ _
  rw [h]
  exact fun e => linked_wrap_stored e.symm

/-- C3, amended. For every sequence of fewer than `2^32` calls of `Store` performed after
`ResetBuffer` and every cell `c`, `ForAllCellEntries(c, callback)` with the default cap reports
exactly the successfully stored entries whose bucket index is `Hash(c)`, in the reverse of their
insertion order. -/
theorem linked_lifo_order {T : Type} (H : Vec3u → Nat) (s : SpatialGridList_Linked T)
    (calls : List (Vec3u × T)) (hN : calls.length < 2 ^ 32) (c : Vec3u) :
    SpatialGridList_Linked.ForAllCellEntries H
        (SpatialGridList_Linked.storeAll H s.ResetBuffer calls).1 c UINT_MAX
      = storedIn H (H c) calls (SpatialGridList_Linked.storeAll H s.ResetBuffer calls).2 :=
  SpatialGridList_Linked.ForAllCellEntries_storeAll H s calls hN c

/-- Witness of C3: on the 2 x 2 x 2 grid, storing 10 then 20 into cell (0,0,0) and 30 into cell
(1,0,0) makes `ForAllCellEntries(0,0,0)` yield 20 (index 1) and then 10 (index 0). -/
theorem linked_lifo_order_witness :
    scenarioCalls.length < 2 ^ 32 ∧
      SpatialGridList_Linked.ForAllCellEntries hash222
          (SpatialGridList_Linked.storeAll hash222 linked4.ResetBuffer scenarioCalls).1 ⟨0, 0, 0⟩
          UINT_MAX
        = [(1, 20), (0, 10)] :=
  ⟨by decide,
    (linked_lifo_order hash222 linked4 scenarioCalls (by decide) ⟨0, 0, 0⟩).trans (by decide)⟩

/-! ## C4: linked round trip -/

/-- C4, counterexample. Capacity 4, `2^32` calls of `Store` with value 7 to cell (0,0,0) of the
2 x 2 x 2 grid after `ResetBuffer`: the values reported for the cell (none) are not a
rearrangement of the values whose `Store` succeeded with that bucket index. -/
theorem linked_round_trip_fails_after_wrap :
    ¬ ((SpatialGridList_Linked.ForAllCellEntries hash222
          (SpatialGridList_Linked.storeAll hash222 linked4.ResetBuffer wrapCalls).1 ⟨0, 0, 0⟩
          UINT_MAX).map Prod.snd).Perm
        (storedValues hash222 (hash222 ⟨0, 0, 0⟩) wrapCalls
          (SpatialGridList_Linked.storeAll hash222 linked4.ResetBuffer wrapCalls).2) := by
  have h : SpatialGridList_Linked.ForAllCellEntries hash222
      (SpatialGridList_Linked.storeAll hash222 linked4.ResetBuffer wrapCalls).1 ⟨0, 0, 0⟩ UINT_MAX
      = [] := by
    unfold SpatialGridList_Linked.ForAllCellEntries
    rw [linked_wrap_cursor, Nat.zero_min]
    exact SpatialGridList_Linked.walk_lo_zero _ _ _
  rw [h, storedValues_eq]
  intro hp
  have h0 := List.Perm.eq_nil (List.Perm.symm hp)
  rw [List.reverse_eq_nil_iff, List.map_eq_nil_iff] at h0
  exact linked_wrap_stored h0

/-- C4, amended. For every list of fewer than `2^32` (cell, value) pairs with bucket indices
inside the grid, after `ResetBuffer` and one `Store` per pair, for every cell `c` of the grid the
values reported by `ForAllCellEntries(c, callback)` with the default cap are, as a multiset,
exactly the values whose `Store` succeeded with bucket index `Hash(c)`; a cell whose bucket
received nothing reports nothing. -/
theorem linked_round_trip {T : Type} (H : Vec3u → Nat) (s : SpatialGridList_Linked T)
    (calls : List (Vec3u × T)) (hN : calls.length < 2 ^ 32)
    (_hcalls : ∀ a ∈ calls, H a.1 < gridCells s.m_gridSize) (c : Vec3u)
    (_hc : H c < gridCells s.m_gridSize) :
    ((SpatialGridList_Linked.ForAllCellEntries H
          (SpatialGridList_Linked.storeAll H s.ResetBuffer calls).1 c UINT_MAX).map Prod.snd).Perm
        (storedValues H (H c) calls (SpatialGridList_Linked.storeAll H s.ResetBuffer calls).2) ∧
      ((∀ a ∈ calls, H a.1 ≠ H c) →
        SpatialGridList_Linked.ForAllCellEntries H
          (SpatialGridList_Linked.storeAll H s.ResetBuffer calls).1 c UINT_MAX = []) := by
  rw [SpatialGridList_Linked.ForAllCellEntries_storeAll H s calls hN c]
  constructor
  · rw [storedValues_eq]
    exact (List.reverse_perm _).symm
  · intro hne
    unfold storedIn
    rw [List.reverse_eq_nil_iff, List.map_eq_nil_iff, List.filter_eq_nil_iff]
    intro cr hcr
    have hmem : cr.1 ∈ calls := (List.of_mem_zip hcr).1
    simp [hne cr.1 hmem]

/-- Witness of C4: the scenario on the 2 x 2 x 2 grid, cell (0,0,0). -/
theorem linked_round_trip_witness :
    (scenarioCalls.length < 2 ^ 32 ∧
        (∀ a ∈ scenarioCalls, hash222 a.1 < gridCells linked4.m_gridSize) ∧
        hash222 ⟨0, 0, 0⟩ < gridCells linked4.m_gridSize) ∧
      ((SpatialGridList_Linked.ForAllCellEntries hash222
            (SpatialGridList_Linked.storeAll hash222 linked4.ResetBuffer scenarioCalls).1
            ⟨0, 0, 0⟩ UINT_MAX).map Prod.snd).Perm
          (storedValues hash222 (hash222 ⟨0, 0, 0⟩) scenarioCalls
            (SpatialGridList_Linked.storeAll hash222 linked4.ResetBuffer scenarioCalls).2) ∧
        ((∀ a ∈ scenarioCalls, hash222 a.1 ≠ hash222 ⟨0, 0, 0⟩) →
          SpatialGridList_Linked.ForAllCellEntries hash222
            (SpatialGridList_Linked.storeAll hash222 linked4.ResetBuffer scenarioCalls).1
            ⟨0, 0, 0⟩ UINT_MAX = []) :=
  ⟨⟨by decide, by decide, by decide⟩,
    linked_round_trip hash222 linked4 scenarioCalls (by decide) (by decide) ⟨0, 0, 0⟩
      (by decide)⟩

/-! ## The kernel `buildGrid`: loops -/

namespace __interal_spatialMap__

variable {V : Type}

theorem countRun_spec (deviceList : Nat → Vec2u) (N b : Nat) :
    ∀ (fuel j : Nat), N - j ≤ fuel → j ≤ N →
      j ≤ countRun deviceList N b fuel j ∧ countRun deviceList N b fuel j ≤ N ∧
      (∀ k, j ≤ k → k < countRun deviceList N b fuel j → (deviceList k).y = b) ∧
      (countRun deviceList N b fuel j < N → (deviceList (countRun deviceList N b fuel j)).y ≠ b) := by
  intro fuel
  induction fuel with
  | zero =>
    intro j hf hj
    have : j = N := by omega
    subst this
    simp only [countRun]
    exact ⟨le_refl _, le_refl _, fun k h1 h2 => by omega, fun h => by omega⟩
  | succ fuel ih =>
    intro j hf hj
    simp only [countRun]
    by_cases hc : j < N ∧ (deviceList j).y = b
    · rw [if_pos hc]
      obtain ⟨h1, h2, h3, h4⟩ := ih (j + 1) (by omega) (by omega)
      refine ⟨by omega, h2, ?_, h4⟩
      intro k hk1 hk2
      by_cases hkj : k = j
      · rw [hkj]; exact hc.2
      · exact h3 k (by omega) hk2
    · rw [if_neg hc]
      refine ⟨le_refl _, hj, fun k h1 h2 => by omega, ?_⟩
      intro hlt hy
      exact hc ⟨hlt, hy⟩

theorem runEnd_spec (deviceList : Nat → Vec2u) (N i : Nat) (hi : i < N) :
    i < runEnd deviceList N i ∧ runEnd deviceList N i ≤ N ∧
      (∀ k, i ≤ k → k < runEnd deviceList N i → (deviceList k).y = (deviceList i).y) ∧
      (runEnd deviceList N i < N →
        (deviceList (runEnd deviceList N i)).y ≠ (deviceList i).y) := by
  obtain ⟨h1, h2, h3, h4⟩ := countRun_spec deviceList N (deviceList i).y (N - (i + 1)) (i + 1)
    (le_refl _) (by omega)
  refine ⟨by unfold runEnd; omega, h2, ?_, h4⟩
  intro k hk1 hk2
  by_cases hki : k = i
  · rw [hki]
  · exact h3 k (by omega) hk2

theorem copyRun_spec (deviceDataSource : Nat → flatEntry V) (deviceList : Nat → Vec2u) :
    ∀ (n idx tar : Nat) (dest : Nat → flatEntry V) (k : Nat),
      copyRun deviceDataSource deviceList n idx tar dest k
        = if tar ≤ k ∧ k < tar + n then deviceDataSource (deviceList (idx + (k - tar))).x
          else dest k := by
  intro n
  induction n with
  | zero =>
    intro idx tar dest k
    simp only [copyRun]
    rw [if_neg (by omega)]
  | succ n ih =>
    intro idx tar dest k
    simp only [copyRun]
    rw [ih]
    by_cases h1 : tar + 1 ≤ k ∧ k < tar + 1 + n
    · rw [if_pos h1, if_pos (by omega)]
      congr 3
      omega
    · rw [if_neg h1]
      by_cases h2 : k = tar
      · subst h2
        rw [if_pos (by omega)]
        simp [bufSet]
      · rw [if_neg (by omega)]
        simp [bufSet, h2]

theorem processRun_unfold (deviceDataSource : Nat → flatEntry V) (N : Nat)
    (deviceList : Nat → Vec2u) (i : Nat) (st : BuildState V) :
    processRun deviceDataSource N deviceList i st
      = (runEnd deviceList N i,
          { deviceDataDest :=
              bufSet (copyRun deviceDataSource deviceList (runLen deviceList N i) i
                  st.g_DestCounter st.deviceDataDest)
                (st.g_DestCounter + runLen deviceList N i - 1)
                (copyRun deviceDataSource deviceList (runLen deviceList N i) i
                  st.g_DestCounter st.deviceDataDest
                  (st.g_DestCounter + runLen deviceList N i - 1)).setFlag
            deviceGrid := bufSet st.deviceGrid (deviceList i).y st.g_DestCounter
            g_DestCounter := st.g_DestCounter + runLen deviceList N i }) := rfl

/-- What one iteration of the outer loop of `buildGrid` does at a position `i < N`. -/
theorem processRun_spec (deviceDataSource : Nat → flatEntry V) (N : Nat)
    (deviceList : Nat → Vec2u) (i : Nat) (st : BuildState V) (hi : i < N) :
    (processRun deviceDataSource N deviceList i st).1 = runEnd deviceList N i ∧
      (processRun deviceDataSource N deviceList i st).2.g_DestCounter
        = st.g_DestCounter + runLen deviceList N i ∧
      (processRun deviceDataSource N deviceList i st).2.deviceGrid
        = bufSet st.deviceGrid (deviceList i).y st.g_DestCounter ∧
      (∀ k, (processRun deviceDataSource N deviceList i st).2.deviceDataDest k
        = if st.g_DestCounter ≤ k ∧ k < st.g_DestCounter + runLen deviceList N i then
            runPayload deviceDataSource deviceList N i (k - st.g_DestCounter)
          else st.deviceDataDest k) := by
  have hlen := (runEnd_spec deviceList N i hi).1
  refine ⟨rfl, rfl, rfl, ?_⟩
  intro k
  rw [processRun_unfold]
  unfold runPayload runLen
  generalize runEnd deviceList N i = e at hlen ⊢
  simp only [bufSet, copyRun_spec]
  by_cases hk : k = st.g_DestCounter + (e - i) - 1
  · rw [if_pos hk, if_pos (by omega), if_pos (by omega), if_pos (by omega)]
    congr 4
    omega
  · rw [if_neg hk]
    by_cases hin : st.g_DestCounter ≤ k ∧ k < st.g_DestCounter + (e - i)
    · rw [if_pos hin, if_pos hin, if_neg (by omega)]
    · rw [if_neg hin, if_neg hin]

end __interal_spatialMap__
/-! ## The kernel `buildGrid`: one thread processes the runs that start in its window -/

namespace __interal_spatialMap__

variable {V : Type}

theorem range_split_at (lo mid hi : Nat) (h1 : lo ≤ mid) (h2 : mid ≤ hi) :
    List.range' lo (hi - lo) = List.range' lo (mid - lo) ++ List.range' mid (hi - mid) := by
  have h := List.range'_append lo (mid - lo) (hi - mid) 1
  rw [Nat.one_mul, show lo + (mid - lo) = mid by omega,
    show hi - mid + (mid - lo) = hi - lo by omega] at h
  exact h.symm

theorem runStartsIn_nil_of_le (deviceList : Nat → Vec2u) (N lo hi : Nat) (h : hi ≤ lo ∨ N ≤ lo) :
    runStartsIn deviceList N lo hi = [] := by
  unfold runStartsIn
  rw [List.filter_eq_nil_iff]
  intro i hi'
  rw [List.mem_range'_1] at hi'
  have : ¬ IsRunStart deviceList N i := by
    intro hr
    have := hr.1
    omega
  simpa using this

theorem runStartsIn_skip (deviceList : Nat → Vec2u) (N lo mid hi : Nat) (hlm : lo ≤ mid)
    (hno : ∀ k, lo ≤ k → k < mid → ¬ IsRunStart deviceList N k) :
    runStartsIn deviceList N lo hi = runStartsIn deviceList N mid hi := by
  by_cases hmh : hi ≤ mid
  · rw [runStartsIn_nil_of_le deviceList N mid hi (Or.inl hmh)]
    unfold runStartsIn
    rw [List.filter_eq_nil_iff]
    intro i hi'
    rw [List.mem_range'_1] at hi'
    simpa using hno i hi'.1 (by omega)
  · unfold runStartsIn
    rw [range_split_at lo mid hi hlm (by omega), List.filter_append]
    have : (List.range' lo (mid - lo)).filter (fun i => decide (IsRunStart deviceList N i))
        = [] := by
      rw [List.filter_eq_nil_iff]
      intro i hi'
      rw [List.mem_range'_1] at hi'
      simpa using hno i hi'.1 (by omega)
    rw [this, List.nil_append]

theorem runStartsIn_cons (deviceList : Nat → Vec2u) (N lo hi : Nat) (hlh : lo < hi)
    (hs : IsRunStart deviceList N lo) :
    runStartsIn deviceList N lo hi = lo :: runStartsIn deviceList N (lo + 1) hi := by
  unfold runStartsIn
  rw [show hi - lo = (hi - (lo + 1)) + 1 by omega, List.range'_succ, List.filter_cons]
  simp [hs]

theorem runStartsIn_append (deviceList : Nat → Vec2u) (N lo mid hi : Nat) (h1 : lo ≤ mid)
    (h2 : mid ≤ hi) :
    runStartsIn deviceList N lo mid ++ runStartsIn deviceList N mid hi
      = runStartsIn deviceList N lo hi := by
  unfold runStartsIn
  rw [← List.filter_append, ← range_split_at lo mid hi h1 h2]

theorem mem_runStartsIn (deviceList : Nat → Vec2u) (N lo hi i : Nat) :
    i ∈ runStartsIn deviceList N lo hi ↔ (lo ≤ i ∧ i < hi) ∧ IsRunStart deviceList N i := by
  unfold runStartsIn
  rw [List.mem_filter, List.mem_range'_1]
  simp only [decide_eq_true_eq]
  constructor
  · rintro ⟨⟨h1, h2⟩, h3⟩
    exact ⟨⟨h1, by omega⟩, h3⟩
  · rintro ⟨⟨h1, h2⟩, h3⟩
    exact ⟨⟨h1, by omega⟩, h3⟩

/-- No position strictly inside a run is a run start, and the end of a run inside the list is
one. -/
theorem runEnd_next (deviceList : Nat → Vec2u) (N i : Nat) (hi : i < N) :
    (∀ k, i + 1 ≤ k → k < runEnd deviceList N i → ¬ IsRunStart deviceList N k) ∧
      (runEnd deviceList N i < N → IsRunStart deviceList N (runEnd deviceList N i)) := by
  obtain ⟨h1, h2, h3, h4⟩ := runEnd_spec deviceList N i hi
  constructor
  · intro k hk1 hk2 hs
    rcases hs.2 with h0 | hne
    · omega
    · apply hne
      rw [h3 (k - 1) (by omega) (by omega), h3 k (by omega) hk2]
  · intro hlt
    refine ⟨hlt, Or.inr ?_⟩
    rw [h3 (runEnd deviceList N i - 1) (by omega) (by omega)]
    exact fun h => h4 hlt h.symm

theorem applyRuns_nil (deviceDataSource : Nat → flatEntry V) (N : Nat)
    (deviceList : Nat → Vec2u) (st : BuildState V) :
    applyRuns deviceDataSource N deviceList [] st = st := rfl

theorem applyRuns_cons (deviceDataSource : Nat → flatEntry V) (N : Nat)
    (deviceList : Nat → Vec2u) (i : Nat) (order : List Nat) (st : BuildState V) :
    applyRuns deviceDataSource N deviceList (i :: order) st
      = applyRuns deviceDataSource N deviceList order
          (processRun deviceDataSource N deviceList i st).2 := rfl

theorem applyRuns_append (deviceDataSource : Nat → flatEntry V) (N : Nat)
    (deviceList : Nat → Vec2u) (o1 o2 : List Nat) (st : BuildState V) :
    applyRuns deviceDataSource N deviceList (o1 ++ o2) st
      = applyRuns deviceDataSource N deviceList o2
          (applyRuns deviceDataSource N deviceList o1 st) := by
  unfold applyRuns
  rw [List.foldl_append]

/-- The outer loop, entered at a position that is past the list or a run start, processes the run
starts from there to the end of the window. -/
theorem copyLoop_spec (deviceDataSource : Nat → flatEntry V) (N : Nat)
    (deviceList : Nat → Vec2u) (startIdx NPT : Nat) :
    ∀ (fuel idx : Nat) (st : BuildState V), startIdx + NPT - idx ≤ fuel → startIdx ≤ idx →
      (idx < N → IsRunStart deviceList N idx) →
      copyLoop deviceDataSource N deviceList startIdx NPT fuel idx st
        = applyRuns deviceDataSource N deviceList
            (runStartsIn deviceList N idx (startIdx + NPT)) st := by
  intro fuel
  induction fuel with
  | zero =>
    intro idx st hf _ _
    rw [runStartsIn_nil_of_le deviceList N idx _ (Or.inl (by omega))]
    rfl
  | succ fuel ih =>
    intro idx st hf hs hrs
    simp only [copyLoop]
    by_cases hc : idx < N ∧ idx - startIdx < NPT
    · rw [if_pos hc]
      obtain ⟨hn1, hn2⟩ := runEnd_next deviceList N idx hc.1
      have hlt := (runEnd_spec deviceList N idx hc.1).1
      rw [runStartsIn_cons deviceList N idx _ (by omega) (hrs hc.1),
        runStartsIn_skip deviceList N (idx + 1) (runEnd deviceList N idx) _ (by omega) hn1,
        applyRuns_cons]
      exact ih (runEnd deviceList N idx) _ (by omega) (by omega) hn2
    · rw [if_neg hc, runStartsIn_nil_of_le deviceList N idx _ (by omega)]
      rfl

theorem skipPrev_spec (deviceList : Nat → Vec2u) (N startIdx prev NPT : Nat) :
    ∀ (fuel idx : Nat), startIdx + NPT - idx ≤ fuel → startIdx ≤ idx →
      idx ≤ skipPrev deviceList N startIdx prev NPT fuel idx ∧
      (∀ k, idx ≤ k → k < skipPrev deviceList N startIdx prev NPT fuel idx →
        k < N ∧ (deviceList k).y = prev) ∧
      (skipPrev deviceList N startIdx prev NPT fuel idx < N →
        skipPrev deviceList N startIdx prev NPT fuel idx < startIdx + NPT →
        (deviceList (skipPrev deviceList N startIdx prev NPT fuel idx)).y ≠ prev) := by
  intro fuel
  induction fuel with
  | zero =>
    intro idx hf hs
    simp only [skipPrev]
    exact ⟨le_refl _, fun k h1 h2 => by omega, fun _ h => by omega⟩
  | succ fuel ih =>
    intro idx hf hs
    simp only [skipPrev]
    by_cases hc : idx < N ∧ (deviceList idx).y = prev ∧ idx - startIdx < NPT
    · rw [if_pos hc]
      obtain ⟨h1, h2, h3⟩ := ih (idx + 1) (by omega) (by omega)
      refine ⟨by omega, ?_, h3⟩
      intro k hk1 hk2
      by_cases hki : k = idx
      · rw [hki]; exact ⟨hc.1, hc.2.1⟩
      · exact h2 k (by omega) hk2
    · rw [if_neg hc]
      refine ⟨le_refl _, fun k h1 h2 => by omega, ?_⟩
      intro hlt hwin hy
      exact hc ⟨hlt, hy, by omega⟩

/-- One thread of `buildGrid` processes exactly the runs that start in its window
`[startIdx, startIdx + N_PER_THREAD)`, in increasing order, where `startIdx` is the 32-bit
product `N_PER_THREAD * tid`. -/
theorem buildGrid_eq_applyRuns (NPT : Nat) (deviceDataSource : Nat → flatEntry V) (N : Nat)
    (deviceList : Nat → Vec2u) (tid : Nat) (st : BuildState V) :
    buildGrid NPT deviceDataSource N deviceList tid st
      = applyRuns deviceDataSource N deviceList
          (runStartsIn deviceList N ((NPT * tid) % 2 ^ 32) ((NPT * tid) % 2 ^ 32 + NPT)) st := by
  unfold buildGrid
  dsimp only
  generalize (NPT * tid) % 2 ^ 32 = w
  by_cases hc : w > 0 ∧ w < N
  · rw [if_pos hc]
    obtain ⟨h1, h2, h3⟩ := skipPrev_spec deviceList N w
      (deviceList (w - 1)).y NPT NPT w (by omega) (le_refl _)
    generalize skipPrev deviceList N w (deviceList (w - 1)).y NPT NPT w = idx at h1 h2 h3
    have hno : ∀ k, w ≤ k → k < idx → ¬ IsRunStart deviceList N k := by
      intro k hk1 hk2 hs
      rcases hs.2 with h0 | hne
      · omega
      · apply hne
        rw [(h2 k hk1 hk2).2]
        by_cases hk : k = w
        · rw [hk]
        · exact (h2 (k - 1) (by omega) (by omega)).2
    rw [runStartsIn_skip deviceList N w idx _ h1 hno]
    by_cases hwin : idx < w + NPT
    · apply copyLoop_spec _ _ _ _ _ _ _ _ (by omega) h1
      intro hlt
      refine ⟨hlt, Or.inr ?_⟩
      have hy := h3 hlt hwin
      by_cases hk : idx = w
      · rw [hk] at hy ⊢
        exact fun h => hy h.symm
      · rw [(h2 (idx - 1) (by omega) (by omega)).2]
        exact fun h => hy h.symm
    · rw [runStartsIn_nil_of_le deviceList N idx _ (Or.inl (by omega))]
      cases NPT with
      | zero => rfl
      | succ n =>
        simp only [copyLoop]
        rw [if_neg (by omega)]
        rfl
  · rw [if_neg hc]
    apply copyLoop_spec _ _ _ _ _ _ _ _ (by omega) (le_refl _)
    intro hlt
    have h0 : w = 0 := by omega
    rw [h0]
    exact ⟨by omega, Or.inl rfl⟩

end __interal_spatialMap__
/-! ## The kernel `buildGrid`: the whole launch -/

namespace __interal_spatialMap__

variable {V : Type}

/-- A launch whose threads run one after the other in the order `sched` processes the run starts
of the windows of `sched`, window after window. -/
theorem launch_eq_applyRuns (NPT : Nat) (deviceDataSource : Nat → flatEntry V) (N : Nat)
    (deviceList : Nat → Vec2u) (sched : List Nat) (st : BuildState V) :
    sched.foldl (fun st tid => buildGrid NPT deviceDataSource N deviceList tid st) st
      = applyRuns deviceDataSource N deviceList
          (sched.flatMap (fun t => runStartsIn deviceList N ((NPT * t) % 2 ^ 32)
            ((NPT * t) % 2 ^ 32 + NPT))) st := by
  induction sched generalizing st with
  | nil => rfl
  | cons t rest ih =>
    rw [List.foldl_cons, ih, List.flatMap_cons, applyRuns_append, buildGrid_eq_applyRuns]

theorem windows_flatMap (deviceList : Nat → Vec2u) (N NPT : Nat) :
    ∀ T : Nat, (List.range T).flatMap
        (fun t => runStartsIn deviceList N (NPT * t) (NPT * t + NPT))
      = runStartsIn deviceList N 0 (NPT * T) := by
  intro T
  induction T with
  | zero =>
    rw [runStartsIn_nil_of_le deviceList N 0 _ (Or.inl (by omega))]
    rfl
  | succ T ih =>
    rw [List.range_succ, List.flatMap_append, ih, List.flatMap_cons, List.flatMap_nil,
      List.append_nil, show NPT * (T + 1) = NPT * T + NPT from Nat.mul_succ NPT T]
    exact runStartsIn_append deviceList N 0 (NPT * T) (NPT * T + NPT) (by omega) (by omega)

theorem runStartsIn_beyond (deviceList : Nat → Vec2u) (N hi : Nat) (h : N ≤ hi) :
    runStartsIn deviceList N 0 hi = runStartsIn deviceList N 0 N := by
  rw [← runStartsIn_append deviceList N 0 N hi (by omega) h,
    runStartsIn_nil_of_le deviceList N N hi (Or.inr (le_refl _)), List.append_nil]

/-- The windows of threads whose window start does not wrap are the windows
`[N_PER_THREAD * t, N_PER_THREAD * t + N_PER_THREAD)`. -/
theorem windows_no_wrap (deviceList : Nat → Vec2u) (N NPT : Nat) (sched : List Nat)
    (hw : ∀ t ∈ sched, NPT * t < 2 ^ 32) :
    sched.flatMap (fun t => runStartsIn deviceList N ((NPT * t) % 2 ^ 32)
        ((NPT * t) % 2 ^ 32 + NPT))
      = sched.flatMap (fun t => runStartsIn deviceList N (NPT * t) (NPT * t + NPT)) := by
  induction sched with
  | nil => rfl
  | cons t rest ih =>
    rw [List.flatMap_cons, List.flatMap_cons,
      ih (fun u hu => hw u (List.mem_cons_of_mem _ hu)),
      Nat.mod_eq_of_lt (hw t (List.mem_cons_self _ _))]

/-- Every schedule of the threads of a launch that covers the list, and none of whose window
starts wraps, processes a rearrangement of the run starts of the list. -/
theorem launch_order_perm (deviceList : Nat → Vec2u) (N NPT T : Nat) (hT : N ≤ NPT * T)
    (hw : ∀ t, t < T → NPT * t < 2 ^ 32)
    (sched : List Nat) (hs : sched.Perm (List.range T)) :
    (sched.flatMap (fun t => runStartsIn deviceList N ((NPT * t) % 2 ^ 32)
        ((NPT * t) % 2 ^ 32 + NPT))).Perm
      (runStartsIn deviceList N 0 N) := by
  rw [windows_no_wrap deviceList N NPT sched
    (fun t ht => hw t (List.mem_range.mp (hs.mem_iff.mp ht)))]
  have h := List.Perm.flatMap_right
    (fun t => runStartsIn deviceList N (NPT * t) (NPT * t + NPT)) hs
  rw [windows_flatMap, runStartsIn_beyond deviceList N _ hT] at h
  exact h

/-! ## The kernel `buildGrid`: what a sequence of runs writes -/

theorem offsetOf_bounds (len : Nat → Nat) :
    ∀ (order : List Nat) (r c0 : Nat), r ∈ order →
      c0 ≤ offsetOf len order r c0 ∧
        offsetOf len order r c0 + len r ≤ c0 + (order.map len).sum := by
  intro order
  induction order with
  | nil => intro r c0 h; exact absurd h (List.not_mem_nil _)
  | cons h rest ih =>
    intro r c0 hr
    simp only [offsetOf, List.map_cons, List.sum_cons]
    by_cases hh : h = r
    · rw [if_pos hh, hh]
      omega
    · rw [if_neg hh]
      have hr' : r ∈ rest := by
        rcases List.mem_cons.1 hr with h1 | h1
        · exact absurd h1.symm hh
        · exact h1
      have := ih r (c0 + len h) hr'
      omega

theorem offsetOf_disjoint (len : Nat → Nat) :
    ∀ (order : List Nat) (c0 r r' : Nat), order.Nodup → r ∈ order → r' ∈ order → r ≠ r' →
      offsetOf len order r c0 + len r ≤ offsetOf len order r' c0 ∨
        offsetOf len order r' c0 + len r' ≤ offsetOf len order r c0 := by
  intro order
  induction order with
  | nil => intro c0 r r' _ h; exact absurd h (List.not_mem_nil _)
  | cons h rest ih =>
    intro c0 r r' hnd hr hr' hne
    have hnd' := (List.nodup_cons.1 hnd).2
    simp only [offsetOf]
    by_cases h1 : h = r
    · have h2 : h ≠ r' := fun e => hne (h1.symm.trans e)
      have hr'' : r' ∈ rest := by
        rcases List.mem_cons.1 hr' with e | e
        · exact absurd e.symm h2
        · exact e
      subst h1
      rw [if_pos rfl, if_neg h2]
      left
      have := (offsetOf_bounds len rest r' (c0 + len h) hr'').1
      omega
    · have hr1 : r ∈ rest := by
        rcases List.mem_cons.1 hr with e | e
        · exact absurd e.symm h1
        · exact e
      rw [if_neg h1]
      by_cases h2 : h = r'
      · subst h2
        rw [if_pos rfl]
        right
        have := (offsetOf_bounds len rest r (c0 + len h) hr1).1
        omega
      · have hr2 : r' ∈ rest := by
          rcases List.mem_cons.1 hr' with e | e
          · exact absurd e.symm h2
          · exact e
        rw [if_neg h2]
        exact ih (c0 + len h) r r' hnd' hr1 hr2 hne

theorem offsetOf_cover (len : Nat → Nat) :
    ∀ (order : List Nat) (c0 k : Nat), order.Nodup → c0 ≤ k → k < c0 + (order.map len).sum →
      ∃ r ∈ order, offsetOf len order r c0 ≤ k ∧ k < offsetOf len order r c0 + len r := by
  intro order
  induction order with
  | nil =>
    intro c0 k _ h1 h2
    simp only [List.map_nil, List.sum_nil] at h2
    omega
  | cons h rest ih =>
    intro c0 k hnd h1 h2
    have hnd' := List.nodup_cons.1 hnd
    simp only [List.map_cons, List.sum_cons] at h2
    by_cases hk : k < c0 + len h
    · refine ⟨h, List.mem_cons_self _ _, ?_⟩
      simp only [offsetOf, if_true]
      omega
    · obtain ⟨r, hr, hr1, hr2⟩ := ih (c0 + len h) k hnd'.2 (by omega) (by omega)
      by_cases hh : h = r
      · exact absurd (hh ▸ hr) hnd'.1
      · refine ⟨r, List.mem_cons_of_mem _ hr, ?_⟩
        simp only [offsetOf, if_neg hh]
        exact ⟨hr1, hr2⟩

end __interal_spatialMap__
namespace __interal_spatialMap__

variable {V : Type}

/-- What the outer-loop body writes when it is applied at the positions of `order` one after the
other: the cursor advances by the sum of the run lengths, each run's block holds its payloads
(last one marked) at the offset reserved for it, nothing else of the destination changes, and,
when the runs have pairwise different cells, each cell's bucket offset is the offset of its
block. -/
theorem applyRuns_spec (deviceDataSource : Nat → flatEntry V) (N : Nat)
    (deviceList : Nat → Vec2u) :
    ∀ (order : List Nat) (st : BuildState V), (∀ r ∈ order, r < N) →
      (applyRuns deviceDataSource N deviceList order st).g_DestCounter
        = st.g_DestCounter + (order.map (runLen deviceList N)).sum ∧
      (∀ k, k < st.g_DestCounter →
        (applyRuns deviceDataSource N deviceList order st).deviceDataDest k
          = st.deviceDataDest k) ∧
      (∀ k, st.g_DestCounter + (order.map (runLen deviceList N)).sum ≤ k →
        (applyRuns deviceDataSource N deviceList order st).deviceDataDest k
          = st.deviceDataDest k) ∧
      (∀ r ∈ order, ∀ d, d < runLen deviceList N r →
        (applyRuns deviceDataSource N deviceList order st).deviceDataDest
            (offsetOf (runLen deviceList N) order r st.g_DestCounter + d)
          = runPayload deviceDataSource deviceList N r d) ∧
      ((order.map (fun r => (deviceList r).y)).Nodup → ∀ r ∈ order,
        (applyRuns deviceDataSource N deviceList order st).deviceGrid (deviceList r).y
          = offsetOf (runLen deviceList N) order r st.g_DestCounter) ∧
      (∀ b, (∀ r ∈ order, (deviceList r).y ≠ b) →
        (applyRuns deviceDataSource N deviceList order st).deviceGrid b = st.deviceGrid b) := by
  intro order
  induction order with
  | nil =>
    intro st _
    exact ⟨rfl, fun _ _ => rfl, fun _ _ => rfl,
      fun r hr => absurd hr (List.not_mem_nil _),
      fun _ r hr => absurd hr (List.not_mem_nil _), fun _ _ => rfl⟩
  | cons h rest ih =>
    intro st hN
    have hh : h < N := hN h (List.mem_cons_self _ _)
    obtain ⟨_, p2, p3, p4⟩ := processRun_spec deviceDataSource N deviceList h st hh
    obtain ⟨i1, i2, i3, i4, i5, i6⟩ := ih (processRun deviceDataSource N deviceList h st).2
      (fun r hr => hN r (List.mem_cons_of_mem _ hr))
    rw [p2] at i1 i2 i3 i4 i5
    rw [applyRuns_cons]
    simp only [List.map_cons, List.sum_cons]
    refine ⟨?_, ?_, ?_, ?_, ?_, ?_⟩
    · rw [i1]; omega
    · intro k hk
      rw [i2 k (by omega), p4 k, if_neg (by omega)]
    · intro k hk
      rw [i3 k (by omega), p4 k, if_neg (by omega)]
    · intro r hr d hd
      simp only [offsetOf]
      by_cases hhr : h = r
      · subst hhr
        rw [if_pos rfl, i2 _ (by omega), p4, if_pos (by omega)]
        congr 1
        omega
      · rw [if_neg hhr]
        have hr' : r ∈ rest := by
          rcases List.mem_cons.1 hr with e | e
          · exact absurd e.symm hhr
          · exact e
        exact i4 r hr' d hd
    · intro hnd r hr
      have hnd' := List.nodup_cons.1 hnd
      simp only [offsetOf]
      by_cases hhr : h = r
      · subst hhr
        rw [if_pos rfl, i6 (deviceList h).y ?_, p3]
        · simp [bufSet]
        · intro r' hr' e
          exact hnd'.1 (List.mem_map.2 ⟨r', hr', e⟩)
      · rw [if_neg hhr]
        have hr' : r ∈ rest := by
          rcases List.mem_cons.1 hr with e | e
          · exact absurd e.symm hhr
          · exact e
        exact i5 hnd'.2 r hr'
    · intro b hb
      rw [i6 b (fun r hr => hb r (List.mem_cons_of_mem _ hr)), p3]
      have : b ≠ (deviceList h).y := fun e => hb h (List.mem_cons_self _ _) e.symm
      simp [bufSet, this]

/-- The destination, read from the cursor value at which `order` started, is the concatenation
of the blocks of `order`. -/
theorem applyRuns_dest_list (deviceDataSource : Nat → flatEntry V) (N : Nat)
    (deviceList : Nat → Vec2u) :
    ∀ (order : List Nat) (st : BuildState V), (∀ r ∈ order, r < N) →
      (List.range' st.g_DestCounter (order.map (runLen deviceList N)).sum).map
          (applyRuns deviceDataSource N deviceList order st).deviceDataDest
        = order.flatMap (fun r =>
            (List.range (runLen deviceList N r)).map (runPayload deviceDataSource deviceList N r)) := by
  intro order
  induction order with
  | nil => intro st _; rfl
  | cons h rest ih =>
    intro st hN
    have hh : h < N := hN h (List.mem_cons_self _ _)
    obtain ⟨_, p2, _, p4⟩ := processRun_spec deviceDataSource N deviceList h st hh
    have hrest : ∀ r ∈ rest, r < N := fun r hr => hN r (List.mem_cons_of_mem _ hr)
    obtain ⟨_, i2, _⟩ := applyRuns_spec deviceDataSource N deviceList rest
      (processRun deviceDataSource N deviceList h st).2 hrest
    have ih' := ih (processRun deviceDataSource N deviceList h st).2 hrest
    rw [p2] at ih' i2
    simp only [List.map_cons, List.sum_cons, List.flatMap_cons]
    have hs := List.range'_append st.g_DestCounter (runLen deviceList N h)
      (rest.map (runLen deviceList N)).sum 1
    rw [Nat.one_mul, Nat.add_comm (rest.map (runLen deviceList N)).sum] at hs
    rw [← hs, List.map_append, applyRuns_cons, ih']
    congr 1
    rw [List.range'_eq_map_range, List.map_map]
    apply List.map_congr_left
    intro d hd
    rw [List.mem_range] at hd
    simp only [Function.comp_apply]
    rw [i2 _ (by omega), p4, if_pos (by omega)]
    congr 1
    omega

end __interal_spatialMap__

/-! ## Runs of a sorted staging list -/

namespace __interal_spatialMap__

variable {V : Type}

theorem runStartsIn_nodup (deviceList : Nat → Vec2u) (N lo hi : Nat) :
    (runStartsIn deviceList N lo hi).Nodup :=
  List.Nodup.filter _ (List.nodup_range' lo (hi - lo))

/-- The runs that start at the run starts of the list tile the list. -/
theorem runs_tile (deviceList : Nat → Vec2u) (N : Nat) :
    ∀ (fuel lo : Nat), N - lo ≤ fuel → lo ≤ N → (lo < N → IsRunStart deviceList N lo) →
      (runStartsIn deviceList N lo N).flatMap (fun r => List.range' r (runLen deviceList N r))
        = List.range' lo (N - lo) := by
  intro fuel
  induction fuel with
  | zero =>
    intro lo hf hlo _
    have : lo = N := by omega
    subst this
    rw [runStartsIn_nil_of_le deviceList lo lo lo (Or.inl (le_refl _)), Nat.sub_self]
    rfl
  | succ fuel ih =>
    intro lo hf hlo hrs
    by_cases hlt : lo < N
    · obtain ⟨hn1, hn2⟩ := runEnd_next deviceList N lo hlt
      obtain ⟨he1, he2, _, _⟩ := runEnd_spec deviceList N lo hlt
      rw [runStartsIn_cons deviceList N lo N hlt (hrs hlt),
        runStartsIn_skip deviceList N (lo + 1) (runEnd deviceList N lo) N (by omega) hn1,
        List.flatMap_cons, ih (runEnd deviceList N lo) (by omega) he2 hn2]
      unfold runLen
      exact (range_split_at lo (runEnd deviceList N lo) N (by omega) he2).symm
    · have : lo = N := by omega
      subst this
      rw [runStartsIn_nil_of_le deviceList lo lo lo (Or.inl (le_refl _)), Nat.sub_self]
      rfl

theorem allRuns_tile (deviceList : Nat → Vec2u) (N : Nat) :
    (runStartsIn deviceList N 0 N).flatMap (fun r => List.range' r (runLen deviceList N r))
      = List.range N := by
  rw [runs_tile deviceList N N 0 (by omega) (by omega) (fun h => ⟨h, Or.inl rfl⟩),
    List.range_eq_range']
  rfl

theorem sum_runLen_flatMap (deviceList : Nat → Vec2u) (N : Nat) (order : List Nat) :
    (order.map (runLen deviceList N)).sum
      = (order.flatMap (fun r => List.range' r (runLen deviceList N r))).length := by
  induction order with
  | nil => rfl
  | cons h rest ih =>
    rw [List.map_cons, List.sum_cons, List.flatMap_cons, List.length_append, List.length_range',
      ih]

/-- The run lengths of any rearrangement of the run starts add up to the length of the list. -/
theorem sum_runLen_of_perm (deviceList : Nat → Vec2u) (N : Nat) (order : List Nat)
    (hp : order.Perm (runStartsIn deviceList N 0 N)) :
    (order.map (runLen deviceList N)).sum = N := by
  rw [sum_runLen_flatMap,
    (List.Perm.flatMap_right (fun r => List.range' r (runLen deviceList N r)) hp).length_eq,
    allRuns_tile, List.length_range]

/-- A cell hash that occurs in the list occurs first at a run start. -/
theorem runStart_of_present (deviceList : Nat → Vec2u) (N b : Nat)
    (h : ∃ j, j < N ∧ (deviceList j).y = b) :
    ∃ r, IsRunStart deviceList N r ∧ (deviceList r).y = b := by
  classical
  have hmin : ∀ m, m < Nat.find h → ¬ (m < N ∧ (deviceList m).y = b) :=
    fun m hm => Nat.find_min h hm
  obtain ⟨h1, h2⟩ := Nat.find_spec h
  refine ⟨Nat.find h, ⟨h1, ?_⟩, h2⟩
  by_cases h0 : Nat.find h = 0
  · exact Or.inl h0
  · right
    intro e
    exact hmin (Nat.find h - 1) (by omega) ⟨by omega, e.trans h2⟩

/-- In a sorted list the positions holding the cell hash of a run start are exactly the positions
of its run. -/
theorem run_exact (deviceList : Nat → Vec2u) (N : Nat) (hs : SortedY deviceList N) (r : Nat)
    (hr : IsRunStart deviceList N r) (j : Nat) (hj : j < N) :
    (deviceList j).y = (deviceList r).y ↔ r ≤ j ∧ j < runEnd deviceList N r := by
  obtain ⟨he1, he2, he3, he4⟩ := runEnd_spec deviceList N r hr.1
  constructor
  · intro hy
    constructor
    · by_contra hlt
      rcases hr.2 with h0 | hne
      · omega
      · apply hne
        have a1 := hs j (r - 1) (by omega) (by omega)
        have a2 := hs (r - 1) r (by omega) hr.1
        omega
    · by_contra hge
      have hlt : runEnd deviceList N r < N := by omega
      have a1 := hs r (runEnd deviceList N r) (by omega) hlt
      have a2 := hs (runEnd deviceList N r) j (by omega) hj
      exact he4 hlt (by omega)
  · rintro ⟨h1, h2⟩
    exact he3 j h1 h2

theorem runStart_cell_inj (deviceList : Nat → Vec2u) (N : Nat) (hs : SortedY deviceList N)
    (r r' : Nat) (hr : IsRunStart deviceList N r) (hr' : IsRunStart deviceList N r')
    (hy : (deviceList r').y = (deviceList r).y) : r' = r := by
  obtain ⟨h1, h2⟩ := (run_exact deviceList N hs r hr r' hr'.1).1 hy
  by_contra hne
  exact (runEnd_next deviceList N r hr.1).1 r' (by omega) h2 hr'

theorem filter_range_interval (p : Nat → Bool) (N r e : Nat) (hre : r ≤ e) (heN : e ≤ N)
    (hp : ∀ j, j < N → (p j = true ↔ r ≤ j ∧ j < e)) :
    (List.range N).filter p = List.range' r (e - r) := by
  have h1 : List.range N = List.range' 0 (r - 0) ++ (List.range' r (e - r) ++
      List.range' e (N - e)) := by
    rw [← range_split_at r e N hre heN, ← range_split_at 0 r N (by omega) (by omega),
      List.range_eq_range']
    rfl
  rw [h1, List.filter_append, List.filter_append]
  have ha : (List.range' 0 (r - 0)).filter p = [] := by
    rw [List.filter_eq_nil_iff]
    intro j hj
    rw [List.mem_range'_1] at hj
    intro hpj
    have := (hp j (by omega)).1 hpj
    omega
  have hb : (List.range' r (e - r)).filter p = List.range' r (e - r) := by
    rw [List.filter_eq_self]
    intro j hj
    rw [List.mem_range'_1] at hj
    exact (hp j (by omega)).2 ⟨hj.1, by omega⟩
  have hc : (List.range' e (N - e)).filter p = [] := by
    rw [List.filter_eq_nil_iff]
    intro j hj
    rw [List.mem_range'_1] at hj
    intro hpj
    have := (hp j (by omega)).1 hpj
    omega
  rw [ha, hb, hc, List.nil_append, List.append_nil]

/-- In a sorted list the positions that hold the cell hash of a run start form the interval of
its run. -/
theorem filter_range_run (deviceList : Nat → Vec2u) (N : Nat) (hs : SortedY deviceList N)
    (r : Nat) (hr : IsRunStart deviceList N r) :
    (List.range N).filter (fun j => decide ((deviceList j).y = (deviceList r).y))
      = List.range' r (runLen deviceList N r) := by
  obtain ⟨he1, he2, _, _⟩ := runEnd_spec deviceList N r hr.1
  apply filter_range_interval _ N r (runEnd deviceList N r) (by omega) he2
  intro j hj
  rw [decide_eq_true_eq]
  exact run_exact deviceList N hs r hr j hj

end __interal_spatialMap__
/-! ## `PrepareForUse`: the rebuild -/

namespace SpatialGridList_Flat

open __interal_spatialMap__

variable {V : Type}

theorem numThreads_covers (n : Nat) : n ≤ 10 * numThreads n := by
  unfold numThreads
  omega

/-- With fewer than `4294967040` staged entries no window start of the launch reaches `2^32`. -/
theorem numThreads_no_wrap (n : Nat) (hn : n < 4294967040) :
    ∀ t, t < numThreads n → 10 * t < 2 ^ 32 := by
  intro t ht
  unfold numThreads at ht
  omega

theorem stagingList_length (s : SpatialGridList_Flat V) :
    s.stagingList.length = min s.idxData s.numData := by
  simp [stagingList]

theorem PrepareForUse_list_eq (s : SpatialGridList_Flat V) (sorted : List Vec2u)
    (sched : List Nat) (hlen : sorted.length = min s.idxData s.numData) (i : Nat)
    (hi : i < min s.idxData s.numData) :
    (s.PrepareForUse sorted sched).m_listBuffer i = sorted.get ⟨i, by omega⟩ := by
  show (if i < min s.idxData s.numData then sorted.getD i (s.m_listBuffer i)
    else s.m_listBuffer i) = _
  rw [if_pos hi, List.getD_eq_getElem _ _ (by omega)]
  rfl

theorem PrepareForUse_list_map (s : SpatialGridList_Flat V) (sorted : List Vec2u)
    (sched : List Nat) (hlen : sorted.length = min s.idxData s.numData) :
    (List.range (min s.idxData s.numData)).map (s.PrepareForUse sorted sched).m_listBuffer
      = sorted := by
  apply List.ext_get
  · simp [hlen]
  · intro i h1 h2
    rw [List.length_map, List.length_range] at h1
    rw [List.get_eq_getElem, List.getElem_map, List.getElem_range,
      PrepareForUse_list_eq s sorted sched hlen i h1]

theorem PrepareForUse_sortedY (s : SpatialGridList_Flat V) (sorted : List Vec2u)
    (sched : List Nat) (hlen : sorted.length = min s.idxData s.numData)
    (hsort : sorted.Pairwise (fun a b => a.y ≤ b.y)) :
    SortedY (s.PrepareForUse sorted sched).m_listBuffer (min s.idxData s.numData) := by
  intro i j hij hj
  rw [PrepareForUse_list_eq s sorted sched hlen i (by omega),
    PrepareForUse_list_eq s sorted sched hlen j hj]
  by_cases h : i = j
  · subst h; exact le_refl _
  · exact List.pairwise_iff_get.1 hsort ⟨i, by omega⟩ ⟨j, by omega⟩ (by
      show i < j
      omega)

/-- The memory `PrepareForUse` leaves is what the outer-loop body of `buildGrid` writes when it
is applied, from the reset bucket offsets and destination cursor 0, at a rearrangement `order` of
the run starts of the sorted list. -/
theorem PrepareForUse_eq_applyRuns (s : SpatialGridList_Flat V) (sorted : List Vec2u)
    (sched : List Nat)
    (hsched : sched.Perm (List.range (numThreads (min s.idxData s.numData))))
    (hn : min s.idxData s.numData < 4294967040) :
    ∃ order : List Nat,
      order.Perm (runStartsIn (s.PrepareForUse sorted sched).m_listBuffer
        (min s.idxData s.numData) 0 (min s.idxData s.numData)) ∧
      (s.PrepareForUse sorted sched).m_buffer1
        = (applyRuns s.m_buffer1 (min s.idxData s.numData)
            (s.PrepareForUse sorted sched).m_listBuffer order
            { deviceDataDest := s.m_buffer2
              deviceGrid := cudaMemset s.m_gridBuffer 0xffffffff
                (s.m_gridSize.x * s.m_gridSize.y * s.m_gridSize.z)
              g_DestCounter := 0 }).deviceDataDest ∧
      (s.PrepareForUse sorted sched).m_gridBuffer
        = (applyRuns s.m_buffer1 (min s.idxData s.numData)
            (s.PrepareForUse sorted sched).m_listBuffer order
            { deviceDataDest := s.m_buffer2
              deviceGrid := cudaMemset s.m_gridBuffer 0xffffffff
                (s.m_gridSize.x * s.m_gridSize.y * s.m_gridSize.z)
              g_DestCounter := 0 }).deviceGrid ∧
      (s.PrepareForUse sorted sched).deviceIdxCounter
        = (applyRuns s.m_buffer1 (min s.idxData s.numData)
            (s.PrepareForUse sorted sched).m_listBuffer order
            { deviceDataDest := s.m_buffer2
              deviceGrid := cudaMemset s.m_gridBuffer 0xffffffff
                (s.m_gridSize.x * s.m_gridSize.y * s.m_gridSize.z)
              g_DestCounter := 0 }).g_DestCounter := by
  refine ⟨sched.flatMap (fun t => runStartsIn (s.PrepareForUse sorted sched).m_listBuffer
      (min s.idxData s.numData) ((10 * t) % 2 ^ 32) ((10 * t) % 2 ^ 32 + 10)), ?_, ?_, ?_, ?_⟩
  · exact launch_order_perm _ _ 10 _ (numThreads_covers _) (numThreads_no_wrap _ hn) sched
      hsched
  · rw [← launch_eq_applyRuns]; rfl
  · rw [← launch_eq_applyRuns]; rfl
  · rw [← launch_eq_applyRuns]; rfl

end SpatialGridList_Flat

namespace SpatialGridList_Flat

open __interal_spatialMap__

variable {V : Type}

/-- The rebuild, run by run. With the staging list sorted by cell hash into `sorted` and the
threads of the launch run in the order `sched`, there is an order `order` of the run starts of the
sorted list such that every run's block lies at the offset its turn in `order` gives it, holds the
run's payloads with the last one marked, and is where the bucket offset of the run's cell
points. -/
theorem PrepareForUse_runs (s : SpatialGridList_Flat V) (sorted : List Vec2u) (sched : List Nat)
    (hlen : sorted.length = min s.idxData s.numData)
    (hsort : sorted.Pairwise (fun a b => a.y ≤ b.y))
    (hsched : sched.Perm (List.range (numThreads (min s.idxData s.numData))))
    (hn : min s.idxData s.numData < 4294967040) :
    ∃ order : List Nat,
      order.Nodup ∧
      (∀ r, r ∈ order ↔ IsRunStart (s.PrepareForUse sorted sched).m_listBuffer
        (min s.idxData s.numData) r) ∧
      (order.map (runLen (s.PrepareForUse sorted sched).m_listBuffer
        (min s.idxData s.numData))).sum = min s.idxData s.numData ∧
      (∀ r ∈ order,
        (s.PrepareForUse sorted sched).m_gridBuffer
            ((s.PrepareForUse sorted sched).m_listBuffer r).y
          = offsetOf (runLen (s.PrepareForUse sorted sched).m_listBuffer
              (min s.idxData s.numData)) order r 0) ∧
      (∀ r ∈ order, ∀ d,
        d < runLen (s.PrepareForUse sorted sched).m_listBuffer (min s.idxData s.numData) r →
        (s.PrepareForUse sorted sched).m_buffer1
            (offsetOf (runLen (s.PrepareForUse sorted sched).m_listBuffer
              (min s.idxData s.numData)) order r 0 + d)
          = runPayload s.m_buffer1 (s.PrepareForUse sorted sched).m_listBuffer
              (min s.idxData s.numData) r d) ∧
      (∀ b, (∀ r ∈ order, ((s.PrepareForUse sorted sched).m_listBuffer r).y ≠ b) →
        (s.PrepareForUse sorted sched).m_gridBuffer b
          = cudaMemset s.m_gridBuffer 0xffffffff
              (s.m_gridSize.x * s.m_gridSize.y * s.m_gridSize.z) b) ∧
      ((List.range (min s.idxData s.numData)).map (s.PrepareForUse sorted sched).m_buffer1
        = order.flatMap (fun r =>
            (List.range (runLen (s.PrepareForUse sorted sched).m_listBuffer
              (min s.idxData s.numData) r)).map
              (runPayload s.m_buffer1 (s.PrepareForUse sorted sched).m_listBuffer
                (min s.idxData s.numData) r))) ∧
      order.Perm (runStartsIn (s.PrepareForUse sorted sched).m_listBuffer
        (min s.idxData s.numData) 0 (min s.idxData s.numData)) ∧
      (s.PrepareForUse sorted sched).deviceIdxCounter = min s.idxData s.numData := by
  obtain ⟨order, hperm, hb1, hgrid, hcnt⟩ := PrepareForUse_eq_applyRuns s sorted sched hsched hn
  have hsy := PrepareForUse_sortedY s sorted sched hlen hsort
  generalize (s.PrepareForUse sorted sched).m_listBuffer = list at hperm hb1 hgrid hcnt hsy ⊢
  generalize min s.idxData s.numData = n at hperm hb1 hgrid hcnt hsy ⊢
  have hmem : ∀ r, r ∈ order ↔ IsRunStart list n r := by
    intro r
    rw [hperm.mem_iff, mem_runStartsIn]
    constructor
    · exact fun h => h.2
    · exact fun h => ⟨⟨Nat.zero_le _, h.1⟩, h⟩
  have hnd : order.Nodup := hperm.nodup_iff.2 (runStartsIn_nodup list n 0 n)
  have hlt : ∀ r ∈ order, r < n := fun r hr => ((hmem r).1 hr).1
  have hcells : (order.map (fun r => (list r).y)).Nodup := by
    apply List.Nodup.map_on _ hnd
    intro r hr r' hr' e
    exact (runStart_cell_inj list n hsy r' r ((hmem r').1 hr') ((hmem r).1 hr) e)
  have hsum := sum_runLen_of_perm list n order hperm
  obtain ⟨a1, _, _, a4, a5, a6⟩ := applyRuns_spec s.m_buffer1 n list order
    { deviceDataDest := s.m_buffer2
      deviceGrid := cudaMemset s.m_gridBuffer 0xffffffff
        (s.m_gridSize.x * s.m_gridSize.y * s.m_gridSize.z)
      g_DestCounter := 0 } hlt
  have a7 := applyRuns_dest_list s.m_buffer1 n list order
    { deviceDataDest := s.m_buffer2
      deviceGrid := cudaMemset s.m_gridBuffer 0xffffffff
        (s.m_gridSize.x * s.m_gridSize.y * s.m_gridSize.z)
      g_DestCounter := 0 } hlt
  rw [← hb1] at a4 a7
  rw [← hgrid] at a5 a6
  rw [← hcnt, hsum] at a1
  rw [hsum, ← List.range_eq_range'] at a7
  exact ⟨order, hnd, hmem, hsum, a5 hcells, a4, a6, a7, hperm, by simpa using a1⟩

end SpatialGridList_Flat
namespace SpatialGridList_Flat

open __interal_spatialMap__

variable {V : Type}

theorem count_map_eq_filter_length {α : Type} (f : α → Nat) (b : Nat) (l : List α) :
    (l.map f).count b = (l.filter (fun x => decide (f x = b))).length := by
  induction l with
  | nil => rfl
  | cons a l ih =>
    rw [List.map_cons, List.count_cons, ih, List.filter_cons]
    by_cases h : f a = b
    · simp [h]
    · simp [h]

theorem bucketCount_eq_filter (s : SpatialGridList_Flat V) (b : Nat) :
    bucketCount s b = (s.stagingList.filter (fun e => decide (e.y = b))).length :=
  count_map_eq_filter_length _ b _

/-- The staged entries of a bucket form one run of the sorted list. -/
theorem bucket_run (s : SpatialGridList_Flat V) (sorted : List Vec2u) (sched : List Nat)
    (hperm : sorted.Perm s.stagingList) (hsort : sorted.Pairwise (fun a b => a.y ≤ b.y))
    (b : Nat) (hb : b ∈ stagedHashes s) :
    ∃ r, IsRunStart (s.PrepareForUse sorted sched).m_listBuffer (min s.idxData s.numData) r ∧
      ((s.PrepareForUse sorted sched).m_listBuffer r).y = b ∧
      runLen (s.PrepareForUse sorted sched).m_listBuffer (min s.idxData s.numData) r
        = bucketCount s b ∧
      (List.range' r (bucketCount s b)).map (s.PrepareForUse sorted sched).m_listBuffer
        = sorted.filter (fun e => decide (e.y = b)) := by
  have hlen : sorted.length = min s.idxData s.numData := by
    rw [hperm.length_eq, stagingList_length]
  have hmap := PrepareForUse_list_map s sorted sched hlen
  have hsy := PrepareForUse_sortedY s sorted sched hlen hsort
  have hcount : bucketCount s b = (sorted.filter (fun e => decide (e.y = b))).length := by
    rw [bucketCount_eq_filter]
    exact ((hperm.filter _).length_eq).symm
  rw [hcount]
  generalize (s.PrepareForUse sorted sched).m_listBuffer = list at hmap hsy ⊢
  generalize min s.idxData s.numData = n at hmap hsy ⊢
  -- the hash occurs in the sorted list
  have hpres : ∃ j, j < n ∧ (list j).y = b := by
    unfold stagedHashes at hb
    obtain ⟨e, he, hey⟩ := List.mem_map.1 hb
    have he' : e ∈ sorted := hperm.mem_iff.2 he
    rw [← hmap] at he'
    obtain ⟨j, hj, hje⟩ := List.mem_map.1 he'
    exact ⟨j, List.mem_range.1 hj, by rw [hje, hey]⟩
  obtain ⟨r, hr, hry⟩ := runStart_of_present list n b hpres
  have hfilter : sorted.filter (fun e => decide (e.y = b))
      = (List.range' r (runLen list n r)).map list := by
    rw [← hmap, List.filter_map, ← filter_range_run list n hsy r hr]
    congr 1
    apply List.filter_congr
    intro j _
    simp [hry]
  refine ⟨r, hr, hry, ?_, ?_⟩
  · rw [hfilter, List.length_map, List.length_range']
  · rw [hfilter, List.length_map, List.length_range']

end SpatialGridList_Flat
namespace SpatialGridList_Flat

open __interal_spatialMap__

variable {V : Type}

theorem runPayload_value (src : Nat → flatEntry V) (list : Nat → Vec2u) (n r d : Nat) :
    (runPayload src list n r d).value = (src (list (r + d)).x).value := by
  unfold runPayload
  split <;> rfl

theorem runPayload_flag (src : Nat → flatEntry V) (list : Nat → Vec2u) (n r d : Nat) :
    (runPayload src list n r d).flag
      = if d + 1 = runLen list n r then true else (src (list (r + d)).x).flag := by
  unfold runPayload
  split <;> rfl

/-- The rebuild, bucket by bucket. After `PrepareForUse`, the block of every bucket that has
staged entries starts at the bucket's offset, has as many elements as the bucket has staged
entries, and holds the payloads of the bucket's run of the sorted list, the last one marked; the
blocks of different buckets are disjoint and together cover the indices below the stored-entry
count; a bucket without staged entries keeps the offset the reset stage left. -/
theorem PrepareForUse_buckets (s : SpatialGridList_Flat V) (sorted : List Vec2u)
    (sched : List Nat) (hperm : sorted.Perm s.stagingList)
    (hsort : sorted.Pairwise (fun a b => a.y ≤ b.y))
    (hsched : sched.Perm (List.range (numThreads (min s.idxData s.numData))))
    (hn : min s.idxData s.numData < 4294967040) :
    (∀ b ∈ stagedHashes s,
      1 ≤ bucketCount s b ∧
      (s.PrepareForUse sorted sched).m_gridBuffer b + bucketCount s b
        ≤ min s.idxData s.numData ∧
      ∃ r, r + bucketCount s b ≤ min s.idxData s.numData ∧
        (List.range' r (bucketCount s b)).map (s.PrepareForUse sorted sched).m_listBuffer
          = sorted.filter (fun e => decide (e.y = b)) ∧
        ∀ d, d < bucketCount s b →
          (s.PrepareForUse sorted sched).m_buffer1
              ((s.PrepareForUse sorted sched).m_gridBuffer b + d)
            = if d + 1 = bucketCount s b then
                (s.m_buffer1 ((s.PrepareForUse sorted sched).m_listBuffer (r + d)).x).setFlag
              else s.m_buffer1 ((s.PrepareForUse sorted sched).m_listBuffer (r + d)).x) ∧
    (∀ b ∈ stagedHashes s, ∀ b' ∈ stagedHashes s, b ≠ b' →
      (s.PrepareForUse sorted sched).m_gridBuffer b + bucketCount s b
          ≤ (s.PrepareForUse sorted sched).m_gridBuffer b' ∨
        (s.PrepareForUse sorted sched).m_gridBuffer b' + bucketCount s b'
          ≤ (s.PrepareForUse sorted sched).m_gridBuffer b) ∧
    (∀ k, k < min s.idxData s.numData → ∃ b ∈ stagedHashes s,
      (s.PrepareForUse sorted sched).m_gridBuffer b ≤ k ∧
        k < (s.PrepareForUse sorted sched).m_gridBuffer b + bucketCount s b) ∧
    (∀ b, b ∉ stagedHashes s →
      (s.PrepareForUse sorted sched).m_gridBuffer b
        = cudaMemset s.m_gridBuffer 0xffffffff
            (s.m_gridSize.x * s.m_gridSize.y * s.m_gridSize.z) b) := by
  have hlen : sorted.length = min s.idxData s.numData := by
    rw [hperm.length_eq, stagingList_length]
  obtain ⟨order, hnd, hmem, hsum, hgrid, hdest, hkeep, _, _, _⟩ :=
    PrepareForUse_runs s sorted sched hlen hsort hsched hn
  have hmap := PrepareForUse_list_map s sorted sched hlen
  -- the run of a staged bucket, with its offset
  have hrun : ∀ b ∈ stagedHashes s, ∃ r, r ∈ order ∧
      ((s.PrepareForUse sorted sched).m_listBuffer r).y = b ∧
      runLen (s.PrepareForUse sorted sched).m_listBuffer (min s.idxData s.numData) r
        = bucketCount s b ∧
      (List.range' r (bucketCount s b)).map (s.PrepareForUse sorted sched).m_listBuffer
        = sorted.filter (fun e => decide (e.y = b)) ∧
      (s.PrepareForUse sorted sched).m_gridBuffer b
        = offsetOf (runLen (s.PrepareForUse sorted sched).m_listBuffer
            (min s.idxData s.numData)) order r 0 := by
    intro b hb
    obtain ⟨r, hr, hry, hrl, hrf⟩ := bucket_run s sorted sched hperm hsort b hb
    have hro := (hmem r).2 hr
    refine ⟨r, hro, hry, hrl, hrf, ?_⟩
    rw [← hry]
    exact hgrid r hro
  -- a run start's cell is a staged hash
  have hcell : ∀ r ∈ order, ((s.PrepareForUse sorted sched).m_listBuffer r).y ∈ stagedHashes s := by
    intro r hr
    have hlt : r < min s.idxData s.numData := ((hmem r).1 hr).1
    have h1 : (s.PrepareForUse sorted sched).m_listBuffer r ∈ sorted := by
      have h0 : (s.PrepareForUse sorted sched).m_listBuffer r ∈
          (List.range (min s.idxData s.numData)).map
            (s.PrepareForUse sorted sched).m_listBuffer :=
        List.mem_map.2 ⟨r, List.mem_range.2 hlt, rfl⟩
      rw [hmap] at h0
      exact h0
    exact List.mem_map.2 ⟨_, hperm.mem_iff.1 h1, rfl⟩
  refine ⟨?_, ?_, ?_, ?_⟩
  · intro b hb
    obtain ⟨r, hro, hry, hrl, hrf, hoff⟩ := hrun b hb
    have hr := (hmem r).1 hro
    obtain ⟨he1, he2, _, _⟩ := runEnd_spec (s.PrepareForUse sorted sched).m_listBuffer
      (min s.idxData s.numData) r hr.1
    have hb1 := offsetOf_bounds (runLen (s.PrepareForUse sorted sched).m_listBuffer
      (min s.idxData s.numData)) order r 0 hro
    rw [hsum, hrl, ← hoff] at hb1
    have hrl' := hrl
    unfold runLen at hrl'
    refine ⟨by omega, by omega, r, by omega, hrf, ?_⟩
    intro d hd
    have := hdest r hro d (by rw [hrl]; exact hd)
    rw [← hoff] at this
    rw [this]
    unfold runPayload
    rw [hrl]
  · intro b hb b' hb' hne
    obtain ⟨r, hro, hry, hrl, _, hoff⟩ := hrun b hb
    obtain ⟨r', hro', hry', hrl', _, hoff'⟩ := hrun b' hb'
    have hrr : r ≠ r' := by
      intro e
      apply hne
      rw [← hry, ← hry', e]
    have := offsetOf_disjoint (runLen (s.PrepareForUse sorted sched).m_listBuffer
      (min s.idxData s.numData)) order 0 r r' hnd hro hro' hrr
    rw [hrl, hrl', ← hoff, ← hoff'] at this
    exact this
  · intro k hk
    obtain ⟨r, hro, h1, h2⟩ := offsetOf_cover (runLen (s.PrepareForUse sorted sched).m_listBuffer
      (min s.idxData s.numData)) order 0 k hnd (Nat.zero_le _) (by rw [hsum]; omega)
    have hb := hcell r hro
    obtain ⟨r', hro', hry', hrl', _, hoff'⟩ := hrun _ hb
    have hrr : r' = r := by
      have hsy := PrepareForUse_sortedY s sorted sched hlen hsort
      exact runStart_cell_inj _ _ hsy r r' ((hmem r).1 hro) ((hmem r').1 hro') hry'
    subst hrr
    refine ⟨_, hb, ?_, ?_⟩
    · rw [hoff']; exact h1
    · rw [hoff', ← hrl']; exact h2
  · intro b hb
    apply hkeep
    intro r hr e
    exact hb (e ▸ hcell r hr)

/-- The dense buffer below the stored-entry count holds, marker aside, a rearrangement of the
payloads the staging list refers to. -/
theorem PrepareForUse_values_perm (s : SpatialGridList_Flat V) (sorted : List Vec2u)
    (sched : List Nat) (hperm : sorted.Perm s.stagingList)
    (hsort : sorted.Pairwise (fun a b => a.y ≤ b.y))
    (hsched : sched.Perm (List.range (numThreads (min s.idxData s.numData))))
    (hn : min s.idxData s.numData < 4294967040) :
    ((List.range (min s.idxData s.numData)).map
        (fun k => ((s.PrepareForUse sorted sched).m_buffer1 k).value)).Perm
      (s.stagingList.map (fun e => (s.m_buffer1 e.x).value)) := by
  have hlen : sorted.length = min s.idxData s.numData := by
    rw [hperm.length_eq, stagingList_length]
  obtain ⟨order, _, _, _, _, _, _, hflat, hord, _⟩ :=
    PrepareForUse_runs s sorted sched hlen hsort hsched hn
  have hmap := PrepareForUse_list_map s sorted sched hlen
  have h1 : (List.range (min s.idxData s.numData)).map
      (fun k => ((s.PrepareForUse sorted sched).m_buffer1 k).value)
      = (order.flatMap (fun r => List.range' r (runLen (s.PrepareForUse sorted sched).m_listBuffer
          (min s.idxData s.numData) r))).map
          (fun j => (s.m_buffer1 ((s.PrepareForUse sorted sched).m_listBuffer j).x).value) := by
    have : (List.range (min s.idxData s.numData)).map
        (fun k => ((s.PrepareForUse sorted sched).m_buffer1 k).value)
        = ((List.range (min s.idxData s.numData)).map
            (s.PrepareForUse sorted sched).m_buffer1).map flatEntry.value := by
      rw [List.map_map]; rfl
    rw [this, hflat, List.map_flatMap, List.map_flatMap]
    congr 1
    funext r
    rw [List.range'_eq_map_range, List.map_map, List.map_map]
    apply List.map_congr_left
    intro d _
    simp only [Function.comp_apply]
    exact runPayload_value _ _ _ _ _
  rw [h1]
  have h2 := (List.Perm.flatMap_right (fun r => List.range' r
    (runLen (s.PrepareForUse sorted sched).m_listBuffer (min s.idxData s.numData) r)) hord).map
    (fun j => (s.m_buffer1 ((s.PrepareForUse sorted sched).m_listBuffer j).x).value)
  rw [allRuns_tile] at h2
  refine h2.trans ?_
  have h3 : (List.range (min s.idxData s.numData)).map
      (fun j => (s.m_buffer1 ((s.PrepareForUse sorted sched).m_listBuffer j).x).value)
      = sorted.map (fun e => (s.m_buffer1 e.x).value) := by
    conv_rhs => rw [← hmap]
    rw [List.map_map]
    rfl
  rw [h3]
  exact hperm.map _

end SpatialGridList_Flat

/-! ## The store phase of the flat structure -/

namespace SpatialGridList_Flat

variable {V : Type}

theorem atomicInc_le (c : Nat) : atomicInc c 0xffffffff ≤ c + 1 := by
  unfold atomicInc
  split <;> omega

theorem Store_full (H : Vec3u → Nat) (s : SpatialGridList_Flat V) (p : Vec3u)
    (v : flatEntry V) (h : s.numData ≤ s.idxData) :
    Store H s p v = ({ s with idxData := atomicInc s.idxData 0xffffffff }, 0xffffffff) := by
  unfold Store
  dsimp only
  rw [if_pos h]

theorem Store_room (H : Vec3u → Nat) (s : SpatialGridList_Flat V) (p : Vec3u)
    (v : flatEntry V) (h : ¬ s.numData ≤ s.idxData) :
    Store H s p v
      = ({ s with
            idxData := atomicInc s.idxData 0xffffffff
            m_buffer1 := bufSet s.m_buffer1 s.idxData v
            m_listBuffer := bufSet s.m_listBuffer s.idxData ⟨s.idxData, H p⟩ }, s.idxData) := by
  unfold Store
  dsimp only
  rw [if_neg h]

theorem StorePhase_reset (P : flatEntry V → Prop) (s : SpatialGridList_Flat V) :
    StorePhase P s.ResetBuffer :=
  ⟨0, Nat.le_refl _, fun _ hi _ => absurd hi (Nat.not_lt_zero _)⟩

theorem StorePhase_Store (P : flatEntry V → Prop) (H : Vec3u → Nat)
    (s : SpatialGridList_Flat V) (p : Vec3u) (v : flatEntry V) (hv : P v)
    (hs : StorePhase P s) : StorePhase P (Store H s p v).1 := by
  obtain ⟨hw, h1, h2⟩ := hs
  have hinc := atomicInc_le s.idxData
  by_cases hfull : s.numData ≤ s.idxData
  · rw [Store_full H s p v hfull]
    refine ⟨max hw (s.idxData + 1), ?_, ?_⟩
    · show atomicInc s.idxData 0xffffffff ≤ _
      omega
    · intro i _ hi
      exact h2 i (by show i < hw; dsimp only at hi; omega) hi
  · rw [Store_room H s p v hfull]
    refine ⟨max hw (s.idxData + 1), ?_, ?_⟩
    · show atomicInc s.idxData 0xffffffff ≤ _
      omega
    · intro i hi1 hi2
      show (bufSet s.m_listBuffer s.idxData ⟨s.idxData, H p⟩ i).x = i ∧
        P (bufSet s.m_buffer1 s.idxData v i)
      unfold bufSet
      by_cases hi : i = s.idxData
      · rw [if_pos hi, if_pos hi]
        exact ⟨hi.symm, hv⟩
      · rw [if_neg hi, if_neg hi]
        exact h2 i (by omega) hi2

theorem StorePhase_storeAll (P : flatEntry V → Prop) (H : Vec3u → Nat) :
    ∀ (calls : List (Vec3u × flatEntry V)) (s : SpatialGridList_Flat V),
      (∀ a ∈ calls, P a.2) → StorePhase P s → StorePhase P (storeAll H s calls).1 := by
  intro calls
  induction calls with
  | nil => intro s _ hs; exact hs
  | cons a rest ih =>
    intro s hP hs
    obtain ⟨p, v⟩ := a
    exact ih (Store H s p v).1 (fun a ha => hP a (List.mem_cons_of_mem _ ha))
      (StorePhase_Store P H s p v (hP (p, v) (List.mem_cons_self _ _)) hs)

theorem StorePhase_live (P : flatEntry V → Prop) (s : SpatialGridList_Flat V)
    (hs : StorePhase P s) (i : Nat) (hi : i < min s.idxData s.numData) :
    (s.m_listBuffer i).x = i ∧ P (s.m_buffer1 i) := by
  obtain ⟨hw, h1, h2⟩ := hs
  exact h2 i (by omega) (by omega)

/-- In a store phase the staging list, with each pair's payload looked up through its origin
index, is the list of staged (hash, payload) pairs. -/
theorem stagingList_pairs (P : flatEntry V → Prop) (s : SpatialGridList_Flat V)
    (hs : StorePhase P s) :
    s.stagingList.map (fun e => (e.y, s.m_buffer1 e.x)) = stagedPairs s := by
  unfold stagingList stagedPairs
  rw [List.map_map]
  apply List.map_congr_left
  intro i hi
  rw [List.mem_range] at hi
  simp only [Function.comp_apply]
  rw [(StorePhase_live P s hs i hi).1]

/-- A pass that does not wrap the cursor appends to the staged pairs the (hash, payload) pairs of
the calls that did not return the sentinel, in call order. -/
theorem stagedPairs_storeAll (H : Vec3u → Nat) :
    ∀ (calls : List (Vec3u × flatEntry V)) (s : SpatialGridList_Flat V),
      s.idxData + calls.length ≤ 0xffffffff →
      stagedPairs (storeAll H s calls).1
        = stagedPairs s ++
          ((calls.zip (storeAll H s calls).2).filter (fun cr => decide (cr.2 ≠ SENTINEL))).map
            (fun cr => (H cr.1.1, cr.1.2)) := by
  intro calls
  induction calls with
  | nil => intro s _; simp [storeAll]
  | cons a rest ih =>
    intro s hlen
    obtain ⟨p, v⟩ := a
    simp only [List.length_cons] at hlen
    have hcur : s.idxData < 0xffffffff := by omega
    have hunf : storeAll H s ((p, v) :: rest)
        = ((storeAll H (Store H s p v).1 rest).1,
            (Store H s p v).2 :: (storeAll H (Store H s p v).1 rest).2) := rfl
    rw [hunf]
    dsimp only
    rw [ih (Store H s p v).1 (by rw [Store_idxData, atomicInc_lt hcur]; omega),
      List.zip_cons_cons, List.filter_cons]
    by_cases hfull : s.numData ≤ s.idxData
    · have h1 : (Store H s p v).2 = SENTINEL := by rw [Store_full H s p v hfull]; rfl
      have h2 : stagedPairs (Store H s p v).1 = stagedPairs s := by
        rw [Store_full H s p v hfull]
        unfold stagedPairs
        dsimp only
        rw [atomicInc_lt hcur, show min (s.idxData + 1) s.numData = min s.idxData s.numData by
          omega]
      rw [h2]
      simp [h1]
    · have h1 : (Store H s p v).2 = s.idxData := by rw [Store_room H s p v hfull]
      have hne : s.idxData ≠ SENTINEL := by unfold SENTINEL; omega
      have h2 : stagedPairs (Store H s p v).1 = stagedPairs s ++ [(H p, v)] := by
        rw [Store_room H s p v hfull]
        unfold stagedPairs
        dsimp only
        rw [atomicInc_lt hcur, show min (s.idxData + 1) s.numData = s.idxData + 1 by omega,
          show min s.idxData s.numData = s.idxData by omega, List.range_succ, List.map_append]
        congr 1
        · apply List.map_congr_left
          intro i hi
          rw [List.mem_range] at hi
          have : i ≠ s.idxData := by omega
          simp [bufSet, this]
        · simp [bufSet]
      rw [h2, h1]
      simp [hne]

end SpatialGridList_Flat
/-! ## Enumeration of a block of the dense buffer -/

namespace SpatialGridList_Flat

open __interal_spatialMap__

variable {V : Type}

theorem scan_ge (s : SpatialGridList_Flat V) (m i : Nat) (h : s.idxData ≤ i) :
    scan s m i = [] := by
  cases m with
  | zero => rfl
  | succ m => simp only [scan]; rw [if_neg (by omega)]

/-- The scan of a block whose last element, and no other, carries the marker. -/
theorem scan_block (s : SpatialGridList_Flat V) (hid : s.idxData ≤ UINT_MAX) :
    ∀ (cnt off m : Nat), cnt + 1 ≤ m → off + (cnt + 1) ≤ s.idxData →
      (∀ d, d < cnt + 1 → (s.m_buffer1 (off + d)).getFlag = decide (d = cnt)) →
      scan s m off = (List.range' off (cnt + 1)).map (fun k => (k, s.m_buffer1 k)) := by
  intro cnt
  induction cnt with
  | zero =>
    intro off m hm hoff hflag
    obtain ⟨m', rfl⟩ : ∃ m', m = m' + 1 := ⟨m - 1, by omega⟩
    have h0 := hflag 0 (by omega)
    rw [Nat.add_zero] at h0
    simp only [scan]
    rw [if_pos (by omega), h0]
    simp only [decide_True, if_true]
    rw [scan_ge s m' UINT_MAX hid]
    rfl
  | succ cnt ih =>
    intro off m hm hoff hflag
    obtain ⟨m', rfl⟩ : ∃ m', m = m' + 1 := ⟨m - 1, by omega⟩
    have h0 := hflag 0 (by omega)
    rw [Nat.add_zero] at h0
    simp only [scan]
    rw [if_pos (by omega), h0]
    have hne : ¬ (0 = cnt + 1) := by omega
    simp only [hne, decide_False, Bool.false_eq_true, if_false]
    rw [ih (off + 1) m' (by omega) (by omega) ?_]
    · rw [List.range'_succ off (cnt + 1), List.map_cons]
    · intro d hd
      have := hflag (d + 1) (by omega)
      rw [show off + 1 + d = off + (d + 1) by omega, this]
      simp

theorem storeAll_idxData_lt (H : Vec3u → Nat) (calls : List (Vec3u × flatEntry V))
    (s : SpatialGridList_Flat V) :
    (storeAll H s.ResetBuffer calls).1.idxData < 2 ^ 32 := by
  rw [storeAll_idxData H calls s.ResetBuffer (by simp [ResetBuffer])]
  exact Nat.mod_lt _ (by norm_num)

/-- After `PrepareForUse` on a staging area whose payloads all have the marker clear, the
enumeration of a cell whose bucket has staged entries reports the bucket's block, element by
element, and only the last reported element carries the marker. -/
theorem ForAllCellEntries_block (H : Vec3u → Nat) (s : SpatialGridList_Flat V)
    (sorted : List Vec2u) (sched : List Nat) (hperm : sorted.Perm s.stagingList)
    (hsort : sorted.Pairwise (fun a b => a.y ≤ b.y))
    (hsched : sched.Perm (List.range (numThreads (min s.idxData s.numData))))
    (hn : min s.idxData s.numData < 4294967040)
    (hid : s.idxData < 2 ^ 32)
    (hclear : ∀ e ∈ s.stagingList, (s.m_buffer1 e.x).flag = false)
    (c : Vec3u) (hc : H c ∈ stagedHashes s) :
    ForAllCellEntries H (s.PrepareForUse sorted sched) c UINT_MAX
        = (List.range' ((s.PrepareForUse sorted sched).m_gridBuffer (H c))
            (bucketCount s (H c))).map
            (fun k => (k, (s.PrepareForUse sorted sched).m_buffer1 k)) ∧
      (∀ d, d < bucketCount s (H c) →
        ((s.PrepareForUse sorted sched).m_buffer1
            ((s.PrepareForUse sorted sched).m_gridBuffer (H c) + d)).getFlag
          = decide (d + 1 = bucketCount s (H c))) := by
  obtain ⟨hb, _, _, _⟩ := PrepareForUse_buckets s sorted sched hperm hsort hsched hn
  obtain ⟨h1, h2, r, hr, hrf, hblock⟩ := hb (H c) hc
  have hflag : ∀ d, d < bucketCount s (H c) →
      ((s.PrepareForUse sorted sched).m_buffer1
          ((s.PrepareForUse sorted sched).m_gridBuffer (H c) + d)).getFlag
        = decide (d + 1 = bucketCount s (H c)) := by
    intro d hd
    rw [hblock d hd]
    have hmem : (s.PrepareForUse sorted sched).m_listBuffer (r + d) ∈ s.stagingList := by
      have h0 : (s.PrepareForUse sorted sched).m_listBuffer (r + d)
          ∈ (List.range' r (bucketCount s (H c))).map
              (s.PrepareForUse sorted sched).m_listBuffer :=
        List.mem_map.2 ⟨r + d, by rw [List.mem_range'_1]; omega, rfl⟩
      rw [hrf] at h0
      exact hperm.mem_iff.1 (List.mem_of_mem_filter h0)
    have hcl := hclear _ hmem
    by_cases hlast : d + 1 = bucketCount s (H c)
    · rw [if_pos hlast]
      simp [flatEntry.getFlag, flatEntry.setFlag, hlast]
    · rw [if_neg hlast]
      simp [flatEntry.getFlag, hcl, hlast]
  refine ⟨?_, hflag⟩
  unfold ForAllCellEntries
  obtain ⟨cnt, hcnt⟩ : ∃ cnt, bucketCount s (H c) = cnt + 1 :=
    ⟨bucketCount s (H c) - 1, by omega⟩
  rw [hcnt] at h2 hflag ⊢
  apply scan_block (s.PrepareForUse sorted sched)
    (by rw [PrepareForUse_idxData]; unfold UINT_MAX; omega) cnt _ UINT_MAX
  · unfold UINT_MAX; omega
  · rw [PrepareForUse_idxData]; exact h2
  · intro d hd
    rw [hflag d hd]
    simp

end SpatialGridList_Flat

/-! ## Contents of a bucket's block -/

namespace SpatialGridList_Flat

open __interal_spatialMap__

variable {V : Type}

/-- The block of a staged bucket holds, marker aside, a rearrangement of the payloads of the
bucket's staged entries. -/
theorem block_values_perm (s : SpatialGridList_Flat V) (sorted : List Vec2u) (sched : List Nat)
    (hperm : sorted.Perm s.stagingList) (hsort : sorted.Pairwise (fun a b => a.y ≤ b.y))
    (hsched : sched.Perm (List.range (numThreads (min s.idxData s.numData))))
    (hn : min s.idxData s.numData < 4294967040)
    (b : Nat) (hb : b ∈ stagedHashes s) :
    ((List.range' ((s.PrepareForUse sorted sched).m_gridBuffer b) (bucketCount s b)).map
        (fun k => ((s.PrepareForUse sorted sched).m_buffer1 k).value)).Perm
      ((s.stagingList.filter (fun e => decide (e.y = b))).map
        (fun e => (s.m_buffer1 e.x).value)) := by
  obtain ⟨hbk, _, _, _⟩ := PrepareForUse_buckets s sorted sched hperm hsort hsched hn
  obtain ⟨_, _, r, _, hrf, hblock⟩ := hbk b hb
  have h1 : (List.range' ((s.PrepareForUse sorted sched).m_gridBuffer b) (bucketCount s b)).map
      (fun k => ((s.PrepareForUse sorted sched).m_buffer1 k).value)
      = ((List.range' r (bucketCount s b)).map (s.PrepareForUse sorted sched).m_listBuffer).map
          (fun e => (s.m_buffer1 e.x).value) := by
    rw [List.range'_eq_map_range, List.range'_eq_map_range, List.map_map, List.map_map,
      List.map_map]
    apply List.map_congr_left
    intro d hd
    rw [List.mem_range] at hd
    simp only [Function.comp_apply]
    rw [hblock d hd]
    split <;> rfl
  rw [h1, hrf]
  exact (hperm.filter _).map _

theorem filter_flag_block {α : Type} (f : Nat → α) (p : α → Bool) (off cnt : Nat)
    (h : ∀ d, d < cnt + 1 → p (f (off + d)) = decide (d = cnt)) :
    ((List.range' off (cnt + 1)).map f).filter p = [f (off + cnt)] := by
  rw [List.range'_concat, List.map_append, List.filter_append, Nat.one_mul]
  have h1 : ((List.range' off cnt).map f).filter p = [] := by
    rw [List.filter_eq_nil_iff]
    intro a ha
    obtain ⟨k, hk, rfl⟩ := List.mem_map.1 ha
    rw [List.mem_range'_1] at hk
    have := h (k - off) (by omega)
    rw [show off + (k - off) = k by omega] at this
    rw [this]
    simp
    omega
  have h2 : ([off + cnt].map f).filter p = [f (off + cnt)] := by
    have := h cnt (by omega)
    simp [this]
  rw [h1, h2, List.nil_append]

end SpatialGridList_Flat

/-! ## C5: flat round trip -/

theorem storedValues_eq_stagedPairs {V : Type} (H : Vec3u → Nat) (b : Nat)
    (calls : List (Vec3u × flatEntry V)) (results : List Nat) :
    storedValues H b calls results
      = ((((calls.zip results).filter (fun cr => decide (cr.2 ≠ SENTINEL))).map
          (fun cr => (H cr.1.1, cr.1.2))).filter (fun e => decide (e.1 = b))).map Prod.snd := by
  unfold storedValues
  rw [List.filter_map, List.map_map, List.filter_filter]
  congr 1
  apply List.filter_congr
  intro cr _
  simp [and_comm]

/-- After `ResetBuffer` and fewer than `2^32` stores, the payloads of the staged entries of a
bucket, looked up through the staging list, are the values successfully stored to the bucket, in
call order. -/
theorem staged_bucket_values {V : Type} (H : Vec3u → Nat) (s : SpatialGridList_Flat V)
    (calls : List (Vec3u × flatEntry V)) (hN : calls.length < 2 ^ 32) (b : Nat) :
    ((SpatialGridList_Flat.storeAll H s.ResetBuffer calls).1.stagingList.filter
        (fun e => decide (e.y = b))).map
        (fun e => (SpatialGridList_Flat.storeAll H s.ResetBuffer calls).1.m_buffer1 e.x)
      = storedValues H b calls (SpatialGridList_Flat.storeAll H s.ResetBuffer calls).2 := by
  have hinv := SpatialGridList_Flat.StorePhase_storeAll (fun _ => True) H calls s.ResetBuffer
    (fun _ _ => trivial) (SpatialGridList_Flat.StorePhase_reset _ s)
  have hpairs := SpatialGridList_Flat.stagingList_pairs _ _ hinv
  have hst := SpatialGridList_Flat.stagedPairs_storeAll H calls s.ResetBuffer
    (by simp only [SpatialGridList_Flat.ResetBuffer]; omega)
  have h0 : SpatialGridList_Flat.stagedPairs s.ResetBuffer = [] := by
    simp [SpatialGridList_Flat.stagedPairs, SpatialGridList_Flat.ResetBuffer]
  rw [h0, List.nil_append] at hst
  rw [storedValues_eq_stagedPairs, ← hst, ← hpairs, List.filter_map, List.map_map]
  rfl

/-! ## A launch whose window starts wrap at `2^32` -/

namespace __interal_spatialMap__

variable {V : Type}

/-- Consecutive windows of size `NPT` from position `base` tile the interval they span. -/
theorem windows_flatMap_from (deviceList : Nat → Vec2u) (N NPT base : Nat) :
    ∀ T : Nat, (List.range T).flatMap
        (fun j => runStartsIn deviceList N (base + NPT * j) (base + NPT * j + NPT))
      = runStartsIn deviceList N base (base + NPT * T) := by
  intro T
  induction T with
  | zero =>
    rw [runStartsIn_nil_of_le deviceList N base _ (Or.inl (by omega))]
    rfl
  | succ T ih =>
    rw [List.range_succ, List.flatMap_append, ih, List.flatMap_cons, List.flatMap_nil,
      List.append_nil, show base + NPT * (T + 1) = base + NPT * T + NPT by
        rw [Nat.mul_succ]; omega]
    exact runStartsIn_append deviceList N base (base + NPT * T) (base + NPT * T + NPT)
      (by omega) (by omega)

/-- The run starts of an interval that contains one run start. -/
theorem runStartsIn_single (deviceList : Nat → Vec2u) (N lo hi r : Nat) (h1 : lo ≤ r)
    (h2 : r < hi) (hr : IsRunStart deviceList N r)
    (hno : ∀ k, lo ≤ k → k < hi → k ≠ r → ¬ IsRunStart deviceList N k) :
    runStartsIn deviceList N lo hi = [r] := by
  rw [runStartsIn_skip deviceList N lo r hi h1 (fun k hk1 hk2 => hno k hk1 (by omega) (by omega)),
    runStartsIn_cons deviceList N r hi h2 hr,
    runStartsIn_skip deviceList N (r + 1) hi hi (by omega)
      (fun k hk1 hk2 => hno k (by omega) hk2 (by omega)),
    runStartsIn_nil_of_le deviceList N hi hi (Or.inl (le_refl _))]

theorem flatMap_congr_mem {α β : Type} (l : List α) (f g : α → List β)
    (h : ∀ a ∈ l, f a = g a) : l.flatMap f = l.flatMap g := by
  induction l with
  | nil => rfl
  | cons a rest ih =>
    rw [List.flatMap_cons, List.flatMap_cons, h a (List.mem_cons_self _ _),
      ih (fun b hb => h b (List.mem_cons_of_mem _ hb))]

theorem flatMap_map_shift {β : Type} (l : List Nat) (c : Nat) (g : Nat → List β) :
    (l.map (fun x => c + x)).flatMap g = l.flatMap (fun x => g (c + x)) := by
  induction l with
  | nil => rfl
  | cons a rest ih =>
    rw [List.map_cons, List.flatMap_cons, List.flatMap_cons, ih]

end __interal_spatialMap__

namespace __interal_spatialMap__

variable {V : Type}

/-- The windows of the launch of `429496896` threads of `buildGrid<T, 10, ...>`, thread after
thread: the threads below `429496730`, whose window starts do not wrap, cover `[0, N)`; the last
166 threads have the window starts `10 * t mod 2^32 = 4, 14, ..., 1654` and cover `[4, 1664)` a
second time. -/
theorem wrapped_launch_windows (deviceList : Nat → Vec2u) (N : Nat) (hN : N ≤ 4294967300) :
    (List.range 429496896).flatMap (fun t => runStartsIn deviceList N ((10 * t) % 2 ^ 32)
        ((10 * t) % 2 ^ 32 + 10))
      = runStartsIn deviceList N 0 N ++ runStartsIn deviceList N 4 1664 := by
  have hsplit : List.range 429496896
      = List.range 429496730 ++ (List.range 166).map (fun x => 429496730 + x) :=
    List.range_add 429496730 166
  rw [hsplit, List.flatMap_append,
    windows_no_wrap deviceList N 10 (List.range 429496730)
      (fun t ht => by rw [List.mem_range] at ht; omega),
    windows_flatMap, runStartsIn_beyond deviceList N _ (by omega), flatMap_map_shift,
    flatMap_congr_mem (List.range 166) _
      (fun j => runStartsIn deviceList N (4 + 10 * j) (4 + 10 * j + 10))
      (fun j hj => by
        rw [List.mem_range] at hj
        have h : (10 * (429496730 + j)) % 2 ^ 32 = 4 + 10 * j := by omega
        rw [h]),
    windows_flatMap_from deviceList N 10 4 166]

/-- The launch of `buildGrid<T, 10, ...>` for a sorted list of `4294967040` entries made of a run
of 1660 entries of cell hash 0, a run of 4 entries of cell hash 1 and a run of cell hash 2, the
`429496896` threads running in the order of their indices. The last thread, thread `429496895`,
has the window start `10 * 429496895 mod 2^32 = 1654`: it skips to position 1660 and processes
the run of cell hash 1 a second time, after every run has been processed. The second block of
that run is reserved where the cursor stands after all runs, `4294967040` above its initial
value, which becomes the offset of bucket 1, and the cursor ends `4294967044` above its initial
value. -/
theorem launch_window_wrap (deviceDataSource : Nat → flatEntry V) (L : Nat → Vec2u)
    (hL : ∀ i, i < 4294967040 → (L i).y = if i < 1660 then 0 else if i < 1664 then 1 else 2)
    (st0 : BuildState V) :
    ∀ sched : List Nat, sched = List.range 429496896 →
      (sched.foldl (fun st tid => buildGrid 10 deviceDataSource 4294967040 L tid st)
          st0).deviceGrid 1 = st0.g_DestCounter + 4294967040 ∧
        (sched.foldl (fun st tid => buildGrid 10 deviceDataSource 4294967040 L tid st)
          st0).g_DestCounter = st0.g_DestCounter + 4294967044 := by
  intro sched hsch
  rw [launch_eq_applyRuns, hsch]
  have hrs : IsRunStart L 4294967040 1660 := by
    refine ⟨by omega, Or.inr ?_⟩
    rw [hL 1659 (by omega), hL 1660 (by omega)]
    decide
  have hno : ∀ k, 4 ≤ k → k < 1664 → k ≠ 1660 → ¬ IsRunStart L 4294967040 k := by
    intro k h1 h2 h3 hk
    rcases hk.2 with h0 | hne
    · omega
    · apply hne
      rw [hL (k - 1) (by omega), hL k (by omega)]
      by_cases hk1 : k < 1660
      · rw [if_pos (by omega), if_pos hk1]
      · rw [if_neg (by omega), if_pos (by omega), if_neg hk1, if_pos (by omega)]
  have hlen : runLen L 4294967040 1660 = 4 := by
    obtain ⟨e1, e2, e3, e4⟩ := runEnd_spec L 4294967040 1660 (by omega)
    unfold runLen
    have hle : runEnd L 4294967040 1660 ≤ 1664 := by
      by_contra hgt
      have := e3 1664 (by omega) (by omega)
      rw [hL 1664 (by omega), hL 1660 (by omega)] at this
      revert this
      decide
    have hge : 1664 ≤ runEnd L 4294967040 1660 := by
      by_contra hlt
      have h := e4 (by omega)
      apply h
      rw [hL _ (by omega), hL 1660 (by omega), if_neg (by omega), if_pos (by omega)]
      rfl
    omega
  rw [wrapped_launch_windows L 4294967040 (by omega),
    runStartsIn_single L 4294967040 4 1664 1660 (by omega) (by omega) hrs hno, applyRuns_append]
  have hcur : (applyRuns deviceDataSource 4294967040 L (runStartsIn L 4294967040 0 4294967040)
      st0).g_DestCounter = st0.g_DestCounter + 4294967040 := by
    rw [(applyRuns_spec deviceDataSource 4294967040 L _ st0
        (fun r hr => ((mem_runStartsIn L _ _ _ r).mp hr).2.1)).1,
      sum_runLen_of_perm L 4294967040 _ (List.Perm.refl _)]
  generalize applyRuns deviceDataSource 4294967040 L (runStartsIn L 4294967040 0 4294967040) st0
    = st1 at hcur ⊢
  obtain ⟨_, p2, p3, _⟩ := processRun_spec deviceDataSource 4294967040 L 1660 st1 (by omega)
  have hone : applyRuns deviceDataSource 4294967040 L [1660] st1
      = (processRun deviceDataSource 4294967040 L 1660 st1).2 := rfl
  rw [hone, p2, p3, hcur, hlen]
  have hb : (L 1660).y = 1 := by rw [hL 1660 (by omega)]; rfl
  rw [hb, bufSet_same]
  exact ⟨rfl, rfl⟩

end __interal_spatialMap__

namespace SpatialGridList_Flat

open __interal_spatialMap__

variable {V : Type}

theorem stagingList_get (s : SpatialGridList_Flat V) (i : Nat)
    (hi : i < s.stagingList.length) : s.stagingList.get ⟨i, hi⟩ = s.m_listBuffer i := by
  unfold stagingList
  rw [List.get_eq_getElem, List.getElem_map, List.getElem_range]

/-- The rebuild of a staging area of `4294967040` entries made of a run of 1660 entries of bucket
0, a run of 4 entries of bucket 1 and a run of bucket 2, already in sorted order, the threads of
the launch running in the order of their indices: the offset of bucket 1 ends at `4294967040`,
the number of stored entries, and the destination cursor at `4294967044`. -/
theorem PrepareForUse_window_wrap (s : SpatialGridList_Flat V)
    (hidx : min s.idxData s.numData = 4294967040)
    (hy : ∀ i, i < 4294967040 →
      (s.m_listBuffer i).y = if i < 1660 then 0 else if i < 1664 then 1 else 2) :
    ∀ sched : List Nat, sched = List.range 429496896 →
      (s.PrepareForUse s.stagingList sched).m_gridBuffer 1 = 4294967040 ∧
        (s.PrepareForUse s.stagingList sched).deviceIdxCounter = 4294967044 := by
  intro sched hsch
  have hL : ∀ i, i < 4294967040 →
      ((s.PrepareForUse s.stagingList sched).m_listBuffer i).y
        = if i < 1660 then 0 else if i < 1664 then 1 else 2 := by
    intro i hi
    rw [PrepareForUse_list_eq s _ _ (stagingList_length s) i (by omega), stagingList_get]
    exact hy i hi
  obtain ⟨h1, h2⟩ := launch_window_wrap s.m_buffer1
    (s.PrepareForUse s.stagingList sched).m_listBuffer hL
    { deviceDataDest := s.m_buffer2
      deviceGrid := cudaMemset s.m_gridBuffer 0xffffffff
        (s.m_gridSize.x * s.m_gridSize.y * s.m_gridSize.z)
      g_DestCounter := 0 } sched hsch
  rw [Nat.zero_add] at h1 h2
  constructor
  · show (sched.foldl
      (fun st tid => buildGrid 10 s.m_buffer1 (min s.idxData s.numData)
        (s.PrepareForUse s.stagingList sched).m_listBuffer tid st)
      { deviceDataDest := s.m_buffer2
        deviceGrid := cudaMemset s.m_gridBuffer 0xffffffff
          (s.m_gridSize.x * s.m_gridSize.y * s.m_gridSize.z)
        g_DestCounter := 0 }).deviceGrid 1 = 4294967040
    rw [hidx]
    exact h1
  · show (sched.foldl
      (fun st tid => buildGrid 10 s.m_buffer1 (min s.idxData s.numData)
        (s.PrepareForUse s.stagingList sched).m_listBuffer tid st)
      { deviceDataDest := s.m_buffer2
        deviceGrid := cudaMemset s.m_gridBuffer 0xffffffff
          (s.m_gridSize.x * s.m_gridSize.y * s.m_gridSize.z)
        g_DestCounter := 0 }).g_DestCounter = 4294967044
    rw [hidx]
    exact h2

end SpatialGridList_Flat

namespace SpatialGridList_Flat

variable {V : Type}

/-- A pass that stays inside the capacity writes, for its `k`-th call, the staging pair of the
slot `idxData + k` with the hash of the call's cell, and leaves the slots below the cursor. -/
theorem storeAll_listBuffer_at (H : Vec3u → Nat) :
    ∀ (calls : List (Vec3u × flatEntry V)) (s : SpatialGridList_Flat V),
      s.idxData + calls.length ≤ s.numData → s.numData ≤ 0xffffffff →
      (∀ i, i < s.idxData → (storeAll H s calls).1.m_listBuffer i = s.m_listBuffer i) ∧
        (∀ k a, calls[k]? = some a →
          (storeAll H s calls).1.m_listBuffer (s.idxData + k) = ⟨s.idxData + k, H a.1⟩) := by
  intro calls
  induction calls with
  | nil =>
    intro s _ _
    exact ⟨fun _ _ => rfl, fun k a h => by simp at h⟩
  | cons c rest ih =>
    intro s hlen hcap
    obtain ⟨p, v⟩ := c
    simp only [List.length_cons] at hlen
    have hcur : s.idxData < 0xffffffff := by omega
    have hroom : ¬ s.numData ≤ s.idxData := by omega
    have hunf : (storeAll H s ((p, v) :: rest)).1 = (storeAll H (Store H s p v).1 rest).1 := rfl
    have hi1 : (Store H s p v).1.idxData = s.idxData + 1 := by
      rw [Store_idxData, atomicInc_lt hcur]
    have hl1 : (Store H s p v).1.m_listBuffer
        = bufSet s.m_listBuffer s.idxData ⟨s.idxData, H p⟩ := by
      rw [Store_room H s p v hroom]
    obtain ⟨f1, f2⟩ := ih (Store H s p v).1
      (by rw [hi1, Store_numData_flat]; omega) (by rw [Store_numData_flat]; exact hcap)
    rw [hunf]
    constructor
    · intro i hi
      rw [f1 i (by rw [hi1]; omega), hl1, bufSet_other _ _ _ _ (by omega)]
    · intro k a hk
      cases k with
      | zero =>
        rw [List.getElem?_cons_zero] at hk
        cases hk
        rw [Nat.add_zero, f1 _ (by rw [hi1]; omega), hl1, bufSet_same]
      | succ k =>
        rw [List.getElem?_cons_succ] at hk
        have := f2 k a hk
        rw [hi1] at this
        rw [show s.idxData + (k + 1) = s.idxData + 1 + k by omega]
        exact this

end SpatialGridList_Flat

theorem windowWrapCalls_length : windowWrapCalls.length = 4294967040 := by
  unfold windowWrapCalls
  rw [List.length_append, List.length_append, List.length_replicate, List.length_replicate,
    List.length_replicate]

theorem windowWrapCalls_at (k : Nat) (hk : k < 4294967040) :
    ∃ a, windowWrapCalls[k]? = some a ∧ a.2 = ⟨7, false⟩ ∧
      hash222 a.1 = if k < 1660 then 0 else if k < 1664 then 1 else 2 := by
  unfold windowWrapCalls
  by_cases h1 : k < 1660
  · refine ⟨(⟨0, 0, 0⟩, ⟨7, false⟩), ?_, rfl, ?_⟩
    · rw [List.getElem?_append_left (by rw [List.length_replicate]; exact h1),
        List.getElem?_replicate, if_pos h1]
    · rw [if_pos h1]; rfl
  · rw [List.getElem?_append_right (by rw [List.length_replicate]; omega),
      List.length_replicate]
    by_cases h2 : k < 1664
    · refine ⟨(⟨1, 0, 0⟩, ⟨7, false⟩), ?_, rfl, ?_⟩
      · rw [List.getElem?_append_left (by rw [List.length_replicate]; omega),
          List.getElem?_replicate, if_pos (by omega)]
      · rw [if_neg h1, if_pos h2]; rfl
    · refine ⟨(⟨0, 1, 0⟩, ⟨7, false⟩), ?_, rfl, ?_⟩
      · rw [List.getElem?_append_right (by rw [List.length_replicate]; omega),
          List.length_replicate, List.getElem?_replicate, if_pos (by omega)]
      · rw [if_neg h1, if_neg h2]; rfl

theorem windowWrap_numThreads :
    SpatialGridList_Flat.numThreads (min 4294967040 4294967295) = 429496896 := by
  unfold SpatialGridList_Flat.numThreads
  norm_num

/-- The state after `ResetBuffer` and the stores of `windowWrapCalls` into a structure of capacity
`2^32 - 1`: all `4294967040` calls are staged, in call order, so the staging list is sorted by
cell hash as it stands. -/
theorem windowWrap_stored :
    (SpatialGridList_Flat.storeAll hash222 flatHuge.ResetBuffer windowWrapCalls).1.idxData
        = 4294967040 ∧
      (SpatialGridList_Flat.storeAll hash222 flatHuge.ResetBuffer windowWrapCalls).1.numData
        = 4294967295 ∧
      (∀ i, i < 4294967040 →
        ((SpatialGridList_Flat.storeAll hash222 flatHuge.ResetBuffer
            windowWrapCalls).1.m_listBuffer i).y
          = if i < 1660 then 0 else if i < 1664 then 1 else 2) := by
  refine ⟨?_, ?_, ?_⟩
  · rw [SpatialGridList_Flat.storeAll_idxData hash222 windowWrapCalls flatHuge.ResetBuffer
      (by decide), windowWrapCalls_length]
    rfl
  · rw [SpatialGridList_Flat.storeAll_numData_flat]
    rfl
  · intro i hi
    obtain ⟨a, ha, _, hh⟩ := windowWrapCalls_at i hi
    have h := (SpatialGridList_Flat.storeAll_listBuffer_at hash222 windowWrapCalls
      flatHuge.ResetBuffer (by rw [windowWrapCalls_length]; decide) (by decide)).2 i a ha
    rw [show flatHuge.ResetBuffer.idxData + i = i from Nat.zero_add i] at h
    rw [h]
    exact hh

theorem windowWrapCalls_clear : ∀ a ∈ windowWrapCalls, a.2.flag = false ∧
    hash222 a.1 < gridCells flatHuge.m_gridSize := by
  intro a ha
  unfold windowWrapCalls at ha
  rw [List.mem_append, List.mem_append] at ha
  rcases ha with h | h | h <;> rw [List.eq_of_mem_replicate h] <;> exact ⟨rfl, by decide⟩

/-- A staging area of `4294967040` entries made of a run of 1660 entries of bucket 0, a run of 4
entries of bucket 1 and a run of bucket 2 is sorted as it stands and has entries of bucket 1;
after the rebuild with the threads of the launch run in the order of their indices, bucket 1 has
the offset `4294967040`, the number of stored entries, the destination cursor stands at
`4294967044`, and the enumeration of a cell of bucket 1 reports nothing. -/
theorem SpatialGridList_Flat.window_wrap_facts {V : Type} (H : Vec3u → Nat)
    (s : SpatialGridList_Flat V) (c : Vec3u) (hcell : H c = 1)
    (hidx : s.idxData = 4294967040) (hnum : s.numData = 4294967295)
    (hy : ∀ i, i < 4294967040 →
      (s.m_listBuffer i).y = if i < 1660 then 0 else if i < 1664 then 1 else 2)
    (sched : List Nat) (hsch : sched = List.range 429496896) :
    s.stagingList.Pairwise (fun a b => a.y ≤ b.y) ∧
      sched.Perm (List.range (SpatialGridList_Flat.numThreads (min s.idxData s.numData))) ∧
      H c ∈ SpatialGridList_Flat.stagedHashes s ∧
      1 ≤ SpatialGridList_Flat.bucketCount s (H c) ∧
      ¬ ((s.PrepareForUse s.stagingList sched).m_gridBuffer (H c)
          + SpatialGridList_Flat.bucketCount s (H c)
        ≤ (s.PrepareForUse s.stagingList sched).getNumStoredEntries) ∧
      (s.PrepareForUse s.stagingList sched).m_gridBuffer (H c) = 4294967040 ∧
      (s.PrepareForUse s.stagingList sched).getNumStoredEntries = 4294967040 ∧
      (s.PrepareForUse s.stagingList sched).deviceIdxCounter = 4294967044 ∧
      SpatialGridList_Flat.ForAllCellEntries H (s.PrepareForUse s.stagingList sched) c UINT_MAX
        = [] := by
  have hmin : min s.idxData s.numData = 4294967040 := by rw [hidx, hnum]; rfl
  obtain ⟨hoff, hcur⟩ := SpatialGridList_Flat.PrepareForUse_window_wrap s hmin hy sched hsch
  have hstored : (s.PrepareForUse s.stagingList sched).getNumStoredEntries = 4294967040 :=
    (SpatialGridList_Flat.PrepareForUse_idxData s s.stagingList sched).trans hmin
  have hmem : H c ∈ SpatialGridList_Flat.stagedHashes s := by
    rw [hcell]
    unfold SpatialGridList_Flat.stagedHashes SpatialGridList_Flat.stagingList
    rw [List.map_map, List.mem_map]
    refine ⟨1660, ?_, ?_⟩
    · rw [List.mem_range, hmin]; omega
    · show (s.m_listBuffer 1660).y = 1
      rw [hy 1660 (by omega)]
      rfl
  have hcount : 1 ≤ SpatialGridList_Flat.bucketCount s (H c) := List.count_pos_iff.2 hmem
  refine ⟨?_, ?_, hmem, hcount, ?_, ?_, hstored, hcur, ?_⟩
  · unfold SpatialGridList_Flat.stagingList
    rw [List.pairwise_map, hmin]
    refine List.Pairwise.imp_of_mem ?_ (List.pairwise_lt_range 4294967040)
    intro i j hi hj hij
    rw [List.mem_range] at hi hj
    rw [hy i hi, hy j hj]
    split_ifs <;> omega
  · rw [hidx, hnum, windowWrap_numThreads, ← hsch]
  · rw [hstored, hcell, hoff, ← hcell]
    omega
  · rw [hcell]
    exact hoff
  · show SpatialGridList_Flat.scan (s.PrepareForUse s.stagingList sched) UINT_MAX
      ((s.PrepareForUse s.stagingList sched).m_gridBuffer (H c)) = []
    rw [hcell, hoff]
    exact SpatialGridList_Flat.scan_ge _ _ _ (Nat.le_of_eq hstored)

/-- After `ResetBuffer` and fewer than `2^32` stores, a bucket with staged entries received a
successfully stored value. -/
theorem storedValues_of_staged {V : Type} (H : Vec3u → Nat) (s : SpatialGridList_Flat V)
    (calls : List (Vec3u × flatEntry V)) (hN : calls.length < 2 ^ 32) (b : Nat)
    (hb : b ∈ SpatialGridList_Flat.stagedHashes
      (SpatialGridList_Flat.storeAll H s.ResetBuffer calls).1) :
    1 ≤ (storedValues H b calls
      (SpatialGridList_Flat.storeAll H s.ResetBuffer calls).2).length := by
  rw [← staged_bucket_values H s calls hN b, List.length_map,
    ← SpatialGridList_Flat.bucketCount_eq_filter]
  exact List.count_pos_iff.2 hb

theorem windowWrapList_y (i : Nat) (_ : i < 4294967040) :
    (windowWrapList i).y = if i < 1660 then 0 else if i < 1664 then 1 else 2 := rfl

theorem windowWrapList_sorted : __interal_spatialMap__.SortedY windowWrapList 4294967040 := by
  intro i j hij hj
  rw [windowWrapList_y i (by omega), windowWrapList_y j hj]
  split_ifs <;> omega

theorem windowWrapCalls_length_lt : windowWrapCalls.length < 2 ^ 32 := by
  rw [windowWrapCalls_length]
  decide

theorem launch_window_wrap_from_zero {V : Type} (deviceDataSource : Nat → flatEntry V)
    (L : Nat → Vec2u)
    (hL : ∀ i, i < 4294967040 → (L i).y = if i < 1660 then 0 else if i < 1664 then 1 else 2)
    (st0 : BuildState V) (h0 : st0.g_DestCounter = 0) (sched : List Nat)
    (hsch : sched = List.range 429496896) :
    (sched.foldl (fun st tid =>
        __interal_spatialMap__.buildGrid 10 deviceDataSource 4294967040 L tid st)
      st0).g_DestCounter = 4294967044 := by
  rw [(__interal_spatialMap__.launch_window_wrap deviceDataSource L hL st0 sched hsch).2, h0]

/-- C5, counterexample. Two passes on the 2 x 2 x 2 grid. First: capacity 4, `2^32` stores of a
marker-clear payload to cell (0,0,0) after `ResetBuffer`, then `PrepareForUse` (the cursor has
wrapped to 0, so the staging list is empty, `[]` is its sorted form and the launch has 192
threads): the cell received successfully stored values, yet `ForAllCellEntries` invokes the
callback zero times. Second: capacity `2^32 - 1`, `4294967040` stores of a marker-clear payload
after `ResetBuffer`, 1660 to cell (0,0,0), then 4 to cell (1,0,0), then the rest to cell (0,1,0),
all of them staged, then `PrepareForUse` (the staging list is sorted as it stands; the launch has
`429496896` threads, run in the order of their indices). The window starts of the last 166
threads wrap at `2^32`; the last thread processes the run of cell (1,0,0) a second time and
leaves the bucket's offset at the number of stored entries: cell (1,0,0) received successfully
stored values, yet `ForAllCellEntries` invokes the callback zero times. -/
theorem flat_round_trip_fails_after_wrap :
    ((∀ a ∈ wrapCallsFlat, a.2.flag = false) ∧
      ([] : List Vec2u).Perm
        (SpatialGridList_Flat.storeAll hash222 flat4.ResetBuffer wrapCallsFlat).1.stagingList ∧
      (List.range 192).Perm (List.range (SpatialGridList_Flat.numThreads
        (min (SpatialGridList_Flat.storeAll hash222 flat4.ResetBuffer wrapCallsFlat).1.idxData
          (SpatialGridList_Flat.storeAll hash222 flat4.ResetBuffer wrapCallsFlat).1.numData))) ∧
      1 ≤ (storedValues hash222 (hash222 ⟨0, 0, 0⟩) wrapCallsFlat
        (SpatialGridList_Flat.storeAll hash222 flat4.ResetBuffer wrapCallsFlat).2).length ∧
      (SpatialGridList_Flat.ForAllCellEntries hash222
        ((SpatialGridList_Flat.storeAll hash222 flat4.ResetBuffer wrapCallsFlat).1.PrepareForUse
          [] (List.range 192)) ⟨0, 0, 0⟩ UINT_MAX).length
        ≠ (storedValues hash222 (hash222 ⟨0, 0, 0⟩) wrapCallsFlat
          (SpatialGridList_Flat.storeAll hash222 flat4.ResetBuffer wrapCallsFlat).2).length) ∧
      ((∀ a ∈ windowWrapCalls, a.2.flag = false) ∧
        (∀ a ∈ windowWrapCalls, hash222 a.1 < gridCells flatHuge.m_gridSize) ∧
        windowWrapCalls.length < 2 ^ 32 ∧
        (SpatialGridList_Flat.storeAll hash222 flatHuge.ResetBuffer
            windowWrapCalls).1.stagingList.Perm
          (SpatialGridList_Flat.storeAll hash222 flatHuge.ResetBuffer
            windowWrapCalls).1.stagingList ∧
        (SpatialGridList_Flat.storeAll hash222 flatHuge.ResetBuffer
            windowWrapCalls).1.stagingList.Pairwise (fun a b => a.y ≤ b.y) ∧
        (List.range 429496896).Perm (List.range (SpatialGridList_Flat.numThreads
          (min (SpatialGridList_Flat.storeAll hash222 flatHuge.ResetBuffer
              windowWrapCalls).1.idxData
            (SpatialGridList_Flat.storeAll hash222 flatHuge.ResetBuffer
              windowWrapCalls).1.numData))) ∧
        1 ≤ (storedValues hash222 (hash222 ⟨1, 0, 0⟩) windowWrapCalls
          (SpatialGridList_Flat.storeAll hash222 flatHuge.ResetBuffer windowWrapCalls).2).length ∧
        SpatialGridList_Flat.ForAllCellEntries hash222
          ((SpatialGridList_Flat.storeAll hash222 flatHuge.ResetBuffer
              windowWrapCalls).1.PrepareForUse
            (SpatialGridList_Flat.storeAll hash222 flatHuge.ResetBuffer
              windowWrapCalls).1.stagingList
            (List.range 429496896)) ⟨1, 0, 0⟩ UINT_MAX = []) := by
  have hcur : (SpatialGridList_Flat.storeAll hash222 flat4.ResetBuffer wrapCallsFlat).1.idxData
      = 0 := by
    have hlen : wrapCallsFlat.length = 4294967296 := List.length_replicate _ _
    rw [SpatialGridList_Flat.storeAll_idxData _ _ _ (by decide), hlen]
    rfl
  have hstored : 1 ≤ (storedValues hash222 (hash222 ⟨0, 0, 0⟩) wrapCallsFlat
      (SpatialGridList_Flat.storeAll hash222 flat4.ResetBuffer wrapCallsFlat).2).length := by
    have hw : wrapCallsFlat
        = (⟨0, 0, 0⟩, ⟨7, false⟩) :: List.replicate 4294967295 (⟨0, 0, 0⟩, ⟨7, false⟩) :=
      List.replicate_succ _ 4294967295
    rw [hw]
    have hunf : ∀ (s : SpatialGridList_Flat Nat) (rest : List (Vec3u × flatEntry Nat)),
        (SpatialGridList_Flat.storeAll hash222 s ((⟨0, 0, 0⟩, ⟨7, false⟩) :: rest)).2
          = (SpatialGridList_Flat.Store hash222 s ⟨0, 0, 0⟩ ⟨7, false⟩).2 ::
            (SpatialGridList_Flat.storeAll hash222
              (SpatialGridList_Flat.Store hash222 s ⟨0, 0, 0⟩ ⟨7, false⟩).1 rest).2 :=
      fun _ _ => rfl
    rw [hunf]
    unfold storedValues
    rw [List.zip_cons_cons, List.filter_cons, if_pos (by decide), List.map_cons,
      List.length_cons]
    omega
  have hface : SpatialGridList_Flat.ForAllCellEntries hash222
      ((SpatialGridList_Flat.storeAll hash222 flat4.ResetBuffer wrapCallsFlat).1.PrepareForUse
        [] (List.range 192)) ⟨0, 0, 0⟩ UINT_MAX = [] := by
    apply SpatialGridList_Flat.scan_ge
    rw [SpatialGridList_Flat.PrepareForUse_idxData, hcur, Nat.zero_min]
    exact Nat.zero_le _
  refine ⟨⟨?_, ?_, ?_, hstored, ?_⟩, ?_⟩
  · intro a ha
    rw [List.eq_of_mem_replicate ha]
  · unfold SpatialGridList_Flat.stagingList
    rw [hcur, Nat.zero_min]
    exact List.Perm.refl _
  · rw [hcur, Nat.zero_min]
    exact List.Perm.refl _
  · rw [hface]
    exact fun h => absurd (h ▸ hstored) (by decide)
  · exact
      ⟨fun a ha => (windowWrapCalls_clear a ha).1, fun a ha => (windowWrapCalls_clear a ha).2,
        windowWrapCalls_length_lt, List.Perm.refl _,
        (SpatialGridList_Flat.window_wrap_facts hash222 _ ⟨1, 0, 0⟩ rfl windowWrap_stored.1
          windowWrap_stored.2.1 windowWrap_stored.2.2 (List.range 429496896) rfl).1,
        (SpatialGridList_Flat.window_wrap_facts hash222 _ ⟨1, 0, 0⟩ rfl windowWrap_stored.1
          windowWrap_stored.2.1 windowWrap_stored.2.2 (List.range 429496896) rfl).2.1,
        storedValues_of_staged hash222 flatHuge windowWrapCalls
          windowWrapCalls_length_lt _
          (SpatialGridList_Flat.window_wrap_facts hash222 _ ⟨1, 0, 0⟩ rfl windowWrap_stored.1
            windowWrap_stored.2.1 windowWrap_stored.2.2 (List.range 429496896) rfl).2.2.1,
        (SpatialGridList_Flat.window_wrap_facts hash222 _ ⟨1, 0, 0⟩ rfl windowWrap_stored.1
          windowWrap_stored.2.1 windowWrap_stored.2.2 (List.range 429496896)
          rfl).2.2.2.2.2.2.2.2⟩

/-- C5, amended. For every list of fewer than `2^32` (cell, value) pairs whose payloads carry a
clear last-in-cell marker and whose bucket indices lie inside the grid, after `ResetBuffer`, one
`Store` per pair and `PrepareForUse` (`sorted` any rearrangement of the staging list ordered by
cell hash, `sched` any order of the threads of the launch), when fewer than `4294967040` entries
are staged (the staged count is the smaller of the cursor and the capacity; below `4294967040`
no window start of the launch wraps), for every cell `c` that received
`k ≥ 1` successfully stored values, `ForAllCellEntries(c, callback)` with the default cap invokes
the callback exactly `k` times, at the consecutive indices `o, o+1, ..., o+k-1` where `o` is the
bucket's offset, and the reported values, marker aside, are as a multiset the values stored to
bucket `Hash(c)`. -/
theorem flat_round_trip {V : Type} (H : Vec3u → Nat) (s : SpatialGridList_Flat V)
    (calls : List (Vec3u × flatEntry V)) (sorted : List Vec2u) (sched : List Nat)
    (hN : calls.length < 2 ^ 32) (hclear : ∀ a ∈ calls, a.2.flag = false)
    (_hgrid : ∀ a ∈ calls, H a.1 < gridCells s.m_gridSize)
    (hperm : sorted.Perm (SpatialGridList_Flat.storeAll H s.ResetBuffer calls).1.stagingList)
    (hsort : sorted.Pairwise (fun a b => a.y ≤ b.y))
    (hsched : sched.Perm (List.range (SpatialGridList_Flat.numThreads
      (min (SpatialGridList_Flat.storeAll H s.ResetBuffer calls).1.idxData
        (SpatialGridList_Flat.storeAll H s.ResetBuffer calls).1.numData))))
    (hn : min (SpatialGridList_Flat.storeAll H s.ResetBuffer calls).1.idxData
      (SpatialGridList_Flat.storeAll H s.ResetBuffer calls).1.numData < 4294967040)
    (c : Vec3u)
    (hk : 1 ≤ (storedValues H (H c) calls
      (SpatialGridList_Flat.storeAll H s.ResetBuffer calls).2).length) :
    (SpatialGridList_Flat.ForAllCellEntries H
          ((SpatialGridList_Flat.storeAll H s.ResetBuffer calls).1.PrepareForUse sorted sched) c
          UINT_MAX).map Prod.fst
        = List.range'
            (((SpatialGridList_Flat.storeAll H s.ResetBuffer calls).1.PrepareForUse sorted
              sched).m_gridBuffer (H c))
            (storedValues H (H c) calls
              (SpatialGridList_Flat.storeAll H s.ResetBuffer calls).2).length ∧
      ((SpatialGridList_Flat.ForAllCellEntries H
          ((SpatialGridList_Flat.storeAll H s.ResetBuffer calls).1.PrepareForUse sorted sched) c
          UINT_MAX).map (fun e => e.2.value)).Perm
        ((storedValues H (H c) calls
          (SpatialGridList_Flat.storeAll H s.ResetBuffer calls).2).map flatEntry.value) := by
  have hinv := SpatialGridList_Flat.StorePhase_storeAll (fun e => e.flag = false) H calls
    s.ResetBuffer hclear (SpatialGridList_Flat.StorePhase_reset _ s)
  have hvals := staged_bucket_values H s calls hN (H c)
  generalize (SpatialGridList_Flat.storeAll H s.ResetBuffer calls).2 = results at hvals hk ⊢
  have hid := SpatialGridList_Flat.storeAll_idxData_lt H calls s
  generalize (SpatialGridList_Flat.storeAll H s.ResetBuffer calls).1 = s1
    at hperm hsched hn hinv hvals hid ⊢
  have hcount : SpatialGridList_Flat.bucketCount s1 (H c)
      = (storedValues H (H c) calls results).length := by
    rw [SpatialGridList_Flat.bucketCount_eq_filter, ← hvals, List.length_map]
  have hc : H c ∈ SpatialGridList_Flat.stagedHashes s1 := by
    apply List.count_pos_iff.1
    show 0 < SpatialGridList_Flat.bucketCount s1 (H c)
    omega
  have hcl : ∀ e ∈ s1.stagingList, (s1.m_buffer1 e.x).flag = false := by
    intro e he
    obtain ⟨i, hi, rfl⟩ := List.mem_map.1 he
    rw [List.mem_range] at hi
    obtain ⟨h1, h2⟩ := SpatialGridList_Flat.StorePhase_live _ s1 hinv i hi
    rw [h1]
    exact h2
  obtain ⟨hface, _⟩ := SpatialGridList_Flat.ForAllCellEntries_block H s1 sorted sched hperm
    hsort hsched hn hid hcl c hc
  have hblock := SpatialGridList_Flat.block_values_perm s1 sorted sched hperm hsort hsched hn
    (H c) hc
  rw [hface, ← hcount]
  constructor
  · rw [List.map_map]
    exact List.map_id _
  · rw [List.map_map, ← hvals, List.map_map]
    exact hblock

theorem scenario_sorted_perm : scenarioSorted.Perm flatStored.stagingList := by
  decide

theorem scenario_sched_perm :
    scenarioSched.Perm (List.range (SpatialGridList_Flat.numThreads
      (min flatStored.idxData flatStored.numData))) :=
  List.reverse_perm (List.range 192)

set_option maxRecDepth 100000 in
/-- Witness of C5: the scenario on the 2 x 2 x 2 grid (10 and 20 into cell (0,0,0), 30 into cell
(1,0,0)), cell (0,0,0): two callbacks, at the indices 0 and 1. -/
theorem flat_round_trip_witness :
    (scenarioCallsFlat.length < 2 ^ 32 ∧
        (∀ a ∈ scenarioCallsFlat, a.2.flag = false) ∧
        (∀ a ∈ scenarioCallsFlat, hash222 a.1 < gridCells flat4.m_gridSize) ∧
        scenarioSorted.Pairwise (fun a b => a.y ≤ b.y) ∧
        1 ≤ (storedValues hash222 (hash222 ⟨0, 0, 0⟩) scenarioCallsFlat
          (SpatialGridList_Flat.storeAll hash222 flat4.ResetBuffer scenarioCallsFlat).2).length) ∧
      ((SpatialGridList_Flat.ForAllCellEntries hash222 flatBuilt ⟨0, 0, 0⟩ UINT_MAX).map Prod.fst
          = List.range' (flatBuilt.m_gridBuffer (hash222 ⟨0, 0, 0⟩)) 2 ∧
        ((SpatialGridList_Flat.ForAllCellEntries hash222 flatBuilt ⟨0, 0, 0⟩ UINT_MAX).map
            (fun e => e.2.value)).Perm [10, 20]) :=
  ⟨⟨by decide, by decide, by decide, by decide, by decide⟩,
    flat_round_trip hash222 flat4 scenarioCallsFlat scenarioSorted scenarioSched (by decide)
      (by decide) (by decide) scenario_sorted_perm (by decide) scenario_sched_perm (by decide)
      ⟨0, 0, 0⟩ (by decide)⟩
/-! ## C6: flat completeness -/

/-- C6, counterexample. Capacity `2^32 - 1` on the 2 x 2 x 2 grid, `4294967040` stores after
`ResetBuffer`, 1660 to cell (0,0,0), then 4 to cell (1,0,0), then the rest to cell (0,1,0), all of
them staged, then `PrepareForUse` (the staging list is sorted as it stands; the launch has
`429496896` threads, run in the order of their indices). The window starts of the last 166
threads wrap at `2^32`; the last thread processes the run of cell (1,0,0) a second time, after
every run has been processed. The bucket of cell (1,0,0) has staged entries, and its offset ends
at `4294967040`, which is `getNumStoredEntries()`: the bucket's block does not lie below
`getNumStoredEntries()`. -/
theorem flat_completeness_fails_on_window_wrap :
    (SpatialGridList_Flat.storeAll hash222 flatHuge.ResetBuffer
          windowWrapCalls).1.stagingList.Perm
        (SpatialGridList_Flat.storeAll hash222 flatHuge.ResetBuffer
          windowWrapCalls).1.stagingList ∧
      (SpatialGridList_Flat.storeAll hash222 flatHuge.ResetBuffer
          windowWrapCalls).1.stagingList.Pairwise (fun a b => a.y ≤ b.y) ∧
      (List.range 429496896).Perm (List.range (SpatialGridList_Flat.numThreads
        (min (SpatialGridList_Flat.storeAll hash222 flatHuge.ResetBuffer
            windowWrapCalls).1.idxData
          (SpatialGridList_Flat.storeAll hash222 flatHuge.ResetBuffer
            windowWrapCalls).1.numData))) ∧
      hash222 ⟨1, 0, 0⟩ ∈ SpatialGridList_Flat.stagedHashes
        (SpatialGridList_Flat.storeAll hash222 flatHuge.ResetBuffer windowWrapCalls).1 ∧
      1 ≤ SpatialGridList_Flat.bucketCount
        (SpatialGridList_Flat.storeAll hash222 flatHuge.ResetBuffer windowWrapCalls).1
        (hash222 ⟨1, 0, 0⟩) ∧
      ¬ (((SpatialGridList_Flat.storeAll hash222 flatHuge.ResetBuffer
            windowWrapCalls).1.PrepareForUse
          (SpatialGridList_Flat.storeAll hash222 flatHuge.ResetBuffer
            windowWrapCalls).1.stagingList
          (List.range 429496896)).m_gridBuffer (hash222 ⟨1, 0, 0⟩)
          + SpatialGridList_Flat.bucketCount
              (SpatialGridList_Flat.storeAll hash222 flatHuge.ResetBuffer windowWrapCalls).1
              (hash222 ⟨1, 0, 0⟩)
        ≤ ((SpatialGridList_Flat.storeAll hash222 flatHuge.ResetBuffer
            windowWrapCalls).1.PrepareForUse
          (SpatialGridList_Flat.storeAll hash222 flatHuge.ResetBuffer
            windowWrapCalls).1.stagingList
          (List.range 429496896)).getNumStoredEntries) ∧
      ((SpatialGridList_Flat.storeAll hash222 flatHuge.ResetBuffer
          windowWrapCalls).1.PrepareForUse
        (SpatialGridList_Flat.storeAll hash222 flatHuge.ResetBuffer
          windowWrapCalls).1.stagingList
        (List.range 429496896)).m_gridBuffer (hash222 ⟨1, 0, 0⟩) = 4294967040 ∧
      ((SpatialGridList_Flat.storeAll hash222 flatHuge.ResetBuffer
          windowWrapCalls).1.PrepareForUse
        (SpatialGridList_Flat.storeAll hash222 flatHuge.ResetBuffer
          windowWrapCalls).1.stagingList
        (List.range 429496896)).getNumStoredEntries = 4294967040 :=
  ⟨List.Perm.refl _,
    (SpatialGridList_Flat.window_wrap_facts hash222 _ ⟨1, 0, 0⟩ rfl windowWrap_stored.1
      windowWrap_stored.2.1 windowWrap_stored.2.2 (List.range 429496896) rfl).1,
    (SpatialGridList_Flat.window_wrap_facts hash222 _ ⟨1, 0, 0⟩ rfl windowWrap_stored.1
      windowWrap_stored.2.1 windowWrap_stored.2.2 (List.range 429496896) rfl).2.1,
    (SpatialGridList_Flat.window_wrap_facts hash222 _ ⟨1, 0, 0⟩ rfl windowWrap_stored.1
      windowWrap_stored.2.1 windowWrap_stored.2.2 (List.range 429496896) rfl).2.2.1,
    (SpatialGridList_Flat.window_wrap_facts hash222 _ ⟨1, 0, 0⟩ rfl windowWrap_stored.1
      windowWrap_stored.2.1 windowWrap_stored.2.2 (List.range 429496896) rfl).2.2.2.1,
    (SpatialGridList_Flat.window_wrap_facts hash222 _ ⟨1, 0, 0⟩ rfl windowWrap_stored.1
      windowWrap_stored.2.1 windowWrap_stored.2.2 (List.range 429496896) rfl).2.2.2.2.1,
    (SpatialGridList_Flat.window_wrap_facts hash222 _ ⟨1, 0, 0⟩ rfl windowWrap_stored.1
      windowWrap_stored.2.1 windowWrap_stored.2.2 (List.range 429496896) rfl).2.2.2.2.2.1,
    (SpatialGridList_Flat.window_wrap_facts hash222 _ ⟨1, 0, 0⟩ rfl windowWrap_stored.1
      windowWrap_stored.2.1 windowWrap_stored.2.2 (List.range 429496896)
      rfl).2.2.2.2.2.2.1⟩

/-- C6, amended. After `ResetBuffer`, any sequence of `Store` calls and `PrepareForUse` (`sorted`
any rearrangement of the staging list ordered by cell hash, `sched` any order of the threads of
the launch), when fewer than `4294967040` entries are staged (the staged count is the smaller of
the cursor and the capacity; below `4294967040` no window start of the launch wraps), the blocks
written by the build stage, one per cell hash present in the staging list,
from the bucket's offset and as long as the bucket has staged entries, lie below
`getNumStoredEntries()`, are pairwise disjoint and cover every index below
`getNumStoredEntries()`; the block lengths add up to `getNumStoredEntries()`; the dense buffer
below that count holds, marker aside, a rearrangement of the staged payloads; and the block of
each bucket holds exactly the payloads of that bucket's staged entries. -/
theorem flat_completeness {V : Type} (H : Vec3u → Nat) (s : SpatialGridList_Flat V)
    (calls : List (Vec3u × flatEntry V)) (sorted : List Vec2u) (sched : List Nat)
    (hperm : sorted.Perm (SpatialGridList_Flat.storeAll H s.ResetBuffer calls).1.stagingList)
    (hsort : sorted.Pairwise (fun a b => a.y ≤ b.y))
    (hsched : sched.Perm (List.range (SpatialGridList_Flat.numThreads
      (min (SpatialGridList_Flat.storeAll H s.ResetBuffer calls).1.idxData
        (SpatialGridList_Flat.storeAll H s.ResetBuffer calls).1.numData))))
    (hn : min (SpatialGridList_Flat.storeAll H s.ResetBuffer calls).1.idxData
      (SpatialGridList_Flat.storeAll H s.ResetBuffer calls).1.numData < 4294967040) :
    (∀ b ∈ SpatialGridList_Flat.stagedHashes
          (SpatialGridList_Flat.storeAll H s.ResetBuffer calls).1,
        1 ≤ SpatialGridList_Flat.bucketCount
            (SpatialGridList_Flat.storeAll H s.ResetBuffer calls).1 b ∧
          ((SpatialGridList_Flat.storeAll H s.ResetBuffer calls).1.PrepareForUse sorted
              sched).m_gridBuffer b
            + SpatialGridList_Flat.bucketCount
                (SpatialGridList_Flat.storeAll H s.ResetBuffer calls).1 b
            ≤ ((SpatialGridList_Flat.storeAll H s.ResetBuffer calls).1.PrepareForUse sorted
                sched).getNumStoredEntries) ∧
      (∀ b ∈ SpatialGridList_Flat.stagedHashes
          (SpatialGridList_Flat.storeAll H s.ResetBuffer calls).1,
        ∀ b' ∈ SpatialGridList_Flat.stagedHashes
          (SpatialGridList_Flat.storeAll H s.ResetBuffer calls).1, b ≠ b' →
        ((SpatialGridList_Flat.storeAll H s.ResetBuffer calls).1.PrepareForUse sorted
              sched).m_gridBuffer b
            + SpatialGridList_Flat.bucketCount
                (SpatialGridList_Flat.storeAll H s.ResetBuffer calls).1 b
            ≤ ((SpatialGridList_Flat.storeAll H s.ResetBuffer calls).1.PrepareForUse sorted
                sched).m_gridBuffer b' ∨
          ((SpatialGridList_Flat.storeAll H s.ResetBuffer calls).1.PrepareForUse sorted
              sched).m_gridBuffer b'
            + SpatialGridList_Flat.bucketCount
                (SpatialGridList_Flat.storeAll H s.ResetBuffer calls).1 b'
            ≤ ((SpatialGridList_Flat.storeAll H s.ResetBuffer calls).1.PrepareForUse sorted
                sched).m_gridBuffer b) ∧
      (∀ k, k < ((SpatialGridList_Flat.storeAll H s.ResetBuffer calls).1.PrepareForUse sorted
            sched).getNumStoredEntries →
        ∃ b ∈ SpatialGridList_Flat.stagedHashes
            (SpatialGridList_Flat.storeAll H s.ResetBuffer calls).1,
          ((SpatialGridList_Flat.storeAll H s.ResetBuffer calls).1.PrepareForUse sorted
              sched).m_gridBuffer b ≤ k ∧
            k < ((SpatialGridList_Flat.storeAll H s.ResetBuffer calls).1.PrepareForUse sorted
                sched).m_gridBuffer b
              + SpatialGridList_Flat.bucketCount
                  (SpatialGridList_Flat.storeAll H s.ResetBuffer calls).1 b) ∧
      (((SpatialGridList_Flat.stagedHashes
            (SpatialGridList_Flat.storeAll H s.ResetBuffer calls).1).dedup.map
          (SpatialGridList_Flat.bucketCount
            (SpatialGridList_Flat.storeAll H s.ResetBuffer calls).1)).sum
        = ((SpatialGridList_Flat.storeAll H s.ResetBuffer calls).1.PrepareForUse sorted
            sched).getNumStoredEntries) ∧
      ((List.range ((SpatialGridList_Flat.storeAll H s.ResetBuffer calls).1.PrepareForUse sorted
            sched).getNumStoredEntries).map
          (fun k => (((SpatialGridList_Flat.storeAll H s.ResetBuffer calls).1.PrepareForUse
            sorted sched).m_buffer1 k).value)).Perm
        ((List.range ((SpatialGridList_Flat.storeAll H s.ResetBuffer calls).1.PrepareForUse
            sorted sched).getNumStoredEntries).map
          (fun i => ((SpatialGridList_Flat.storeAll H s.ResetBuffer calls).1.m_buffer1
            i).value)) ∧
      (∀ b ∈ SpatialGridList_Flat.stagedHashes
          (SpatialGridList_Flat.storeAll H s.ResetBuffer calls).1,
        ((List.range'
            (((SpatialGridList_Flat.storeAll H s.ResetBuffer calls).1.PrepareForUse sorted
              sched).m_gridBuffer b)
            (SpatialGridList_Flat.bucketCount
              (SpatialGridList_Flat.storeAll H s.ResetBuffer calls).1 b)).map
          (fun k => (((SpatialGridList_Flat.storeAll H s.ResetBuffer calls).1.PrepareForUse
            sorted sched).m_buffer1 k).value)).Perm
          (((SpatialGridList_Flat.storeAll H s.ResetBuffer calls).1.stagingList.filter
            (fun e => decide (e.y = b))).map
            (fun e => ((SpatialGridList_Flat.storeAll H s.ResetBuffer calls).1.m_buffer1
              e.x).value))) := by
  have hinv := SpatialGridList_Flat.StorePhase_storeAll (fun _ => True) H calls s.ResetBuffer
    (fun _ _ => trivial) (SpatialGridList_Flat.StorePhase_reset _ s)
  generalize (SpatialGridList_Flat.storeAll H s.ResetBuffer calls).1 = s1
    at hperm hsched hn hinv ⊢
  obtain ⟨h1, h2, h3, _⟩ :=
    SpatialGridList_Flat.PrepareForUse_buckets s1 sorted sched hperm hsort hsched hn
  have hstored : (s1.PrepareForUse sorted sched).getNumStoredEntries
      = min s1.idxData s1.numData := rfl
  rw [hstored]
  refine ⟨fun b hb => ⟨(h1 b hb).1, (h1 b hb).2.1⟩, h2, h3, ?_, ?_, ?_⟩
  · have := List.sum_map_count_dedup_eq_length (SpatialGridList_Flat.stagedHashes s1)
    rw [show (SpatialGridList_Flat.stagedHashes s1).length = min s1.idxData s1.numData by
      simp [SpatialGridList_Flat.stagedHashes, SpatialGridList_Flat.stagingList_length]] at this
    exact this
  · refine (SpatialGridList_Flat.PrepareForUse_values_perm s1 sorted sched hperm hsort
      hsched hn).trans ?_
    unfold SpatialGridList_Flat.stagingList
    rw [List.map_map]
    apply List.Perm.of_eq
    apply List.map_congr_left
    intro i hi
    rw [List.mem_range] at hi
    simp only [Function.comp_apply]
    rw [(SpatialGridList_Flat.StorePhase_live _ s1 hinv i hi).1]
  · intro b hb
    exact SpatialGridList_Flat.block_values_perm s1 sorted sched hperm hsort hsched hn b hb

set_option maxRecDepth 100000 in
/-- Witness of C6: the scenario on the 2 x 2 x 2 grid with the two entries of cell (0,0,0)
sorted in the order opposite to their insertion and the threads run last to first. -/
theorem flat_completeness_witness :
    scenarioSorted.Pairwise (fun a b => a.y ≤ b.y) ∧
      (∀ b ∈ SpatialGridList_Flat.stagedHashes flatStored,
        1 ≤ SpatialGridList_Flat.bucketCount flatStored b ∧
          flatBuilt.m_gridBuffer b + SpatialGridList_Flat.bucketCount flatStored b
            ≤ flatBuilt.getNumStoredEntries) ∧
      (∀ b ∈ SpatialGridList_Flat.stagedHashes flatStored,
        ∀ b' ∈ SpatialGridList_Flat.stagedHashes flatStored, b ≠ b' →
        flatBuilt.m_gridBuffer b + SpatialGridList_Flat.bucketCount flatStored b
            ≤ flatBuilt.m_gridBuffer b' ∨
          flatBuilt.m_gridBuffer b' + SpatialGridList_Flat.bucketCount flatStored b'
            ≤ flatBuilt.m_gridBuffer b) ∧
      (∀ k, k < flatBuilt.getNumStoredEntries →
        ∃ b ∈ SpatialGridList_Flat.stagedHashes flatStored,
          flatBuilt.m_gridBuffer b ≤ k ∧
            k < flatBuilt.m_gridBuffer b + SpatialGridList_Flat.bucketCount flatStored b) ∧
      (((SpatialGridList_Flat.stagedHashes flatStored).dedup.map
          (SpatialGridList_Flat.bucketCount flatStored)).sum = flatBuilt.getNumStoredEntries) ∧
      ((List.range flatBuilt.getNumStoredEntries).map
          (fun k => (flatBuilt.m_buffer1 k).value)).Perm
        ((List.range flatBuilt.getNumStoredEntries).map
          (fun i => (flatStored.m_buffer1 i).value)) ∧
      (∀ b ∈ SpatialGridList_Flat.stagedHashes flatStored,
        ((List.range' (flatBuilt.m_gridBuffer b)
            (SpatialGridList_Flat.bucketCount flatStored b)).map
          (fun k => (flatBuilt.m_buffer1 k).value)).Perm
          ((flatStored.stagingList.filter (fun e => decide (e.y = b))).map
            (fun e => (flatStored.m_buffer1 e.x).value))) :=
  ⟨by decide,
    flat_completeness hash222 flat4 scenarioCallsFlat scenarioSorted scenarioSched
      scenario_sorted_perm (by decide) scenario_sched_perm (by decide)⟩

/-! ## C7: flat terminal marker -/

/-- C7, counterexample. Capacity `2^32 - 1` on the 2 x 2 x 2 grid, `4294967040` stores of a
marker-clear payload after `ResetBuffer`, 1660 to cell (0,0,0), then 4 to cell (1,0,0), then the
rest to cell (0,1,0), all of them staged, then `PrepareForUse` (the staging list is sorted as it
stands; the launch has `429496896` threads, run in the order of their indices). The window starts
of the last 166 threads wrap at `2^32`; the last thread processes the run of cell (1,0,0) a second
time and leaves the bucket's offset at the number of stored entries. The bucket of cell (1,0,0)
has staged entries, yet `ForAllCellEntries` reports no entry for the cell, so no marked entry is
the last one reported. -/
theorem flat_terminal_marker_fails_on_window_wrap :
    (∀ a ∈ windowWrapCalls, a.2.flag = false) ∧
      (SpatialGridList_Flat.storeAll hash222 flatHuge.ResetBuffer
          windowWrapCalls).1.stagingList.Perm
        (SpatialGridList_Flat.storeAll hash222 flatHuge.ResetBuffer
          windowWrapCalls).1.stagingList ∧
      (SpatialGridList_Flat.storeAll hash222 flatHuge.ResetBuffer
          windowWrapCalls).1.stagingList.Pairwise (fun a b => a.y ≤ b.y) ∧
      (List.range 429496896).Perm (List.range (SpatialGridList_Flat.numThreads
        (min (SpatialGridList_Flat.storeAll hash222 flatHuge.ResetBuffer
            windowWrapCalls).1.idxData
          (SpatialGridList_Flat.storeAll hash222 flatHuge.ResetBuffer
            windowWrapCalls).1.numData))) ∧
      hash222 ⟨1, 0, 0⟩ ∈ SpatialGridList_Flat.stagedHashes
        (SpatialGridList_Flat.storeAll hash222 flatHuge.ResetBuffer windowWrapCalls).1 ∧
      SpatialGridList_Flat.ForAllCellEntries hash222
        ((SpatialGridList_Flat.storeAll hash222 flatHuge.ResetBuffer
            windowWrapCalls).1.PrepareForUse
          (SpatialGridList_Flat.storeAll hash222 flatHuge.ResetBuffer
            windowWrapCalls).1.stagingList
          (List.range 429496896)) ⟨1, 0, 0⟩ UINT_MAX = [] :=
  ⟨fun a ha => (windowWrapCalls_clear a ha).1, List.Perm.refl _,
    (SpatialGridList_Flat.window_wrap_facts hash222 _ ⟨1, 0, 0⟩ rfl windowWrap_stored.1
      windowWrap_stored.2.1 windowWrap_stored.2.2 (List.range 429496896) rfl).1,
    (SpatialGridList_Flat.window_wrap_facts hash222 _ ⟨1, 0, 0⟩ rfl windowWrap_stored.1
      windowWrap_stored.2.1 windowWrap_stored.2.2 (List.range 429496896) rfl).2.1,
    (SpatialGridList_Flat.window_wrap_facts hash222 _ ⟨1, 0, 0⟩ rfl windowWrap_stored.1
      windowWrap_stored.2.1 windowWrap_stored.2.2 (List.range 429496896) rfl).2.2.1,
    (SpatialGridList_Flat.window_wrap_facts hash222 _ ⟨1, 0, 0⟩ rfl windowWrap_stored.1
      windowWrap_stored.2.1 windowWrap_stored.2.2 (List.range 429496896)
      rfl).2.2.2.2.2.2.2.2⟩

/-- C7, amended. After `ResetBuffer`, stores of payloads whose last-in-cell marker is clear, and
`PrepareForUse` (`sorted` any rearrangement of the staging list ordered by cell hash, `sched` any
order of the threads of the launch), when fewer than `4294967040` entries are staged (the staged
count is the smaller of the cursor and the capacity; below `4294967040` no window start of the
launch wraps), for every cell whose bucket has staged entries: in the
bucket's block the last element, and no other, has the marker set; `ForAllCellEntries` with the
default cap reports exactly the block; exactly one reported entry is marked, and it is the last
one reported, the final element of the block. -/
theorem flat_terminal_marker {V : Type} (H : Vec3u → Nat) (s : SpatialGridList_Flat V)
    (calls : List (Vec3u × flatEntry V)) (sorted : List Vec2u) (sched : List Nat)
    (hclear : ∀ a ∈ calls, a.2.flag = false)
    (hperm : sorted.Perm (SpatialGridList_Flat.storeAll H s.ResetBuffer calls).1.stagingList)
    (hsort : sorted.Pairwise (fun a b => a.y ≤ b.y))
    (hsched : sched.Perm (List.range (SpatialGridList_Flat.numThreads
      (min (SpatialGridList_Flat.storeAll H s.ResetBuffer calls).1.idxData
        (SpatialGridList_Flat.storeAll H s.ResetBuffer calls).1.numData))))
    (hn : min (SpatialGridList_Flat.storeAll H s.ResetBuffer calls).1.idxData
      (SpatialGridList_Flat.storeAll H s.ResetBuffer calls).1.numData < 4294967040)
    (c : Vec3u)
    (hc : H c ∈ SpatialGridList_Flat.stagedHashes
      (SpatialGridList_Flat.storeAll H s.ResetBuffer calls).1) :
    (∀ d, d < SpatialGridList_Flat.bucketCount
          (SpatialGridList_Flat.storeAll H s.ResetBuffer calls).1 (H c) →
        (((SpatialGridList_Flat.storeAll H s.ResetBuffer calls).1.PrepareForUse sorted
            sched).m_buffer1
          (((SpatialGridList_Flat.storeAll H s.ResetBuffer calls).1.PrepareForUse sorted
            sched).m_gridBuffer (H c) + d)).getFlag
          = decide (d + 1 = SpatialGridList_Flat.bucketCount
              (SpatialGridList_Flat.storeAll H s.ResetBuffer calls).1 (H c))) ∧
      SpatialGridList_Flat.ForAllCellEntries H
          ((SpatialGridList_Flat.storeAll H s.ResetBuffer calls).1.PrepareForUse sorted sched) c
          UINT_MAX
        = (List.range'
            (((SpatialGridList_Flat.storeAll H s.ResetBuffer calls).1.PrepareForUse sorted
              sched).m_gridBuffer (H c))
            (SpatialGridList_Flat.bucketCount
              (SpatialGridList_Flat.storeAll H s.ResetBuffer calls).1 (H c))).map
            (fun k => (k, ((SpatialGridList_Flat.storeAll H s.ResetBuffer calls).1.PrepareForUse
              sorted sched).m_buffer1 k)) ∧
      ((SpatialGridList_Flat.ForAllCellEntries H
          ((SpatialGridList_Flat.storeAll H s.ResetBuffer calls).1.PrepareForUse sorted sched) c
          UINT_MAX).filter (fun e => e.2.getFlag)).length = 1 ∧
      ∃ e, (SpatialGridList_Flat.ForAllCellEntries H
            ((SpatialGridList_Flat.storeAll H s.ResetBuffer calls).1.PrepareForUse sorted sched)
            c UINT_MAX).getLast? = some e ∧
        e.2.getFlag = true ∧
        e.1 + 1 = ((SpatialGridList_Flat.storeAll H s.ResetBuffer calls).1.PrepareForUse sorted
              sched).m_gridBuffer (H c)
            + SpatialGridList_Flat.bucketCount
                (SpatialGridList_Flat.storeAll H s.ResetBuffer calls).1 (H c) := by
  have hinv := SpatialGridList_Flat.StorePhase_storeAll (fun e => e.flag = false) H calls
    s.ResetBuffer hclear (SpatialGridList_Flat.StorePhase_reset _ s)
  have hid := SpatialGridList_Flat.storeAll_idxData_lt H calls s
  generalize (SpatialGridList_Flat.storeAll H s.ResetBuffer calls).1 = s1
    at hperm hsched hn hinv hid hc ⊢
  have hcl : ∀ e ∈ s1.stagingList, (s1.m_buffer1 e.x).flag = false := by
    intro e he
    obtain ⟨i, hi, rfl⟩ := List.mem_map.1 he
    rw [List.mem_range] at hi
    obtain ⟨h1, h2⟩ := SpatialGridList_Flat.StorePhase_live _ s1 hinv i hi
    rw [h1]
    exact h2
  obtain ⟨hface, hflag⟩ := SpatialGridList_Flat.ForAllCellEntries_block H s1 sorted sched hperm
    hsort hsched hn hid hcl c hc
  have hpos : 0 < SpatialGridList_Flat.bucketCount s1 (H c) := List.count_pos_iff.2 hc
  obtain ⟨cnt, hcnt⟩ : ∃ cnt, SpatialGridList_Flat.bucketCount s1 (H c) = cnt + 1 :=
    ⟨SpatialGridList_Flat.bucketCount s1 (H c) - 1, by omega⟩
  refine ⟨hflag, hface, ?_, ?_⟩
  · rw [hface, hcnt]
    rw [SpatialGridList_Flat.filter_flag_block
      (fun k => (k, (s1.PrepareForUse sorted sched).m_buffer1 k))
      (fun e : Nat × flatEntry V => e.2.getFlag)]
    · rfl
    · intro d hd
      have := hflag d (by omega)
      rw [hcnt] at this
      simp only [this]
      simp
  · rw [hface, hcnt, List.range'_concat, List.map_append, Nat.one_mul]
    refine ⟨_, List.getLast?_concat _, ?_, rfl⟩
    have := hflag cnt (by omega)
    rw [hcnt] at this
    show ((s1.PrepareForUse sorted sched).m_buffer1
      ((s1.PrepareForUse sorted sched).m_gridBuffer (H c) + cnt)).getFlag = true
    rw [this]
    simp

set_option maxRecDepth 100000 in
/-- Witness of C7: in the scenario on the 2 x 2 x 2 grid, cell (0,0,0) yields 20 and then 10,
only the last marked, and cell (1,0,0) yields 30, marked. -/
theorem flat_terminal_marker_witness :
    ((∀ a ∈ scenarioCallsFlat, a.2.flag = false) ∧
        scenarioSorted.Pairwise (fun a b => a.y ≤ b.y) ∧
        hash222 ⟨0, 0, 0⟩ ∈ SpatialGridList_Flat.stagedHashes flatStored) ∧
      ((∀ d, d < SpatialGridList_Flat.bucketCount flatStored (hash222 ⟨0, 0, 0⟩) →
          (flatBuilt.m_buffer1 (flatBuilt.m_gridBuffer (hash222 ⟨0, 0, 0⟩) + d)).getFlag
            = decide (d + 1 = SpatialGridList_Flat.bucketCount flatStored (hash222 ⟨0, 0, 0⟩))) ∧
        SpatialGridList_Flat.ForAllCellEntries hash222 flatBuilt ⟨0, 0, 0⟩ UINT_MAX
          = (List.range' (flatBuilt.m_gridBuffer (hash222 ⟨0, 0, 0⟩))
              (SpatialGridList_Flat.bucketCount flatStored (hash222 ⟨0, 0, 0⟩))).map
              (fun k => (k, flatBuilt.m_buffer1 k)) ∧
        ((SpatialGridList_Flat.ForAllCellEntries hash222 flatBuilt ⟨0, 0, 0⟩ UINT_MAX).filter
          (fun e => e.2.getFlag)).length = 1 ∧
        ∃ e, (SpatialGridList_Flat.ForAllCellEntries hash222 flatBuilt ⟨0, 0, 0⟩
              UINT_MAX).getLast? = some e ∧
          e.2.getFlag = true ∧
          e.1 + 1 = flatBuilt.m_gridBuffer (hash222 ⟨0, 0, 0⟩)
            + SpatialGridList_Flat.bucketCount flatStored (hash222 ⟨0, 0, 0⟩)) ∧
      SpatialGridList_Flat.ForAllCellEntries hash222 flatBuilt ⟨0, 0, 0⟩ UINT_MAX
        = [(0, ⟨20, false⟩), (1, ⟨10, true⟩)] ∧
      SpatialGridList_Flat.ForAllCellEntries hash222 flatBuilt ⟨1, 0, 0⟩ UINT_MAX
        = [(2, ⟨30, true⟩)] :=
  ⟨⟨by decide, by decide, by decide⟩,
    flat_terminal_marker hash222 flat4 scenarioCallsFlat scenarioSorted scenarioSched (by decide)
      scenario_sorted_perm (by decide) scenario_sched_perm (by decide) ⟨0, 0, 0⟩ (by decide),
    by decide, by decide⟩

/-! ## C9: the visit cap -/

theorem SpatialGridList_Linked.walk_take {T : Type} (s : SpatialGridList_Linked T) (lo : Nat) :
    ∀ (m n i : Nat), m ≤ n → walk s lo m i = (walk s lo n i).take m := by
  intro m
  induction m with
  | zero => intro n i _; simp [walk]
  | succ m ih =>
    intro n i hmn
    obtain ⟨n', rfl⟩ : ∃ n', n = n' + 1 := ⟨n - 1, by omega⟩
    simp only [walk]
    split
    · rw [List.take_succ_cons, ← ih n' _ (by omega)]
    · rfl

theorem SpatialGridList_Flat.scan_take {V : Type} (s : SpatialGridList_Flat V) :
    ∀ (m n i : Nat), m ≤ n → scan s m i = (scan s n i).take m := by
  intro m
  induction m with
  | zero => intro n i _; simp [scan]
  | succ m ih =>
    intro n i hmn
    obtain ⟨n', rfl⟩ : ∃ n', n = n' + 1 := ⟨n - 1, by omega⟩
    simp only [scan]
    split
    · rw [List.take_succ_cons, ← ih n' _ (by omega)]
    · rfl

/-- C9. For every state of the linked and of the flat structure, every cell and every cap
`m ≤ UINT_MAX` (the range of the `unsigned int` parameter), `ForAllCellEntries(cell, callback, m)`
invokes the callback at most `m` times, and what it reports is the first `min k m` elements of
what the call with the default cap `UINT_MAX` reports, `k` being the length of the latter. -/
theorem visit_cap {T V : Type} (H : Vec3u → Nat) (sl : SpatialGridList_Linked T)
    (sf : SpatialGridList_Flat V) (c : Vec3u) (m : Nat) (hm : m ≤ UINT_MAX) :
    ((SpatialGridList_Linked.ForAllCellEntries H sl c m).length ≤ m ∧
        SpatialGridList_Linked.ForAllCellEntries H sl c m
          = (SpatialGridList_Linked.ForAllCellEntries H sl c UINT_MAX).take
              (min (SpatialGridList_Linked.ForAllCellEntries H sl c UINT_MAX).length m)) ∧
      ((SpatialGridList_Flat.ForAllCellEntries H sf c m).length ≤ m ∧
        SpatialGridList_Flat.ForAllCellEntries H sf c m
          = (SpatialGridList_Flat.ForAllCellEntries H sf c UINT_MAX).take
              (min (SpatialGridList_Flat.ForAllCellEntries H sf c UINT_MAX).length m)) := by
  have hl : SpatialGridList_Linked.ForAllCellEntries H sl c m
      = (SpatialGridList_Linked.ForAllCellEntries H sl c UINT_MAX).take m :=
    SpatialGridList_Linked.walk_take sl _ m UINT_MAX _ hm
  have hf : SpatialGridList_Flat.ForAllCellEntries H sf c m
      = (SpatialGridList_Flat.ForAllCellEntries H sf c UINT_MAX).take m :=
    SpatialGridList_Flat.scan_take sf m UINT_MAX _ hm
  refine ⟨⟨?_, ?_⟩, ⟨?_, ?_⟩⟩
  · rw [hl, List.length_take]; exact Nat.min_le_left _ _
  · rw [hl, Nat.min_comm, ← List.take_take, List.take_length]
  · rw [hf, List.length_take]; exact Nat.min_le_left _ _
  · rw [hf, Nat.min_comm, ← List.take_take, List.take_length]
/-- Witness of C9: the scenario structures, cell (0,0,0), cap 1. -/
theorem visit_cap_witness :
    1 ≤ UINT_MAX ∧
      (((SpatialGridList_Linked.ForAllCellEntries hash222 linkedScenario ⟨0, 0, 0⟩ 1).length ≤ 1 ∧
          SpatialGridList_Linked.ForAllCellEntries hash222 linkedScenario ⟨0, 0, 0⟩ 1
            = (SpatialGridList_Linked.ForAllCellEntries hash222 linkedScenario ⟨0, 0, 0⟩
                UINT_MAX).take
                (min (SpatialGridList_Linked.ForAllCellEntries hash222 linkedScenario ⟨0, 0, 0⟩
                  UINT_MAX).length 1)) ∧
        ((SpatialGridList_Flat.ForAllCellEntries hash222 flatBuilt ⟨0, 0, 0⟩ 1).length ≤ 1 ∧
          SpatialGridList_Flat.ForAllCellEntries hash222 flatBuilt ⟨0, 0, 0⟩ 1
            = (SpatialGridList_Flat.ForAllCellEntries hash222 flatBuilt ⟨0, 0, 0⟩
                UINT_MAX).take
                (min (SpatialGridList_Flat.ForAllCellEntries hash222 flatBuilt ⟨0, 0, 0⟩
                  UINT_MAX).length 1))) :=
  ⟨by decide, visit_cap hash222 linkedScenario flatBuilt ⟨0, 0, 0⟩ 1 (by decide)⟩

/-! ## C8: bucket offsets of cells that received nothing -/

set_option maxRecDepth 100000 in
/-- C8, at the failing input. 2 x 2 x 2 grid (8 buckets), offsets initially all the sentinel.
Pass 1 stores one value into cell (0,1,0) (bucket 2); pass 2 stores one value, 6, into cell
(0,0,0). The reset stage of `PrepareForUse` clears 8 bytes, that is the offsets of buckets 0 and 1
only, so after pass 2 bucket 2, which received nothing in pass 2, still has the offset 0 of pass
1, and `ForAllCellEntries` on cell (0,1,0) reports the value 6 stored to cell (0,0,0). -/
theorem stale_offset_survives_reset :
    hash222 ⟨0, 1, 0⟩ < gridCells flatPass2.m_gridSize ∧
      hash222 ⟨0, 1, 0⟩ ∉ SpatialGridList_Flat.stagedHashes flatPass2Stored ∧
      flatPass2.m_gridBuffer (hash222 ⟨0, 1, 0⟩) = 0 ∧
      SpatialGridList_Flat.ForAllCellEntries hash222 flatPass2 ⟨0, 1, 0⟩ UINT_MAX
        = [(0, ⟨6, true⟩)] := by
  decide

/-! ## C10: `RemoveIf` -/

/-- C10, at the failing input. Capacity 4, the values 1, 2, 3, 4 stored into cell (0,0,0), so
that the cell reports 4, 3, 2, 1; `RemoveIf` with the predicate "value at most 3" returns, and
afterwards the cell reports 4 and 2: the entry 2, which satisfies the predicate and followed the
unlinked entry 3 in the chain, is still there. -/
theorem removeIf_keeps_adjacent_match :
    SpatialGridList_Linked.ForAllCellEntries hash222 linkedFour ⟨0, 0, 0⟩ UINT_MAX
        = [(3, 4), (2, 3), (1, 2), (0, 1)] ∧
      (SpatialGridList_Linked.RemoveIf hash222 linkedFour ⟨0, 0, 0⟩ valueAtMost3).map
          (fun s => SpatialGridList_Linked.ForAllCellEntries hash222 s ⟨0, 0, 0⟩ UINT_MAX)
        = some [(3, 4), (1, 2)] ∧
      (SpatialGridList_Linked.ForAllCellEntries hash222 linkedFour ⟨0, 0, 0⟩ UINT_MAX).filter
          (fun e => !valueAtMost3 (linkedFour.m_dataBuffer e.1))
        = [(3, 4)] := by
  decide

/-! ## Supplements to C5, C7 and C8 -/

/-- After `ResetBuffer` and fewer than `2^32` stores, a bucket has as many staged entries as
values were successfully stored to it; in particular its cell hash occurs in the staging list
exactly when it received a successfully stored value. -/
theorem bucketCount_eq_stored {V : Type} (H : Vec3u → Nat) (s : SpatialGridList_Flat V)
    (calls : List (Vec3u × flatEntry V)) (hN : calls.length < 2 ^ 32) (b : Nat) :
    SpatialGridList_Flat.bucketCount (SpatialGridList_Flat.storeAll H s.ResetBuffer calls).1 b
        = (storedValues H b calls
            (SpatialGridList_Flat.storeAll H s.ResetBuffer calls).2).length ∧
      (b ∈ SpatialGridList_Flat.stagedHashes
          (SpatialGridList_Flat.storeAll H s.ResetBuffer calls).1 ↔
        1 ≤ (storedValues H b calls
          (SpatialGridList_Flat.storeAll H s.ResetBuffer calls).2).length) := by
  have hvals := staged_bucket_values H s calls hN b
  have hcount : SpatialGridList_Flat.bucketCount
      (SpatialGridList_Flat.storeAll H s.ResetBuffer calls).1 b
      = (storedValues H b calls
          (SpatialGridList_Flat.storeAll H s.ResetBuffer calls).2).length := by
    rw [SpatialGridList_Flat.bucketCount_eq_filter, ← hvals, List.length_map]
  refine ⟨hcount, ?_⟩
  rw [← hcount]
  exact (List.count_pos_iff (a := b)
    (l := SpatialGridList_Flat.stagedHashes
      (SpatialGridList_Flat.storeAll H s.ResetBuffer calls).1)).symm

/-- The reset stage of `PrepareForUse` reaches the offsets of the first quarter of the buckets
only: a bucket without staged entries whose offset lies wholly inside the first `GP` bytes gets
the sentinel, and a bucket without staged entries whose offset lies wholly outside them keeps the
offset it had before the call. -/
theorem PrepareForUse_offset_without_entries {V : Type} (s : SpatialGridList_Flat V)
    (sorted : List Vec2u) (sched : List Nat) (hperm : sorted.Perm s.stagingList)
    (hsort : sorted.Pairwise (fun a b => a.y ≤ b.y))
    (hsched : sched.Perm (List.range (SpatialGridList_Flat.numThreads
      (min s.idxData s.numData))))
    (hn : min s.idxData s.numData < 4294967040)
    (b : Nat) (hb : b ∉ SpatialGridList_Flat.stagedHashes s) :
    (4 * b + 4 ≤ gridCells s.m_gridSize →
        (s.PrepareForUse sorted sched).m_gridBuffer b = 0xffffffff) ∧
      (gridCells s.m_gridSize ≤ 4 * b →
        (s.PrepareForUse sorted sched).m_gridBuffer b = s.m_gridBuffer b) := by
  obtain ⟨_, _, _, h4⟩ :=
    SpatialGridList_Flat.PrepareForUse_buckets s sorted sched hperm hsort hsched hn
  rw [h4 b hb]
  unfold cudaMemset gridCells
  constructor
  · intro h
    rw [if_pos h]
  · intro h
    rw [if_neg (by omega), if_neg (by omega)]

/-! ## C11: a dropped `Store` of the linked structure -/

theorem SpatialGridList_Linked.Store_dropped {T : Type} (H : Vec3u → Nat)
    (s : SpatialGridList_Linked T) (p : Vec3u) (v : T) (h : s.numData ≤ s.deviceDataIdx) :
    SpatialGridList_Linked.Store H s p v
      = ({ s with deviceDataIdx := atomicInc s.deviceDataIdx 0xffffffff }, 0xffffffff) := by
  unfold SpatialGridList_Linked.Store
  dsimp only
  rw [if_pos h]

theorem SpatialGridList_Linked.Store_has_room {T : Type} (H : Vec3u → Nat)
    (s : SpatialGridList_Linked T) (p : Vec3u) (v : T) (h : ¬ s.numData ≤ s.deviceDataIdx) :
    SpatialGridList_Linked.Store H s p v
      = ({ s with
            deviceDataIdx := atomicInc s.deviceDataIdx 0xffffffff
            m_mapBuffer := bufSet s.m_mapBuffer (H p) s.deviceDataIdx
            m_dataBuffer := bufSet s.m_dataBuffer s.deviceDataIdx ⟨s.m_mapBuffer (H p), v⟩ },
          s.deviceDataIdx) := by
  unfold SpatialGridList_Linked.Store
  dsimp only
  rw [if_neg h]

/-- The walk of a chain reads the entry pool only. -/
theorem SpatialGridList_Linked.walk_congr {T : Type} (s t : SpatialGridList_Linked T)
    (h : s.m_dataBuffer = t.m_dataBuffer) (lo m i : Nat) :
    SpatialGridList_Linked.walk s lo m i = SpatialGridList_Linked.walk t lo m i := by
  induction m generalizing i with
  | zero => rfl
  | succ m ih =>
    unfold SpatialGridList_Linked.walk
    rw [h, ih]

/-- A `Store` issued at cursor `0xffffffff` wraps the cursor, after which no cell reports an
entry. -/
theorem SpatialGridList_Linked.ForAllCellEntries_Store_wrap {T : Type} (H : Vec3u → Nat)
    (s : SpatialGridList_Linked T) (p : Vec3u) (v : T) (c : Vec3u) (m : Nat)
    (hc : s.deviceDataIdx = 0xffffffff) :
    SpatialGridList_Linked.ForAllCellEntries H (SpatialGridList_Linked.Store H s p v).1 c m
      = [] := by
  unfold SpatialGridList_Linked.ForAllCellEntries
  rw [SpatialGridList_Linked.Store_deviceDataIdx, hc]
  have h0 : atomicInc 0xffffffff 0xffffffff = 0 := by decide
  rw [h0, Nat.zero_min]
  exact SpatialGridList_Linked.walk_lo_zero _ _ _

/-- The state reached by the `2^32 - 1` stores of `almostWrapCalls` has cursor `0xffffffff`. -/
theorem linked_almost_wrap_cursor :
    (SpatialGridList_Linked.storeAll hash222 linked4.ResetBuffer almostWrapCalls).1.deviceDataIdx
      = 0xffffffff := by
  have hlen : almostWrapCalls.length = 4294967295 := List.length_replicate _ _
  rw [SpatialGridList_Linked.storeAll_deviceDataIdx _ _ _ (by decide), hlen]
  rfl

theorem linked_almost_wrap_numData :
    (SpatialGridList_Linked.storeAll hash222 linked4.ResetBuffer almostWrapCalls).1.numData
      = 4 := by
  rw [SpatialGridList_Linked.storeAll_numData]
  rfl

/-- After the `2^32 - 1` stores of `almostWrapCalls`, cell (0,0,0) reports at least one entry. -/
theorem linked_almost_wrap_reports :
    SpatialGridList_Linked.ForAllCellEntries hash222
        (SpatialGridList_Linked.storeAll hash222 linked4.ResetBuffer almostWrapCalls).1 ⟨0, 0, 0⟩
        UINT_MAX
      ≠ [] := by
  have hlen : almostWrapCalls.length = 4294967295 := List.length_replicate _ _
  rw [SpatialGridList_Linked.ForAllCellEntries_storeAll hash222 linked4 almostWrapCalls
    (by rw [hlen]; decide) ⟨0, 0, 0⟩]
  have hw : almostWrapCalls = (⟨0, 0, 0⟩, 7) :: List.replicate 4294967294 (⟨0, 0, 0⟩, 7) :=
    List.replicate_succ _ 4294967294
  rw [hw]
  have hunf : ∀ (s : SpatialGridList_Linked Nat) (rest : List (Vec3u × Nat)),
      (SpatialGridList_Linked.storeAll hash222 s ((⟨0, 0, 0⟩, 7) :: rest)).2
        = (SpatialGridList_Linked.Store hash222 s ⟨0, 0, 0⟩ 7).2 ::
          (SpatialGridList_Linked.storeAll hash222
            (SpatialGridList_Linked.Store hash222 s ⟨0, 0, 0⟩ 7).1 rest).2 := fun _ _ => rfl
  rw [hunf, storedIn_cons, if_pos (by decide)]
  exact List.append_ne_nil_of_right_ne_nil _ (List.cons_ne_nil _ _)

/-- C11, counterexample. Capacity 4; after `ResetBuffer` and `2^32 - 1` stores to cell (0,0,0) the
cursor is `0xffffffff`, which is not below the capacity, and the cell reports its entries. One
more `Store` is dropped (it returns the sentinel) and wraps the cursor to 0: afterwards the cell
reports nothing, so the `ForAllCellEntries` output is not the same before and after the dropped
`Store`. -/
theorem dropped_store_changes_output_at_wrap :
    (SpatialGridList_Linked.storeAll hash222 linked4.ResetBuffer almostWrapCalls).1.numData
        ≤ (SpatialGridList_Linked.storeAll hash222 linked4.ResetBuffer
            almostWrapCalls).1.deviceDataIdx ∧
      (SpatialGridList_Linked.Store hash222
          (SpatialGridList_Linked.storeAll hash222 linked4.ResetBuffer almostWrapCalls).1
          ⟨0, 0, 0⟩ 7).2 = 0xffffffff ∧
      SpatialGridList_Linked.ForAllCellEntries hash222
          (SpatialGridList_Linked.Store hash222
            (SpatialGridList_Linked.storeAll hash222 linked4.ResetBuffer almostWrapCalls).1
            ⟨0, 0, 0⟩ 7).1 ⟨0, 0, 0⟩ UINT_MAX
        ≠ SpatialGridList_Linked.ForAllCellEntries hash222
          (SpatialGridList_Linked.storeAll hash222 linked4.ResetBuffer almostWrapCalls).1
          ⟨0, 0, 0⟩ UINT_MAX := by
  have hfull : (SpatialGridList_Linked.storeAll hash222 linked4.ResetBuffer
        almostWrapCalls).1.numData
      ≤ (SpatialGridList_Linked.storeAll hash222 linked4.ResetBuffer
        almostWrapCalls).1.deviceDataIdx := by
    rw [linked_almost_wrap_cursor, linked_almost_wrap_numData]
    decide
  refine ⟨hfull, ?_, ?_⟩
  · rw [SpatialGridList_Linked.Store_dropped hash222 _ ⟨0, 0, 0⟩ 7 hfull]
  · rw [SpatialGridList_Linked.ForAllCellEntries_Store_wrap hash222 _ ⟨0, 0, 0⟩ 7 ⟨0, 0, 0⟩
      UINT_MAX linked_almost_wrap_cursor]
    exact fun h => linked_almost_wrap_reports h.symm

/-- C11, amended. Whenever the cursor is already at or above the capacity, `Store(cell, value)`
returns the sentinel `0xffffffff` and changes no bucket head and no pool entry; only the cursor
changes, to its successor, or to 0 when it was `0xffffffff`. Hence, when the cursor is below
`0xffffffff`, every cell's `ForAllCellEntries` output, for every cap, is the same before and
after the dropped `Store`. -/
theorem dropped_store_leaves_map {T : Type} (H : Vec3u → Nat) (s : SpatialGridList_Linked T)
    (p : Vec3u) (v : T) (hfull : s.numData ≤ s.deviceDataIdx) :
    (SpatialGridList_Linked.Store H s p v).2 = 0xffffffff ∧
      (SpatialGridList_Linked.Store H s p v).1.m_mapBuffer = s.m_mapBuffer ∧
      (SpatialGridList_Linked.Store H s p v).1.m_dataBuffer = s.m_dataBuffer ∧
      (SpatialGridList_Linked.Store H s p v).1.numData = s.numData ∧
      (SpatialGridList_Linked.Store H s p v).1.m_gridSize = s.m_gridSize ∧
      (SpatialGridList_Linked.Store H s p v).1.deviceDataIdx
        = (if s.deviceDataIdx ≥ 0xffffffff then 0 else s.deviceDataIdx + 1) ∧
      (s.deviceDataIdx < 0xffffffff → ∀ (c : Vec3u) (m : Nat),
        SpatialGridList_Linked.ForAllCellEntries H (SpatialGridList_Linked.Store H s p v).1 c m
          = SpatialGridList_Linked.ForAllCellEntries H s c m) := by
  rw [SpatialGridList_Linked.Store_dropped H s p v hfull]
  refine ⟨rfl, rfl, rfl, rfl, rfl, rfl, ?_⟩
  intro hlt c m
  unfold SpatialGridList_Linked.ForAllCellEntries
  dsimp only
  rw [atomicInc_lt hlt, show min (s.deviceDataIdx + 1) s.numData = min s.deviceDataIdx s.numData by
    omega]
  apply SpatialGridList_Linked.walk_congr
  rfl

/-- Witness of the amended C11: capacity 4, the state after ten stores (cursor 10), an eleventh
store. -/
theorem dropped_store_leaves_map_witness :
    (SpatialGridList_Linked.storeAll hash222 linked4.ResetBuffer tenCalls).1.numData
        ≤ (SpatialGridList_Linked.storeAll hash222 linked4.ResetBuffer tenCalls).1.deviceDataIdx ∧
      (SpatialGridList_Linked.Store hash222
          (SpatialGridList_Linked.storeAll hash222 linked4.ResetBuffer tenCalls).1 ⟨1, 1, 1⟩
          11).2 = 0xffffffff ∧
      (SpatialGridList_Linked.Store hash222
          (SpatialGridList_Linked.storeAll hash222 linked4.ResetBuffer tenCalls).1 ⟨1, 1, 1⟩
          11).1.m_mapBuffer
        = (SpatialGridList_Linked.storeAll hash222 linked4.ResetBuffer tenCalls).1.m_mapBuffer :=
  ⟨by decide,
    (dropped_store_leaves_map hash222
      (SpatialGridList_Linked.storeAll hash222 linked4.ResetBuffer tenCalls).1 ⟨1, 1, 1⟩ 11
      (by decide)).1,
    (dropped_store_leaves_map hash222
      (SpatialGridList_Linked.storeAll hash222 linked4.ResetBuffer tenCalls).1 ⟨1, 1, 1⟩ 11
      (by decide)).2.1⟩

/-! ## C12: `isFull` -/

/-- C12. In both strategies `isFull()` is true exactly when the cursor is at or above the
capacity; hence after `ResetBuffer` followed by `N < 2^32` calls of `Store` against capacity `C`,
`isFull()` is true if and only if `N >= C`. -/
theorem isFull_tracks_cursor {T V : Type} (H : Vec3u → Nat) (sl : SpatialGridList_Linked T)
    (sf : SpatialGridList_Flat V) (callsL : List (Vec3u × T))
    (callsF : List (Vec3u × flatEntry V)) (hL : callsL.length < 2 ^ 32)
    (hF : callsF.length < 2 ^ 32) :
    (sl.isFull = true ↔ sl.deviceDataIdx ≥ sl.numData) ∧
      (sf.isFull = true ↔ sf.idxData ≥ sf.numData) ∧
      ((SpatialGridList_Linked.storeAll H sl.ResetBuffer callsL).1.isFull = true
        ↔ callsL.length ≥ sl.numData) ∧
      ((SpatialGridList_Flat.storeAll H sf.ResetBuffer callsF).1.isFull = true
        ↔ callsF.length ≥ sf.numData) := by
  refine ⟨?_, ?_, ?_, ?_⟩
  · unfold SpatialGridList_Linked.isFull
    exact decide_eq_true_iff
  · unfold SpatialGridList_Flat.isFull
    exact decide_eq_true_iff
  · unfold SpatialGridList_Linked.isFull
    rw [decide_eq_true_iff, linked_cursor_after H sl callsL hL,
      SpatialGridList_Linked.storeAll_numData]
    rfl
  · unfold SpatialGridList_Flat.isFull
    rw [decide_eq_true_iff, flat_cursor_after H sf callsF hF,
      SpatialGridList_Flat.storeAll_numData_flat]
    rfl

/-- Witness of C12: capacity 4 and ten stores give `isFull() == true`, in both strategies. -/
theorem isFull_tracks_cursor_witness :
    tenCalls.length < 2 ^ 32 ∧ tenCallsFlat.length < 2 ^ 32 ∧
      (SpatialGridList_Linked.storeAll hash222 linked4.ResetBuffer tenCalls).1.isFull = true ∧
      (SpatialGridList_Flat.storeAll hash222 flat4.ResetBuffer tenCallsFlat).1.isFull = true :=
  ⟨by decide, by decide,
    (isFull_tracks_cursor hash222 linked4 flat4 tenCalls tenCallsFlat (by decide)
      (by decide)).2.2.1.mpr (by decide),
    (isFull_tracks_cursor hash222 linked4 flat4 tenCalls tenCallsFlat (by decide)
      (by decide)).2.2.2.mpr (by decide)⟩

/-! ## C13: `ResetBuffer` of the linked structure -/

/-- C13. From any prior state, after `ResetBuffer()` of the linked structure the cursor is 0
(`getNumStoredEntries() == 0`), every bucket head equals the sentinel `0xffffffff`, and
`ForAllCellEntries` on every cell, with every cap, invokes the callback zero times, whatever
links and values remain in the pool (the pool is left as it was). -/
theorem linked_reset_empties {T : Type} (H : Vec3u → Nat) (s : SpatialGridList_Linked T) :
    s.ResetBuffer.deviceDataIdx = 0 ∧ s.ResetBuffer.getNumStoredEntries = 0 ∧
      (∀ b : Nat, s.ResetBuffer.m_mapBuffer b = SENTINEL) ∧
      s.ResetBuffer.m_dataBuffer = s.m_dataBuffer ∧
      (∀ (c : Vec3u) (m : Nat), SpatialGridList_Linked.ForAllCellEntries H s.ResetBuffer c m
        = []) := by
  refine ⟨rfl, rfl, fun _ => rfl, rfl, ?_⟩
  intro c m
  unfold SpatialGridList_Linked.ForAllCellEntries
  have h0 : s.ResetBuffer.deviceDataIdx = 0 := rfl
  rw [h0, Nat.zero_min]
  exact SpatialGridList_Linked.walk_lo_zero _ _ _

/-! ## C14: `Store` with an explicit index -/

/-- C14. For every linked state whose cursor (a 32-bit word) is below the capacity, every cell
and value: reserving `i := AllocStorage(1)` and then performing `Store(cell, value, i)` produces
exactly the state produced by the single call `Store(cell, value)`, which returns that same
`i`. -/
theorem store_explicit_index_refines {T : Type} (H : Vec3u → Nat)
    (s : SpatialGridList_Linked T) (p : Vec3u) (v : T) (hword : s.deviceDataIdx < 2 ^ 32)
    (hroom : s.deviceDataIdx < s.numData) :
    SpatialGridList_Linked.StoreAt H (s.AllocStorage 1).1 p v (s.AllocStorage 1).2
        = (SpatialGridList_Linked.Store H s p v).1 ∧
      (s.AllocStorage 1).2 = (SpatialGridList_Linked.Store H s p v).2 := by
  rw [SpatialGridList_Linked.Store_has_room H s p v (by omega)]
  unfold SpatialGridList_Linked.StoreAt SpatialGridList_Linked.AllocStorage
  dsimp only
  rw [atomicInc_mod hword]
  exact ⟨rfl, rfl⟩

/-- Witness of C14: the state after two stores into the capacity-4 structure, a third value
stored to cell (1,0,0) either way. -/
theorem store_explicit_index_refines_witness :
    linkedFresh2.deviceDataIdx < 2 ^ 32 ∧ linkedFresh2.deviceDataIdx < linkedFresh2.numData ∧
      SpatialGridList_Linked.StoreAt hash222 (linkedFresh2.AllocStorage 1).1 ⟨1, 0, 0⟩ 30
          (linkedFresh2.AllocStorage 1).2
        = (SpatialGridList_Linked.Store hash222 linkedFresh2 ⟨1, 0, 0⟩ 30).1 ∧
      (linkedFresh2.AllocStorage 1).2
        = (SpatialGridList_Linked.Store hash222 linkedFresh2 ⟨1, 0, 0⟩ 30).2 :=
  ⟨by decide, by decide,
    store_explicit_index_refines hash222 linkedFresh2 ⟨1, 0, 0⟩ 30 (by decide) (by decide)⟩

/-! ## C15: `PrepareForUse` of the flat structure outside a CUDA build -/

/-- C15, counterexample. Capacity 4 and ten stores: `getNumStoredEntries()` is 10 before
`PrepareForUse` is called in a build without `__CUDACC__`; the call throws, and afterwards
`getNumStoredEntries()` is 4, not the value it had before the call. -/
theorem host_prepare_changes_stored_count :
    flatTen.getNumStoredEntries = 10 ∧
      flatTen.PrepareForUse_host.2 = Except.error "Use this from a cuda file please!" ∧
      flatTen.PrepareForUse_host.1.getNumStoredEntries = 4 ∧
      flatTen.PrepareForUse_host.1.getNumStoredEntries ≠ flatTen.getNumStoredEntries :=
  ⟨by decide, rfl, by decide, by decide⟩

/-- C15, amended. In a build without `__CUDACC__`, `PrepareForUse` of the flat strategy always
terminates with a thrown `runtime_error` and performs no rebuild: the bucket-offset array, both
payload buffers and their roles and the staging list are left exactly as they were before the
call, and `getNumStoredEntries()` is left at the smaller of its previous value and the capacity,
hence exactly as it was whenever it did not exceed the capacity. -/
theorem host_prepare_fails_fast {V : Type} (s : SpatialGridList_Flat V) :
    s.PrepareForUse_host.2 = Except.error "Use this from a cuda file please!" ∧
      s.PrepareForUse_host.1.m_gridBuffer = s.m_gridBuffer ∧
      s.PrepareForUse_host.1.m_buffer1 = s.m_buffer1 ∧
      s.PrepareForUse_host.1.m_buffer2 = s.m_buffer2 ∧
      s.PrepareForUse_host.1.m_listBuffer = s.m_listBuffer ∧
      s.PrepareForUse_host.1.deviceIdxCounter = s.deviceIdxCounter ∧
      s.PrepareForUse_host.1.numData = s.numData ∧
      s.PrepareForUse_host.1.m_gridSize = s.m_gridSize ∧
      s.PrepareForUse_host.1.stagingList = s.stagingList ∧
      s.PrepareForUse_host.1.getNumStoredEntries = min s.getNumStoredEntries s.getNumEntries ∧
      (s.getNumStoredEntries ≤ s.getNumEntries →
        s.PrepareForUse_host.1.getNumStoredEntries = s.getNumStoredEntries ∧
        s.PrepareForUse_host.1 = s) := by
  refine ⟨rfl, rfl, rfl, rfl, rfl, rfl, rfl, rfl, ?_, rfl, ?_⟩
  · unfold SpatialGridList_Flat.stagingList SpatialGridList_Flat.PrepareForUse_host
    dsimp only
    rw [Nat.min_assoc, Nat.min_self]
  · intro h
    unfold SpatialGridList_Flat.getNumStoredEntries SpatialGridList_Flat.getNumEntries at h
    have hm : min s.idxData s.numData = s.idxData := Nat.min_eq_left h
    unfold SpatialGridList_Flat.PrepareForUse_host SpatialGridList_Flat.getNumStoredEntries
    dsimp only
    rw [hm]
    exact ⟨rfl, rfl⟩

/-- Witness of the amended C15: capacity 4 after three stores; the call throws and the stored
count stays 3. -/
theorem host_prepare_fails_fast_witness :
    flatStored.getNumStoredEntries ≤ flatStored.getNumEntries ∧
      flatStored.PrepareForUse_host.2 = Except.error "Use this from a cuda file please!" ∧
      flatStored.PrepareForUse_host.1.getNumStoredEntries = flatStored.getNumStoredEntries :=
  ⟨by decide, (host_prepare_fails_fast flatStored).1,
    ((host_prepare_fails_fast flatStored).2.2.2.2.2.2.2.2.2.2 (by decide)).1⟩

/-! ## C16: box traversal -/

theorem mem_ForAllCells (cmin cmax cell : Vec3u) :
    cell ∈ ForAllCells cmin cmax ↔ InBox cmin cmax cell := by
  obtain ⟨cx, cy, cz⟩ := cell
  unfold ForAllCells InBox
  simp only [List.mem_flatMap, List.mem_map, List.mem_range', Vec3u.mk.injEq]
  constructor
  · rintro ⟨ax, ⟨i, hi, rfl⟩, ay, ⟨j, hj, rfl⟩, az, ⟨k, hk, rfl⟩, h1, h2, h3⟩
    subst h1 h2 h3
    omega
  · rintro ⟨⟨h1, h2⟩, ⟨h3, h4⟩, h5, h6⟩
    exact ⟨cx, ⟨cx - cmin.x, by omega, by omega⟩, cy, ⟨cy - cmin.y, by omega, by omega⟩, cz,
      ⟨cz - cmin.z, by omega, by omega⟩, rfl, rfl, rfl⟩

theorem ForAllCells_nodup (cmin cmax : Vec3u) : (ForAllCells cmin cmax).Nodup := by
  unfold ForAllCells
  rw [List.nodup_flatMap]
  refine ⟨?_, ?_⟩
  · intro ax _
    rw [List.nodup_flatMap]
    refine ⟨?_, ?_⟩
    · intro ay _
      apply List.Nodup.map _ (List.nodup_range' _ _)
      intro a b h
      exact (Vec3u.mk.injEq _ _ _ _ _ _ ▸ h : _ ∧ _ ∧ a = b).2.2
    · apply List.Pairwise.imp _ (List.nodup_range' _ _)
      intro a b hab
      unfold Function.onFun List.Disjoint
      intro c h1 h2
      rw [List.mem_map] at h1 h2
      obtain ⟨_, _, rfl⟩ := h1
      obtain ⟨_, _, h⟩ := h2
      rw [Vec3u.mk.injEq] at h
      exact hab h.2.1.symm
  · apply List.Pairwise.imp _ (List.nodup_range' _ _)
    intro a b hab
    unfold Function.onFun List.Disjoint
    intro c h1 h2
    rw [List.mem_flatMap] at h1 h2
    obtain ⟨_, _, h1⟩ := h1
    obtain ⟨_, _, h2⟩ := h2
    rw [List.mem_map] at h1 h2
    obtain ⟨_, _, rfl⟩ := h1
    obtain ⟨_, _, h⟩ := h2
    rw [Vec3u.mk.injEq] at h
    exact hab h.1.symm

/-- The triples reported for one cell by a traversal of duplicate-free cells. -/
theorem flatMap_filter_cell {E : Type} (f : Vec3u → List (Nat × E)) (cell : Vec3u) :
    ∀ cells : List Vec3u, cells.Nodup →
      (cells.flatMap (fun c => (f c).map (fun e => (c, e.1, e.2)))).filter
          (fun t => decide (t.1 = cell))
        = if cell ∈ cells then (f cell).map (fun e => (cell, e.1, e.2)) else [] := by
  intro cells
  induction cells with
  | nil => intro _; rfl
  | cons c rest ih =>
    intro hnd
    rw [List.nodup_cons] at hnd
    rw [List.flatMap_cons, List.filter_append, ih hnd.2]
    by_cases hc : c = cell
    · subst hc
      rw [if_neg hnd.1, List.append_nil, if_pos (List.mem_cons_self _ _)]
      apply List.filter_eq_self.mpr
      intro t ht
      rw [List.mem_map] at ht
      obtain ⟨e, _, rfl⟩ := ht
      exact decide_eq_true rfl
    · have hnil : ((f c).map (fun e => (c, e.1, e.2))).filter (fun t => decide (t.1 = cell))
          = [] := by
        apply List.filter_eq_nil_iff.mpr
        intro t ht
        rw [List.mem_map] at ht
        obtain ⟨e, _, rfl⟩ := ht
        simpa using hc
      rw [hnil, List.nil_append]
      have hiff : cell ∈ c :: rest ↔ cell ∈ rest := by
        rw [List.mem_cons]
        constructor
        · rintro (h | h)
          · exact absurd h.symm hc
          · exact h
        · exact Or.inr
      by_cases hm : cell ∈ rest
      · rw [if_pos hm, if_pos (hiff.mpr hm)]
      · rw [if_neg hm, if_neg (fun h => hm (hiff.mp h))]

theorem SpatialGridListBase.ForAll_spec {E : Type} (f : Vec3u → Nat → List (Nat × E))
    (m : Nat) (cmin cmax : Vec3u) :
    (∀ (cell : Vec3u) (e_idx : Nat) (val : E),
        (cell, e_idx, val) ∈ SpatialGridListBase.ForAll f m cmin cmax
          ↔ InBox cmin cmax cell ∧ (e_idx, val) ∈ f cell m) ∧
      (∀ cell : Vec3u, InBox cmin cmax cell →
        (SpatialGridListBase.ForAll f m cmin cmax).filter (fun t => decide (t.1 = cell))
          = (f cell m).map (fun e => (cell, e.1, e.2))) ∧
      (∀ cell : Vec3u, ¬ InBox cmin cmax cell →
        (SpatialGridListBase.ForAll f m cmin cmax).filter (fun t => decide (t.1 = cell))
          = []) := by
  refine ⟨?_, ?_, ?_⟩
  · intro cell e_idx val
    unfold SpatialGridListBase.ForAll
    rw [List.mem_flatMap]
    constructor
    · rintro ⟨c, hc, ht⟩
      rw [List.mem_map] at ht
      obtain ⟨e, he, heq⟩ := ht
      rw [Prod.mk.injEq, Prod.mk.injEq] at heq
      obtain ⟨rfl, rfl, rfl⟩ := heq
      exact ⟨(mem_ForAllCells _ _ _).mp hc, he⟩
    · rintro ⟨hb, he⟩
      exact ⟨cell, (mem_ForAllCells _ _ _).mpr hb, List.mem_map.mpr ⟨(e_idx, val), he, rfl⟩⟩
  · intro cell hb
    unfold SpatialGridListBase.ForAll
    rw [flatMap_filter_cell (fun c => f c m) cell _ (ForAllCells_nodup _ _),
      if_pos ((mem_ForAllCells _ _ _).mpr hb)]
  · intro cell hb
    unfold SpatialGridListBase.ForAll
    rw [flatMap_filter_cell (fun c => f c m) cell _ (ForAllCells_nodup _ _),
      if_neg (fun h => hb ((mem_ForAllCells _ _ _).mp h))]

theorem SpatialGridList_Linked.walk_length_le {T : Type} (s : SpatialGridList_Linked T)
    (lo : Nat) : ∀ m i : Nat, (SpatialGridList_Linked.walk s lo m i).length ≤ m := by
  intro m
  induction m with
  | zero => intro i; exact Nat.le_refl 0
  | succ m ih =>
    intro i
    unfold SpatialGridList_Linked.walk
    split
    · rw [List.length_cons]
      exact Nat.succ_le_succ (ih _)
    · exact Nat.zero_le _

theorem SpatialGridList_Flat.scan_length_le {V : Type} (s : SpatialGridList_Flat V) :
    ∀ m i : Nat, (SpatialGridList_Flat.scan s m i).length ≤ m := by
  intro m
  induction m with
  | zero => intro i; exact Nat.le_refl 0
  | succ m ih =>
    intro i
    unfold SpatialGridList_Flat.scan
    split
    · rw [List.length_cons]
      exact Nat.succ_le_succ (ih _)
    · exact Nat.zero_le _

/-- The scenario traversed over the box from (0,0,0) to (1,0,0) with cap 1: one entry is
reported for each of the two cells, two in total. -/
theorem box_traversal_scenario :
    SpatialGridList_Linked.ForAll hash222 linkedScenario 1 ⟨0, 0, 0⟩ ⟨1, 0, 0⟩
      = [(⟨0, 0, 0⟩, 1, 20), (⟨1, 0, 0⟩, 2, 30)] := by
  decide

/-- C16. For every inclusive integer box `[cellMin, cellMax]` and every cap `m`, in both
strategies: the cells enumerated by the traversal are exactly the cells of the box
(`cellMin <= cell <= cellMax` componentwise), each once; `ForAll<m>(cellMin, cellMax, callback)`
invokes `callback(cell, entryIndex, value)` for exactly the triples such that `cell` lies in the
box and `ForAllCellEntries(cell, ., m)` reports `(entryIndex, value)`; the calls made for a cell
of the box are the reports of `ForAllCellEntries(cell, ., m)` in their order, at most `m` of
them for each cell, and no call is made for a cell outside the box. -/
theorem box_traversal {T V : Type} (H : Vec3u → Nat) (sl : SpatialGridList_Linked T)
    (sf : SpatialGridList_Flat V) (cellMin cellMax : Vec3u) (m : Nat) :
    (ForAllCells cellMin cellMax).Nodup ∧
      (∀ cell : Vec3u, cell ∈ ForAllCells cellMin cellMax ↔ InBox cellMin cellMax cell) ∧
      ((∀ (cell : Vec3u) (e_idx : Nat) (val : T),
          (cell, e_idx, val) ∈ sl.ForAll H m cellMin cellMax
            ↔ InBox cellMin cellMax cell ∧
              (e_idx, val) ∈ SpatialGridList_Linked.ForAllCellEntries H sl cell m) ∧
        (∀ cell : Vec3u, InBox cellMin cellMax cell →
          (sl.ForAll H m cellMin cellMax).filter (fun t => decide (t.1 = cell))
              = (SpatialGridList_Linked.ForAllCellEntries H sl cell m).map
                  (fun e => (cell, e.1, e.2)) ∧
            ((sl.ForAll H m cellMin cellMax).filter (fun t => decide (t.1 = cell))).length
              ≤ m) ∧
        (∀ cell : Vec3u, ¬ InBox cellMin cellMax cell →
          (sl.ForAll H m cellMin cellMax).filter (fun t => decide (t.1 = cell)) = [])) ∧
      ((∀ (cell : Vec3u) (e_idx : Nat) (val : flatEntry V),
          (cell, e_idx, val) ∈ sf.ForAll H m cellMin cellMax
            ↔ InBox cellMin cellMax cell ∧
              (e_idx, val) ∈ SpatialGridList_Flat.ForAllCellEntries H sf cell m) ∧
        (∀ cell : Vec3u, InBox cellMin cellMax cell →
          (sf.ForAll H m cellMin cellMax).filter (fun t => decide (t.1 = cell))
              = (SpatialGridList_Flat.ForAllCellEntries H sf cell m).map
                  (fun e => (cell, e.1, e.2)) ∧
            ((sf.ForAll H m cellMin cellMax).filter (fun t => decide (t.1 = cell))).length
              ≤ m) ∧
        (∀ cell : Vec3u, ¬ InBox cellMin cellMax cell →
          (sf.ForAll H m cellMin cellMax).filter (fun t => decide (t.1 = cell)) = [])) := by
  obtain ⟨l1, l2, l3⟩ := SpatialGridListBase.ForAll_spec
    (fun cell m => SpatialGridList_Linked.ForAllCellEntries H sl cell m) m cellMin cellMax
  obtain ⟨f1, f2, f3⟩ := SpatialGridListBase.ForAll_spec
    (fun cell m => SpatialGridList_Flat.ForAllCellEntries H sf cell m) m cellMin cellMax
  refine ⟨ForAllCells_nodup _ _, mem_ForAllCells _ _, ⟨l1, ?_, l3⟩, ⟨f1, ?_, f3⟩⟩
  · intro cell hb
    refine ⟨l2 cell hb, ?_⟩
    unfold SpatialGridList_Linked.ForAll
    rw [l2 cell hb, List.length_map]
    exact SpatialGridList_Linked.walk_length_le _ _ _ _
  · intro cell hb
    refine ⟨f2 cell hb, ?_⟩
    unfold SpatialGridList_Flat.ForAll
    rw [f2 cell hb, List.length_map]
    exact SpatialGridList_Flat.scan_length_le _ _ _

/-- Witness of C16: the scenario structures, the box from (0,0,0) to (1,0,0), cap 1 and the cell
(1,0,0) of the box. -/
theorem box_traversal_witness :
    InBox ⟨0, 0, 0⟩ ⟨1, 0, 0⟩ ⟨1, 0, 0⟩ ∧
      (linkedScenario.ForAll hash222 1 ⟨0, 0, 0⟩ ⟨1, 0, 0⟩).filter
          (fun t => decide (t.1 = ⟨1, 0, 0⟩))
        = (SpatialGridList_Linked.ForAllCellEntries hash222 linkedScenario ⟨1, 0, 0⟩ 1).map
            (fun e => ((⟨1, 0, 0⟩ : Vec3u), e.1, e.2)) ∧
      (flatBuilt.ForAll hash222 1 ⟨0, 0, 0⟩ ⟨1, 0, 0⟩).filter
          (fun t => decide (t.1 = ⟨1, 0, 0⟩))
        = (SpatialGridList_Flat.ForAllCellEntries hash222 flatBuilt ⟨1, 0, 0⟩ 1).map
            (fun e => ((⟨1, 0, 0⟩ : Vec3u), e.1, e.2)) :=
  ⟨by unfold InBox; decide,
    ((box_traversal hash222 linkedScenario flatBuilt ⟨0, 0, 0⟩ ⟨1, 0, 0⟩ 1).2.2.1.2.1 ⟨1, 0, 0⟩
      (by unfold InBox; decide)).1,
    ((box_traversal hash222 linkedScenario flatBuilt ⟨0, 0, 0⟩ ⟨1, 0, 0⟩ 1).2.2.2.2.1 ⟨1, 0, 0⟩
      (by unfold InBox; decide)).1⟩

/-! ## C18: window splitting of `buildGrid` -/

/-- A run start lies in the window of exactly one thread index, the quotient of its position by
the window size. -/
theorem __interal_spatialMap__.window_of_runStart (deviceList : Nat → Vec2u) (N NPT r t : Nat)
    (hNPT : 1 ≤ NPT) (hr : IsRunStart deviceList N r) :
    r ∈ runStartsIn deviceList N (NPT * t) (NPT * t + NPT) ↔ t = r / NPT := by
  rw [mem_runStartsIn]
  constructor
  · rintro ⟨⟨h1, h2⟩, _⟩
    symm
    apply Nat.div_eq_of_lt_le
    · rw [Nat.mul_comm]; exact h1
    · rw [Nat.succ_mul, Nat.mul_comm]; exact h2
  · rintro rfl
    refine ⟨⟨Nat.mul_div_le r NPT, ?_⟩, hr⟩
    have := Nat.lt_div_mul_add (show 0 < NPT by omega) (a := r)
    rw [Nat.mul_comm] at this
    exact this

/-- C18, counterexample. The launch of `PrepareForUse` for a sorted list of `N = 4294967040`
entries (a run of 1660 entries of cell hash 0, a run of 4 entries of cell hash 1, a run of cell
hash 2): window size 10 and `429496896` windows, which cover the list, run in the order of their
indices from cursor 0. The window start of the last thread is the 32-bit product
`10 * 429496895 mod 2^32 = 1654`, so that thread processes the run that starts at position 1660
a second time, and the destination cursor ends at `4294967044`, not at `N`. -/
theorem window_splitting_fails_on_window_wrap :
    (1 ≤ 10 ∧ 4294967040 ≤ 10 * 429496896 ∧
        __interal_spatialMap__.SortedY windowWrapList 4294967040 ∧
        buildStart.g_DestCounter = 0) ∧
      (10 * 429496895) % 2 ^ 32 = 1654 ∧
      ((List.range 429496896).foldl (fun st tid =>
          __interal_spatialMap__.buildGrid 10 (fun _ => ⟨0, false⟩) 4294967040 windowWrapList
            tid st) buildStart).g_DestCounter = 4294967044 :=
  ⟨⟨by decide, by decide, windowWrapList_sorted, rfl⟩, by decide,
    launch_window_wrap_from_zero (fun _ => ⟨0, false⟩) windowWrapList windowWrapList_y
      buildStart rfl (List.range 429496896) rfl⟩

/-- C18, amended. For every staging list of length `N`, every window size `N_PER_THREAD >= 1`
and every number `T` of windows that covers the list and none of whose 32-bit window starts
`N_PER_THREAD * t` wraps, when `buildGrid` is executed once per window
`[t * N_PER_THREAD, (t + 1) * N_PER_THREAD)`, in any order, from a destination cursor that stays
below `2^32`: a window processes exactly the maximal runs of equal cell hash whose first element
it contains, each as a whole, up to the end of the run; every run is processed by exactly one
window, once; processing a run advances the destination cursor by the run's length; and the
destination cursor ends `N` above its initial value (at exactly `N` when started at 0). -/
theorem window_splitting {V : Type} (N_PER_THREAD N T : Nat)
    (deviceDataSource : Nat → flatEntry V) (deviceList : Nat → Vec2u) (sched : List Nat)
    (st : BuildState V) (hNPT : 1 ≤ N_PER_THREAD) (hT : N ≤ N_PER_THREAD * T)
    (hw : ∀ t, t < T → N_PER_THREAD * t < 2 ^ 32) (_hc : st.g_DestCounter + N < 2 ^ 32)
    (hs : sched.Perm (List.range T)) :
    (∀ (t : Nat) (st1 : BuildState V), t < T →
        __interal_spatialMap__.buildGrid N_PER_THREAD deviceDataSource N deviceList t st1
          = (__interal_spatialMap__.runStartsIn deviceList N (N_PER_THREAD * t)
              (N_PER_THREAD * t + N_PER_THREAD)).foldl
              (fun st2 r =>
                (__interal_spatialMap__.processRun deviceDataSource N deviceList r st2).2)
              st1) ∧
      (∀ (r : Nat) (st1 : BuildState V), r < N →
        st1.g_DestCounter + (__interal_spatialMap__.runEnd deviceList N r - r) < 2 ^ 32 →
        (__interal_spatialMap__.processRun deviceDataSource N deviceList r st1).1
            = __interal_spatialMap__.runEnd deviceList N r ∧
          (__interal_spatialMap__.processRun deviceDataSource N deviceList r st1).2.g_DestCounter
            = st1.g_DestCounter + (__interal_spatialMap__.runEnd deviceList N r - r)) ∧
      (∀ r : Nat, __interal_spatialMap__.IsRunStart deviceList N r →
        (∀ t : Nat, r ∈ __interal_spatialMap__.runStartsIn deviceList N (N_PER_THREAD * t)
            (N_PER_THREAD * t + N_PER_THREAD) ↔ t = r / N_PER_THREAD) ∧
          sched.count (r / N_PER_THREAD) = 1 ∧
          (sched.flatMap (fun t => __interal_spatialMap__.runStartsIn deviceList N
            (N_PER_THREAD * t) (N_PER_THREAD * t + N_PER_THREAD))).count r = 1) ∧
      (sched.foldl (fun st1 tid =>
          __interal_spatialMap__.buildGrid N_PER_THREAD deviceDataSource N deviceList tid st1)
          st).g_DestCounter = st.g_DestCounter + N := by
  have hmod := __interal_spatialMap__.windows_no_wrap deviceList N N_PER_THREAD sched
    (fun t ht => hw t (List.mem_range.mp (hs.mem_iff.mp ht)))
  have hperm := __interal_spatialMap__.launch_order_perm deviceList N N_PER_THREAD T hT hw
    sched hs
  rw [hmod] at hperm
  have hnd : (sched.flatMap (fun t => __interal_spatialMap__.runStartsIn deviceList N
      (N_PER_THREAD * t) (N_PER_THREAD * t + N_PER_THREAD))).Nodup :=
    hperm.nodup_iff.mpr (__interal_spatialMap__.runStartsIn_nodup deviceList N 0 N)
  refine ⟨?_, ?_, ?_, ?_⟩
  · intro t st1 ht
    have h := __interal_spatialMap__.buildGrid_eq_applyRuns N_PER_THREAD deviceDataSource N
      deviceList t st1
    rw [Nat.mod_eq_of_lt (hw t ht)] at h
    exact h
  · intro r st1 hr _
    obtain ⟨h1, h2, _⟩ :=
      __interal_spatialMap__.processRun_spec deviceDataSource N deviceList r st1 hr
    exact ⟨h1, h2⟩
  · intro r hr
    have hrN : r < N := hr.1
    have hq : r / N_PER_THREAD < T := by
      apply Nat.div_lt_of_lt_mul
      omega
    have hmemS : r / N_PER_THREAD ∈ sched := hs.mem_iff.mpr (List.mem_range.mpr hq)
    refine ⟨fun t => __interal_spatialMap__.window_of_runStart deviceList N N_PER_THREAD r t
      hNPT hr, ?_, ?_⟩
    · exact List.count_eq_one_of_mem (hs.nodup_iff.mpr (List.nodup_range T)) hmemS
    · apply List.count_eq_one_of_mem hnd
      rw [List.mem_flatMap]
      exact ⟨r / N_PER_THREAD, hmemS,
        (__interal_spatialMap__.window_of_runStart deviceList N N_PER_THREAD r _ hNPT hr).mpr
          rfl⟩
  · rw [__interal_spatialMap__.launch_eq_applyRuns, hmod]
    have hlt : ∀ r ∈ sched.flatMap (fun t => __interal_spatialMap__.runStartsIn deviceList N
        (N_PER_THREAD * t) (N_PER_THREAD * t + N_PER_THREAD)), r < N := by
      intro r hr
      have := hperm.mem_iff.mp hr
      rw [__interal_spatialMap__.mem_runStartsIn] at this
      exact this.2.1
    rw [(__interal_spatialMap__.applyRuns_spec deviceDataSource N deviceList _ st hlt).1,
      __interal_spatialMap__.sum_runLen_of_perm deviceList N _ hperm]

/-- Witness of C18: the scenario's sorted list (a run of two entries, then a run of one), window
size 1 and three windows run in the order 2, 0, 1: the first run crosses the boundary of windows
0 and 1 and covers window 1 entirely; the cursor ends at 3. -/
theorem window_splitting_witness :
    1 ≤ 1 ∧ 3 ≤ 1 * 3 ∧ (∀ t, t < 3 → 1 * t < 2 ^ 32) ∧
      buildStart.g_DestCounter + 3 < 2 ^ 32 ∧ [2, 0, 1].Perm (List.range 3) ∧
      ([2, 0, 1].foldl (fun st1 tid =>
          __interal_spatialMap__.buildGrid 1 (fun _ => ⟨0, false⟩) 3 scenarioList tid st1)
          buildStart).g_DestCounter = buildStart.g_DestCounter + 3 :=
  ⟨by decide, by decide, fun t ht => by omega, by decide, by decide,
    (window_splitting 1 3 3 (fun _ => ⟨0, false⟩) scenarioList [2, 0, 1] buildStart (by decide)
      (by decide) (fun t ht => by omega) (by decide) (by decide)).2.2.2⟩

/-! ## C19: the marker after the build stage -/

set_option maxRecDepth 100000 in
/-- C19, counterexample. Two payloads stored to cell (0,0,0) with the marker set: after
`PrepareForUse` the run of the cell has two elements, at offsets 0 and 1, and the first one, which
is not the final copied element, still has the marker set. -/
theorem marker_not_cleared_by_build :
    markedSorted.Perm flatMarkedStored.stagingList ∧
      markedSorted.Pairwise (fun a b => a.y ≤ b.y) ∧
      scenarioSched.Perm (List.range (SpatialGridList_Flat.numThreads
        (min flatMarkedStored.idxData flatMarkedStored.numData))) ∧
      __interal_spatialMap__.IsRunStart flatMarkedBuilt.m_listBuffer 2 0 ∧
      __interal_spatialMap__.runLen flatMarkedBuilt.m_listBuffer 2 0 = 2 ∧
      flatMarkedBuilt.m_gridBuffer (flatMarkedBuilt.m_listBuffer 0).y = 0 ∧
      (flatMarkedBuilt.m_buffer1 0).getFlag = true ∧
      (flatMarkedBuilt.m_buffer1 1).getFlag = true :=
  ⟨by decide, by decide, List.reverse_perm (List.range 192), by decide, by decide, by decide,
    by decide, by decide⟩

/-- C19, amended. For every set of stored payloads of which fewer than `4294967040` are staged
(the staged count is the smaller of the cursor and the capacity; below `4294967040` no window
start of the launch wraps), whatever the state of their last-in-cell marker at `Store` time,
after `PrepareForUse` the final copied element of each run has the marker set and every other
element of the run has the marker its payload was stored with; so when every payload was stored
with the marker clear, every other element of the run has it clear. -/
theorem build_marks_final_element {V : Type} (H : Vec3u → Nat) (s : SpatialGridList_Flat V)
    (calls : List (Vec3u × flatEntry V)) (sorted : List Vec2u) (sched : List Nat)
    (hperm : sorted.Perm (SpatialGridList_Flat.storeAll H s.ResetBuffer calls).1.stagingList)
    (hsort : sorted.Pairwise (fun a b => a.y ≤ b.y))
    (hsched : sched.Perm (List.range (SpatialGridList_Flat.numThreads
      (min (SpatialGridList_Flat.storeAll H s.ResetBuffer calls).1.idxData
        (SpatialGridList_Flat.storeAll H s.ResetBuffer calls).1.numData))))
    (hn : min (SpatialGridList_Flat.storeAll H s.ResetBuffer calls).1.idxData
      (SpatialGridList_Flat.storeAll H s.ResetBuffer calls).1.numData < 4294967040)
    (r : Nat)
    (hr : __interal_spatialMap__.IsRunStart
      ((SpatialGridList_Flat.storeAll H s.ResetBuffer calls).1.PrepareForUse sorted
        sched).m_listBuffer
      (min (SpatialGridList_Flat.storeAll H s.ResetBuffer calls).1.idxData
        (SpatialGridList_Flat.storeAll H s.ResetBuffer calls).1.numData) r)
    (d : Nat)
    (hd : d < __interal_spatialMap__.runLen
      ((SpatialGridList_Flat.storeAll H s.ResetBuffer calls).1.PrepareForUse sorted
        sched).m_listBuffer
      (min (SpatialGridList_Flat.storeAll H s.ResetBuffer calls).1.idxData
        (SpatialGridList_Flat.storeAll H s.ResetBuffer calls).1.numData) r) :
    (((SpatialGridList_Flat.storeAll H s.ResetBuffer calls).1.PrepareForUse sorted
          sched).m_buffer1
        (((SpatialGridList_Flat.storeAll H s.ResetBuffer calls).1.PrepareForUse sorted
          sched).m_gridBuffer
          (((SpatialGridList_Flat.storeAll H s.ResetBuffer calls).1.PrepareForUse sorted
            sched).m_listBuffer r).y + d)).getFlag
      = (if d + 1 = __interal_spatialMap__.runLen
            ((SpatialGridList_Flat.storeAll H s.ResetBuffer calls).1.PrepareForUse sorted
              sched).m_listBuffer
            (min (SpatialGridList_Flat.storeAll H s.ResetBuffer calls).1.idxData
              (SpatialGridList_Flat.storeAll H s.ResetBuffer calls).1.numData) r
          then true
          else ((SpatialGridList_Flat.storeAll H s.ResetBuffer calls).1.m_buffer1
            (((SpatialGridList_Flat.storeAll H s.ResetBuffer calls).1.PrepareForUse sorted
              sched).m_listBuffer (r + d)).x).getFlag) ∧
      ((∀ a ∈ calls, a.2.flag = false) →
        (((SpatialGridList_Flat.storeAll H s.ResetBuffer calls).1.PrepareForUse sorted
            sched).m_buffer1
          (((SpatialGridList_Flat.storeAll H s.ResetBuffer calls).1.PrepareForUse sorted
            sched).m_gridBuffer
            (((SpatialGridList_Flat.storeAll H s.ResetBuffer calls).1.PrepareForUse sorted
              sched).m_listBuffer r).y + d)).getFlag
          = decide (d + 1 = __interal_spatialMap__.runLen
              ((SpatialGridList_Flat.storeAll H s.ResetBuffer calls).1.PrepareForUse sorted
                sched).m_listBuffer
              (min (SpatialGridList_Flat.storeAll H s.ResetBuffer calls).1.idxData
                (SpatialGridList_Flat.storeAll H s.ResetBuffer calls).1.numData) r)) := by
  have hinv : (∀ a ∈ calls, a.2.flag = false) →
      SpatialGridList_Flat.StorePhase (fun e => e.flag = false)
        (SpatialGridList_Flat.storeAll H s.ResetBuffer calls).1 := fun hclear =>
    SpatialGridList_Flat.StorePhase_storeAll (fun e => e.flag = false) H calls
      s.ResetBuffer hclear (SpatialGridList_Flat.StorePhase_reset _ s)
  generalize (SpatialGridList_Flat.storeAll H s.ResetBuffer calls).1 = s1
    at hperm hsched hn hinv hr hd ⊢
  have hlen : sorted.length = min s1.idxData s1.numData := by
    rw [hperm.length_eq, SpatialGridList_Flat.stagingList_length]
  obtain ⟨order, _, hmem, _, hgrid, hpay, _⟩ :=
    SpatialGridList_Flat.PrepareForUse_runs s1 sorted sched hlen hsort hsched hn
  have hro : r ∈ order := (hmem r).mpr hr
  have hflag : ((s1.PrepareForUse sorted sched).m_buffer1
      ((s1.PrepareForUse sorted sched).m_gridBuffer
        ((s1.PrepareForUse sorted sched).m_listBuffer r).y + d)).getFlag
      = (if d + 1 = __interal_spatialMap__.runLen (s1.PrepareForUse sorted sched).m_listBuffer
            (min s1.idxData s1.numData) r
          then true
          else (s1.m_buffer1 ((s1.PrepareForUse sorted sched).m_listBuffer (r + d)).x).getFlag)
      := by
    rw [hgrid r hro, hpay r hro d hd]
    exact SpatialGridList_Flat.runPayload_flag _ _ _ _ _
  refine ⟨hflag, ?_⟩
  intro hclear
  rw [hflag]
  by_cases hlast : d + 1 = __interal_spatialMap__.runLen
      (s1.PrepareForUse sorted sched).m_listBuffer (min s1.idxData s1.numData) r
  · rw [if_pos hlast, decide_eq_true hlast]
  · rw [if_neg hlast, decide_eq_false hlast]
    have hrN : r < min s1.idxData s1.numData := hr.1
    obtain ⟨_, hend, _⟩ := __interal_spatialMap__.runEnd_spec
      (s1.PrepareForUse sorted sched).m_listBuffer (min s1.idxData s1.numData) r hrN
    have hrd : r + d < min s1.idxData s1.numData := by
      unfold __interal_spatialMap__.runLen at hd
      omega
    have hin : (s1.PrepareForUse sorted sched).m_listBuffer (r + d) ∈ s1.stagingList := by
      rw [SpatialGridList_Flat.PrepareForUse_list_eq s1 sorted sched hlen (r + d) hrd]
      exact hperm.mem_iff.mp (List.get_mem _ _ _)
    obtain ⟨i, hi, hieq⟩ := List.mem_map.1 hin
    rw [List.mem_range] at hi
    obtain ⟨h1, h2⟩ := SpatialGridList_Flat.StorePhase_live _ s1 (hinv hclear) i hi
    rw [← hieq, h1]
    exact h2

set_option maxRecDepth 100000 in
/-- Witness of the amended C19: the scenario on the 2 x 2 x 2 grid, whose payloads are stored with
the marker clear; the run of cell (0,0,0) starts at position 0 of the sorted list and its first
element has the marker clear after `PrepareForUse`. -/
theorem build_marks_final_element_witness :
    (scenarioSorted.Pairwise (fun a b => a.y ≤ b.y) ∧
        __interal_spatialMap__.IsRunStart flatBuilt.m_listBuffer
          (min flatStored.idxData flatStored.numData) 0 ∧
        0 < __interal_spatialMap__.runLen flatBuilt.m_listBuffer
          (min flatStored.idxData flatStored.numData) 0 ∧
        ∀ a ∈ scenarioCallsFlat, a.2.flag = false) ∧
      (flatBuilt.m_buffer1 (flatBuilt.m_gridBuffer (flatBuilt.m_listBuffer 0).y + 0)).getFlag
        = decide (0 + 1 = __interal_spatialMap__.runLen flatBuilt.m_listBuffer
            (min flatStored.idxData flatStored.numData) 0) :=
  ⟨⟨by decide, by decide, by decide, by decide⟩,
    (build_marks_final_element hash222 flat4 scenarioCallsFlat scenarioSorted scenarioSched
      scenario_sorted_perm (by decide) scenario_sched_perm (by decide) 0 (by decide) 0
      (by decide)).2 (by decide)⟩

/-! ## C20: the chain invariant of the linked structure -/

namespace SpatialGridList_Linked

variable {T : Type}

theorem ChainInvariant_reset (s : SpatialGridList_Linked T) : ChainInvariant s.ResetBuffer := by
  refine ⟨fun b => Or.inl rfl, ?_⟩
  intro i hi
  have h0 : s.ResetBuffer.deviceDataIdx = 0 := rfl
  rw [h0, Nat.zero_min] at hi
  exact absurd hi (Nat.not_lt_zero _)

theorem ChainInvariant_Store (H : Vec3u → Nat) (s : SpatialGridList_Linked T) (p : Vec3u)
    (v : T) (hc : s.deviceDataIdx < 0xffffffff) (hs : ChainInvariant s) :
    ChainInvariant (Store H s p v).1 := by
  obtain ⟨h1, h2⟩ := hs
  by_cases hfull : s.numData ≤ s.deviceDataIdx
  · rw [Store_dropped H s p v hfull]
    unfold ChainInvariant
    dsimp only
    rw [atomicInc_lt hc,
      show min (s.deviceDataIdx + 1) s.numData = min s.deviceDataIdx s.numData by omega]
    exact ⟨h1, h2⟩
  · rw [Store_has_room H s p v hfull]
    unfold ChainInvariant
    dsimp only
    rw [atomicInc_lt hc]
    have hlo : min s.deviceDataIdx s.numData = s.deviceDataIdx := by omega
    have hlo1 : min (s.deviceDataIdx + 1) s.numData = s.deviceDataIdx + 1 := by omega
    rw [hlo] at h1 h2
    rw [hlo1]
    refine ⟨?_, ?_⟩
    · intro b
      unfold bufSet
      by_cases hb : b = H p
      · rw [if_pos hb]
        exact Or.inr (Nat.lt_succ_self _)
      · rw [if_neg hb]
        rcases h1 b with h | h
        · exact Or.inl h
        · exact Or.inr (by omega)
    · intro i hi
      unfold bufSet
      by_cases hic : i = s.deviceDataIdx
      · rw [if_pos hic]
        dsimp only
        rcases h1 (H p) with h | h
        · exact Or.inl h
        · exact Or.inr (by omega)
      · rw [if_neg hic]
        exact h2 i (by omega)

theorem ChainInvariant_storeAll (H : Vec3u → Nat) :
    ∀ (calls : List (Vec3u × T)) (s : SpatialGridList_Linked T),
      s.deviceDataIdx + calls.length ≤ 0xffffffff → ChainInvariant s →
      ChainInvariant (storeAll H s calls).1 := by
  intro calls
  induction calls with
  | nil => intro s _ hs; exact hs
  | cons a rest ih =>
    intro s hlen hs
    obtain ⟨p, v⟩ := a
    rw [List.length_cons] at hlen
    have hc : s.deviceDataIdx < 0xffffffff := by omega
    have hstep : (storeAll H s ((p, v) :: rest)).1 = (storeAll H (Store H s p v).1 rest).1 := rfl
    rw [hstep]
    apply ih
    · rw [Store_deviceDataIdx, atomicInc_lt hc]
      omega
    · exact ChainInvariant_Store H s p v hc hs

/-- Under the chain invariant, following forward links from the sentinel or from an index below
`min(cursor, capacity)` reaches the sentinel, through indices below `min(cursor, capacity)`. -/
theorem follow_reaches_sentinel (s : SpatialGridList_Linked T) (hs : ChainInvariant s) :
    ∀ (n i : Nat), (i = 0xffffffff ∨ (i < min s.deviceDataIdx s.numData ∧ i < n)) →
      ∃ k, k ≤ n ∧ follow s k i = 0xffffffff ∧
        ∀ j, j < k → follow s j i < min s.deviceDataIdx s.numData := by
  intro n
  induction n with
  | zero =>
    intro i hi
    rcases hi with h | ⟨_, h⟩
    · exact ⟨0, Nat.le_refl 0, h, fun j hj => absurd hj (Nat.not_lt_zero _)⟩
    · exact absurd h (Nat.not_lt_zero _)
  | succ n ih =>
    intro i hi
    rcases hi with h | ⟨hlo, hn⟩
    · exact ⟨0, Nat.zero_le _, h, fun j hj => absurd hj (Nat.not_lt_zero _)⟩
    · have hnext : (s.m_dataBuffer i).nextIdx = 0xffffffff ∨
          ((s.m_dataBuffer i).nextIdx < min s.deviceDataIdx s.numData ∧
            (s.m_dataBuffer i).nextIdx < n) := by
        rcases hs.2 i hlo with h | h
        · exact Or.inl h
        · exact Or.inr ⟨by omega, by omega⟩
      obtain ⟨k, hk1, hk3, hk4⟩ := ih _ hnext
      refine ⟨k + 1, by omega, hk3, ?_⟩
      intro j hj
      cases j with
      | zero => exact hlo
      | succ j => exact hk4 j (by omega)

/-- A walk whose chain reaches an index outside the valid range after `k` links visits exactly
`k` entries under every cap of at least `k`. -/
theorem walk_length_of_follow (s : SpatialGridList_Linked T) (lo : Nat) :
    ∀ (k i : Nat), ¬ follow s k i < lo → (∀ j, j < k → follow s j i < lo) →
      ∀ m, k ≤ m → (walk s lo m i).length = k := by
  intro k
  induction k with
  | zero =>
    intro i hend _ m _
    cases m with
    | zero => rfl
    | succ m =>
      unfold walk
      have hend0 : ¬ i < lo := hend
      rw [if_neg hend0]
      rfl
  | succ k ih =>
    intro i hend hmid m hm
    cases m with
    | zero => omega
    | succ m =>
      unfold walk
      have h0 : i < lo := hmid 0 (Nat.succ_pos k)
      rw [if_pos h0, List.length_cons,
        ih (s.m_dataBuffer i).nextIdx hend (fun j hj => hmid (j + 1) (by omega)) m (by omega)]

end SpatialGridList_Linked

/-- C20. In every state reached from `ResetBuffer` by fewer than `2^32` calls of
`Store(cell, value)`: every bucket head is the sentinel or an index below
`min(cursor, capacity)`; every pool entry with index `i < min(cursor, capacity)` has a forward
link that is the sentinel or strictly smaller than `i`; and from every bucket head the forward
links reach the sentinel after some number `k <= min(cursor, capacity)` of steps, through indices
below `min(cursor, capacity)`, so that `ForAllCellEntries` on a cell of that bucket makes
exactly `k` visits under every cap of at least `k` (it stops at the sentinel, not at the cap). -/
theorem linked_chain_invariant {T : Type} (H : Vec3u → Nat) (s : SpatialGridList_Linked T)
    (calls : List (Vec3u × T)) (hN : calls.length < 2 ^ 32) :
    (∀ b : Nat,
        (SpatialGridList_Linked.storeAll H s.ResetBuffer calls).1.m_mapBuffer b = 0xffffffff ∨
        (SpatialGridList_Linked.storeAll H s.ResetBuffer calls).1.m_mapBuffer b
          < min (SpatialGridList_Linked.storeAll H s.ResetBuffer calls).1.deviceDataIdx
              (SpatialGridList_Linked.storeAll H s.ResetBuffer calls).1.numData) ∧
      (∀ i : Nat,
        i < min (SpatialGridList_Linked.storeAll H s.ResetBuffer calls).1.deviceDataIdx
              (SpatialGridList_Linked.storeAll H s.ResetBuffer calls).1.numData →
        ((SpatialGridList_Linked.storeAll H s.ResetBuffer calls).1.m_dataBuffer i).nextIdx
            = 0xffffffff ∨
          ((SpatialGridList_Linked.storeAll H s.ResetBuffer calls).1.m_dataBuffer i).nextIdx
            < i) ∧
      (∀ b : Nat, ∃ k : Nat,
        k ≤ min (SpatialGridList_Linked.storeAll H s.ResetBuffer calls).1.deviceDataIdx
              (SpatialGridList_Linked.storeAll H s.ResetBuffer calls).1.numData ∧
          SpatialGridList_Linked.follow (SpatialGridList_Linked.storeAll H s.ResetBuffer calls).1
              k ((SpatialGridList_Linked.storeAll H s.ResetBuffer calls).1.m_mapBuffer b)
            = 0xffffffff ∧
          (∀ j : Nat, j < k →
            SpatialGridList_Linked.follow
                (SpatialGridList_Linked.storeAll H s.ResetBuffer calls).1 j
                ((SpatialGridList_Linked.storeAll H s.ResetBuffer calls).1.m_mapBuffer b)
              < min (SpatialGridList_Linked.storeAll H s.ResetBuffer calls).1.deviceDataIdx
                  (SpatialGridList_Linked.storeAll H s.ResetBuffer calls).1.numData) ∧
          (∀ (c : Vec3u) (m : Nat), H c = b → k ≤ m →
            (SpatialGridList_Linked.ForAllCellEntries H
              (SpatialGridList_Linked.storeAll H s.ResetBuffer calls).1 c m).length = k)) := by
  have hcur := linked_cursor_after H s calls hN
  have hinv := SpatialGridList_Linked.ChainInvariant_storeAll H calls s.ResetBuffer
    (by
      have h0 : s.ResetBuffer.deviceDataIdx = 0 := rfl
      rw [h0]
      omega)
    (SpatialGridList_Linked.ChainInvariant_reset s)
  generalize (SpatialGridList_Linked.storeAll H s.ResetBuffer calls).1 = s1 at hcur hinv ⊢
  refine ⟨hinv.1, hinv.2, ?_⟩
  intro b
  have hlo : min s1.deviceDataIdx s1.numData < 0xffffffff + 1 := by omega
  have hstart : s1.m_mapBuffer b = 0xffffffff ∨
      (s1.m_mapBuffer b < min s1.deviceDataIdx s1.numData ∧
        s1.m_mapBuffer b < (if s1.m_mapBuffer b = 0xffffffff then 0 else s1.m_mapBuffer b + 1))
      := by
    rcases hinv.1 b with h | h
    · exact Or.inl h
    · refine Or.inr ⟨h, ?_⟩
      rw [if_neg (by omega)]
      exact Nat.lt_succ_self _
  obtain ⟨k, hk1, hk2, hk3⟩ :=
    SpatialGridList_Linked.follow_reaches_sentinel s1 hinv _ _ hstart
  refine ⟨k, ?_, hk2, hk3, ?_⟩
  · rcases hinv.1 b with h | h
    · rw [if_pos h] at hk1
      omega
    · rw [if_neg (by omega)] at hk1
      omega
  · intro c m hc hm
    unfold SpatialGridList_Linked.ForAllCellEntries
    rw [hc]
    exact SpatialGridList_Linked.walk_length_of_follow s1 _ k _ (by rw [hk2]; omega) hk3 m hm

/-- Witness of C20: the scenario on the 2 x 2 x 2 grid (three stores); the chain of cell (0,0,0)
has two links before the sentinel. -/
theorem linked_chain_invariant_witness :
    scenarioCalls.length < 2 ^ 32 ∧
      (∀ b : Nat, linkedScenario.m_mapBuffer b = 0xffffffff ∨
        linkedScenario.m_mapBuffer b
          < min linkedScenario.deviceDataIdx linkedScenario.numData) ∧
      SpatialGridList_Linked.follow linkedScenario 2
          (linkedScenario.m_mapBuffer (hash222 ⟨0, 0, 0⟩)) = 0xffffffff :=
  ⟨by decide, (linked_chain_invariant hash222 linked4 scenarioCalls (by decide)).1, by decide⟩

/-! ## C17: concurrent insertion into the linked structure -/

theorem list_split_at {α : Type} :
    ∀ (l : List α) (w : Nat) (x : α), l[w]? = some x →
      ∃ pre post, l = pre ++ x :: post ∧ ∀ y, l.set w y = pre ++ y :: post := by
  intro l
  induction l with
  | nil => intro w x h; simp at h
  | cons a t ih =>
    intro w x h
    cases w with
    | zero =>
      simp only [List.getElem?_cons_zero, Option.some.injEq] at h
      subst h
      exact ⟨[], t, rfl, fun y => rfl⟩
    | succ w =>
      rw [List.getElem?_cons_succ] at h
      obtain ⟨pre, post, h1, h2⟩ := ih w x h
      refine ⟨a :: pre, post, by rw [h1]; rfl, ?_⟩
      intro y
      rw [List.set_cons_succ, h2 y]
      rfl

theorem bufSet_comm {α : Type} (d : Nat → α) (i j : Nat) (a b : α) (h : i ≠ j) :
    bufSet (bufSet d i a) j b = bufSet (bufSet d j b) i a := by
  funext k
  unfold bufSet
  by_cases h1 : k = j
  · by_cases h2 : k = i
    · exact absurd (h2.symm.trans h1) h
    · rw [if_pos h1, if_neg h2, if_pos h1]
  · rw [if_neg h1, if_neg h1]

theorem virtualPool_append {T : Type} (data : Nat → linkedEntry T) :
    ∀ (A B : List (Option (Nat × linkedEntry T))),
      virtualPool data (A ++ B) = virtualPool (virtualPool data B) A := by
  intro A B
  induction A with
  | nil => rfl
  | cons o A ih =>
    cases o with
    | none => exact ih
    | some ie =>
      obtain ⟨i, e⟩ := ie
      show bufSet (virtualPool data (A ++ B)) i e = bufSet (virtualPool (virtualPool data B) A) i e
      rw [ih]

/-- A write to an index without pending entry commutes with the pending entries. -/
theorem virtualPool_bufSet {T : Type} (i : Nat) (e : linkedEntry T) :
    ∀ (A : List (Option (Nat × linkedEntry T))) (data : Nat → linkedEntry T),
      (∀ j e1, some (j, e1) ∈ A → j ≠ i) →
      virtualPool (bufSet data i e) A = bufSet (virtualPool data A) i e := by
  intro A
  induction A with
  | nil => intro data _; rfl
  | cons o A ih =>
    intro data hA
    have hA1 : ∀ j e1, some (j, e1) ∈ A → j ≠ i :=
      fun j e1 h => hA j e1 (List.mem_cons_of_mem _ h)
    cases o with
    | none => exact ih data hA1
    | some je =>
      obtain ⟨j, e1⟩ := je
      show bufSet (virtualPool (bufSet data i e) A) j e1
        = bufSet (bufSet (virtualPool data A) j e1) i e
      rw [ih data hA1]
      exact bufSet_comm _ _ _ _ _ (fun h => hA j e1 (List.mem_cons_self _ _) h.symm)

/-- The virtual pool at an index depends on the pool at that index only. -/
theorem virtualPool_congr {T : Type} (k : Nat) :
    ∀ (A : List (Option (Nat × linkedEntry T))) (d1 d2 : Nat → linkedEntry T),
      d1 k = d2 k → virtualPool d1 A k = virtualPool d2 A k := by
  intro A
  induction A with
  | nil => intro d1 d2 h; exact h
  | cons o A ih =>
    intro d1 d2 h
    cases o with
    | none => exact ih d1 d2 h
    | some je =>
      obtain ⟨j, e1⟩ := je
      show bufSet (virtualPool d1 A) j e1 k = bufSet (virtualPool d2 A) j e1 k
      unfold bufSet
      by_cases hk : k = j
      · rw [if_pos hk, if_pos hk]
      · rw [if_neg hk, if_neg hk]
        exact ih d1 d2 h

/-- At an index with a pending entry the virtual pool does not depend on the pool. -/
theorem virtualPool_shadow {T : Type} (k : Nat) :
    ∀ (A : List (Option (Nat × linkedEntry T))) (d1 d2 : Nat → linkedEntry T),
      (∃ e, some (k, e) ∈ A) → virtualPool d1 A k = virtualPool d2 A k := by
  intro A
  induction A with
  | nil => intro d1 d2 h; obtain ⟨e, he⟩ := h; exact absurd he (List.not_mem_nil _)
  | cons o A ih =>
    intro d1 d2 h
    obtain ⟨e, he⟩ := h
    cases o with
    | none =>
      rw [List.mem_cons] at he
      rcases he with he | he
      · exact absurd he (by simp)
      · exact ih d1 d2 ⟨e, he⟩
    | some je =>
      obtain ⟨j, e1⟩ := je
      show bufSet (virtualPool d1 A) j e1 k = bufSet (virtualPool d2 A) j e1 k
      unfold bufSet
      by_cases hk : k = j
      · rw [if_pos hk, if_pos hk]
      · rw [if_neg hk, if_neg hk]
        rw [List.mem_cons] at he
        rcases he with he | he
        · rw [Option.some.injEq, Prod.mk.injEq] at he
          exact absurd he.1 hk
        · exact ih d1 d2 ⟨e, he⟩

theorem virtualPool_none {T : Type} (data : Nat → linkedEntry T) :
    ∀ A : List (Option (Nat × linkedEntry T)), (∀ o ∈ A, o = none) →
      virtualPool data A = data := by
  intro A
  induction A with
  | nil => intro _; rfl
  | cons o A ih =>
    intro h
    have ho := h o (List.mem_cons_self _ _)
    subst ho
    exact ih (fun o ho => h o (List.mem_cons_of_mem _ ho))

/-- The index of a pending entry is owned by the worker. -/
theorem Worker.pend_owned {T : Type} (w : Worker T) (j : Nat) (e : linkedEntry T)
    (h : w.pend = some (j, e)) : j ∈ w.owned := by
  obtain ⟨pending, pc, returned⟩ := w
  unfold Worker.owned Worker.inflight
  unfold Worker.pend at h
  apply List.mem_append_left
  cases pending with
  | nil => cases pc <;> simp at h
  | cons a rest =>
    obtain ⟨p, v⟩ := a
    cases pc with
    | idle => simp at h
    | reserved i => simp at h
    | exchanged i old =>
      simp only [Option.some.injEq, Prod.mk.injEq] at h
      simp [h.1]
    | valueWritten i old =>
      simp only [Option.some.injEq, Prod.mk.injEq] at h
      simp [h.1]

/-- The index of a linked entry is owned by the worker. -/
theorem Worker.chained_owned {T : Type} (H : Vec3u → Nat) (w : Worker T) (t : Nat × Nat × T)
    (h : t ∈ w.chained H) : t.2.1 ∈ w.owned := by
  obtain ⟨pending, pc, returned⟩ := w
  unfold Worker.owned Worker.inflight
  unfold Worker.chained at h
  rw [List.mem_append] at h
  rcases h with h | h
  · apply List.mem_append_left
    cases pending with
    | nil => cases pc <;> simp at h
    | cons a rest =>
      obtain ⟨p, v⟩ := a
      cases pc with
      | idle => simp at h
      | reserved i => simp at h
      | exchanged i old =>
        simp only [List.mem_singleton] at h
        simp [h]
      | valueWritten i old =>
        simp only [List.mem_singleton] at h
        simp [h]
  · apply List.mem_append_right
    rw [List.mem_map] at h ⊢
    obtain ⟨r, hr, rfl⟩ := h
    exact ⟨r, hr, rfl⟩

theorem Worker.wf_congr {T : Type} (d1 d2 : Nat → linkedEntry T) (w : Worker T)
    (h : ∀ j ∈ w.inflight, d2 j = d1 j) (hw : w.wf d1) : w.wf d2 := by
  obtain ⟨pending, pc, returned⟩ := w
  cases pc with
  | idle => cases pending <;> trivial
  | reserved i => cases pending <;> exact hw
  | exchanged i old => cases pending <;> exact hw
  | valueWritten i old =>
    cases pending with
    | nil => exact hw
    | cons a rest =>
      obtain ⟨p, v⟩ := a
      show (d2 i).value = v
      rw [h i (by simp [Worker.inflight])]
      exact hw

theorem Worker.inflight_owned {T : Type} (w : Worker T) (j : Nat) (h : j ∈ w.inflight) :
    j ∈ w.owned :=
  List.mem_append_left _ h

/-- The pool indices of the calls in progress of the other workers differ from an index owned by
the stepping worker. -/
theorem owned_others_ne {T : Type} (pre post : List (Worker T)) (x : Worker T) (i : Nat)
    (hnd : (pre.flatMap Worker.owned ++ (x.owned ++ post.flatMap Worker.owned)).Nodup)
    (hi : i ∈ x.owned) :
    i ∉ pre.flatMap Worker.owned ∧ i ∉ post.flatMap Worker.owned := by
  rw [List.nodup_append] at hnd
  obtain ⟨_, h2, h3⟩ := hnd
  rw [List.nodup_append] at h2
  obtain ⟨_, _, h4⟩ := h2
  refine ⟨?_, ?_⟩
  · intro h
    exact h3 h (List.mem_append_left _ hi)
  · intro h
    exact h4 hi h

theorem pend_others_ne {T : Type} (l : List (Worker T)) (i : Nat)
    (hi : i ∉ l.flatMap Worker.owned) :
    ∀ j e1, some (j, e1) ∈ l.map Worker.pend → j ≠ i := by
  intro j e1 h hji
  rw [List.mem_map] at h
  obtain ⟨w, hw, hp⟩ := h
  apply hi
  rw [List.mem_flatMap]
  exact ⟨w, hw, hji ▸ Worker.pend_owned w j e1 hp⟩

theorem wf_others {T : Type} (l : List (Worker T)) (d : Nat → linkedEntry T) (i : Nat)
    (e : linkedEntry T) (hi : i ∉ l.flatMap Worker.owned) (h : ∀ w ∈ l, w.wf d) :
    ∀ w ∈ l, w.wf (bufSet d i e) := by
  intro w hw
  apply Worker.wf_congr d _ w _ (h w hw)
  intro j hj
  unfold bufSet
  rw [if_neg]
  intro hji
  apply hi
  rw [List.mem_flatMap]
  exact ⟨w, hw, hji ▸ Worker.inflight_owned w j hj⟩

/-- The invariant with the workers split around the worker that steps. -/
theorem StoreInvariant_split {T : Type} (H : Vec3u → Nat) (calls : List (List (Vec3u × T)))
    (mem : SpatialGridList_Linked T) (pre post : List (Worker T)) (x : Worker T)
    (E : Nat → List (Nat × T)) :
    StoreInvariant H calls ⟨mem, pre ++ x :: post⟩ E ↔
      (mem.deviceDataIdx + ((pre.map Worker.unstarted).sum
          + (x.unstarted + (post.map Worker.unstarted).sum)) ≤ 0xffffffff) ∧
      ((∀ w ∈ pre, w.wf mem.m_dataBuffer) ∧ x.wf mem.m_dataBuffer ∧
        (∀ w ∈ post, w.wf mem.m_dataBuffer)) ∧
      (pre.flatMap Worker.owned ++ (x.owned ++ post.flatMap Worker.owned)).Nodup ∧
      (∀ i ∈ pre.flatMap Worker.owned ++ (x.owned ++ post.flatMap Worker.owned),
        i < mem.deviceDataIdx ∧ i < mem.numData) ∧
      (∀ b, IsChain (virtualPool mem.m_dataBuffer
          (pre.map Worker.pend ++ x.pend :: post.map Worker.pend)) (mem.m_mapBuffer b) (E b)) ∧
      (∀ b, (E b).Perm
        (((pre.flatMap (Worker.chained H) ++ (x.chained H ++ post.flatMap (Worker.chained H))
          ).filter (fun t => decide (t.1 = b))).map (fun t => t.2))) ∧
      (pre.map (fun w => w.returned.map (fun r => r.1) ++ w.pending)
        ++ (x.returned.map (fun r => r.1) ++ x.pending)
          :: post.map (fun w => w.returned.map (fun r => r.1) ++ w.pending) = calls) := by
  constructor
  · rintro ⟨hcur, hwf, hnd, hbd, hch, hen, hhist⟩
    simp only [List.map_append, List.map_cons, List.sum_append, List.sum_cons,
      List.flatMap_append, List.flatMap_cons] at hcur hnd hbd hch hen hhist
    refine ⟨hcur, ⟨?_, ?_, ?_⟩, hnd, hbd, hch, hen, hhist⟩
    · exact fun w hw => hwf w (List.mem_append_left _ hw)
    · exact hwf x (List.mem_append_right _ (List.mem_cons_self _ _))
    · exact fun w hw => hwf w (List.mem_append_right _ (List.mem_cons_of_mem _ hw))
  · rintro ⟨hcur, ⟨hw1, hw2, hw3⟩, hnd, hbd, hch, hen, hhist⟩
    refine ⟨?_, ?_, ?_, ?_, ?_, ?_, ?_⟩
    · simp only [List.map_append, List.map_cons, List.sum_append, List.sum_cons]
      exact hcur
    · intro w hw
      rw [List.mem_append, List.mem_cons] at hw
      rcases hw with hw | hw | hw
      · exact hw1 w hw
      · rw [hw]; exact hw2
      · exact hw3 w hw
    · simp only [List.flatMap_append, List.flatMap_cons]
      exact hnd
    · simp only [List.flatMap_append, List.flatMap_cons]
      exact hbd
    · simp only [List.map_append, List.map_cons]
      exact hch
    · simp only [List.flatMap_append, List.flatMap_cons]
      exact hen
    · simp only [List.map_append, List.map_cons]
      exact hhist

theorem Worker.pend_idle {T : Type} (pending : List (Vec3u × T))
    (returned : List ((Vec3u × T) × Nat)) :
    Worker.pend (⟨pending, StorePc.idle, returned⟩ : Worker T) = none := by
  cases pending with
  | nil => rfl
  | cons a rest => obtain ⟨p, v⟩ := a; rfl

theorem Worker.chained_idle {T : Type} (H : Vec3u → Nat) (pending : List (Vec3u × T))
    (returned : List ((Vec3u × T) × Nat)) :
    Worker.chained H (⟨pending, StorePc.idle, returned⟩ : Worker T)
      = (returned.filter (fun r => decide (r.2 ≠ SENTINEL))).map
          (fun r => (H r.1.1, r.2, r.1.2)) := by
  cases pending with
  | nil => rfl
  | cons a rest => obtain ⟨p, v⟩ := a; rfl

/-- A dropped call: the cursor increment of an idle worker on a full structure. -/
theorem StoreInvariant_step_dropped {T : Type} (H : Vec3u → Nat)
    (calls : List (List (Vec3u × T))) (mem : SpatialGridList_Linked T)
    (pre post : List (Worker T)) (p : Vec3u) (v : T) (rest : List (Vec3u × T))
    (ret : List ((Vec3u × T) × Nat)) (E : Nat → List (Nat × T))
    (h : StoreInvariant H calls ⟨mem, pre ++ ⟨(p, v) :: rest, StorePc.idle, ret⟩ :: post⟩ E) :
    StoreInvariant H calls
      ⟨{ mem with deviceDataIdx := mem.deviceDataIdx + 1 },
        pre ++ ⟨rest, StorePc.idle, ret ++ [((p, v), 0xffffffff)]⟩ :: post⟩ E := by
  rw [StoreInvariant_split] at h ⊢
  obtain ⟨hcur, ⟨hw1, _, hw3⟩, hnd, hbd, hch, hen, hhist⟩ := h
  have hown : Worker.owned (⟨rest, StorePc.idle, ret ++ [((p, v), 0xffffffff)]⟩ : Worker T)
      = Worker.owned ⟨(p, v) :: rest, StorePc.idle, ret⟩ := by
    simp [Worker.owned, Worker.inflight, List.filter_append, SENTINEL]
  have hU : Worker.unstarted (⟨(p, v) :: rest, StorePc.idle, ret⟩ : Worker T)
      = rest.length + 1 := rfl
  have hU1 : Worker.unstarted (⟨rest, StorePc.idle, ret ++ [((p, v), 0xffffffff)]⟩ : Worker T)
      = rest.length := rfl
  have hK : Worker.chained H (⟨rest, StorePc.idle, ret ++ [((p, v), 0xffffffff)]⟩ : Worker T)
      = Worker.chained H ⟨(p, v) :: rest, StorePc.idle, ret⟩ := by
    rw [Worker.chained_idle, Worker.chained_idle]
    simp [List.filter_append, SENTINEL]
  rw [hU] at hcur
  rw [Worker.pend_idle] at hch
  rw [hown, hU1, hK, Worker.pend_idle]
  refine ⟨by dsimp only; omega, ⟨hw1, ?_, hw3⟩, hnd, ?_, hch, hen, ?_⟩
  · cases rest <;> trivial
  · intro i hi
    have := hbd i hi
    dsimp only
    omega
  · rw [← hhist]
    simp

/-- A reservation: the cursor increment of an idle worker on a structure with room. -/
theorem StoreInvariant_step_reserve {T : Type} (H : Vec3u → Nat)
    (calls : List (List (Vec3u × T))) (mem : SpatialGridList_Linked T)
    (pre post : List (Worker T)) (p : Vec3u) (v : T) (rest : List (Vec3u × T))
    (ret : List ((Vec3u × T) × Nat)) (E : Nat → List (Nat × T))
    (hroom : mem.deviceDataIdx < mem.numData)
    (h : StoreInvariant H calls ⟨mem, pre ++ ⟨(p, v) :: rest, StorePc.idle, ret⟩ :: post⟩ E) :
    StoreInvariant H calls
      ⟨{ mem with deviceDataIdx := mem.deviceDataIdx + 1 },
        pre ++ ⟨(p, v) :: rest, StorePc.reserved mem.deviceDataIdx, ret⟩ :: post⟩ E := by
  rw [StoreInvariant_split] at h ⊢
  obtain ⟨hcur, ⟨hw1, _, hw3⟩, hnd, hbd, hch, hen, hhist⟩ := h
  have hown : Worker.owned
      (⟨(p, v) :: rest, StorePc.reserved mem.deviceDataIdx, ret⟩ : Worker T)
      = mem.deviceDataIdx :: Worker.owned ⟨(p, v) :: rest, StorePc.idle, ret⟩ := rfl
  have hU : Worker.unstarted (⟨(p, v) :: rest, StorePc.idle, ret⟩ : Worker T)
      = rest.length + 1 := rfl
  have hU1 : Worker.unstarted
      (⟨(p, v) :: rest, StorePc.reserved mem.deviceDataIdx, ret⟩ : Worker T)
      = rest.length := rfl
  have hK : Worker.chained H
      (⟨(p, v) :: rest, StorePc.reserved mem.deviceDataIdx, ret⟩ : Worker T)
      = Worker.chained H ⟨(p, v) :: rest, StorePc.idle, ret⟩ := rfl
  have hP : Worker.pend (⟨(p, v) :: rest, StorePc.reserved mem.deviceDataIdx, ret⟩ : Worker T)
      = Worker.pend ⟨(p, v) :: rest, StorePc.idle, ret⟩ := rfl
  rw [hU] at hcur
  rw [hown, hU1, hK, hP]
  have hfresh : mem.deviceDataIdx ∉ pre.flatMap Worker.owned
      ++ (Worker.owned ⟨(p, v) :: rest, StorePc.idle, ret⟩ ++ post.flatMap Worker.owned) := by
    intro hin
    have := (hbd _ hin).1
    omega
  refine ⟨by dsimp only; omega, ⟨hw1, trivial, hw3⟩, ?_, ?_, hch, hen, hhist⟩
  · rw [List.cons_append]
    exact List.nodup_middle.mpr (List.nodup_cons.mpr ⟨hfresh, hnd⟩)
  · intro i hi
    rw [List.cons_append] at hi
    have hi2 : i ∈ mem.deviceDataIdx :: (pre.flatMap Worker.owned
        ++ (Worker.owned ⟨(p, v) :: rest, StorePc.idle, ret⟩ ++ post.flatMap Worker.owned)) :=
      (List.perm_middle.mem_iff).mp hi
    rw [List.mem_cons] at hi2
    dsimp only
    rcases hi2 with hi2 | hi2
    · omega
    · have := hbd i hi2
      omega

/-- The write of the value by a worker that has exchanged the bucket head. -/
theorem StoreInvariant_step_value {T : Type} (H : Vec3u → Nat)
    (calls : List (List (Vec3u × T))) (mem : SpatialGridList_Linked T)
    (pre post : List (Worker T)) (p : Vec3u) (v : T) (rest : List (Vec3u × T))
    (ret : List ((Vec3u × T) × Nat)) (E : Nat → List (Nat × T)) (i old : Nat)
    (h : StoreInvariant H calls
      ⟨mem, pre ++ ⟨(p, v) :: rest, StorePc.exchanged i old, ret⟩ :: post⟩ E) :
    StoreInvariant H calls
      ⟨{ mem with m_dataBuffer :=
            bufSet mem.m_dataBuffer i ⟨(mem.m_dataBuffer i).nextIdx, v⟩ },
        pre ++ ⟨(p, v) :: rest, StorePc.valueWritten i old, ret⟩ :: post⟩ E := by
  rw [StoreInvariant_split] at h ⊢
  obtain ⟨hcur, ⟨hw1, _, hw3⟩, hnd, hbd, hch, hen, hhist⟩ := h
  have hi : i ∈ Worker.owned (⟨(p, v) :: rest, StorePc.exchanged i old, ret⟩ : Worker T) :=
    List.mem_append_left _ (List.mem_singleton_self i)
  obtain ⟨hipre, hipost⟩ := owned_others_ne pre post _ i hnd hi
  refine ⟨hcur, ⟨?_, ?_, ?_⟩, hnd, hbd, ?_, hen, hhist⟩
  · exact wf_others pre _ i _ hipre hw1
  · show (bufSet mem.m_dataBuffer i ⟨(mem.m_dataBuffer i).nextIdx, v⟩ i).value = v
    unfold bufSet
    rw [if_pos rfl]
  · exact wf_others post _ i _ hipost hw3
  · intro b
    have hpool : virtualPool (bufSet mem.m_dataBuffer i ⟨(mem.m_dataBuffer i).nextIdx, v⟩)
        (pre.map Worker.pend
          ++ Worker.pend (⟨(p, v) :: rest, StorePc.valueWritten i old, ret⟩ : Worker T)
            :: post.map Worker.pend)
        = virtualPool mem.m_dataBuffer
          (pre.map Worker.pend
            ++ Worker.pend (⟨(p, v) :: rest, StorePc.exchanged i old, ret⟩ : Worker T)
              :: post.map Worker.pend) := by
      funext k
      by_cases hk : k = i
      · subst hk
        apply virtualPool_shadow
        exact ⟨⟨old, v⟩, List.mem_append_right _ (List.mem_cons_self _ _)⟩
      · apply virtualPool_congr
        unfold bufSet
        rw [if_neg hk]
    show IsChain (virtualPool (bufSet mem.m_dataBuffer i ⟨(mem.m_dataBuffer i).nextIdx, v⟩) _)
      (mem.m_mapBuffer b) (E b)
    rw [hpool]
    exact hch b

/-- The indices of the chained entries of all workers other than the index reserved by the
stepping worker. -/
theorem chain_entries_ne {T : Type} (H : Vec3u → Nat) (pre post : List (Worker T))
    (x : Worker T) (i : Nat) (E : Nat → List (Nat × T))
    (hnd : (pre.flatMap Worker.owned ++ (x.owned ++ post.flatMap Worker.owned)).Nodup)
    (hi : i ∈ x.owned) (hx : ∀ t ∈ x.chained H, t.2.1 ≠ i)
    (hen : ∀ b, (E b).Perm
      (((pre.flatMap (Worker.chained H) ++ (x.chained H ++ post.flatMap (Worker.chained H))
        ).filter (fun t => decide (t.1 = b))).map (fun t => t.2))) :
    ∀ b, ∀ e ∈ E b, e.1 ≠ i := by
  obtain ⟨hipre, hipost⟩ := owned_others_ne pre post x i hnd hi
  intro b e he
  have he2 := (hen b).mem_iff.mp he
  rw [List.mem_map] at he2
  obtain ⟨t, ht, rfl⟩ := he2
  rw [List.mem_filter, List.mem_append, List.mem_append] at ht
  rcases ht.1 with h1 | h1 | h1
  · rw [List.mem_flatMap] at h1
    obtain ⟨w, hw, htw⟩ := h1
    intro heq
    apply hipre
    rw [List.mem_flatMap]
    exact ⟨w, hw, heq ▸ Worker.chained_owned H w t htw⟩
  · exact hx t h1
  · rw [List.mem_flatMap] at h1
    obtain ⟨w, hw, htw⟩ := h1
    intro heq
    apply hipost
    rw [List.mem_flatMap]
    exact ⟨w, hw, heq ▸ Worker.chained_owned H w t htw⟩

/-- The exchange of the bucket head by a worker that has reserved an index. -/
theorem StoreInvariant_step_exchange {T : Type} (H : Vec3u → Nat)
    (calls : List (List (Vec3u × T))) (mem : SpatialGridList_Linked T)
    (pre post : List (Worker T)) (p : Vec3u) (v : T) (rest : List (Vec3u × T))
    (ret : List ((Vec3u × T) × Nat)) (E : Nat → List (Nat × T)) (i : Nat)
    (h : StoreInvariant H calls
      ⟨mem, pre ++ ⟨(p, v) :: rest, StorePc.reserved i, ret⟩ :: post⟩ E) :
    StoreInvariant H calls
      ⟨{ mem with m_mapBuffer := bufSet mem.m_mapBuffer (H p) i },
        pre ++ ⟨(p, v) :: rest, StorePc.exchanged i (mem.m_mapBuffer (H p)), ret⟩ :: post⟩
      (fun b => if b = H p then (i, v) :: E b else E b) := by
  rw [StoreInvariant_split] at h ⊢
  obtain ⟨hcur, ⟨hw1, _, hw3⟩, hnd, hbd, hch, hen, hhist⟩ := h
  have hi : i ∈ Worker.owned (⟨(p, v) :: rest, StorePc.reserved i, ret⟩ : Worker T) :=
    List.mem_append_left _ (List.mem_singleton_self i)
  obtain ⟨hipre, hipost⟩ := owned_others_ne pre post _ i hnd hi
  have hxnd : (Worker.owned (⟨(p, v) :: rest, StorePc.reserved i, ret⟩ : Worker T)).Nodup := by
    rw [List.nodup_append] at hnd
    obtain ⟨_, h2, _⟩ := hnd
    rw [List.nodup_append] at h2
    exact h2.1
  have hx : ∀ t ∈ Worker.chained H (⟨(p, v) :: rest, StorePc.reserved i, ret⟩ : Worker T),
      t.2.1 ≠ i := by
    intro t ht heq
    have hxnd2 : (i :: (ret.filter (fun r => decide (r.2 ≠ SENTINEL))).map (fun r => r.2)).Nodup :=
      hxnd
    rw [List.nodup_cons] at hxnd2
    apply hxnd2.1
    have ht2 : t ∈ (ret.filter (fun r => decide (r.2 ≠ SENTINEL))).map
        (fun r => (H r.1.1, r.2, r.1.2)) := ht
    rw [List.mem_map] at ht2 ⊢
    obtain ⟨r, hr, rfl⟩ := ht2
    exact ⟨r, hr, heq⟩
  have hne := chain_entries_ne H pre post _ i E hnd hi hx hen
  have hK : Worker.chained H
      (⟨(p, v) :: rest, StorePc.exchanged i (mem.m_mapBuffer (H p)), ret⟩ : Worker T)
      = (H p, i, v) :: Worker.chained H ⟨(p, v) :: rest, StorePc.reserved i, ret⟩ := rfl
  have hpool : virtualPool mem.m_dataBuffer
      (pre.map Worker.pend
        ++ Worker.pend (⟨(p, v) :: rest, StorePc.exchanged i (mem.m_mapBuffer (H p)), ret⟩ :
            Worker T)
          :: post.map Worker.pend)
      = bufSet (virtualPool mem.m_dataBuffer
          (pre.map Worker.pend
            ++ Worker.pend (⟨(p, v) :: rest, StorePc.reserved i, ret⟩ : Worker T)
              :: post.map Worker.pend)) i ⟨mem.m_mapBuffer (H p), v⟩ := by
    rw [virtualPool_append, virtualPool_append]
    show virtualPool (bufSet (virtualPool mem.m_dataBuffer (post.map Worker.pend)) i
        ⟨mem.m_mapBuffer (H p), v⟩) (pre.map Worker.pend)
      = bufSet (virtualPool (virtualPool mem.m_dataBuffer (post.map Worker.pend))
          (pre.map Worker.pend)) i ⟨mem.m_mapBuffer (H p), v⟩
    exact virtualPool_bufSet i _ _ _ (pend_others_ne pre i hipre)
  refine ⟨hcur, ⟨hw1, trivial, hw3⟩, hnd, hbd, ?_, ?_, hhist⟩
  · intro b
    show IsChain (virtualPool mem.m_dataBuffer _) (bufSet mem.m_mapBuffer (H p) i b)
      (if b = H p then (i, v) :: E b else E b)
    rw [hpool]
    by_cases hb : b = H p
    · rw [if_pos hb, hb, bufSet_same]
      refine ⟨rfl, ?_, ?_⟩
      · rw [bufSet_same]
      · rw [bufSet_same]
        have := IsChain.frame (⟨mem.m_mapBuffer (H p), v⟩ : linkedEntry T) (hch b) (hne b)
        rw [hb] at this
        exact this
    · rw [if_neg hb, bufSet_other _ _ _ _ hb]
      exact IsChain.frame _ (hch b) (hne b)
  · intro b
    rw [hK, List.cons_append]
    have hmid : (pre.flatMap (Worker.chained H)
        ++ (H p, i, v) :: (Worker.chained H ⟨(p, v) :: rest, StorePc.reserved i, ret⟩
          ++ post.flatMap (Worker.chained H))).Perm
        ((H p, i, v) :: (pre.flatMap (Worker.chained H)
          ++ (Worker.chained H ⟨(p, v) :: rest, StorePc.reserved i, ret⟩
            ++ post.flatMap (Worker.chained H)))) := List.perm_middle
    have hmid2 := ((hmid.filter (fun t => decide (t.1 = b))).map (fun t => t.2))
    refine List.Perm.trans ?_ hmid2.symm
    by_cases hb : b = H p
    · rw [if_pos hb, List.filter_cons_of_pos (by simp [hb]), List.map_cons]
      exact List.Perm.cons _ (hen b)
    · rw [if_neg hb, List.filter_cons_of_neg (by simpa using fun h => hb h.symm)]
      exact hen b

/-- The write of the link, after which the call returns its index. -/
theorem StoreInvariant_step_link {T : Type} (H : Vec3u → Nat)
    (calls : List (List (Vec3u × T))) (mem : SpatialGridList_Linked T)
    (pre post : List (Worker T)) (p : Vec3u) (v : T) (rest : List (Vec3u × T))
    (ret : List ((Vec3u × T) × Nat)) (E : Nat → List (Nat × T)) (i old : Nat)
    (h : StoreInvariant H calls
      ⟨mem, pre ++ ⟨(p, v) :: rest, StorePc.valueWritten i old, ret⟩ :: post⟩ E) :
    StoreInvariant H calls
      ⟨{ mem with m_dataBuffer := bufSet mem.m_dataBuffer i ⟨old, (mem.m_dataBuffer i).value⟩ },
        pre ++ ⟨rest, StorePc.idle, ret ++ [((p, v), i)]⟩ :: post⟩ E := by
  rw [StoreInvariant_split] at h ⊢
  obtain ⟨hcur, ⟨hw1, hw2, hw3⟩, hnd, hbd, hch, hen, hhist⟩ := h
  have hval : (mem.m_dataBuffer i).value = v := hw2
  have hi : i ∈ Worker.owned (⟨(p, v) :: rest, StorePc.valueWritten i old, ret⟩ : Worker T) :=
    List.mem_append_left _ (List.mem_singleton_self i)
  obtain ⟨hipre, hipost⟩ := owned_others_ne pre post _ i hnd hi
  have hilt : i < mem.deviceDataIdx :=
    (hbd i (List.mem_append_right _ (List.mem_append_left _ hi))).1
  have hisent : i ≠ SENTINEL := by
    unfold SENTINEL
    omega
  have hown : (Worker.owned (⟨rest, StorePc.idle, ret ++ [((p, v), i)]⟩ : Worker T)).Perm
      (Worker.owned ⟨(p, v) :: rest, StorePc.valueWritten i old, ret⟩) := by
    have h1 : Worker.owned (⟨rest, StorePc.idle, ret ++ [((p, v), i)]⟩ : Worker T)
        = (ret.filter (fun r => decide (r.2 ≠ SENTINEL))).map (fun r => r.2) ++ [i] := by
      simp [Worker.owned, Worker.inflight, List.filter_append, hisent]
    rw [h1]
    exact List.perm_append_comm
  have hK : (Worker.chained H (⟨rest, StorePc.idle, ret ++ [((p, v), i)]⟩ : Worker T)).Perm
      (Worker.chained H ⟨(p, v) :: rest, StorePc.valueWritten i old, ret⟩) := by
    have h1 : Worker.chained H (⟨rest, StorePc.idle, ret ++ [((p, v), i)]⟩ : Worker T)
        = (ret.filter (fun r => decide (r.2 ≠ SENTINEL))).map (fun r => (H r.1.1, r.2, r.1.2))
          ++ [(H p, i, v)] := by
      rw [Worker.chained_idle]
      simp [List.filter_append, hisent]
    rw [h1]
    exact List.perm_append_comm
  have hU : Worker.unstarted (⟨rest, StorePc.idle, ret ++ [((p, v), i)]⟩ : Worker T)
      = Worker.unstarted ⟨(p, v) :: rest, StorePc.valueWritten i old, ret⟩ := by
    simp [Worker.unstarted]
  have hownAll := (hown.append_right (post.flatMap Worker.owned)).append_left
    (pre.flatMap Worker.owned)
  rw [hU, Worker.pend_idle]
  refine ⟨hcur, ⟨?_, ?_, ?_⟩, ?_, ?_, ?_, ?_, ?_⟩
  · exact wf_others pre _ i _ hipre hw1
  · cases rest <;> trivial
  · exact wf_others post _ i _ hipost hw3
  · exact hownAll.nodup_iff.mpr hnd
  · intro j hj
    exact hbd j (hownAll.mem_iff.mp hj)
  · intro b
    have hpool : virtualPool (bufSet mem.m_dataBuffer i ⟨old, (mem.m_dataBuffer i).value⟩)
        (pre.map Worker.pend ++ none :: post.map Worker.pend)
        = virtualPool mem.m_dataBuffer
          (pre.map Worker.pend
            ++ Worker.pend (⟨(p, v) :: rest, StorePc.valueWritten i old, ret⟩ : Worker T)
              :: post.map Worker.pend) := by
      rw [virtualPool_append, virtualPool_append, hval]
      show virtualPool (virtualPool (bufSet mem.m_dataBuffer i ⟨old, v⟩) (post.map Worker.pend))
          (pre.map Worker.pend)
        = virtualPool (bufSet (virtualPool mem.m_dataBuffer (post.map Worker.pend)) i ⟨old, v⟩)
          (pre.map Worker.pend)
      rw [virtualPool_bufSet i _ _ _ (pend_others_ne post i hipost)]
    show IsChain (virtualPool (bufSet mem.m_dataBuffer i ⟨old, (mem.m_dataBuffer i).value⟩) _)
      (mem.m_mapBuffer b) (E b)
    rw [hpool]
    exact hch b
  · intro b
    have hKAll := (hK.append_right (post.flatMap (Worker.chained H))).append_left
      (pre.flatMap (Worker.chained H))
    exact (hen b).trans
      (((hKAll.filter (fun t => decide (t.1 = b))).map (fun t => t.2)).symm)
  · rw [← hhist]
    simp

/-- Every step of every worker preserves the invariant of the store phase. -/
theorem StoreInvariant_step {T : Type} (H : Vec3u → Nat) (calls : List (List (Vec3u × T)))
    (c : Concurrent T) (E : Nat → List (Nat × T)) (w : Nat) (h : StoreInvariant H calls c E) :
    ∃ E1, StoreInvariant H calls (c.step H w) E1 := by
  unfold Concurrent.step
  cases hw : c.workers[w]? with
  | none => exact ⟨E, h⟩
  | some x =>
    obtain ⟨pre, post, hsplit, hset⟩ := list_split_at c.workers w x hw
    obtain ⟨mem, workers⟩ := c
    dsimp only at hsplit hset h ⊢
    subst hsplit
    rw [hset]
    obtain ⟨pending, pc, ret⟩ := x
    cases pending with
    | nil => exact ⟨E, h⟩
    | cons a rest =>
      obtain ⟨p, v⟩ := a
      cases pc with
      | idle =>
        have hc : mem.deviceDataIdx < 0xffffffff := by
          have h1 := ((StoreInvariant_split H calls mem pre post _ E).mp h).1
          have hU : Worker.unstarted (⟨(p, v) :: rest, StorePc.idle, ret⟩ : Worker T)
              = rest.length + 1 := rfl
          rw [hU] at h1
          omega
        by_cases hfull : mem.deviceDataIdx ≥ mem.numData
        · have hstep : Worker.step H mem ⟨(p, v) :: rest, StorePc.idle, ret⟩
              = ({ mem with deviceDataIdx := mem.deviceDataIdx + 1 },
                ⟨rest, StorePc.idle, ret ++ [((p, v), 0xffffffff)]⟩) := by
            unfold Worker.step
            dsimp only
            rw [if_pos hfull, atomicInc_lt hc]
          rw [hstep]
          exact ⟨E, StoreInvariant_step_dropped H calls mem pre post p v rest ret E h⟩
        · have hstep : Worker.step H mem ⟨(p, v) :: rest, StorePc.idle, ret⟩
              = ({ mem with deviceDataIdx := mem.deviceDataIdx + 1 },
                ⟨(p, v) :: rest, StorePc.reserved mem.deviceDataIdx, ret⟩) := by
            unfold Worker.step
            dsimp only
            rw [if_neg hfull, atomicInc_lt hc]
          rw [hstep]
          exact ⟨E, StoreInvariant_step_reserve H calls mem pre post p v rest ret E
            (by omega) h⟩
      | reserved i =>
        exact ⟨_, StoreInvariant_step_exchange H calls mem pre post p v rest ret E i h⟩
      | exchanged i old =>
        exact ⟨E, StoreInvariant_step_value H calls mem pre post p v rest ret E i old h⟩
      | valueWritten i old =>
        exact ⟨E, StoreInvariant_step_link H calls mem pre post p v rest ret E i old h⟩

/-- Every interleaving preserves the invariant of the store phase. -/
theorem StoreInvariant_run {T : Type} (H : Vec3u → Nat) (calls : List (List (Vec3u × T))) :
    ∀ (sched : List Nat) (c : Concurrent T) (E : Nat → List (Nat × T)),
      StoreInvariant H calls c E → ∃ E1, StoreInvariant H calls (c.run H sched) E1 := by
  intro sched
  induction sched with
  | nil => intro c E h; exact ⟨E, h⟩
  | cons w sched ih =>
    intro c E h
    obtain ⟨E1, h1⟩ := StoreInvariant_step H calls c E w h
    exact ih (c.step H w) E1 h1

/-- The invariant holds at the start of a store phase of at most `2^32 - 1` calls. -/
theorem StoreInvariant_start {T : Type} (H : Vec3u → Nat) (s : SpatialGridList_Linked T)
    (calls : List (List (Vec3u × T))) (hN : (calls.map List.length).sum ≤ 0xffffffff) :
    StoreInvariant H calls (Concurrent.start s calls) (fun _ => []) := by
  have hown : (Concurrent.start s calls).workers.flatMap Worker.owned = [] := by
    rw [List.flatMap_eq_nil_iff]
    intro w hw
    unfold Concurrent.start at hw
    rw [List.mem_map] at hw
    obtain ⟨cs, _, rfl⟩ := hw
    rfl
  have hK : (Concurrent.start s calls).workers.flatMap (Worker.chained H) = [] := by
    rw [List.flatMap_eq_nil_iff]
    intro w hw
    unfold Concurrent.start at hw
    rw [List.mem_map] at hw
    obtain ⟨cs, _, rfl⟩ := hw
    exact Worker.chained_idle H cs []
  refine ⟨?_, ?_, ?_, ?_, ?_, ?_, ?_⟩
  · have hsum : ((Concurrent.start s calls).workers.map Worker.unstarted)
        = calls.map List.length := by
      unfold Concurrent.start
      rw [List.map_map]
      rfl
    rw [hsum]
    have h0 : (Concurrent.start s calls).mem.deviceDataIdx = 0 := rfl
    rw [h0]
    omega
  · intro w hw
    unfold Concurrent.start at hw
    rw [List.mem_map] at hw
    obtain ⟨cs, _, rfl⟩ := hw
    cases cs <;> trivial
  · rw [hown]
    exact List.nodup_nil
  · intro i hi
    rw [hown] at hi
    exact absurd hi (List.not_mem_nil _)
  · intro b
    rfl
  · intro b
    rw [hK]
    exact List.Perm.nil
  · unfold Concurrent.start
    rw [List.map_map]
    simp [Function.comp_def]

/-- When all calls have returned, the workers hold no pending entry, and what they own and have
linked is what their calls returned. -/
theorem returned_summary {T : Type} (H : Vec3u → Nat) (d : Nat → linkedEntry T) :
    ∀ l : List (Worker T), (∀ w ∈ l, w.pending = []) → (∀ w ∈ l, w.wf d) →
      (∀ o ∈ l.map Worker.pend, o = none) ∧
      l.flatMap Worker.owned
        = ((l.flatMap (fun w => w.returned)).filter (fun r => decide (r.2 ≠ SENTINEL))).map
            (fun r => r.2) ∧
      l.flatMap (Worker.chained H)
        = ((l.flatMap (fun w => w.returned)).filter (fun r => decide (r.2 ≠ SENTINEL))).map
            (fun r => (H r.1.1, r.2, r.1.2)) := by
  intro l
  induction l with
  | nil => intro _ _; exact ⟨fun o ho => absurd ho (List.not_mem_nil _), rfl, rfl⟩
  | cons w l ih =>
    intro hp hwf
    obtain ⟨h1, h2, h3⟩ := ih (fun w hw => hp w (List.mem_cons_of_mem _ hw))
      (fun w hw => hwf w (List.mem_cons_of_mem _ hw))
    have hpw := hp w (List.mem_cons_self _ _)
    have hwfw := hwf w (List.mem_cons_self _ _)
    obtain ⟨pending, pc, ret⟩ := w
    dsimp only at hpw
    subst hpw
    have hpc : pc = StorePc.idle := by
      cases pc with
      | idle => rfl
      | reserved i => exact absurd hwfw (fun h => h)
      | exchanged i old => exact absurd hwfw (fun h => h)
      | valueWritten i old => exact absurd hwfw (fun h => h)
    subst hpc
    refine ⟨?_, ?_, ?_⟩
    · intro o ho
      rw [List.map_cons, List.mem_cons] at ho
      rcases ho with ho | ho
      · rw [ho]; rfl
      · exact h1 o ho
    · rw [List.flatMap_cons, List.flatMap_cons, List.filter_append, List.map_append, ← h2]
      rfl
    · rw [List.flatMap_cons, List.flatMap_cons, List.filter_append, List.map_append, ← h3]
      rfl

/-- What the invariant gives once all calls have returned. -/
theorem StoreInvariant_final {T : Type} (H : Vec3u → Nat) (calls : List (List (Vec3u × T)))
    (c : Concurrent T) (E : Nat → List (Nat × T)) (h : StoreInvariant H calls c E)
    (hdone : c.allReturned) :
    (∀ b, IsChain c.mem.m_dataBuffer (c.mem.m_mapBuffer b) (E b)) ∧
      (∀ b, (E b).Perm ((c.stored.filter (fun r => decide (H r.1.1 = b))).map
        (fun r => (r.2, r.1.2)))) ∧
      (c.stored.map (fun r => r.2)).Nodup ∧
      (∀ r ∈ c.stored, r.2 < c.mem.numData) ∧
      c.workers.map (fun w => w.returned.map (fun r => r.1)) = calls := by
  obtain ⟨_, hwf, hnd, hbd, hch, hen, hhist⟩ := h
  obtain ⟨h1, h2, h3⟩ := returned_summary H c.mem.m_dataBuffer c.workers hdone hwf
  refine ⟨?_, ?_, ?_, ?_, ?_⟩
  · intro b
    have := hch b
    rw [virtualPool_none _ _ h1] at this
    exact this
  · intro b
    have := hen b
    rw [h3, List.filter_map, List.map_map] at this
    exact this
  · rw [h2] at hnd
    exact hnd
  · intro r hr
    rw [h2] at hbd
    exact (hbd r.2 (List.mem_map.mpr ⟨r, hr, rfl⟩)).2
  · rw [← hhist]
    apply List.map_congr_left
    intro w hw
    rw [hdone w hw, List.append_nil]

theorem bufSet_overwrite {α : Type} (d : Nat → α) (i : Nat) (a b : α) :
    bufSet (bufSet d i a) i b = bufSet d i b := by
  funext k
  unfold bufSet
  by_cases hk : k = i
  · rw [if_pos hk, if_pos hk]
  · rw [if_neg hk, if_neg hk, if_neg hk]

/-- A single worker that runs one call to its end performs `Store(p, v)`. -/
theorem run_single_call {T : Type} (H : Vec3u → Nat) (s : SpatialGridList_Linked T)
    (p : Vec3u) (v : T) (rest : List (Vec3u × T)) (ret : List ((Vec3u × T) × Nat)) :
    ∃ sched : List Nat,
      Concurrent.run H ⟨s, [⟨(p, v) :: rest, StorePc.idle, ret⟩]⟩ sched
        = ⟨(SpatialGridList_Linked.Store H s p v).1,
            [⟨rest, StorePc.idle, ret ++ [((p, v), (SpatialGridList_Linked.Store H s p v).2)]⟩]⟩
    := by
  by_cases hfull : s.numData ≤ s.deviceDataIdx
  · refine ⟨[0], ?_⟩
    rw [SpatialGridList_Linked.Store_dropped H s p v hfull]
    show Concurrent.step H ⟨s, [⟨(p, v) :: rest, StorePc.idle, ret⟩]⟩ 0 = _
    have hstep : Worker.step H s ⟨(p, v) :: rest, StorePc.idle, ret⟩
        = ({ s with deviceDataIdx := atomicInc s.deviceDataIdx 0xffffffff },
          ⟨rest, StorePc.idle, ret ++ [((p, v), 0xffffffff)]⟩) := by
      unfold Worker.step
      dsimp only
      rw [if_pos hfull]
    show (⟨(Worker.step H s ⟨(p, v) :: rest, StorePc.idle, ret⟩).1,
      [(Worker.step H s ⟨(p, v) :: rest, StorePc.idle, ret⟩).2]⟩ : Concurrent T) = _
    rw [hstep]
  · refine ⟨[0, 0, 0, 0], ?_⟩
    rw [SpatialGridList_Linked.Store_has_room H s p v hfull]
    have hstep : Worker.step H s ⟨(p, v) :: rest, StorePc.idle, ret⟩
        = ({ s with deviceDataIdx := atomicInc s.deviceDataIdx 0xffffffff },
          ⟨(p, v) :: rest, StorePc.reserved s.deviceDataIdx, ret⟩) := by
      unfold Worker.step
      dsimp only
      rw [if_neg hfull]
    show Concurrent.run H (⟨(Worker.step H s ⟨(p, v) :: rest, StorePc.idle, ret⟩).1,
      [(Worker.step H s ⟨(p, v) :: rest, StorePc.idle, ret⟩).2]⟩ : Concurrent T) [0, 0, 0] = _
    rw [hstep]
    show (⟨{ s with
          deviceDataIdx := atomicInc s.deviceDataIdx 0xffffffff
          m_mapBuffer := bufSet s.m_mapBuffer (H p) s.deviceDataIdx
          m_dataBuffer := bufSet
            (bufSet s.m_dataBuffer s.deviceDataIdx ⟨(s.m_dataBuffer s.deviceDataIdx).nextIdx, v⟩)
            s.deviceDataIdx
            ⟨s.m_mapBuffer (H p),
              (bufSet s.m_dataBuffer s.deviceDataIdx
                ⟨(s.m_dataBuffer s.deviceDataIdx).nextIdx, v⟩ s.deviceDataIdx).value⟩ },
        [⟨rest, StorePc.idle, ret ++ [((p, v), s.deviceDataIdx)]⟩]⟩ : Concurrent T) = _
    rw [bufSet_overwrite, bufSet_same]

/-- A single worker that runs its calls one after another performs `storeAll`. -/
theorem run_single_worker {T : Type} (H : Vec3u → Nat) :
    ∀ (calls : List (Vec3u × T)) (s : SpatialGridList_Linked T)
      (ret : List ((Vec3u × T) × Nat)),
      ∃ sched : List Nat,
        Concurrent.run H ⟨s, [⟨calls, StorePc.idle, ret⟩]⟩ sched
          = ⟨(SpatialGridList_Linked.storeAll H s calls).1,
              [⟨[], StorePc.idle,
                ret ++ calls.zip (SpatialGridList_Linked.storeAll H s calls).2⟩]⟩ := by
  intro calls
  induction calls with
  | nil =>
    intro s ret
    refine ⟨[], ?_⟩
    show (⟨s, [⟨[], StorePc.idle, ret⟩]⟩ : Concurrent T) = ⟨s, [⟨[], StorePc.idle, ret ++ []⟩]⟩
    rw [List.append_nil]
  | cons a rest ih =>
    intro s ret
    obtain ⟨p, v⟩ := a
    obtain ⟨sched1, h1⟩ := run_single_call H s p v rest ret
    obtain ⟨sched2, h2⟩ := ih (SpatialGridList_Linked.Store H s p v).1
      (ret ++ [((p, v), (SpatialGridList_Linked.Store H s p v).2)])
    refine ⟨sched1 ++ sched2, ?_⟩
    unfold Concurrent.run at h1 h2 ⊢
    rw [List.foldl_append, h1, h2]
    have hs : SpatialGridList_Linked.storeAll H s ((p, v) :: rest)
        = ((SpatialGridList_Linked.storeAll H (SpatialGridList_Linked.Store H s p v).1 rest).1,
          (SpatialGridList_Linked.Store H s p v).2
            :: (SpatialGridList_Linked.storeAll H (SpatialGridList_Linked.Store H s p v).1
                rest).2) := rfl
    rw [hs]
    dsimp only
    rw [List.zip_cons_cons, List.append_assoc]
    rfl

theorem SpatialGridList_Linked.storeAll_append {T : Type} (H : Vec3u → Nat) :
    ∀ (A B : List (Vec3u × T)) (s : SpatialGridList_Linked T),
      (SpatialGridList_Linked.storeAll H s (A ++ B)).1
        = (SpatialGridList_Linked.storeAll H (SpatialGridList_Linked.storeAll H s A).1 B).1 := by
  intro A
  induction A with
  | nil => intro B s; rfl
  | cons a A ih =>
    intro B s
    obtain ⟨p, v⟩ := a
    exact ih B (SpatialGridList_Linked.Store H s p v).1

/-- Calls issued while the cursor is at or above the capacity, up to the wrap of the cursor,
leave the bucket heads and the pool as they are. -/
theorem SpatialGridList_Linked.storeAll_dropped {T : Type} (H : Vec3u → Nat) :
    ∀ (calls : List (Vec3u × T)) (s : SpatialGridList_Linked T),
      s.numData ≤ s.deviceDataIdx → s.deviceDataIdx + calls.length ≤ 2 ^ 32 →
      (SpatialGridList_Linked.storeAll H s calls).1.m_mapBuffer = s.m_mapBuffer ∧
        (SpatialGridList_Linked.storeAll H s calls).1.m_dataBuffer = s.m_dataBuffer := by
  intro calls
  induction calls with
  | nil => intro s _ _; exact ⟨rfl, rfl⟩
  | cons a rest ih =>
    intro s hfull hlen
    obtain ⟨p, v⟩ := a
    have hs : (SpatialGridList_Linked.storeAll H s ((p, v) :: rest)).1
        = (SpatialGridList_Linked.storeAll H (SpatialGridList_Linked.Store H s p v).1 rest).1 :=
      rfl
    rw [hs, SpatialGridList_Linked.Store_dropped H s p v hfull]
    cases rest with
    | nil => exact ⟨rfl, rfl⟩
    | cons b rest =>
      rw [List.length_cons, List.length_cons] at hlen
      have hc : s.deviceDataIdx < 0xffffffff := by omega
      have h := ih { s with deviceDataIdx := atomicInc s.deviceDataIdx 0xffffffff }
        (by dsimp only; rw [atomicInc_lt hc]; omega)
        (by dsimp only; rw [atomicInc_lt hc, List.length_cons]; omega)
      exact h

/-- A pass that fills the structure, drops calls until the cursor wraps to 0 and then issues one
more call: the last call reuses pool entry 0 and links it to the bucket head. -/
theorem SpatialGridList_Linked.storeAll_wrap_reuse {T : Type} (H : Vec3u → Nat)
    (s : SpatialGridList_Linked T) (dropped : List (Vec3u × T)) (p : Vec3u) (v : T)
    (hpos : 0 < s.numData) (hfull : s.numData ≤ s.deviceDataIdx)
    (hword : s.deviceDataIdx < 2 ^ 32)
    (hwrap : s.deviceDataIdx + dropped.length = 2 ^ 32) :
    (SpatialGridList_Linked.storeAll H s (dropped ++ [(p, v)])).1.m_mapBuffer
        = bufSet s.m_mapBuffer (H p) 0 ∧
      (SpatialGridList_Linked.storeAll H s (dropped ++ [(p, v)])).1.m_dataBuffer
        = bufSet s.m_dataBuffer 0 ⟨s.m_mapBuffer (H p), v⟩ := by
  obtain ⟨h1, h2⟩ := SpatialGridList_Linked.storeAll_dropped H dropped s hfull (by omega)
  have hcur : (SpatialGridList_Linked.storeAll H s dropped).1.deviceDataIdx = 0 := by
    rw [SpatialGridList_Linked.storeAll_deviceDataIdx H dropped s hword, hwrap]
    exact Nat.mod_self _
  have hnum : (SpatialGridList_Linked.storeAll H s dropped).1.numData = s.numData :=
    SpatialGridList_Linked.storeAll_numData H dropped s
  rw [SpatialGridList_Linked.storeAll_append]
  have hone : ∀ t : SpatialGridList_Linked T,
      (SpatialGridList_Linked.storeAll H t [(p, v)]).1
        = (SpatialGridList_Linked.Store H t p v).1 := fun _ => rfl
  rw [hone, SpatialGridList_Linked.Store_has_room H _ p v (by rw [hcur, hnum]; omega)]
  dsimp only
  rw [h1, h2, hcur]
  exact ⟨rfl, rfl⟩

/-- No finite chain ends at the sentinel when the links of the pool entries 0 to 3 stay among
these entries. -/
theorem no_chain_in_cycle {T : Type} (data : Nat → linkedEntry T)
    (hcyc : ∀ i, i < 4 → (data i).nextIdx < 4) :
    ∀ (l : List (Nat × T)) (i : Nat), i < 4 → ¬ IsChain data i l := by
  intro l
  induction l with
  | nil =>
    intro i hi h
    have h0 : i = 0xffffffff := h
    omega
  | cons e l ih =>
    intro i hi h
    exact ih (data i).nextIdx (hcyc i hi) h.2.2

/-- Progress: a step of a worker with a pending call brings the worker closer to the return of
its last call, whatever the other workers do (a call takes at most four steps). -/
theorem Worker.step_progress {T : Type} (H : Vec3u → Nat) (s : SpatialGridList_Linked T)
    (w : Worker T) (h : w.pending ≠ []) : (Worker.step H s w).2.work < w.work := by
  obtain ⟨pending, pc, ret⟩ := w
  cases pending with
  | nil => exact absurd rfl h
  | cons a rest =>
    obtain ⟨p, v⟩ := a
    cases pc with
    | idle =>
      unfold Worker.step
      dsimp only
      split
      · show 4 * rest.length < 4 * (rest.length + 1)
        omega
      · show 4 * (rest.length + 1) - 1 < 4 * (rest.length + 1)
        omega
    | reserved i =>
      show 4 * (rest.length + 1) - 2 < 4 * (rest.length + 1) - 1
      omega
    | exchanged i old =>
      show 4 * (rest.length + 1) - 3 < 4 * (rest.length + 1) - 2
      omega
    | valueWritten i old =>
      show 4 * rest.length < 4 * (rest.length + 1) - 3
      omega

theorem Concurrent.mem_mk_eq {T : Type} (c : Concurrent T) (m : SpatialGridList_Linked T)
    (ws : List (Worker T)) (h : c = ⟨m, ws⟩) : c.mem = m := by
  subst h
  rfl

/-- C17, counterexample. Capacity 4 and one worker that issues `2^32 + 1` calls of `Store` to
cell (0,0,0) after `ResetBuffer`, one after another: the first four calls fill the pool, the
cursor then wraps to 0, and the last call obtains pool entry 0 a second time and links it in
front of the chain that already ends in it. Once all calls have returned, the chain of the
bucket of cell (0,0,0) is cyclic: no finite chain leads from its head to the sentinel. -/
theorem concurrent_chain_cycle_after_wrap :
    ∃ sched : List Nat,
      (Concurrent.run hash222 (Concurrent.start linked4 [cycleCalls]) sched).allReturned ∧
      ¬ ∃ l : List (Nat × Nat),
        IsChain (Concurrent.run hash222 (Concurrent.start linked4 [cycleCalls]) sched
            ).mem.m_dataBuffer
          ((Concurrent.run hash222 (Concurrent.start linked4 [cycleCalls]) sched
            ).mem.m_mapBuffer (hash222 ⟨0, 0, 0⟩)) l := by
  obtain ⟨sched, hrun⟩ := run_single_worker hash222 cycleCalls linked4.ResetBuffer []
  have hstart : Concurrent.start linked4 [cycleCalls]
      = ⟨linked4.ResetBuffer, [⟨cycleCalls, StorePc.idle, []⟩]⟩ := rfl
  rw [← hstart] at hrun
  have hmem := Concurrent.mem_mk_eq _ _ _ hrun
  refine ⟨sched, ?_, ?_⟩
  · rw [hrun]
    intro w hw
    rw [List.mem_singleton] at hw
    rw [hw]
  · rw [hmem]
    have hsplit : cycleCalls
        = List.replicate 4 (⟨0, 0, 0⟩, 7)
          ++ (List.replicate 4294967292 (⟨0, 0, 0⟩, 7) ++ [(⟨0, 0, 0⟩, 7)]) := by
      have h1 : cycleCalls
          = List.replicate 4 (⟨0, 0, 0⟩, 7) ++ List.replicate 4294967293 (⟨0, 0, 0⟩, 7) :=
        List.replicate_add 4 4294967293 _
      have h2 : List.replicate 4294967293 ((⟨0, 0, 0⟩, 7) : Vec3u × Nat)
          = List.replicate 4294967292 (⟨0, 0, 0⟩, 7) ++ [(⟨0, 0, 0⟩, 7)] :=
        List.replicate_succ' 4294967292 _
      rw [h1, h2]
    have hfilled : (SpatialGridList_Linked.storeAll hash222 linked4.ResetBuffer
        (List.replicate 4 (⟨0, 0, 0⟩, 7))).1 = linkedFilled := rfl
    obtain ⟨hmap, hdata⟩ := SpatialGridList_Linked.storeAll_wrap_reuse hash222 linkedFilled
      (List.replicate 4294967292 (⟨0, 0, 0⟩, 7)) ⟨0, 0, 0⟩ 7 (by decide) (by decide)
      (by decide) (by rw [List.length_replicate]; decide)
    rw [hsplit, SpatialGridList_Linked.storeAll_append, hfilled, hmap, hdata]
    rintro ⟨l, hl⟩
    refine no_chain_in_cycle _ ?_ l _ ?_ hl
    · intro i hi
      interval_cases i <;> decide
    · decide

/-- C17, amended. For every number of workers and every interleaving of their
`Store(cell, value)` calls issued after `ResetBuffer`, fewer than `2^32` calls in total (each
call's cursor increment and bucket-head exchange being indivisible, the payload and link writes
being plain writes), once all calls have returned: every bucket has a finite chain from its head
to the sentinel in which no pool index occurs twice (it is acyclic and sentinel-terminated); the
chain of a bucket consists of exactly the successfully stored entries of the cells of that
bucket; and every successfully stored entry appears in the chain of its own cell, exactly once,
and in no other chain. Every worker has got a return value for each of its calls, in order. -/
theorem concurrent_store_chains {T : Type} (H : Vec3u → Nat) (s : SpatialGridList_Linked T)
    (calls : List (List (Vec3u × T))) (sched : List Nat)
    (hN : (calls.map List.length).sum < 2 ^ 32)
    (hdone : (Concurrent.run H (Concurrent.start s calls) sched).allReturned) :
    ∃ E : Nat → List (Nat × T),
      (∀ b, IsChain (Concurrent.run H (Concurrent.start s calls) sched).mem.m_dataBuffer
        ((Concurrent.run H (Concurrent.start s calls) sched).mem.m_mapBuffer b) (E b)) ∧
      (∀ b, ((E b).map (fun e => e.1)).Nodup) ∧
      (∀ b, (E b).Perm
        (((Concurrent.run H (Concurrent.start s calls) sched).stored.filter
          (fun r => decide (H r.1.1 = b))).map (fun r => (r.2, r.1.2)))) ∧
      (∀ r ∈ (Concurrent.run H (Concurrent.start s calls) sched).stored,
        (r.2, r.1.2) ∈ E (H r.1.1) ∧ ((E (H r.1.1)).map (fun e => e.1)).count r.2 = 1 ∧
          ∀ b, b ≠ H r.1.1 → r.2 ∉ (E b).map (fun e => e.1)) ∧
      (Concurrent.run H (Concurrent.start s calls) sched).workers.map
        (fun w => w.returned.map (fun r => r.1)) = calls := by
  obtain ⟨E, hinv⟩ := StoreInvariant_run H calls sched (Concurrent.start s calls) (fun _ => [])
    (StoreInvariant_start H s calls (by omega))
  obtain ⟨hchain, hperm, hnodup, _, hhist⟩ := StoreInvariant_final H calls _ E hinv hdone
  generalize Concurrent.run H (Concurrent.start s calls) sched = c
    at hchain hperm hnodup hhist ⊢
  have hnd : ∀ b, ((E b).map (fun e => e.1)).Nodup := by
    intro b
    rw [((hperm b).map (fun e => e.1)).nodup_iff, List.map_map]
    exact hnodup.sublist ((List.filter_sublist _).map _)
  have hmem : ∀ r ∈ c.stored, (r.2, r.1.2) ∈ E (H r.1.1) := by
    intro r hr
    rw [(hperm (H r.1.1)).mem_iff, List.mem_map]
    exact ⟨r, List.mem_filter.mpr ⟨hr, decide_eq_true rfl⟩, rfl⟩
  refine ⟨E, hchain, hnd, hperm, ?_, hhist⟩
  intro r hr
  refine ⟨hmem r hr, ?_, ?_⟩
  · apply List.count_eq_one_of_mem (hnd _)
    rw [List.mem_map]
    exact ⟨_, hmem r hr, rfl⟩
  · intro b hb hin
    rw [List.mem_map] at hin
    obtain ⟨e, he, hidx⟩ := hin
    rw [(hperm b).mem_iff, List.mem_map] at he
    obtain ⟨r1, hr1, rfl⟩ := he
    rw [List.mem_filter] at hr1
    have heq : r1 = r := List.inj_on_of_nodup_map hnodup hr1.1 hr hidx
    rw [heq] at hr1
    exact hb (of_decide_eq_true hr1.2).symm

/-- Witness of the amended C17: two workers on the capacity-4 structure, the first storing 10 and
20 into cell (0,0,0), the second storing 30 into cell (1,0,0), their steps interleaved; once all
calls have returned cell (0,0,0) reports 20 and then 10, and cell (1,0,0) reports 30. -/
theorem concurrent_store_chains_witness :
    ((twoWorkers.map List.length).sum < 2 ^ 32 ∧
        (Concurrent.run hash222 (Concurrent.start linked4 twoWorkers)
          twoWorkersSched).allReturned) ∧
      (∃ E : Nat → List (Nat × Nat),
        (∀ b, IsChain
          (Concurrent.run hash222 (Concurrent.start linked4 twoWorkers)
            twoWorkersSched).mem.m_dataBuffer
          ((Concurrent.run hash222 (Concurrent.start linked4 twoWorkers)
            twoWorkersSched).mem.m_mapBuffer b) (E b)) ∧
        (∀ b, ((E b).map (fun e => e.1)).Nodup) ∧
        (∀ b, (E b).Perm
          (((Concurrent.run hash222 (Concurrent.start linked4 twoWorkers)
            twoWorkersSched).stored.filter
            (fun r => decide (hash222 r.1.1 = b))).map (fun r => (r.2, r.1.2)))) ∧
        (∀ r ∈ (Concurrent.run hash222 (Concurrent.start linked4 twoWorkers)
            twoWorkersSched).stored,
          (r.2, r.1.2) ∈ E (hash222 r.1.1) ∧
            ((E (hash222 r.1.1)).map (fun e => e.1)).count r.2 = 1 ∧
            ∀ b, b ≠ hash222 r.1.1 → r.2 ∉ (E b).map (fun e => e.1)) ∧
        (Concurrent.run hash222 (Concurrent.start linked4 twoWorkers)
          twoWorkersSched).workers.map (fun w => w.returned.map (fun r => r.1))
          = twoWorkers) ∧
      SpatialGridList_Linked.ForAllCellEntries hash222
          (Concurrent.run hash222 (Concurrent.start linked4 twoWorkers) twoWorkersSched).mem
          ⟨0, 0, 0⟩ UINT_MAX = [(2, 20), (0, 10)] ∧
      SpatialGridList_Linked.ForAllCellEntries hash222
          (Concurrent.run hash222 (Concurrent.start linked4 twoWorkers) twoWorkersSched).mem
          ⟨1, 0, 0⟩ UINT_MAX = [(1, 30)] :=
  ⟨⟨by decide, by unfold Concurrent.allReturned; decide⟩,
    concurrent_store_chains hash222 linked4 twoWorkers twoWorkersSched (by decide)
      (by unfold Concurrent.allReturned; decide),
    by decide, by decide⟩

/-! ## C21: the indices used by a query -/

/-- The walk of the linked `ForAllCellEntries` visits the indices reached by following the
forward links while they are below `lo`, reads the pool there, and, unless the cap stops it,
ends at the first index that is not below `lo`. -/
theorem SpatialGridList_Linked.walk_follow {T : Type} (s : SpatialGridList_Linked T)
    (lo : Nat) :
    ∀ (m i : Nat),
      (SpatialGridList_Linked.walk s lo m i).map (fun e => e.1)
          = (List.range (SpatialGridList_Linked.walk s lo m i).length).map
              (fun k => SpatialGridList_Linked.follow s k i) ∧
        (∀ e ∈ SpatialGridList_Linked.walk s lo m i,
          e.1 < lo ∧ e.2 = (s.m_dataBuffer e.1).value) ∧
        ((SpatialGridList_Linked.walk s lo m i).length < m →
          ¬ SpatialGridList_Linked.follow s (SpatialGridList_Linked.walk s lo m i).length i
            < lo) := by
  intro m
  induction m with
  | zero =>
    intro i
    exact ⟨rfl, fun e he => absurd he (List.not_mem_nil _), fun h => absurd h (Nat.lt_irrefl 0)⟩
  | succ m ih =>
    intro i
    unfold SpatialGridList_Linked.walk
    by_cases hi : i < lo
    · rw [if_pos hi]
      obtain ⟨h1, h2, h3⟩ := ih (s.m_dataBuffer i).nextIdx
      refine ⟨?_, ?_, ?_⟩
      · rw [List.map_cons, List.length_cons, List.range_succ_eq_map, List.map_cons,
          List.map_map, h1]
        rfl
      · intro e he
        rw [List.mem_cons] at he
        rcases he with he | he
        · rw [he]
          exact ⟨hi, rfl⟩
        · exact h2 e he
      · intro hlen
        rw [List.length_cons] at hlen ⊢
        exact h3 (by omega)
    · rw [if_neg hi]
      exact ⟨rfl, fun e he => absurd he (List.not_mem_nil _), fun _ => hi⟩

/-- The scan of the flat `ForAllCellEntries` visits the indices reached by its moves while they
are below the stored-entry cursor, reads the query buffer there, and, unless the cap stops it,
ends at the first index that is not below the cursor. -/
theorem SpatialGridList_Flat.scan_follow {V : Type} (s : SpatialGridList_Flat V) :
    ∀ (m i : Nat),
      (SpatialGridList_Flat.scan s m i).map (fun e => e.1)
          = (List.range (SpatialGridList_Flat.scan s m i).length).map
              (fun k => SpatialGridList_Flat.follow s k i) ∧
        (∀ e ∈ SpatialGridList_Flat.scan s m i,
          e.1 < s.idxData ∧ e.2 = s.operator_call e.1) ∧
        ((SpatialGridList_Flat.scan s m i).length < m →
          ¬ SpatialGridList_Flat.follow s (SpatialGridList_Flat.scan s m i).length i
            < s.idxData) := by
  intro m
  induction m with
  | zero =>
    intro i
    exact ⟨rfl, fun e he => absurd he (List.not_mem_nil _), fun h => absurd h (Nat.lt_irrefl 0)⟩
  | succ m ih =>
    intro i
    unfold SpatialGridList_Flat.scan
    have hn : (if (s.m_buffer1 i).getFlag then UINT_MAX else i + 1) = s.next i := rfl
    by_cases hi : i < s.idxData
    · rw [if_pos hi, hn]
      obtain ⟨h1, h2, h3⟩ := ih (s.next i)
      refine ⟨?_, ?_, ?_⟩
      · rw [List.map_cons, List.length_cons, List.range_succ_eq_map, List.map_cons,
          List.map_map, h1]
        rfl
      · intro e he
        rw [List.mem_cons] at he
        rcases he with he | he
        · rw [he]
          exact ⟨hi, rfl⟩
        · exact h2 e he
      · intro hlen
        rw [List.length_cons] at hlen ⊢
        exact h3 (by omega)
    · rw [if_neg hi]
      exact ⟨rfl, fun e he => absurd he (List.not_mem_nil _), fun _ => hi⟩

/-- C21. For every state whatsoever of the linked structure (stale or corrupted heads and links,
a cursor larger than the capacity), every cell and every cap: every index that
`ForAllCellEntries` passes to its callback, and at which it reads the pool, is below
`min(cursor, capacity)`; the indices visited are those reached from the bucket head along the
forward links, and, unless the cap ends it, the enumeration stops at the first of them that is
not below `min(cursor, capacity)`. Likewise for every state of the flat structure: every index
passed to the callback, at which the query buffer is read, is below the stored-entry cursor, and
the enumeration stops at the first index of the scan that is not below it. -/
theorem query_indices_in_range {T V : Type} (H : Vec3u → Nat) (sl : SpatialGridList_Linked T)
    (sf : SpatialGridList_Flat V) (c : Vec3u) (m : Nat) :
    ((∀ e ∈ SpatialGridList_Linked.ForAllCellEntries H sl c m,
          e.1 < min sl.deviceDataIdx sl.numData ∧ e.2 = (sl.m_dataBuffer e.1).value) ∧
        (SpatialGridList_Linked.ForAllCellEntries H sl c m).map (fun e => e.1)
          = (List.range (SpatialGridList_Linked.ForAllCellEntries H sl c m).length).map
              (fun k => SpatialGridList_Linked.follow sl k (sl.m_mapBuffer (H c))) ∧
        ((SpatialGridList_Linked.ForAllCellEntries H sl c m).length < m →
          ¬ SpatialGridList_Linked.follow sl
              (SpatialGridList_Linked.ForAllCellEntries H sl c m).length
              (sl.m_mapBuffer (H c)) < min sl.deviceDataIdx sl.numData)) ∧
      ((∀ e ∈ SpatialGridList_Flat.ForAllCellEntries H sf c m,
          e.1 < sf.getNumStoredEntries ∧ e.2 = sf.operator_call e.1) ∧
        (SpatialGridList_Flat.ForAllCellEntries H sf c m).map (fun e => e.1)
          = (List.range (SpatialGridList_Flat.ForAllCellEntries H sf c m).length).map
              (fun k => SpatialGridList_Flat.follow sf k (sf.m_gridBuffer (H c))) ∧
        ((SpatialGridList_Flat.ForAllCellEntries H sf c m).length < m →
          ¬ SpatialGridList_Flat.follow sf
              (SpatialGridList_Flat.ForAllCellEntries H sf c m).length
              (sf.m_gridBuffer (H c)) < sf.getNumStoredEntries)) := by
  obtain ⟨l1, l2, l3⟩ := SpatialGridList_Linked.walk_follow sl (min sl.deviceDataIdx sl.numData)
    m (sl.m_mapBuffer (H c))
  obtain ⟨f1, f2, f3⟩ := SpatialGridList_Flat.scan_follow sf m (sf.m_gridBuffer (H c))
  exact ⟨⟨l2, l1, l3⟩, ⟨f2, f1, f3⟩⟩

/-- Witness of C21: the stale structures `linked4` (cursor 7, capacity 4, every head 5) and
`flat4`, cell (0,0,0), default cap: nothing is reported, and the enumeration has stopped at the
bucket head 5, the first index that is not below `min(cursor, capacity) = 4`. -/
theorem query_indices_in_range_witness :
    (SpatialGridList_Linked.ForAllCellEntries hash222 linked4 ⟨0, 0, 0⟩ UINT_MAX).length
        < UINT_MAX ∧
      ¬ SpatialGridList_Linked.follow linked4
          (SpatialGridList_Linked.ForAllCellEntries hash222 linked4 ⟨0, 0, 0⟩ UINT_MAX).length
          (linked4.m_mapBuffer (hash222 ⟨0, 0, 0⟩)) < min linked4.deviceDataIdx linked4.numData :=
  ⟨by decide,
    (query_indices_in_range hash222 linked4 flat4 ⟨0, 0, 0⟩ UINT_MAX).1.2.2 (by decide)⟩

/-! ## C22: `RemoveIf` and the bucket head -/

namespace SpatialGridList_Linked

variable {T : Type}

/-- When the first loop of `RemoveIf` ends, the bucket head is the sentinel or the index of an
entry that does not satisfy the predicate; the loop writes bucket heads only. -/
theorem removeHead_spec (predicate : linkedEntry T → Bool) (map_idx : Nat) :
    ∀ (fuel : Nat) (s s1 : SpatialGridList_Linked T),
      removeHead predicate map_idx fuel s = some s1 →
      (s1.m_mapBuffer map_idx = 0xffffffff ∨
          predicate (s1.m_dataBuffer (s1.m_mapBuffer map_idx)) = false) ∧
        s1.m_dataBuffer = s.m_dataBuffer ∧ s1.numData = s.numData := by
  intro fuel
  induction fuel with
  | zero => intro s s1 h; exact absurd h (by simp [removeHead])
  | succ fuel ih =>
    intro s s1 h
    unfold removeHead at h
    dsimp only at h
    by_cases h1 : s.m_mapBuffer map_idx = 0xffffffff
    · rw [if_pos h1] at h
      cases h
      exact ⟨Or.inl h1, rfl, rfl⟩
    · rw [if_neg h1] at h
      by_cases h2 : s.m_mapBuffer map_idx ≥ s.numData
      · rw [if_pos h2] at h
        exact absurd h (by simp)
      · rw [if_neg h2] at h
        by_cases h3 : predicate (s.m_dataBuffer (s.m_mapBuffer map_idx)) = true
        · rw [if_pos h3] at h
          obtain ⟨a1, a2, a3⟩ := ih _ s1 h
          exact ⟨a1, a2, a3⟩
        · rw [if_neg h3] at h
          cases h
          exact ⟨Or.inr (by simpa using h3), rfl, rfl⟩

/-- The second loop of `RemoveIf` writes forward links only: bucket heads and values stay. -/
theorem removeTail_frame (predicate : linkedEntry T → Bool) :
    ∀ (fuel : Nat) (s s2 : SpatialGridList_Linked T) (list_idx : Nat),
      removeTail predicate fuel s list_idx = some s2 →
      s2.m_mapBuffer = s.m_mapBuffer ∧
        ∀ k, (s2.m_dataBuffer k).value = (s.m_dataBuffer k).value := by
  intro fuel
  induction fuel with
  | zero => intro s s2 i h; exact absurd h (by simp [removeTail])
  | succ fuel ih =>
    intro s s2 i h
    unfold removeTail at h
    by_cases h1 : i = 0xffffffff
    · rw [if_pos h1] at h
      cases h
      exact ⟨rfl, fun _ => rfl⟩
    · rw [if_neg h1] at h
      by_cases h2 : i ≥ s.numData
      · rw [if_pos h2] at h
        exact absurd h (by simp)
      · rw [if_neg h2] at h
        dsimp only at h
        by_cases h3 : (s.m_dataBuffer i).nextIdx ≥ s.numData
        · rw [if_pos h3] at h
          exact absurd h (by simp)
        · rw [if_neg h3] at h
          obtain ⟨e1, e2⟩ := ih _ s2 _ h
          by_cases h4 : predicate (s.m_dataBuffer (s.m_dataBuffer i).nextIdx) = true
          · rw [if_pos h4] at e1 e2
            refine ⟨e1, ?_⟩
            intro k
            rw [e2 k]
            dsimp only
            unfold bufSet
            by_cases hk : k = i
            · rw [if_pos hk, hk]
            · rw [if_neg hk]
          · rw [if_neg h4] at e1 e2
            exact ⟨e1, e2⟩

/-- What `RemoveIf` achieves for a bucket whose index is below the pool capacity: when it
returns, for a predicate that reads the value of an entry only, the bucket head is the sentinel
or the index of an entry that does not satisfy the predicate. -/
theorem removeIf_head_below_capacity (H : Vec3u → Nat) (s s2 : SpatialGridList_Linked T)
    (p : Vec3u) (predicate : linkedEntry T → Bool)
    (hval : ∀ e1 e2 : linkedEntry T, e1.value = e2.value → predicate e1 = predicate e2)
    (hlow : H p < s.numData) (h : RemoveIf H s p predicate = some s2) :
    s2.m_mapBuffer (H p) = 0xffffffff ∨
      predicate (s2.m_dataBuffer (s2.m_mapBuffer (H p))) = false := by
  unfold RemoveIf at h
  dsimp only at h
  rw [if_neg (by omega)] at h
  cases hh : removeHead predicate (H p) (s.numData + 1) s with
  | none => rw [hh] at h; exact absurd h (by simp)
  | some s1 =>
    rw [hh] at h
    dsimp only at h
    obtain ⟨hhead, _, _⟩ := removeHead_spec predicate (H p) _ s s1 hh
    by_cases h1 : s1.m_mapBuffer (H p) = 0xffffffff
    · rw [if_pos h1] at h
      cases h
      exact Or.inl h1
    · rw [if_neg h1] at h
      obtain ⟨e1, e2⟩ := removeTail_frame predicate _ s1 s2 _ h
      rcases hhead with hs | hp
      · exact absurd hs h1
      · right
        rw [e1, hval _ (s1.m_dataBuffer (s1.m_mapBuffer (H p))) (e2 _)]
        exact hp

end SpatialGridList_Linked

/-- C22, at the failing input. Capacity 4 on the 2 x 2 x 2 grid, the value 5 stored into cell
(1,1,1), whose bucket index 7 is not below the pool capacity: the cell reports the entry 0 with
value 5. `RemoveIf` on that cell with the predicate that every entry satisfies returns at its
guard `map_idx >= numData` and changes nothing: afterwards the bucket head is still 0, not the
sentinel, and the entry it names satisfies the predicate. -/
theorem removeIf_skips_high_bucket :
    linkedHigh.numData ≤ hash222 ⟨1, 1, 1⟩ ∧
      SpatialGridList_Linked.ForAllCellEntries hash222 linkedHigh ⟨1, 1, 1⟩ UINT_MAX
        = [(0, 5)] ∧
      (SpatialGridList_Linked.RemoveIf hash222 linkedHigh ⟨1, 1, 1⟩ anyEntry).map
          (fun s => s.m_mapBuffer (hash222 ⟨1, 1, 1⟩)) = some 0 ∧
      (SpatialGridList_Linked.RemoveIf hash222 linkedHigh ⟨1, 1, 1⟩ anyEntry).map
          (fun s => anyEntry (s.m_dataBuffer (s.m_mapBuffer (hash222 ⟨1, 1, 1⟩)))) = some true ∧
      (SpatialGridList_Linked.RemoveIf hash222 linkedHigh ⟨1, 1, 1⟩ anyEntry).map
          (fun s => SpatialGridList_Linked.ForAllCellEntries hash222 s ⟨1, 1, 1⟩ UINT_MAX)
        = some [(0, 5)] := by
  decide

/-- The bucket of cell (0,0,0) of `linkedFour` has an index below the capacity: `RemoveIf` with
the predicate "value at most 3" returns, and leaves a head that does not satisfy it. -/
theorem removeIf_head_example :
    (SpatialGridList_Linked.RemoveIf hash222 linkedFour ⟨0, 0, 0⟩ valueAtMost3).isSome = true ∧
      ∀ s2, SpatialGridList_Linked.RemoveIf hash222 linkedFour ⟨0, 0, 0⟩ valueAtMost3 = some s2 →
        s2.m_mapBuffer (hash222 ⟨0, 0, 0⟩) = 0xffffffff ∨
          valueAtMost3 (s2.m_dataBuffer (s2.m_mapBuffer (hash222 ⟨0, 0, 0⟩))) = false :=
  ⟨by decide, fun s2 h =>
    SpatialGridList_Linked.removeIf_head_below_capacity hash222 linkedFour s2 ⟨0, 0, 0⟩
      valueAtMost3 (fun e1 e2 he => by unfold valueAtMost3; rw [he]) (by decide) h⟩

/-! ## C23: the two payload buffers -/

set_option maxRecDepth 100000 in
/-- C23, counterexample. The scenario on the 2 x 2 x 2 grid after `PrepareForUse`: queries read
the value 20 at index 0 of the query buffer. In the next pass, after `ResetBuffer`, one `Store`
of the value 99 returns index 0 and writes the buffer that queries read: `operator()(0)` is now
99, before any further `PrepareForUse`. -/
theorem store_overwrites_query_buffer :
    flatBuilt.operator_call 0 = ⟨20, false⟩ ∧
      (SpatialGridList_Flat.Store hash222 flatBuilt.ResetBuffer ⟨0, 0, 0⟩ ⟨99, false⟩).2 = 0 ∧
      flatNextPass.operator_call 0 = ⟨99, false⟩ ∧
      flatNextPass.operator_call 0 ≠ flatBuilt.operator_call 0 ∧
      flatNextPass.m_buffer2 0 = flatBuilt.m_buffer2 0 := by
  decide

/-- C23, amended. After `PrepareForUse` (the sort leaving a rearrangement of the staging list
ordered by cell hash, the threads of the build running in any order), the buffer read by queries
(`ForAllCellEntries` and `operator()`) is the newly populated dense buffer, the destination of
the build (its first entries are the staged payloads when fewer than 4294967040 entries are
staged, so that no window start of the build wraps), and the other payload buffer is the one
that the `Store` calls of the finished pass wrote. The next pass's
`Store` writes into the buffer that queries read: a `Store` issued after `PrepareForUse`
(following `ResetBuffer`) that returns an index overwrites the element at that index of the
buffer that queries read, and leaves every other element of that buffer, and the whole other
payload buffer, unchanged; a dropped `Store` leaves both buffers unchanged. -/
theorem store_writes_query_buffer {V : Type} (H : Vec3u → Nat) (s : SpatialGridList_Flat V)
    (sorted : List Vec2u) (sched : List Nat) (p : Vec3u) (v : flatEntry V)
    (hperm : sorted.Perm s.stagingList) (hsort : sorted.Pairwise (fun a b => a.y ≤ b.y))
    (hsched : sched.Perm (List.range (SpatialGridList_Flat.numThreads
      (min s.idxData s.numData)))) :
    (min s.idxData s.numData < 4294967040 →
        ((List.range (min s.idxData s.numData)).map
          (fun k => ((s.PrepareForUse sorted sched).operator_call k).value)).Perm
          (s.stagingList.map (fun e => (s.m_buffer1 e.x).value))) ∧
      (∀ idx, (s.PrepareForUse sorted sched).operator_call idx
        = (sched.foldl
            (fun st tid => __interal_spatialMap__.buildGrid 10 s.m_buffer1
              (min s.idxData s.numData) (s.PrepareForUse sorted sched).m_listBuffer tid st)
            { deviceDataDest := s.m_buffer2,
              deviceGrid := cudaMemset s.m_gridBuffer 0xffffffff
                (s.m_gridSize.x * s.m_gridSize.y * s.m_gridSize.z),
              g_DestCounter := 0 }).deviceDataDest idx) ∧
      (s.PrepareForUse sorted sched).m_buffer2 = s.m_buffer1 ∧
      (∀ (c : Vec3u) (m : Nat),
        ∀ e ∈ SpatialGridList_Flat.ForAllCellEntries H (s.PrepareForUse sorted sched) c m,
          e.2 = (s.PrepareForUse sorted sched).operator_call e.1) ∧
      (SpatialGridList_Flat.Store H (s.PrepareForUse sorted sched).ResetBuffer p v).1.m_buffer2
        = (s.PrepareForUse sorted sched).m_buffer2 ∧
      (∀ idx,
        idx ≠ (SpatialGridList_Flat.Store H (s.PrepareForUse sorted sched).ResetBuffer p v).2 →
        (SpatialGridList_Flat.Store H (s.PrepareForUse sorted sched).ResetBuffer p
            v).1.operator_call idx
          = (s.PrepareForUse sorted sched).operator_call idx) ∧
      ((SpatialGridList_Flat.Store H (s.PrepareForUse sorted sched).ResetBuffer p v).2
          ≠ 0xffffffff →
        (SpatialGridList_Flat.Store H (s.PrepareForUse sorted sched).ResetBuffer p
            v).1.operator_call
            (SpatialGridList_Flat.Store H (s.PrepareForUse sorted sched).ResetBuffer p v).2
          = v) ∧
      ((SpatialGridList_Flat.Store H (s.PrepareForUse sorted sched).ResetBuffer p v).2
          = 0xffffffff →
        (SpatialGridList_Flat.Store H (s.PrepareForUse sorted sched).ResetBuffer p v).1.m_buffer1
          = (s.PrepareForUse sorted sched).m_buffer1) := by
  refine ⟨fun hn =>
      SpatialGridList_Flat.PrepareForUse_values_perm s sorted sched hperm hsort hsched hn,
    fun _ => rfl, rfl, ?_, ?_, ?_, ?_, ?_⟩
  · intro c m e he
    exact ((SpatialGridList_Flat.scan_follow _ m _).2.1 e he).2
  all_goals
    generalize (s.PrepareForUse sorted sched) = t
    by_cases hfull : t.ResetBuffer.numData ≤ t.ResetBuffer.idxData
  · rw [SpatialGridList_Flat.Store_full H _ p v hfull]
    rfl
  · rw [SpatialGridList_Flat.Store_room H _ p v hfull]
    rfl
  · rw [SpatialGridList_Flat.Store_full H _ p v hfull]
    intro idx _
    rfl
  · rw [SpatialGridList_Flat.Store_room H _ p v hfull]
    intro idx hidx
    show bufSet t.m_buffer1 t.ResetBuffer.idxData v idx = t.m_buffer1 idx
    unfold bufSet
    rw [if_neg hidx]
  · rw [SpatialGridList_Flat.Store_full H _ p v hfull]
    intro h
    exact absurd rfl h
  · rw [SpatialGridList_Flat.Store_room H _ p v hfull]
    intro _
    show bufSet t.m_buffer1 t.ResetBuffer.idxData v t.ResetBuffer.idxData = v
    unfold bufSet
    rw [if_pos rfl]
  · rw [SpatialGridList_Flat.Store_full H _ p v hfull]
    intro _
    rfl
  · rw [SpatialGridList_Flat.Store_room H _ p v hfull]
    intro h
    have h0 : (0 : Nat) = 0xffffffff := h
    omega

set_option maxRecDepth 100000 in
/-- Witness of the amended C23: the scenario on the 2 x 2 x 2 grid; after `PrepareForUse` and
`ResetBuffer` the store of the value 99 to cell (0,0,0) returns index 0, and `operator()(0)` then
reads 99. -/
theorem store_writes_query_buffer_witness :
    (scenarioSorted.Pairwise (fun a b => a.y ≤ b.y) ∧
        (SpatialGridList_Flat.Store hash222 flatBuilt.ResetBuffer ⟨0, 0, 0⟩ ⟨99, false⟩).2
          ≠ 0xffffffff) ∧
      (SpatialGridList_Flat.Store hash222 flatBuilt.ResetBuffer ⟨0, 0, 0⟩
          ⟨99, false⟩).1.operator_call
          (SpatialGridList_Flat.Store hash222 flatBuilt.ResetBuffer ⟨0, 0, 0⟩ ⟨99, false⟩).2
        = ⟨99, false⟩ :=
  ⟨⟨by decide, by decide⟩,
    (store_writes_query_buffer hash222 flatStored scenarioSorted scenarioSched ⟨0, 0, 0⟩
      ⟨99, false⟩ scenario_sorted_perm (by decide) scenario_sched_perm).2.2.2.2.2.2.1
      (by decide)⟩

end CudaTracerLib
